import Mathlib

/-!
# Software-Based-CPU: a shallow embedding of the emulator core

The definitions below follow `src/src/isa.h`, `src/src/isa.c`, `src/src/memory.h`,
`src/src/memory.c`, `src/src/devices.h`, `src/src/devices.c`, `src/src/cpu.c`,
`src/src/assembler.h`, `src/src/assembler.c` and `src/src/disasm.c`.

* Machine integers are natural numbers.  A C conversion to an unsigned type is written
  with `uint8_t` / `uint16_t` (reduction modulo 2^8 / 2^16 of the `int` value the C
  expression computes); `int8_t` reads a byte as a signed number.
* `cpu_state_t` is the C structure of the same name.  The register file `regs` is the
  8-byte array of the source, the memory is the 65,536-byte buffer, both as functions
  from the index to the byte stored there.
* A C function that mutates the state through its pointer argument becomes a function
  returning the new state (paired with the C return value, when there is one).
* The device instances are global variables in C; here they are the record `devices_t`,
  passed to and returned by the functions that use them.
* Text written to standard output (`printf`) is not part of the model.
* A C string is the list of its character codes; a file is the list of its bytes.
-/

namespace SoftCPU

/-! ## C integer conversions -/

/-- Conversion of a C `int` to `uint8_t`. -/
def uint8_t (i : Int) : Nat := (i % 256).toNat

/-- Conversion of a C `int` to `uint16_t`. -/
def uint16_t (i : Int) : Nat := (i % 65536).toNat

/-- Conversion of a byte to `int8_t` (two's complement). -/
def int8_t (b : Nat) : Int := if b < 128 then (b : Int) else (b : Int) - 256

/-- Conversion of a C `int` to `uint64_t`. -/
def uint64_t (i : Int) : Nat := (i % 18446744073709551616).toNat

/-- Conversion of a C `int` to `uint32_t`. -/
def uint32_t (i : Int) : Nat := (i % 4294967296).toNat

/-- Array cell assignment `f[i] = v`. -/
def store (f : Nat → Nat) (i v : Nat) : Nat → Nat := fun j => if j = i then v else f j

/-! ## isa.h -/

@[simp] abbrev MEMORY_SIZE : Nat := 64 * 1024

@[simp] abbrev REG_A : Nat := 0
@[simp] abbrev REG_B : Nat := 1
@[simp] abbrev REG_C : Nat := 2
@[simp] abbrev REG_D : Nat := 3
@[simp] abbrev REG_X : Nat := 4
@[simp] abbrev REG_Y : Nat := 5
@[simp] abbrev REG_SP : Nat := 6
@[simp] abbrev REG_PC : Nat := 7
@[simp] abbrev REG_FLAGS : Nat := 8

@[simp] abbrev FLAG_ZERO : Nat := 1 <<< 0
@[simp] abbrev FLAG_NEGATIVE : Nat := 1 <<< 1
@[simp] abbrev FLAG_CARRY : Nat := 1 <<< 2
@[simp] abbrev FLAG_OVERFLOW : Nat := 1 <<< 3
@[simp] abbrev FLAG_INTERRUPT : Nat := 1 <<< 4

/-- Addressing modes (`addressing_mode_t`). -/
inductive addressing_mode_t where
  | ADDR_IMMEDIATE
  | ADDR_REGISTER
  | ADDR_ABSOLUTE
  | ADDR_X_INDEXED
  | ADDR_Y_INDEXED
  | ADDR_SP_INDEXED
  | ADDR_RELATIVE
  deriving DecidableEq, Repr

open addressing_mode_t

@[simp] abbrev OP_LDI : Nat := 0x00
@[simp] abbrev OP_LDA : Nat := 0x01
@[simp] abbrev OP_STA : Nat := 0x02
@[simp] abbrev OP_MOV : Nat := 0x03
@[simp] abbrev OP_ADD : Nat := 0x10
@[simp] abbrev OP_SUB : Nat := 0x11
@[simp] abbrev OP_ADC : Nat := 0x12
@[simp] abbrev OP_SBC : Nat := 0x13
@[simp] abbrev OP_CMP : Nat := 0x14
@[simp] abbrev OP_INC : Nat := 0x15
@[simp] abbrev OP_DEC : Nat := 0x16
@[simp] abbrev OP_AND : Nat := 0x20
@[simp] abbrev OP_OR : Nat := 0x21
@[simp] abbrev OP_XOR : Nat := 0x22
@[simp] abbrev OP_SHL : Nat := 0x30
@[simp] abbrev OP_SHR : Nat := 0x31
@[simp] abbrev OP_ROL : Nat := 0x32
@[simp] abbrev OP_ROR : Nat := 0x33
@[simp] abbrev OP_JMP : Nat := 0x40
@[simp] abbrev OP_JSR : Nat := 0x41
@[simp] abbrev OP_RTS : Nat := 0x42
@[simp] abbrev OP_BEQ : Nat := 0x50
@[simp] abbrev OP_BNE : Nat := 0x51
@[simp] abbrev OP_BCS : Nat := 0x52
@[simp] abbrev OP_BCC : Nat := 0x53
@[simp] abbrev OP_BMI : Nat := 0x54
@[simp] abbrev OP_BPL : Nat := 0x55
@[simp] abbrev OP_BVS : Nat := 0x56
@[simp] abbrev OP_BVC : Nat := 0x57
@[simp] abbrev OP_PHA : Nat := 0x60
@[simp] abbrev OP_PLA : Nat := 0x61
@[simp] abbrev OP_PHP : Nat := 0x62
@[simp] abbrev OP_PLP : Nat := 0x63
@[simp] abbrev OP_PUSH : Nat := 0x64
@[simp] abbrev OP_POP : Nat := 0x65
@[simp] abbrev OP_SEI : Nat := 0x70
@[simp] abbrev OP_CLI : Nat := 0x71
@[simp] abbrev OP_NOP : Nat := 0x72
@[simp] abbrev OP_HLT : Nat := 0x73

/-- One row of the instruction table (`instruction_t`). -/
structure instruction_t where
  opcode : Nat
  addr_mode : addressing_mode_t
  operand1 : Nat
  operand2 : Nat
  cycles : Nat
  mnemonic : String

/-- The CPU state (`cpu_state_t`). -/
structure cpu_state_t where
  /-- The array `uint8_t regs[8]`. -/
  regs : Nat → Nat
  flags : Nat
  /-- The buffer `uint8_t* memory` of `MEMORY_SIZE` bytes. -/
  memory : Nat → Nat
  running : Bool
  irq_pending : Bool
  nmi_pending : Bool
  cycle_count : Nat
  instruction_count : Nat
  trace_enabled : Bool
  breakpoint_hit : Bool
  breakpoint_addr : Nat
  watch_addr : Nat
  watch_hit : Bool
  frequency_hz : Nat
  last_tick_time : Nat
  cycles_per_second : Nat

/-- The values a C program can hold in a `cpu_state_t`: every field within the range
of its C type. -/
structure WF (cpu : cpu_state_t) : Prop where
  regs_lt : ∀ i, cpu.regs i < 256
  flags_lt : cpu.flags < 256
  memory_lt : ∀ a, cpu.memory a < 256
  cycle_lt : cpu.cycle_count < 18446744073709551616
  instr_lt : cpu.instruction_count < 4294967296
  break_lt : cpu.breakpoint_addr < 65536
  watch_lt : cpu.watch_addr < 65536

/-! ## isa.c -/

/-- The table `instruction_table` of `isa.c`, in source order. -/
def instruction_table : List instruction_t := [
  ⟨OP_LDI, ADDR_IMMEDIATE, 0, 0, 2, "LDI"⟩,
  ⟨OP_LDA, ADDR_ABSOLUTE, 0, 0, 3, "LDA"⟩,
  ⟨OP_LDA, ADDR_X_INDEXED, 0, 0, 4, "LDA"⟩,
  ⟨OP_LDA, ADDR_Y_INDEXED, 0, 0, 4, "LDA"⟩,
  ⟨OP_STA, ADDR_ABSOLUTE, 0, 0, 3, "STA"⟩,
  ⟨OP_STA, ADDR_X_INDEXED, 0, 0, 4, "STA"⟩,
  ⟨OP_STA, ADDR_Y_INDEXED, 0, 0, 4, "STA"⟩,
  ⟨OP_MOV, ADDR_REGISTER, 0, 0, 1, "MOV"⟩,
  ⟨OP_ADD, ADDR_IMMEDIATE, 0, 0, 2, "ADD"⟩,
  ⟨OP_ADD, ADDR_ABSOLUTE, 0, 0, 3, "ADD"⟩,
  ⟨OP_ADD, ADDR_REGISTER, 0, 0, 1, "ADD"⟩,
  ⟨OP_SUB, ADDR_IMMEDIATE, 0, 0, 2, "SUB"⟩,
  ⟨OP_SUB, ADDR_ABSOLUTE, 0, 0, 3, "SUB"⟩,
  ⟨OP_SUB, ADDR_REGISTER, 0, 0, 1, "SUB"⟩,
  ⟨OP_ADC, ADDR_IMMEDIATE, 0, 0, 2, "ADC"⟩,
  ⟨OP_ADC, ADDR_ABSOLUTE, 0, 0, 3, "ADC"⟩,
  ⟨OP_ADC, ADDR_REGISTER, 0, 0, 1, "ADC"⟩,
  ⟨OP_SBC, ADDR_IMMEDIATE, 0, 0, 2, "SBC"⟩,
  ⟨OP_SBC, ADDR_ABSOLUTE, 0, 0, 3, "SBC"⟩,
  ⟨OP_SBC, ADDR_REGISTER, 0, 0, 1, "SBC"⟩,
  ⟨OP_CMP, ADDR_IMMEDIATE, 0, 0, 2, "CMP"⟩,
  ⟨OP_CMP, ADDR_ABSOLUTE, 0, 0, 3, "CMP"⟩,
  ⟨OP_CMP, ADDR_REGISTER, 0, 0, 1, "CMP"⟩,
  ⟨OP_INC, ADDR_REGISTER, 0, 0, 1, "INC"⟩,
  ⟨OP_INC, ADDR_ABSOLUTE, 0, 0, 4, "INC"⟩,
  ⟨OP_DEC, ADDR_REGISTER, 0, 0, 1, "DEC"⟩,
  ⟨OP_DEC, ADDR_ABSOLUTE, 0, 0, 4, "DEC"⟩,
  ⟨OP_AND, ADDR_IMMEDIATE, 0, 0, 2, "AND"⟩,
  ⟨OP_AND, ADDR_ABSOLUTE, 0, 0, 3, "AND"⟩,
  ⟨OP_AND, ADDR_REGISTER, 0, 0, 1, "AND"⟩,
  ⟨OP_OR, ADDR_IMMEDIATE, 0, 0, 2, "OR"⟩,
  ⟨OP_OR, ADDR_ABSOLUTE, 0, 0, 3, "OR"⟩,
  ⟨OP_OR, ADDR_REGISTER, 0, 0, 1, "OR"⟩,
  ⟨OP_XOR, ADDR_IMMEDIATE, 0, 0, 2, "XOR"⟩,
  ⟨OP_XOR, ADDR_ABSOLUTE, 0, 0, 3, "XOR"⟩,
  ⟨OP_XOR, ADDR_REGISTER, 0, 0, 1, "XOR"⟩,
  ⟨OP_SHL, ADDR_REGISTER, 0, 0, 1, "SHL"⟩,
  ⟨OP_SHL, ADDR_ABSOLUTE, 0, 0, 4, "SHL"⟩,
  ⟨OP_SHR, ADDR_REGISTER, 0, 0, 1, "SHR"⟩,
  ⟨OP_SHR, ADDR_ABSOLUTE, 0, 0, 4, "SHR"⟩,
  ⟨OP_ROL, ADDR_REGISTER, 0, 0, 1, "ROL"⟩,
  ⟨OP_ROL, ADDR_ABSOLUTE, 0, 0, 4, "ROL"⟩,
  ⟨OP_ROR, ADDR_REGISTER, 0, 0, 1, "ROR"⟩,
  ⟨OP_ROR, ADDR_ABSOLUTE, 0, 0, 4, "ROR"⟩,
  ⟨OP_JMP, ADDR_ABSOLUTE, 0, 0, 3, "JMP"⟩,
  ⟨OP_JSR, ADDR_ABSOLUTE, 0, 0, 6, "JSR"⟩,
  ⟨OP_RTS, ADDR_IMMEDIATE, 0, 0, 6, "RTS"⟩,
  ⟨OP_BEQ, ADDR_RELATIVE, 0, 0, 2, "BEQ"⟩,
  ⟨OP_BNE, ADDR_RELATIVE, 0, 0, 2, "BNE"⟩,
  ⟨OP_BCS, ADDR_RELATIVE, 0, 0, 2, "BCS"⟩,
  ⟨OP_BCC, ADDR_RELATIVE, 0, 0, 2, "BCC"⟩,
  ⟨OP_BMI, ADDR_RELATIVE, 0, 0, 2, "BMI"⟩,
  ⟨OP_BPL, ADDR_RELATIVE, 0, 0, 2, "BPL"⟩,
  ⟨OP_BVS, ADDR_RELATIVE, 0, 0, 2, "BVS"⟩,
  ⟨OP_BVC, ADDR_RELATIVE, 0, 0, 2, "BVC"⟩,
  ⟨OP_PHA, ADDR_IMMEDIATE, 0, 0, 3, "PHA"⟩,
  ⟨OP_PLA, ADDR_IMMEDIATE, 0, 0, 4, "PLA"⟩,
  ⟨OP_PHP, ADDR_IMMEDIATE, 0, 0, 3, "PHP"⟩,
  ⟨OP_PLP, ADDR_IMMEDIATE, 0, 0, 4, "PLP"⟩,
  ⟨OP_PUSH, ADDR_REGISTER, 0, 0, 3, "PUSH"⟩,
  ⟨OP_POP, ADDR_REGISTER, 0, 0, 4, "POP"⟩,
  ⟨OP_SEI, ADDR_IMMEDIATE, 0, 0, 2, "SEI"⟩,
  ⟨OP_CLI, ADDR_IMMEDIATE, 0, 0, 2, "CLI"⟩,
  ⟨OP_NOP, ADDR_IMMEDIATE, 0, 0, 1, "NOP"⟩,
  ⟨OP_HLT, ADDR_IMMEDIATE, 0, 0, 1, "HLT"⟩]

/-- First table row with the given opcode; `none` is the C `NULL`. -/
def isa_get_instruction (opcode : Nat) : Option instruction_t :=
  instruction_table.find? (fun inst => inst.opcode == opcode)

def isa_get_cycles (opcode : Nat) : Nat :=
  match isa_get_instruction opcode with
  | some inst => inst.cycles
  | none => 0

def isa_is_valid_opcode (opcode : Nat) : Bool :=
  (isa_get_instruction opcode).isSome

def isa_read_memory (cpu : cpu_state_t) (address : Nat) : Nat :=
  cpu.memory address

def isa_write_memory (cpu : cpu_state_t) (address value : Nat) : cpu_state_t :=
  { cpu with memory := store cpu.memory address value }

def isa_set_flag (cpu : cpu_state_t) (flag : Nat) : cpu_state_t :=
  { cpu with flags := cpu.flags ||| flag }

/-- The C statement is `cpu->flags &= ~flag`; on the eight bits of the flag byte the
complement `~flag` is `0xFF ^ flag`. -/
def isa_clear_flag (cpu : cpu_state_t) (flag : Nat) : cpu_state_t :=
  { cpu with flags := cpu.flags &&& (0xFF ^^^ flag) }

def isa_get_flag (cpu : cpu_state_t) (flag : Nat) : Bool :=
  (cpu.flags &&& flag) != 0

def isa_update_flags (cpu : cpu_state_t) (result : Nat) (carry overflow : Bool) :
    cpu_state_t :=
  let cpu := if result = 0 then isa_set_flag cpu FLAG_ZERO else isa_clear_flag cpu FLAG_ZERO
  let cpu := if result &&& 0x80 ≠ 0 then isa_set_flag cpu FLAG_NEGATIVE
    else isa_clear_flag cpu FLAG_NEGATIVE
  let cpu := if carry then isa_set_flag cpu FLAG_CARRY else isa_clear_flag cpu FLAG_CARRY
  if overflow then isa_set_flag cpu FLAG_OVERFLOW else isa_clear_flag cpu FLAG_OVERFLOW

def isa_get_register (cpu : cpu_state_t) (reg : Nat) : Nat :=
  if reg < 4 then cpu.regs reg
  else if reg = REG_FLAGS then cpu.flags
  else 0

def isa_set_register (cpu : cpu_state_t) (reg value : Nat) : cpu_state_t :=
  if reg < 4 then { cpu with regs := store cpu.regs reg value }
  else if reg = REG_FLAGS then { cpu with flags := value }
  else cpu

def isa_get_register16 (cpu : cpu_state_t) (reg : Nat) : Nat :=
  if REG_X ≤ reg ∧ reg ≤ REG_PC then
    let index := reg - REG_X
    cpu.regs (index * 2) ||| (cpu.regs (index * 2 + 1) <<< 8)
  else 0

def isa_set_register16 (cpu : cpu_state_t) (reg value : Nat) : cpu_state_t :=
  if REG_X ≤ reg ∧ reg ≤ REG_PC then
    let index := reg - REG_X
    let regs := store cpu.regs (index * 2) (value &&& 0xFF)
    let regs := store regs (index * 2 + 1) ((value >>> 8) &&& 0xFF)
    { cpu with regs := regs }
  else cpu

def isa_fetch_byte (cpu : cpu_state_t) : Nat × cpu_state_t :=
  let pc := isa_get_register16 cpu REG_PC
  let value := isa_read_memory cpu pc
  (value, isa_set_register16 cpu REG_PC (uint16_t (pc + 1)))

def isa_fetch_word (cpu : cpu_state_t) : Nat × cpu_state_t :=
  let low := isa_fetch_byte cpu
  let high := isa_fetch_byte low.2
  (low.1 ||| (high.1 <<< 8), high.2)

def isa_get_address (cpu : cpu_state_t) (mode : addressing_mode_t)
    (operand1 operand2 : Nat) : Nat :=
  match mode with
  | ADDR_IMMEDIATE => 0
  | ADDR_REGISTER => operand1
  | ADDR_ABSOLUTE => operand1 ||| (operand2 <<< 8)
  | ADDR_X_INDEXED =>
    uint16_t (((operand1 ||| (operand2 <<< 8)) + isa_get_register16 cpu REG_X : Nat) : Int)
  | ADDR_Y_INDEXED =>
    uint16_t (((operand1 ||| (operand2 <<< 8)) + isa_get_register16 cpu REG_Y : Nat) : Int)
  | ADDR_SP_INDEXED => uint16_t ((isa_get_register16 cpu REG_SP : Int) + int8_t operand1)
  | ADDR_RELATIVE => uint16_t ((isa_get_register16 cpu REG_PC : Int) + int8_t operand1)

def isa_push (cpu : cpu_state_t) (value : Nat) : cpu_state_t :=
  let sp := isa_get_register16 cpu REG_SP
  let cpu := isa_write_memory cpu sp value
  isa_set_register16 cpu REG_SP (uint16_t ((sp : Int) - 1))

def isa_pop (cpu : cpu_state_t) : Nat × cpu_state_t :=
  let sp := uint16_t ((isa_get_register16 cpu REG_SP : Int) + 1)
  let cpu := isa_set_register16 cpu REG_SP sp
  (isa_read_memory cpu sp, cpu)

def isa_push16 (cpu : cpu_state_t) (value : Nat) : cpu_state_t :=
  let cpu := isa_push cpu ((value >>> 8) &&& 0xFF)
  isa_push cpu (value &&& 0xFF)

def isa_pop16 (cpu : cpu_state_t) : Nat × cpu_state_t :=
  let low := isa_pop cpu
  let high := isa_pop low.2
  (low.1 ||| (high.1 <<< 8), high.2)

/-- The operand fetch of `isa_execute_instruction` (`switch (inst->addr_mode)`): the
two operand bytes (0 when not fetched) and the state with the PC advanced. -/
def fetch_operands (cpu : cpu_state_t) (mode : addressing_mode_t) :
    Nat × Nat × cpu_state_t :=
  match mode with
  | ADDR_IMMEDIATE =>
    let f1 := isa_fetch_byte cpu
    (f1.1, 0, f1.2)
  | ADDR_REGISTER =>
    let f1 := isa_fetch_byte cpu
    (f1.1, 0, f1.2)
  | ADDR_ABSOLUTE =>
    let f1 := isa_fetch_byte cpu
    let f2 := isa_fetch_byte f1.2
    (f1.1, f2.1, f2.2)
  | ADDR_X_INDEXED =>
    let f1 := isa_fetch_byte cpu
    let f2 := isa_fetch_byte f1.2
    (f1.1, f2.1, f2.2)
  | ADDR_Y_INDEXED =>
    let f1 := isa_fetch_byte cpu
    let f2 := isa_fetch_byte f1.2
    (f1.1, f2.1, f2.2)
  | ADDR_SP_INDEXED =>
    let f1 := isa_fetch_byte cpu
    (f1.1, 0, f1.2)
  | ADDR_RELATIVE =>
    let f1 := isa_fetch_byte cpu
    (f1.1, 0, f1.2)

/-- The block that opens the cases `OP_ADD`, `OP_SUB`, `OP_CMP`, `OP_AND`, `OP_OR` and
`OP_XOR`: the operand byte itself in immediate mode, the byte at the operand address
otherwise. -/
def operand_value (cpu : cpu_state_t) (inst : instruction_t) (operand1 operand2 : Nat) :
    Nat :=
  if inst.addr_mode = ADDR_IMMEDIATE then operand1
  else isa_read_memory cpu (isa_get_address cpu inst.addr_mode operand1 operand2)

/-- The execute phase of `isa_execute_instruction` (`switch (inst->opcode)`): the value
of the local `result` and the state.  The last branch is the `default` case. -/
def execute_opcode (cpu : cpu_state_t) (inst : instruction_t) (operand1 operand2 : Nat) :
    Bool × cpu_state_t :=
  if inst.opcode = OP_LDI then
    (true, isa_set_register cpu REG_A operand1)
  else if inst.opcode = OP_LDA then
    let addr := isa_get_address cpu inst.addr_mode operand1 operand2
    let value := isa_read_memory cpu addr
    (true, isa_set_register cpu REG_A value)
  else if inst.opcode = OP_STA then
    let addr := isa_get_address cpu inst.addr_mode operand1 operand2
    let value := isa_get_register cpu REG_A
    (true, isa_write_memory cpu addr value)
  else if inst.opcode = OP_MOV then
    let src_reg := operand1
    let value := isa_get_register cpu src_reg
    (true, isa_set_register cpu REG_A value)
  else if inst.opcode = OP_ADD then
    let value := operand_value cpu inst operand1 operand2
    let a := isa_get_register cpu REG_A
    let result := uint16_t ((a : Int) + value)
    let carry : Bool := decide (result > 0xFF)
    let overflow : Bool := ((a ^^^ result) &&& (value ^^^ result) &&& 0x80) != 0
    let cpu := isa_set_register cpu REG_A (result &&& 0xFF)
    (true, isa_update_flags cpu (result &&& 0xFF) carry overflow)
  else if inst.opcode = OP_SUB then
    let value := operand_value cpu inst operand1 operand2
    let a := isa_get_register cpu REG_A
    let result := uint16_t ((a : Int) - value)
    let carry : Bool := decide (a < value)
    let overflow : Bool := ((a ^^^ result) &&& (value ^^^ result) &&& 0x80) != 0
    let cpu := isa_set_register cpu REG_A (result &&& 0xFF)
    (true, isa_update_flags cpu (result &&& 0xFF) carry overflow)
  else if inst.opcode = OP_CMP then
    let value := operand_value cpu inst operand1 operand2
    let a := isa_get_register cpu REG_A
    let result := uint16_t ((a : Int) - value)
    let carry : Bool := decide (a < value)
    let overflow : Bool := ((a ^^^ result) &&& (value ^^^ result) &&& 0x80) != 0
    (true, isa_update_flags cpu (result &&& 0xFF) carry overflow)
  else if inst.opcode = OP_INC then
    if inst.addr_mode = ADDR_REGISTER then
      let value := uint8_t ((isa_get_register cpu operand1 : Int) + 1)
      let cpu := isa_set_register cpu operand1 value
      (true, isa_update_flags cpu value false false)
    else
      let addr := isa_get_address cpu inst.addr_mode operand1 operand2
      let value := uint8_t ((isa_read_memory cpu addr : Int) + 1)
      let cpu := isa_write_memory cpu addr value
      (true, isa_update_flags cpu value false false)
  else if inst.opcode = OP_DEC then
    if inst.addr_mode = ADDR_REGISTER then
      let value := uint8_t ((isa_get_register cpu operand1 : Int) - 1)
      let cpu := isa_set_register cpu operand1 value
      (true, isa_update_flags cpu value false false)
    else
      let addr := isa_get_address cpu inst.addr_mode operand1 operand2
      let value := uint8_t ((isa_read_memory cpu addr : Int) - 1)
      let cpu := isa_write_memory cpu addr value
      (true, isa_update_flags cpu value false false)
  else if inst.opcode = OP_AND then
    let value := operand_value cpu inst operand1 operand2
    let a := isa_get_register cpu REG_A
    let result := a &&& value
    let cpu := isa_set_register cpu REG_A result
    (true, isa_update_flags cpu result false false)
  else if inst.opcode = OP_OR then
    let value := operand_value cpu inst operand1 operand2
    let a := isa_get_register cpu REG_A
    let result := a ||| value
    let cpu := isa_set_register cpu REG_A result
    (true, isa_update_flags cpu result false false)
  else if inst.opcode = OP_XOR then
    let value := operand_value cpu inst operand1 operand2
    let a := isa_get_register cpu REG_A
    let result := a ^^^ value
    let cpu := isa_set_register cpu REG_A result
    (true, isa_update_flags cpu result false false)
  else if inst.opcode = OP_JMP then
    let addr := isa_get_address cpu inst.addr_mode operand1 operand2
    (true, isa_set_register16 cpu REG_PC addr)
  else if inst.opcode = OP_JSR then
    let addr := isa_get_address cpu inst.addr_mode operand1 operand2
    let pc := isa_get_register16 cpu REG_PC
    let cpu := isa_push16 cpu pc
    (true, isa_set_register16 cpu REG_PC addr)
  else if inst.opcode = OP_RTS then
    let addr := isa_pop16 cpu
    (true, isa_set_register16 addr.2 REG_PC addr.1)
  else if inst.opcode = OP_BEQ then
    if isa_get_flag cpu FLAG_ZERO then
      let addr := isa_get_address cpu inst.addr_mode operand1 operand2
      (true, isa_set_register16 cpu REG_PC addr)
    else (true, cpu)
  else if inst.opcode = OP_BNE then
    if !isa_get_flag cpu FLAG_ZERO then
      let addr := isa_get_address cpu inst.addr_mode operand1 operand2
      (true, isa_set_register16 cpu REG_PC addr)
    else (true, cpu)
  else if inst.opcode = OP_BCS then
    if isa_get_flag cpu FLAG_CARRY then
      let addr := isa_get_address cpu inst.addr_mode operand1 operand2
      (true, isa_set_register16 cpu REG_PC addr)
    else (true, cpu)
  else if inst.opcode = OP_BCC then
    if !isa_get_flag cpu FLAG_CARRY then
      let addr := isa_get_address cpu inst.addr_mode operand1 operand2
      (true, isa_set_register16 cpu REG_PC addr)
    else (true, cpu)
  else if inst.opcode = OP_PHA then
    (true, isa_push cpu (isa_get_register cpu REG_A))
  else if inst.opcode = OP_PLA then
    let p := isa_pop cpu
    (true, isa_set_register p.2 REG_A p.1)
  else if inst.opcode = OP_PHP then
    (true, isa_push cpu cpu.flags)
  else if inst.opcode = OP_PLP then
    let p := isa_pop cpu
    (true, { p.2 with flags := p.1 })
  else if inst.opcode = OP_PUSH then
    (true, isa_push cpu (isa_get_register cpu operand1))
  else if inst.opcode = OP_POP then
    let p := isa_pop cpu
    (true, isa_set_register p.2 operand1 p.1)
  else if inst.opcode = OP_SEI then
    (true, isa_set_flag cpu FLAG_INTERRUPT)
  else if inst.opcode = OP_CLI then
    (true, isa_clear_flag cpu FLAG_INTERRUPT)
  else if inst.opcode = OP_NOP then
    (true, cpu)
  else if inst.opcode = OP_HLT then
    (true, { cpu with running := false })
  else
    (false, cpu)

/-- The cycle accounting that ends `isa_execute_instruction`:
`cpu->cycle_count += inst->cycles; cpu->instruction_count++;`. -/
def update_cycle_count (cpu : cpu_state_t) (inst : instruction_t) : cpu_state_t :=
  { cpu with
    cycle_count := uint64_t ((cpu.cycle_count : Int) + inst.cycles)
    instruction_count := uint32_t ((cpu.instruction_count : Int) + 1) }

/-- Fetch, decode and execute one instruction; the Boolean is the C return value. -/
def isa_execute_instruction (cpu : cpu_state_t) : Bool × cpu_state_t :=
  let f := isa_fetch_byte cpu
  let opcode := f.1
  let cpu := f.2
  if !isa_is_valid_opcode opcode then
    (false, { cpu with running := false })
  else
    match isa_get_instruction opcode with
    | none => (false, cpu)
    | some inst =>
      let ops := fetch_operands cpu inst.addr_mode
      let r := execute_opcode ops.2.2 inst ops.1 ops.2.1
      (r.1, update_cycle_count r.2 inst)

/-! ## memory.h -/

@[simp] abbrev RAM_START : Nat := 0x0000
@[simp] abbrev RAM_END : Nat := 0x7FFF
@[simp] abbrev MMIO_START : Nat := 0x8000
@[simp] abbrev MMIO_END : Nat := 0xFEFF
@[simp] abbrev VECTOR_START : Nat := 0xFF00
@[simp] abbrev VECTOR_END : Nat := 0xFFFF

@[simp] abbrev UART_TX_ADDR : Nat := 0x8000
@[simp] abbrev UART_RX_ADDR : Nat := 0x8001
@[simp] abbrev UART_STATUS_ADDR : Nat := 0x8002
@[simp] abbrev GPIO_PORT_ADDR : Nat := 0x8003
@[simp] abbrev TIMER_LATCH_ADDR : Nat := 0x8004
@[simp] abbrev TIMER_LATCH_ADDR_H : Nat := 0x8005
@[simp] abbrev TIMER_CTRL_ADDR : Nat := 0x8006
@[simp] abbrev TIMER_COUNT_ADDR : Nat := 0x8007
@[simp] abbrev TIMER_COUNT_ADDR_H : Nat := 0x8008
@[simp] abbrev TIMER_IRQ_ADDR : Nat := 0x8009

/-! ## devices.h -/

/-- The serial port (`uart_device_t`). -/
structure uart_device_t where
  tx_data : Nat
  rx_data : Nat
  status : Nat
  tx_ready : Bool
  rx_ready : Bool
  tx_empty : Bool
  rx_full : Bool

/-- The parallel port (`gpio_device_t`). -/
structure gpio_device_t where
  port : Nat
  direction : Nat
  pullup : Nat

/-- The programmable timer (`timer_device_t`). -/
structure timer_device_t where
  latch : Nat
  count : Nat
  control : Nat
  irq_enabled : Bool
  irq_pending : Bool
  running : Bool
  prescaler : Nat
  prescaler_count : Nat

/-- The global device instances `g_uart`, `g_gpio` and `g_timer` of `devices.c`.  A C
function that reads or writes these globals takes the record as an argument and returns
it; a function that does not mention them has no such argument. -/
structure devices_t where
  g_uart : uart_device_t
  g_gpio : gpio_device_t
  g_timer : timer_device_t

/-! ## devices.c -/

def uart_init (uart : uart_device_t) : uart_device_t :=
  { uart with
    tx_data := 0
    rx_data := 0
    status := 0
    tx_ready := true
    rx_ready := false
    tx_empty := true
    rx_full := false }

/-- Writing the TX register stores the byte, prints it, and marks the port ready again;
the status register is read-only. -/
def uart_write (uart : uart_device_t) (address value : Nat) : uart_device_t :=
  if address = UART_TX_ADDR then
    let uart := { uart with tx_data := value, tx_ready := false, tx_empty := false }
    { uart with tx_ready := true, tx_empty := true }
  else uart

def gpio_init (gpio : gpio_device_t) : gpio_device_t :=
  { gpio with port := 0, direction := 0, pullup := 0 }

def gpio_write (gpio : gpio_device_t) (address value : Nat) : gpio_device_t :=
  if address = GPIO_PORT_ADDR then { gpio with port := value } else gpio

def timer_init (timer : timer_device_t) : timer_device_t :=
  { timer with
    latch := 0
    count := 0
    control := 0
    irq_enabled := false
    irq_pending := false
    running := false
    prescaler := 1
    prescaler_count := 0 }

def timer_start (timer : timer_device_t) : timer_device_t :=
  { timer with running := true, prescaler_count := 0 }

def timer_stop (timer : timer_device_t) : timer_device_t :=
  { timer with running := false }

def timer_clear_irq (timer : timer_device_t) : timer_device_t :=
  { timer with irq_pending := false }

def timer_write (timer : timer_device_t) (address value : Nat) : timer_device_t :=
  if address = TIMER_LATCH_ADDR then
    { timer with latch := uint16_t (((timer.latch &&& 0xFF00) ||| value : Nat) : Int) }
  else if address = TIMER_LATCH_ADDR_H then
    { timer with latch := uint16_t (((timer.latch &&& 0x00FF) ||| (value <<< 8) : Nat) : Int) }
  else if address = TIMER_CTRL_ADDR then
    let timer := { timer with control := value, irq_enabled := (value &&& 0x02) != 0 }
    if value &&& 0x04 ≠ 0 then timer_start timer else timer_stop timer
  else if address = TIMER_COUNT_ADDR then
    { timer with count := uint16_t (((timer.count &&& 0xFF00) ||| value : Nat) : Int) }
  else if address = TIMER_COUNT_ADDR_H then
    { timer with count := uint16_t (((timer.count &&& 0x00FF) ||| (value <<< 8) : Nat) : Int) }
  else if address = TIMER_IRQ_ADDR then
    if value &&& 0x01 ≠ 0 then timer_clear_irq timer else timer
  else timer

def devices_init (dev : devices_t) : devices_t :=
  let dev := { dev with g_uart := uart_init dev.g_uart }
  let dev := { dev with g_gpio := gpio_init dev.g_gpio }
  { dev with g_timer := timer_init dev.g_timer }

def devices_write (dev : devices_t) (address value : Nat) : devices_t :=
  if address = UART_TX_ADDR ∨ address = UART_RX_ADDR ∨ address = UART_STATUS_ADDR then
    { dev with g_uart := uart_write dev.g_uart address value }
  else if address = GPIO_PORT_ADDR then
    { dev with g_gpio := gpio_write dev.g_gpio address value }
  else if address = TIMER_LATCH_ADDR ∨ address = TIMER_LATCH_ADDR_H ∨
      address = TIMER_CTRL_ADDR ∨ address = TIMER_COUNT_ADDR ∨
      address = TIMER_COUNT_ADDR_H ∨ address = TIMER_IRQ_ADDR then
    { dev with g_timer := timer_write dev.g_timer address value }
  else dev

/-- Reading the RX register returns the received byte and clears `rx_ready`; the status
register is computed from the four flags; any other address reads 0. -/
def uart_read (uart : uart_device_t) (address : Nat) : Nat × uart_device_t :=
  if address = UART_RX_ADDR then
    (uart.rx_data, { uart with rx_ready := false })
  else if address = UART_STATUS_ADDR then
    ((if uart.tx_ready then 0x01 else 0x00) ||| (if uart.rx_ready then 0x02 else 0x00) |||
      (if uart.tx_empty then 0x04 else 0x00) ||| (if uart.rx_full then 0x08 else 0x00), uart)
  else (0, uart)

def gpio_read (gpio : gpio_device_t) (address : Nat) : Nat :=
  if address = GPIO_PORT_ADDR then gpio.port else 0

def timer_read (timer : timer_device_t) (address : Nat) : Nat :=
  if address = TIMER_LATCH_ADDR then timer.latch &&& 0xFF
  else if address = TIMER_LATCH_ADDR_H then (timer.latch >>> 8) &&& 0xFF
  else if address = TIMER_CTRL_ADDR then timer.control
  else if address = TIMER_COUNT_ADDR then timer.count &&& 0xFF
  else if address = TIMER_COUNT_ADDR_H then (timer.count >>> 8) &&& 0xFF
  else if address = TIMER_IRQ_ADDR then (if timer.irq_pending then 0x01 else 0x00)
  else 0

/-- The value read and the devices after the read (a read of the RX register changes the
serial port). -/
def devices_read (dev : devices_t) (address : Nat) : Nat × devices_t :=
  if address = UART_TX_ADDR ∨ address = UART_RX_ADDR ∨ address = UART_STATUS_ADDR then
    let r := uart_read dev.g_uart address
    (r.1, { dev with g_uart := r.2 })
  else if address = GPIO_PORT_ADDR then
    (gpio_read dev.g_gpio address, dev)
  else if address = TIMER_LATCH_ADDR ∨ address = TIMER_LATCH_ADDR_H ∨
      address = TIMER_CTRL_ADDR ∨ address = TIMER_COUNT_ADDR ∨
      address = TIMER_COUNT_ADDR_H ∨ address = TIMER_IRQ_ADDR then
    (timer_read dev.g_timer address, dev)
  else (0, dev)

/-- The serial port needs no periodic update (the body of `uart_tick` is empty). -/
def uart_tick (uart : uart_device_t) : uart_device_t := uart

/-- The parallel port needs no periodic update (the body of `gpio_tick` is empty). -/
def gpio_tick (gpio : gpio_device_t) : gpio_device_t := gpio

/-- One tick of the timer: a running timer advances its prescaler accumulator (a
`uint32_t`); when the accumulator reaches the prescaler it is cleared and a non-zero count
is decremented; a count that becomes zero raises the IRQ when it is enabled and is
reloaded from the latch when bit 0 of the control byte is set. -/
def timer_tick (timer : timer_device_t) : timer_device_t :=
  if !timer.running then timer
  else
    let timer := { timer with prescaler_count := uint32_t ((timer.prescaler_count : Int) + 1) }
    if timer.prescaler_count ≥ timer.prescaler then
      let timer := { timer with prescaler_count := 0 }
      if timer.count > 0 then
        let timer := { timer with count := timer.count - 1 }
        if timer.count = 0 then
          let timer := if timer.irq_enabled then { timer with irq_pending := true } else timer
          if timer.control &&& 0x01 ≠ 0 then { timer with count := timer.latch } else timer
        else timer
      else timer
    else timer

def timer_reset (timer : timer_device_t) : timer_device_t :=
  { timer with count := timer.latch, prescaler_count := 0, irq_pending := false }

def timer_is_irq_pending (timer : timer_device_t) : Bool := timer.irq_pending

def devices_tick (dev : devices_t) : devices_t :=
  let dev := { dev with g_uart := uart_tick dev.g_uart }
  let dev := { dev with g_gpio := gpio_tick dev.g_gpio }
  { dev with g_timer := timer_tick dev.g_timer }

/-! ## memory.c -/

def memory_is_valid_address (_address : Nat) : Bool := true

def memory_is_ram (address : Nat) : Bool := decide (address ≤ RAM_END)

def memory_is_mmio (address : Nat) : Bool :=
  decide (address ≥ MMIO_START) && decide (address ≤ MMIO_END)

def memory_is_vector (address : Nat) : Bool := decide (address ≥ VECTOR_START)

/-- Read through the address space: RAM and vector cells come from the array, MMIO
addresses from the devices. -/
def memory_read (memory : Nat → Nat) (dev : devices_t) (address : Nat) : Nat × devices_t :=
  if !memory_is_valid_address address then (0, dev)
  else if memory_is_ram address then (memory address, dev)
  else if memory_is_mmio address then devices_read dev address
  else if memory_is_vector address then (memory address, dev)
  else (0, dev)

/-- Write through the address space: RAM and vector cells are stored in the array, MMIO
addresses go to the devices. -/
def memory_write (memory : Nat → Nat) (dev : devices_t) (address value : Nat) :
    (Nat → Nat) × devices_t :=
  if !memory_is_valid_address address then (memory, dev)
  else if memory_is_ram address then (store memory address value, dev)
  else if memory_is_mmio address then (memory, devices_write dev address value)
  else if memory_is_vector address then (store memory address value, dev)
  else (memory, dev)

def memory_write16 (memory : Nat → Nat) (dev : devices_t) (address value : Nat) :
    (Nat → Nat) × devices_t :=
  let w := memory_write memory dev address (value &&& 0xFF)
  memory_write w.1 w.2 (uint16_t ((address : Int) + 1)) ((value >>> 8) &&& 0xFF)

/-- The call `memset(memory, 0, 0x10000)` clears the whole 65,536-byte buffer; then the
three vectors are written and the devices initialised. -/
def memory_init (_memory : Nat → Nat) (dev : devices_t) : (Nat → Nat) × devices_t :=
  let memory : Nat → Nat := fun _ => 0
  let w := memory_write16 memory dev 0xFFFC 0x0200
  let w := memory_write16 w.1 w.2 0xFFFA 0x0200
  let w := memory_write16 w.1 w.2 0xFFFE 0x0200
  (w.1, devices_init w.2)

/-! ## cpu.c -/

@[simp] abbrev CPU_FREQUENCY_HZ : Nat := 1000000

/-- Full reset: registers, control and debug state are initialised, the memory is cleared
and the memory map (vectors, devices) initialised again. -/
def cpu_reset (cpu : cpu_state_t) (dev : devices_t) : cpu_state_t × devices_t :=
  let cpu := { cpu with regs := fun _ => 0 }
  let cpu := isa_set_register16 cpu REG_SP 0x7FFF
  let cpu := isa_set_register16 cpu REG_PC 0xFFFC
  let cpu := { cpu with
    flags := 0
    running := false
    irq_pending := false
    nmi_pending := false
    cycle_count := 0
    instruction_count := 0
    trace_enabled := false
    breakpoint_hit := false
    breakpoint_addr := 0
    watch_addr := 0
    watch_hit := false }
  let cpu := { cpu with memory := fun _ => 0 }
  let m := memory_init cpu.memory dev
  ({ cpu with memory := m.1 }, m.2)

/-- Create a machine.  The argument `fresh` stands for the two `malloc` calls: `none` when
one of them fails (the C function returns `NULL`), otherwise the allocated structure and
buffer with whatever contents they happen to have. -/
def cpu_create (fresh : Option cpu_state_t) (dev : devices_t) :
    Option (cpu_state_t × devices_t) :=
  match fresh with
  | none => none
  | some cpu =>
    let r := cpu_reset cpu dev
    let cpu := { r.1 with
      frequency_hz := CPU_FREQUENCY_HZ
      cycles_per_second := 0
      last_tick_time := 0 }
    let m := memory_init cpu.memory r.2
    some ({ cpu with memory := m.1 }, devices_init m.2)

/-- Warm reset: registers and control state are initialised, memory is kept. -/
def cpu_reset_to_address (cpu : cpu_state_t) (address : Nat) : cpu_state_t :=
  let cpu := { cpu with regs := fun _ => 0 }
  let cpu := isa_set_register16 cpu REG_SP 0x7FFF
  let cpu := isa_set_register16 cpu REG_PC address
  { cpu with
    flags := 0
    running := false
    irq_pending := false
    nmi_pending := false
    cycle_count := 0
    instruction_count := 0
    trace_enabled := false
    breakpoint_hit := false
    breakpoint_addr := 0
    watch_addr := 0
    watch_hit := false }

def cpu_irq (cpu : cpu_state_t) : cpu_state_t :=
  { cpu with irq_pending := true }

def cpu_nmi (cpu : cpu_state_t) : cpu_state_t :=
  { cpu with nmi_pending := true }

def cpu_handle_interrupts (cpu : cpu_state_t) : cpu_state_t :=
  if cpu.nmi_pending then
    let cpu := { cpu with nmi_pending := false }
    let cpu := isa_push16 cpu (isa_get_register16 cpu REG_PC)
    let cpu := isa_push cpu cpu.flags
    let cpu := isa_set_flag cpu FLAG_INTERRUPT
    let nmi_vector := isa_read_memory cpu 0xFFFA ||| (isa_read_memory cpu 0xFFFB <<< 8)
    isa_set_register16 cpu REG_PC nmi_vector
  else if cpu.irq_pending && !isa_get_flag cpu FLAG_INTERRUPT then
    let cpu := { cpu with irq_pending := false }
    let cpu := isa_push16 cpu (isa_get_register16 cpu REG_PC)
    let cpu := isa_push cpu cpu.flags
    let cpu := isa_set_flag cpu FLAG_INTERRUPT
    let irq_vector := isa_read_memory cpu 0xFFFE ||| (isa_read_memory cpu 0xFFFF <<< 8)
    isa_set_register16 cpu REG_PC irq_vector
  else cpu

/-- One step.  The watchpoint block of the source is an empty placeholder and the
trace output only prints, so neither changes the state. -/
def cpu_step (cpu : cpu_state_t) : Bool × cpu_state_t :=
  let pc := isa_get_register16 cpu REG_PC
  if cpu.breakpoint_addr ≠ 0 ∧ pc = cpu.breakpoint_addr then
    (false, { cpu with breakpoint_hit := true, running := false })
  else
    let cpu := cpu_handle_interrupts cpu
    isa_execute_instruction cpu

/-- The `while` loop of `cpu_run`, unrolled at most `fuel` times; `none` when the loop
has not exited by then.  `cpu_throttle` only sleeps and is left out. -/
def cpu_run_loop (fuel : Nat) (cpu : cpu_state_t) (start_cycles max_cycles : Nat) :
    Option cpu_state_t :=
  match fuel with
  | 0 => none
  | fuel + 1 =>
    if cpu.running ∧ uint64_t ((cpu.cycle_count : Int) - start_cycles) < max_cycles then
      let r := cpu_step cpu
      if !r.1 then some r.2
      else cpu_run_loop fuel r.2 start_cycles max_cycles
    else some cpu

/-- Run for up to `max_cycles` cycles: the C return value and the final state. -/
def cpu_run (fuel : Nat) (cpu : cpu_state_t) (max_cycles : Nat) :
    Option (Bool × cpu_state_t) :=
  let cpu := { cpu with running := true }
  let start_cycles := cpu.cycle_count
  (cpu_run_loop fuel cpu start_cycles max_cycles).map (fun c => (c.running, c))

def cpu_set_breakpoint (cpu : cpu_state_t) (address : Nat) : cpu_state_t :=
  { cpu with breakpoint_addr := address }

def cpu_clear_breakpoint (cpu : cpu_state_t) : cpu_state_t :=
  { cpu with breakpoint_addr := 0, breakpoint_hit := false }

def cpu_set_watchpoint (cpu : cpu_state_t) (address : Nat) : cpu_state_t :=
  { cpu with watch_addr := address }

def cpu_clear_watchpoint (cpu : cpu_state_t) : cpu_state_t :=
  { cpu with watch_addr := 0, watch_hit := false }

/-- Copy `program` into memory at `address` (`memcpy`); refused when it would extend
past the end of memory. -/
def cpu_load_program (cpu : cpu_state_t) (program : List Nat) (address : Nat) :
    Bool × cpu_state_t :=
  let size := program.length
  if address + size > MEMORY_SIZE then (false, cpu)
  else
    let memory := fun a =>
      if address ≤ a ∧ a < address + size then program.getD (a - address) 0
      else cpu.memory a
    (true, { cpu with memory := memory })

def cpu_get_pc (cpu : cpu_state_t) : Nat := isa_get_register16 cpu REG_PC

def cpu_get_sp (cpu : cpu_state_t) : Nat := isa_get_register16 cpu REG_SP

def cpu_get_a (cpu : cpu_state_t) : Nat := isa_get_register cpu REG_A

def cpu_get_flags (cpu : cpu_state_t) : Nat := cpu.flags

/-! ## assembler.h -/

@[simp] abbrev MAX_LABELS : Nat := 1000
@[simp] abbrev MAX_LABEL_LENGTH : Nat := 64
@[simp] abbrev MAX_LINE_LENGTH : Nat := 256

/-- The characters of a Lean string as C `char` values: a C string is the list of the
character codes that precede its terminating NUL. -/
def c_str (s : String) : List Nat := s.toList.map Char.toNat

/-- A label (`label_t`). -/
structure label_t where
  name : List Nat
  address : Nat
  defined : Bool
  line : Nat

/-- A symbol (`symbol_t`). -/
structure symbol_t where
  name : List Nat
  value : Nat
  defined : Bool

/-- An input stream of the C library (`FILE`): the bytes of the file, the read position
and the end-of-file indicator. -/
structure file_t where
  contents : List Nat
  position : Nat
  eof : Bool

/-- The assembler state (`assembler_t`).  `file` is `none` for the C `NULL`;
`current_line` holds the characters of the line buffer before its NUL; the arrays `labels`
and `symbols` are the lists of their first `label_count` and `symbol_count` entries;
`output` is the 65,536-byte buffer. -/
structure assembler_t where
  filename : List Nat
  file : Option file_t
  current_line : List Nat
  line_number : Nat
  column_number : Nat
  output : Nat → Nat
  output_size : Nat
  current_address : Nat
  origin_address : Nat
  labels : List label_t
  symbols : List symbol_t
  error_occurred : Bool
  error_message : List Nat

/-! ## The C library functions the assembler calls -/

/-- The test `isdigit` of `ctype.h` in the C locale. -/
def isdigit (c : Nat) : Bool := decide (0x30 ≤ c ∧ c ≤ 0x39)

/-- The test `isalnum` of `ctype.h` in the C locale, where no byte above 0x7F is a letter. -/
def isalnum (c : Nat) : Bool :=
  isdigit c || decide (0x41 ≤ c ∧ c ≤ 0x5A) || decide (0x61 ≤ c ∧ c ≤ 0x7A)

/-- The test `isxdigit` of `ctype.h`. -/
def isxdigit (c : Nat) : Bool :=
  isdigit c || decide (0x41 ≤ c ∧ c ≤ 0x46) || decide (0x61 ≤ c ∧ c ≤ 0x66)

/-- The value of a digit character in a base up to 16, `none` when it is no digit of that
base. -/
def digit_value (base c : Nat) : Option Nat :=
  let d := if isdigit c then c - 0x30
    else if 0x41 ≤ c ∧ c ≤ 0x46 then c - 0x41 + 10
    else if 0x61 ≤ c ∧ c ≤ 0x66 then c - 0x61 + 10
    else 16
  if d < base then some d else none

/-- The largest value of a 64-bit `long`. -/
@[simp] abbrev LONG_MAX : Nat := 9223372036854775807

/-- The digits part of `strtol`: the value of the leading digits of `s`, `LONG_MAX` once
the value exceeds it. -/
def strtol_digits (base : Nat) : List Nat → Nat → Nat
  | [], acc => acc
  | c :: s, acc =>
    match digit_value base c with
    | none => acc
    | some d => strtol_digits base s (if acc * base + d > LONG_MAX then LONG_MAX
        else acc * base + d)

/-- The call `strtol(s, NULL, base)` for the strings the assembler passes: digits only,
without blanks, sign or prefix. -/
def strtol (s : List Nat) (base : Nat) : Nat := strtol_digits base s 0

/-- The loop of `fgets`: at most `n` characters, up to and including a newline.  The
result is the characters read, the characters left and whether the end of the file was
hit. -/
def fgets_loop : Nat → List Nat → List Nat → List Nat × List Nat × Bool
  | 0, rest, acc => (acc, rest, false)
  | _ + 1, [], acc => (acc, [], true)
  | n + 1, c :: rest, acc =>
    if c = 0x0A then (acc ++ [c], rest, false) else fgets_loop n rest (acc ++ [c])

/-- The call `fgets(line, size, file)`: `none` is the C `NULL` (end of file before any
character).  The line returned is the C string in the buffer, which ends at the first
NUL. -/
def fgets (size : Nat) (f : file_t) : Option (List Nat) × file_t :=
  let r := fgets_loop (size - 1) (f.contents.drop f.position) []
  let f := { f with position := f.position + r.1.length, eof := f.eof || r.2.2 }
  if r.1 = [] then (none, f) else (some (r.1.takeWhile (fun c => c ≠ 0)), f)

/-! ## assembler.c -/

/-- The C expression `assembler->current_line[assembler->column_number]`; the character
at the end of the line is the terminating NUL. -/
def current_char (assembler : assembler_t) : Nat :=
  assembler.current_line.getD assembler.column_number 0

/-- The statement `assembler->column_number++`. -/
def next_column (assembler : assembler_t) : assembler_t :=
  { assembler with column_number := assembler.column_number + 1 }

/-- The message of `assembler_error`, truncated to the 255 characters of the buffer, and
the error flag; the `printf` output is not modelled. -/
def assembler_error (assembler : assembler_t) (message : List Nat) : assembler_t :=
  { assembler with error_message := message.take 255, error_occurred := true }

/-- A warning only prints. -/
def assembler_warning (assembler : assembler_t) (_message : List Nat) : assembler_t :=
  assembler

def assembler_emit_byte (assembler : assembler_t) (value : Nat) : assembler_t :=
  if assembler.output_size < 65536 then
    { assembler with
      output := store assembler.output assembler.output_size (value % 256)
      output_size := (assembler.output_size + 1) % 65536
      current_address := (assembler.current_address + 1) % 65536 }
  else assembler

def assembler_emit_word (assembler : assembler_t) (value : Nat) : assembler_t :=
  let assembler := assembler_emit_byte assembler (value &&& 0xFF)
  assembler_emit_byte assembler ((value >>> 8) &&& 0xFF)

/-- The loop of `assembler_skip_whitespace`, run at most `n` times. -/
def skip_whitespace_loop : Nat → assembler_t → assembler_t
  | 0, assembler => assembler
  | n + 1, assembler =>
    if current_char assembler = 0x20 ∨ current_char assembler = 0x09 then
      skip_whitespace_loop n (next_column assembler)
    else assembler

/-- Skip blanks and tabs.  The loop stops at the NUL that ends the line at the latest, so
the length of the line bounds its iterations. -/
def assembler_skip_whitespace (assembler : assembler_t) : assembler_t :=
  skip_whitespace_loop assembler.current_line.length assembler

def assembler_is_identifier_char (c : Nat) : Bool := isalnum c || decide (c = 0x5F)

def assembler_is_number_char (c : Nat) : Bool :=
  isdigit c || decide (c = 0x24) || decide (c = 0x25)

/-- The loop that copies the characters satisfying `p` from the line into a buffer of
`limit` characters, shared by the label, directive, instruction, register, number and
identifier readers: `while (p(line[col])) { if (i >= limit) { error; return; }
buf[i++] = line[col++]; }`.  The Boolean tells that the limit was hit. -/
def read_loop (p : Nat → Bool) (limit : Nat) :
    Nat → assembler_t → List Nat → Bool × List Nat × assembler_t
  | 0, assembler, buf => (false, buf, assembler)
  | n + 1, assembler, buf =>
    if p (current_char assembler) then
      if buf.length ≥ limit then (true, buf, assembler)
      else read_loop p limit n (next_column assembler) (buf ++ [current_char assembler])
    else (false, buf, assembler)

/-- The read loop started with an empty buffer; no character satisfying `p` is the NUL,
so the length of the line bounds the iterations. -/
def read_chars (p : Nat → Bool) (limit : Nat) (assembler : assembler_t) :
    Bool × List Nat × assembler_t :=
  read_loop p limit (assembler.current_line.length + 1) assembler []

def assembler_add_label (assembler : assembler_t) (name : List Nat) (address : Nat) :
    Bool × assembler_t :=
  if assembler.labels.length ≥ MAX_LABELS then
    (false, assembler_error assembler (c_str "Too many labels"))
  else
    let label : label_t :=
      ⟨name.take (MAX_LABEL_LENGTH - 1), address, true, assembler.line_number⟩
    (true, { assembler with labels := assembler.labels ++ [label] })

def assembler_find_label (assembler : assembler_t) (name : List Nat) : Option label_t :=
  assembler.labels.find? (fun l => l.name = name)

def assembler_find_symbol (assembler : assembler_t) (name : List Nat) : Option symbol_t :=
  assembler.symbols.find? (fun s => s.name = name)

def assembler_resolve_labels (_assembler : assembler_t) : Bool := true

def assembler_parse_number_literal (assembler : assembler_t) : Nat × assembler_t :=
  if current_char assembler = 0x24 then
    let r := read_chars isxdigit 31 (next_column assembler)
    if r.1 then (0, assembler_error r.2.2 (c_str "Number too long"))
    else (uint16_t (strtol r.2.1 16), r.2.2)
  else if current_char assembler = 0x25 then
    let r := read_chars (fun c => decide (c = 0x30 ∨ c = 0x31)) 31 (next_column assembler)
    if r.1 then (0, assembler_error r.2.2 (c_str "Number too long"))
    else (uint16_t (strtol r.2.1 2), r.2.2)
  else
    let r := read_chars isdigit 31 assembler
    if r.1 then (0, assembler_error r.2.2 (c_str "Number too long"))
    else (uint16_t (strtol r.2.1 10), r.2.2)

def assembler_parse_identifier (assembler : assembler_t) : Nat × assembler_t :=
  let r := read_chars assembler_is_identifier_char (MAX_LABEL_LENGTH - 1) assembler
  if r.1 then (0, assembler_error r.2.2 (c_str "Identifier too long"))
  else
    match assembler_find_label r.2.2 r.2.1 with
    | some label => (label.address, r.2.2)
    | none =>
      match assembler_find_symbol r.2.2 r.2.1 with
      | some symbol => (symbol.value, r.2.2)
      | none =>
        (0, assembler_error r.2.2 (c_str "Undefined label or symbol: " ++ r.2.1))

/-- The loop of `assembler_parse_term` over the operators `+` and `-`, run at most `n`
times, with `factor` for the call of `assembler_parse_factor`. -/
def term_loop (factor : assembler_t → Nat × assembler_t) :
    Nat → Nat → assembler_t → Nat × assembler_t
  | 0, left, assembler => (left, assembler)
  | n + 1, left, assembler =>
    if current_char assembler = 0x2B ∨ current_char assembler = 0x2D then
      let op := current_char assembler
      let r := factor (next_column assembler)
      let left := if op = 0x2B then uint16_t ((left : Int) + r.1)
        else uint16_t ((left : Int) - r.1)
      term_loop factor n left (assembler_skip_whitespace r.2)
    else (left, assembler)

/-- The body of `assembler_parse_term`, with `factor` for the call of
`assembler_parse_factor`.  Every iteration of the loop consumes an operator, so the length
of the line bounds the iterations. -/
def parse_term_with (factor : assembler_t → Nat × assembler_t) (assembler : assembler_t) :
    Nat × assembler_t :=
  let l := factor assembler
  term_loop factor assembler.current_line.length l.1 (assembler_skip_whitespace l.2)

/-- The function `assembler_parse_factor`.  It calls `assembler_parse_expression` for a
parenthesised expression, which calls it back; `depth` is the number of such nested calls
left.  Every nested call has consumed an opening parenthesis, so the length of the line
bounds the nesting and the case `depth = 0` at a parenthesis does not arise from
`assembler_parse_expression`. -/
def assembler_parse_factor : Nat → assembler_t → Nat × assembler_t
  | depth, assembler =>
    let assembler := assembler_skip_whitespace assembler
    if current_char assembler = 0x28 then
      match depth with
      | 0 => (0, assembler)
      | depth + 1 =>
        let r := parse_term_with (assembler_parse_factor depth) (next_column assembler)
        if current_char r.2 = 0x29 then (r.1, next_column r.2) else r
    else if current_char assembler = 0x23 then
      assembler_parse_number_literal (next_column assembler)
    else if isdigit (current_char assembler) ∨ current_char assembler = 0x24 ∨
        current_char assembler = 0x25 then
      assembler_parse_number_literal assembler
    else if assembler_is_identifier_char (current_char assembler) then
      assembler_parse_identifier assembler
    else (0, assembler_error assembler (c_str "Expected number or identifier"))

def assembler_parse_term (assembler : assembler_t) : Nat × assembler_t :=
  parse_term_with (assembler_parse_factor assembler.current_line.length) assembler

def assembler_parse_expression (assembler : assembler_t) : Nat × assembler_t :=
  assembler_parse_term assembler

/-- Conversion of a C `int` to `int16_t` (two's complement). -/
def int16_t (i : Int) : Int := (i + 32768) % 65536 - 32768

/-- The decimal text `printf` writes for `%d`. -/
def format_d (i : Int) : List Nat :=
  if i < 0 then 0x2D :: c_str (toString i.natAbs) else c_str (toString i.natAbs)

def assembler_get_register (name : List Nat) : Nat :=
  if name = c_str "A" then REG_A
  else if name = c_str "B" then REG_B
  else if name = c_str "C" then REG_C
  else if name = c_str "D" then REG_D
  else if name = c_str "X" then REG_X
  else if name = c_str "Y" then REG_Y
  else if name = c_str "SP" then REG_SP
  else if name = c_str "PC" then REG_PC
  else 0

def assembler_get_opcode (name : List Nat) : Nat :=
  if name = c_str "LDI" then OP_LDI
  else if name = c_str "LDA" then OP_LDA
  else if name = c_str "STA" then OP_STA
  else if name = c_str "MOV" then OP_MOV
  else if name = c_str "ADD" then OP_ADD
  else if name = c_str "SUB" then OP_SUB
  else if name = c_str "JMP" then OP_JMP
  else if name = c_str "JSR" then OP_JSR
  else if name = c_str "RTS" then OP_RTS
  else if name = c_str "BEQ" then OP_BEQ
  else if name = c_str "BNE" then OP_BNE
  else if name = c_str "NOP" then OP_NOP
  else if name = c_str "HLT" then OP_HLT
  else 0

/-- Parse a label: an identifier followed by a colon.  When no colon follows, the column
is moved back by the length of the identifier. -/
def assembler_parse_label (assembler : assembler_t) : Bool × assembler_t :=
  let r := read_chars assembler_is_identifier_char (MAX_LABEL_LENGTH - 1) assembler
  if r.1 then (false, assembler_error r.2.2 (c_str "Label name too long"))
  else
    let i := r.2.1.length
    if i = 0 then (false, r.2.2)
    else
      let assembler := assembler_skip_whitespace r.2.2
      if current_char assembler = 0x3A then
        let assembler := next_column assembler
        (true, (assembler_add_label assembler r.2.1 assembler.current_address).2)
      else
        (false, { assembler with column_number := assembler.column_number - i })

/-- The loop of the `.string` directive: emit the characters up to the closing quote or
the newline, at most `n` of them.  In a line without either, the C loop runs past the NUL
that ends the line, into the rest of the buffer, whose contents are indeterminate: the
result is `none` then. -/
def string_loop : Nat → assembler_t → Option assembler_t
  | 0, _ => none
  | n + 1, assembler =>
    if current_char assembler ≠ 0x22 ∧ current_char assembler ≠ 0x0A then
      if assembler.column_number < assembler.current_line.length then
        string_loop n (next_column (assembler_emit_byte assembler (current_char assembler)))
      else none
    else some assembler

/-- The loop of the `.include` directive over the file name, which stops after 255
characters; `none` as for `string_loop`. -/
def include_loop : Nat → Nat → assembler_t → Option assembler_t
  | 0, _, _ => none
  | n + 1, i, assembler =>
    if current_char assembler ≠ 0x22 ∧ current_char assembler ≠ 0x0A ∧ i < 255 then
      if assembler.column_number < assembler.current_line.length then
        include_loop n (i + 1) (next_column assembler)
      else none
    else some assembler

/-- Parse a directive; `none` when the C code reads past the end of the line. -/
def assembler_parse_directive (assembler : assembler_t) : Option (Bool × assembler_t) :=
  let assembler := next_column assembler
  let r := read_chars assembler_is_identifier_char 31 assembler
  if r.1 then some (false, assembler_error r.2.2 (c_str "Directive name too long"))
  else
    let directive := r.2.1
    let assembler := assembler_skip_whitespace r.2.2
    if directive = c_str "org" then
      let e := assembler_parse_expression assembler
      some (true, { e.2 with current_address := e.1, origin_address := e.1 })
    else if directive = c_str "byte" then
      let e := assembler_parse_expression assembler
      some (true, assembler_emit_byte e.2 (e.1 &&& 0xFF))
    else if directive = c_str "word" then
      let e := assembler_parse_expression assembler
      some (true, assembler_emit_word e.2 e.1)
    else if directive = c_str "string" then
      let assembler := assembler_skip_whitespace assembler
      if current_char assembler = 0x22 then
        match string_loop (assembler.current_line.length + 1) (next_column assembler) with
        | none => none
        | some assembler =>
          if current_char assembler = 0x22 then some (true, next_column assembler)
          else some (true, assembler)
      else some (true, assembler)
    else if directive = c_str "include" then
      let assembler := assembler_skip_whitespace assembler
      if current_char assembler = 0x22 then
        match include_loop (assembler.current_line.length + 1) 0 (next_column assembler) with
        | none => none
        | some assembler =>
          let assembler :=
            if current_char assembler = 0x22 then next_column assembler else assembler
          some (true, assembler_warning assembler (c_str "Include files not yet implemented"))
      else some (true, assembler)
    else
      some (false, assembler_error assembler (c_str "Unknown directive: ." ++ directive))

/-- Parse an instruction: the mnemonic, the opcode byte, then the operand the mnemonic
asks for. -/
def assembler_parse_instruction (assembler : assembler_t) : Bool × assembler_t :=
  let r := read_chars assembler_is_identifier_char 31 assembler
  if r.1 then (false, assembler_error r.2.2 (c_str "Instruction name too long"))
  else
    let instruction := r.2.1
    let assembler := r.2.2
    if instruction.length = 0 then
      (false, assembler_error assembler (c_str "Expected instruction"))
    else
      let opcode := assembler_get_opcode instruction
      if opcode = 0 ∧ instruction ≠ c_str "NOP" then
        (false, assembler_error assembler (c_str "Unknown instruction: " ++ instruction))
      else
        let assembler := assembler_skip_whitespace assembler
        let assembler := assembler_emit_byte assembler opcode
        if instruction = c_str "LDI" then
          let e := assembler_parse_expression assembler
          (true, assembler_emit_byte e.2 (e.1 &&& 0xFF))
        else if instruction = c_str "LDA" ∨ instruction = c_str "STA" then
          if current_char assembler = 0x23 then
            let e := assembler_parse_expression (next_column assembler)
            (true, assembler_emit_byte e.2 (e.1 &&& 0xFF))
          else if current_char assembler = 0x5B then
            let e := assembler_parse_expression (next_column assembler)
            if current_char e.2 = 0x5D then
              let assembler := next_column e.2
              let assembler := assembler_emit_byte assembler (e.1 &&& 0xFF)
              (true, assembler_emit_byte assembler ((e.1 >>> 8) &&& 0xFF))
            else (false, assembler_error e.2 (c_str "Expected ']'"))
          else (false, assembler_error assembler (c_str "Invalid addressing mode"))
        else if instruction = c_str "MOV" then
          let g := read_chars assembler_is_identifier_char 7 assembler
          if g.1 then (false, assembler_error g.2.2 (c_str "Register name too long"))
          else
            let reg := assembler_get_register g.2.1
            if reg = 0 ∧ g.2.1 ≠ c_str "A" then
              (false, assembler_error g.2.2 (c_str "Unknown register: " ++ g.2.1))
            else (true, assembler_emit_byte g.2.2 reg)
        else if instruction = c_str "JMP" ∨ instruction = c_str "JSR" then
          let e := assembler_parse_expression assembler
          let assembler := assembler_emit_byte e.2 (e.1 &&& 0xFF)
          (true, assembler_emit_byte assembler ((e.1 >>> 8) &&& 0xFF))
        else if instruction = c_str "BEQ" ∨ instruction = c_str "BNE" ∨
            instruction = c_str "BCS" ∨ instruction = c_str "BCC" ∨
            instruction = c_str "BMI" ∨ instruction = c_str "BPL" ∨
            instruction = c_str "BVS" ∨ instruction = c_str "BVC" then
          let e := assembler_parse_expression assembler
          let offset := int16_t ((e.1 : Int) - ((e.2.current_address : Int) + 1))
          if offset < -128 ∨ offset > 127 then
            (false, assembler_error e.2
              (c_str "Branch offset out of range: " ++ format_d offset))
          else (true, assembler_emit_byte e.2 (uint8_t offset))
        else (true, assembler)

/-- Read and translate one line; `(false, _)` at the end of the file and after an error
that ends the pass, `none` for the undefined behaviour of `assembler_parse_directive` and
for a call without an open file. -/
def assembler_parse_line (assembler : assembler_t) : Option (Bool × assembler_t) :=
  match assembler.file with
  | none => none
  | some file =>
    let g := fgets MAX_LINE_LENGTH file
    let assembler := { assembler with file := some g.2 }
    match g.1 with
    | none => some (false, assembler)
    | some line =>
      let assembler := { assembler with
        line_number := assembler.line_number + 1
        current_line := line
        column_number := 0 }
      let assembler := assembler_skip_whitespace assembler
      if current_char assembler = 0x0A ∨ current_char assembler = 0x00 then
        some (true, assembler)
      else if current_char assembler = 0x3B then some (true, assembler)
      else
        let l := assembler_parse_label assembler
        if l.1 then some (true, l.2)
        else if current_char l.2 = 0x2E then assembler_parse_directive l.2
        else some (assembler_parse_instruction l.2)

/-- The C test `feof(assembler->file)`. -/
def feof (assembler : assembler_t) : Bool :=
  match assembler.file with
  | none => true
  | some file => file.eof

/-- One pass: `while (!feof(file)) { if (!assembler_parse_line(assembler)) break; }`, run
at most `n` times. -/
def pass_loop : Nat → assembler_t → Option assembler_t
  | 0, assembler => some assembler
  | n + 1, assembler =>
    if feof assembler then some assembler
    else
      match assembler_parse_line assembler with
      | none => none
      | some r => if !r.1 then some r.2 else pass_loop n r.2

/-- Assemble a file.  `contents` is what `fopen` finds: `none` when the file cannot be
opened, otherwise its bytes.  Every call of `assembler_parse_line` that does not end a
pass consumes at least one byte, so the length of the file bounds the iterations of the
two loops.  The result is `none` when the C code has undefined behaviour. -/
def assembler_assemble_file (assembler : assembler_t) (filename : List Nat)
    (contents : Option (List Nat)) : Option (Bool × assembler_t) :=
  let assembler := { assembler with filename := filename }
  match contents with
  | none =>
    some (false, assembler_error { assembler with file := none }
      (c_str "Cannot open file: " ++ filename))
  | some bytes =>
    let assembler := { assembler with
      file := some ⟨bytes, 0, false⟩
      line_number := 0
      column_number := 0 }
    match pass_loop (bytes.length + 1) assembler with
    | none => none
    | some assembler =>
      let assembler := { assembler with
        file := some ⟨bytes, 0, false⟩
        line_number := 0
        column_number := 0
        current_address := assembler.origin_address }
      match pass_loop (bytes.length + 1) assembler with
      | none => none
      | some assembler =>
        if !assembler_resolve_labels assembler then some (false, assembler)
        else
          let assembler := { assembler with file := none }
          some (!assembler.error_occurred, assembler)

/-- Create an assembler.  The argument `fresh` stands for the two `malloc` calls: `none`
when one of them fails (the C function returns `NULL`), otherwise the output buffer with
whatever contents it happens to have; the structure itself is cleared by `memset`. -/
def assembler_create (fresh : Option (Nat → Nat)) : Option assembler_t :=
  match fresh with
  | none => none
  | some output =>
    some { filename := [], file := none, current_line := [], line_number := 0,
           column_number := 0, output := output, output_size := 0, current_address := 0,
           origin_address := 0, labels := [], symbols := [], error_occurred := false,
           error_message := [] }

/-! ## disasm.c -/

/-- The disassembler state (`disasm_state_t`); `memory` is the 65,536-byte buffer. -/
structure disasm_state_t where
  memory : Nat → Nat
  start_address : Nat
  end_address : Nat
  verbose : Bool
  show_addresses : Bool
  show_hex : Bool

/-- The value `disassemble_instruction` leaves in `*bytes_consumed` for the instruction at
`address`: 1 to begin with, then the length the `switch (inst->opcode)` assigns when the
operand bytes lie at or before `end_address`.  The last branch stands for the cases without
operands (`OP_NOP`, `OP_HLT`, `OP_RTS`, `OP_PHA`, `OP_PLA`, `OP_PHP`, `OP_PLP`, `OP_SEI`,
`OP_CLI`) and for the `default` case, none of which assigns. -/
def disassemble_instruction (state : disasm_state_t) (address : Nat) : Nat :=
  let opcode := state.memory address
  match isa_get_instruction opcode with
  | none => 1
  | some inst =>
    if inst.opcode = OP_LDI then
      if address + 1 ≤ state.end_address then 2 else 1
    else if inst.opcode = OP_LDA ∨ inst.opcode = OP_STA then
      if address + 2 ≤ state.end_address then 3 else 1
    else if inst.opcode = OP_MOV then
      if address + 1 ≤ state.end_address then 2 else 1
    else if inst.opcode = OP_ADD ∨ inst.opcode = OP_SUB ∨ inst.opcode = OP_CMP then
      if address + 1 ≤ state.end_address then 2 else 1
    else if inst.opcode = OP_JMP ∨ inst.opcode = OP_JSR then
      if address + 2 ≤ state.end_address then 3 else 1
    else if inst.opcode = OP_BEQ ∨ inst.opcode = OP_BNE ∨ inst.opcode = OP_BCS ∨
        inst.opcode = OP_BCC ∨ inst.opcode = OP_BMI ∨ inst.opcode = OP_BPL ∨
        inst.opcode = OP_BVS ∨ inst.opcode = OP_BVC then
      if address + 1 ≤ state.end_address then 2 else 1
    else if inst.opcode = OP_PUSH ∨ inst.opcode = OP_POP then
      if address + 1 ≤ state.end_address then 2 else 1
    else 1

/-! ## Vocabulary of the statements -/

/-- The flag byte `isa_update_flags` leaves, as a function of the old byte and of the
four conditions it tests (`result == 0`, `result & 0x80`, `carry`, `overflow`). -/
def flag_bits (f : Nat) (z n c o : Bool) : Nat :=
  let f := if z then f ||| FLAG_ZERO else f &&& (0xFF ^^^ FLAG_ZERO)
  let f := if n then f ||| FLAG_NEGATIVE else f &&& (0xFF ^^^ FLAG_NEGATIVE)
  let f := if c then f ||| FLAG_CARRY else f &&& (0xFF ^^^ FLAG_CARRY)
  if o then f ||| FLAG_OVERFLOW else f &&& (0xFF ^^^ FLAG_OVERFLOW)

/-- The step taken from `s` is not stopped by the breakpoint check, `t` is the state in
which it fetches its instruction (the state the interrupt phase of the step leaves, which
is `s` itself when no interrupt is delivered), and the opcode byte at the PC of `t` is
`opcode`. -/
def step_fetches (s t : cpu_state_t) (opcode : Nat) : Prop :=
  ¬ (s.breakpoint_addr ≠ 0 ∧ cpu_get_pc s = s.breakpoint_addr) ∧
  t = cpu_handle_interrupts s ∧
  t.memory (cpu_get_pc t) = opcode

/-- The two counters of a state: cycles executed and instructions retired. -/
def counters (cpu : cpu_state_t) : Nat × Nat :=
  (cpu.cycle_count, cpu.instruction_count)

/-- The delivery sequence that both branches of `cpu_handle_interrupts` run once the
pending flag is cleared: push PC, push the flags, set I, load PC from the vector at
`vector`, `vector + 1`. -/
def deliver (cpu : cpu_state_t) (vector : Nat) : cpu_state_t :=
  let cpu := isa_push16 cpu (isa_get_register16 cpu REG_PC)
  let cpu := isa_push cpu cpu.flags
  let cpu := isa_set_flag cpu FLAG_INTERRUPT
  let word := isa_read_memory cpu vector ||| (isa_read_memory cpu (vector + 1) <<< 8)
  isa_set_register16 cpu REG_PC word

/-- The state `t` with its PC moved `k` bytes forward, as `k` calls of `isa_fetch_byte`
leave it. -/
def advance (t : cpu_state_t) (k : Nat) : cpu_state_t :=
  isa_set_register16 t REG_PC ((cpu_get_pc t + k) % 65536)

/-- The `k`-th byte after the opcode at the PC of `t`. -/
def operand_byte (t : cpu_state_t) (k : Nat) : Nat :=
  t.memory ((cpu_get_pc t + k) % 65536)

/-- The debug fields of a state: breakpoint hit and address, watchpoint address and hit,
trace switch. -/
def debug_state (cpu : cpu_state_t) : Bool × Nat × Nat × Bool × Bool :=
  (cpu.breakpoint_hit, cpu.breakpoint_addr, cpu.watch_addr, cpu.watch_hit, cpu.trace_enabled)

/-- The states of the machine spinning on `BNE -2` at 0x0200: the branch and its operand
are in place, Z is clear, the machine runs with no interrupt pending and no breakpoint,
and the cycle counter is even. -/
def spinning (c : cpu_state_t) : Prop :=
  WF c ∧ cpu_get_pc c = 0x0200 ∧ c.memory 0x0200 = OP_BNE ∧ c.memory 0x0201 = 0xFE ∧
  c.flags = 0 ∧ c.running = true ∧ c.nmi_pending = false ∧ c.irq_pending = false ∧
  c.breakpoint_addr = 0 ∧ c.cycle_count % 2 = 0

/-- What an assembly leaves for inspection: the return value, the error flag, the last
error message, and the first `output_size` bytes of the output buffer. -/
def assembly_result (r : Option (Bool × assembler_t)) :
    Option (Bool × Bool × List Nat × List Nat) :=
  r.map (fun r => (r.1, r.2.error_occurred, r.2.error_message,
    (List.range r.2.output_size).map r.2.output))

/-- Assemble the source text `source`, as the contents of the file `a.asm`, with a newly
created assembler. -/
def assemble (source : String) : Option (Bool × Bool × List Nat × List Nat) :=
  match assembler_create (some (fun _ => 0)) with
  | none => none
  | some assembler =>
    assembly_result (assembler_assemble_file assembler (c_str "a.asm") (some (c_str source)))

/-- The timer after `n` calls of `timer_tick`. -/
def timer_ticks : Nat → timer_device_t → timer_device_t
  | 0, timer => timer
  | n + 1, timer => timer_ticks n (timer_tick timer)

/-- A call made on the machine: `cpu_step`, or `cpu_run` with a cycle budget. -/
inductive call_t where
  | step
  | run (max_cycles : Nat)

/-- The state a call leaves; the loop of `cpu_run` is unrolled at most `fuel` times, and
the result is `none` when it has not returned by then. -/
def call (fuel : Nat) (c : call_t) (cpu : cpu_state_t) : Option cpu_state_t :=
  match c with
  | call_t.step => some (cpu_step cpu).2
  | call_t.run max_cycles => (cpu_run fuel cpu max_cycles).map (fun r => r.2)

/-- The state a sequence of calls leaves. -/
def calls (fuel : Nat) : List call_t → cpu_state_t → Option cpu_state_t
  | [], cpu => some cpu
  | c :: cs, cpu =>
    match call fuel c cpu with
    | none => none
    | some next => calls fuel cs next

/-- A bound on the cycles a call adds: 6 for a step; for a run the budget plus 6, the last
step starting below the budget. -/
def call_cycles : call_t → Nat
  | call_t.step => 6
  | call_t.run max_cycles => max_cycles + 6

/-- The bytes a step reads for an instruction of the given addressing mode: the opcode and
the operand bytes the `switch (inst->addr_mode)` of `isa_execute_instruction` fetches. -/
def fetched_bytes (mode : addressing_mode_t) : Nat :=
  match mode with
  | ADDR_ABSOLUTE => 3
  | ADDR_X_INDEXED => 3
  | ADDR_Y_INDEXED => 3
  | _ => 2

/-- The opcodes of the jumps, calls, returns and branches. -/
def control_flow_opcodes : List Nat :=
  [OP_JMP, OP_JSR, OP_RTS, OP_BEQ, OP_BNE, OP_BCS, OP_BCC, OP_BMI, OP_BPL, OP_BVS, OP_BVC]

/-- A disassembler state over `memory` with the default range 0x0200-0x0300. -/
def disasm_of (memory : Nat → Nat) : disasm_state_t :=
  { memory := memory, start_address := 0x0200, end_address := 0x0300, verbose := false,
    show_addresses := false, show_hex := false }

/-- The state `b` differs from `a` at most in the column, the error message and an error
flag that was raised: what scanning an expression may change. -/
def scanned (a b : assembler_t) : Prop :=
  b.filename = a.filename ∧ b.file = a.file ∧ b.current_line = a.current_line ∧
  b.line_number = a.line_number ∧ b.output = a.output ∧ b.output_size = a.output_size ∧
  b.current_address = a.current_address ∧ b.origin_address = a.origin_address ∧
  b.labels = a.labels ∧ b.symbols = a.symbols ∧
  (a.error_occurred = true → b.error_occurred = true)

/-- The state in which `assembler_parse_instruction` parses the operand of the mnemonic `m`
read from the column after `pre`: the column is behind the mnemonic and the blanks that
follow it, and the opcode byte is emitted. -/
def operand_state (a : assembler_t) (pre m : List Nat) : assembler_t :=
  assembler_emit_byte
    (assembler_skip_whitespace { a with column_number := pre.length + m.length })
    (assembler_get_opcode m)

/-- The value of the target expression of a branch. -/
def branch_target (a : assembler_t) (pre m : List Nat) : Nat :=
  (assembler_parse_expression (operand_state a pre m)).1

/-- The displacement of a branch whose opcode is at `a.current_address`: the target minus
the address behind the two bytes of the branch, as a signed 16-bit number. -/
def branch_displacement (a : assembler_t) (pre m : List Nat) : Int :=
  int16_t ((branch_target a pre m : Int) - ((a.current_address : Int) + 2))

/-- A newly created assembler whose line buffer holds `line`. -/
def at_line (line : String) : assembler_t :=
  { filename := [], file := none, current_line := c_str line, line_number := 0,
    column_number := 0, output := fun _ => 0, output_size := 0, current_address := 0,
    origin_address := 0, labels := [], symbols := [], error_occurred := false,
    error_message := [] }

/-- What an assembly of the source text `source` with a newly created assembler leaves for
the error report: the return value, the number of the last line read and the last error
message. -/
def assemble_report (source : String) : Option (Bool × Nat × List Nat) :=
  (assembler_assemble_file (at_line "") (c_str "a.asm") (some (c_str source))).map
    (fun r => (r.1, r.2.line_number, r.2.error_message))

/-- The expressions of the assembler: a decimal, `$` hexadecimal or `%` binary literal
given by its digit characters, an identifier, a parenthesised expression, and sums and
differences.  A chain `f0 + f1 - f2` is the tree `minus (plus f0 f1) f2`. -/
inductive expression_t where
  | decimal (digits : List Nat)
  | hexadecimal (digits : List Nat)
  | binary (digits : List Nat)
  | identifier (name : List Nat)
  | parenthesised (e : expression_t)
  | plus (left right : expression_t)
  | minus (left right : expression_t)

/-- The characters of an expression, written without blanks. -/
def expression_text : expression_t → List Nat
  | expression_t.decimal digits => digits
  | expression_t.hexadecimal digits => 0x24 :: digits
  | expression_t.binary digits => 0x25 :: digits
  | expression_t.identifier name => name
  | expression_t.parenthesised e => 0x28 :: (expression_text e ++ [0x29])
  | expression_t.plus left right => expression_text left ++ 0x2B :: expression_text right
  | expression_t.minus left right => expression_text left ++ 0x2D :: expression_text right

/-- The value of a digit character: `0`-`9`, `A`-`F`, `a`-`f`. -/
def digit_of (c : Nat) : Nat :=
  if c ≤ 0x39 then c - 0x30 else if c ≤ 0x46 then c - 0x37 else c - 0x57

/-- The usual value of a numeral: every digit times the power of the base its position
stands for. -/
def numeral_value (base : Nat) : List Nat → Nat
  | [] => 0
  | c :: digits => digit_of c * base ^ digits.length + numeral_value base digits

/-- The value of a defined identifier: the address of the label, or else the value of the
symbol, of that name. -/
def identifier_value (a : assembler_t) (name : List Nat) : Nat :=
  match assembler_find_label a name with
  | some label => label.address
  | none =>
    match assembler_find_symbol a name with
    | some symbol => symbol.value
    | none => 0

/-- The value of an expression: literals denote their usual value, sums and differences
are taken left to right, and every result is reduced modulo 65536. -/
def expression_value (a : assembler_t) : expression_t → Nat
  | expression_t.decimal digits => numeral_value 10 digits % 65536
  | expression_t.hexadecimal digits => numeral_value 16 digits % 65536
  | expression_t.binary digits => numeral_value 2 digits % 65536
  | expression_t.identifier name => identifier_value a name
  | expression_t.parenthesised e => expression_value a e
  | expression_t.plus left right => (expression_value a left + expression_value a right) % 65536
  | expression_t.minus left right =>
    (((expression_value a left : Int) - (expression_value a right : Int)) % 65536).toNat

/-- A factor: a literal, an identifier or a parenthesised expression. -/
def is_factor : expression_t → Bool
  | expression_t.plus _ _ => false
  | expression_t.minus _ _ => false
  | _ => true

/-- The expressions whose text the parser reads as written: literals of 1 to 31 digits of
their base whose value does not exceed `LONG_MAX`, identifiers of at most 63 characters
that are defined, and chains whose right operands are factors. -/
def well_formed (a : assembler_t) : expression_t → Bool
  | expression_t.decimal digits =>
    !digits.isEmpty && digits.all isdigit && decide (digits.length ≤ 31) &&
      decide (numeral_value 10 digits ≤ LONG_MAX)
  | expression_t.hexadecimal digits =>
    !digits.isEmpty && digits.all isxdigit && decide (digits.length ≤ 31) &&
      decide (numeral_value 16 digits ≤ LONG_MAX)
  | expression_t.binary digits =>
    !digits.isEmpty && digits.all (fun c => decide (c = 0x30 ∨ c = 0x31)) &&
      decide (digits.length ≤ 31)
  | expression_t.identifier name =>
    !name.isEmpty && name.all assembler_is_identifier_char && !isdigit (name.headD 0) &&
      decide (name.length ≤ 63) &&
      ((assembler_find_label a name).isSome || (assembler_find_symbol a name).isSome)
  | expression_t.parenthesised e => well_formed a e
  | expression_t.plus left right => well_formed a left && well_formed a right && is_factor right
  | expression_t.minus left right => well_formed a left && well_formed a right && is_factor right

/-- The number of operators of the chain an expression is. -/
def operators : expression_t → Nat
  | expression_t.plus left _ => operators left + 1
  | expression_t.minus left _ => operators left + 1
  | _ => 0

/-- The depth of the parentheses of an expression. -/
def nesting : expression_t → Nat
  | expression_t.parenthesised e => nesting e + 1
  | expression_t.plus left right => max (nesting left) (nesting right)
  | expression_t.minus left right => max (nesting left) (nesting right)
  | _ => 0

/-- A call of one of the functions of `devices.c` that write the timer: `timer_init`,
`timer_tick`, `timer_write`, `timer_start`, `timer_stop`, `timer_reset` and
`timer_clear_irq` (`timer_read` and `timer_is_irq_pending` only read it). -/
inductive timer_call_t where
  | init
  | tick
  | write (address value : Nat)
  | start
  | stop
  | reset
  | clear_irq

/-- The timer after one call. -/
def timer_call (c : timer_call_t) (timer : timer_device_t) : timer_device_t :=
  match c with
  | .init => timer_init timer
  | .tick => timer_tick timer
  | .write address value => timer_write timer address value
  | .start => timer_start timer
  | .stop => timer_stop timer
  | .reset => timer_reset timer
  | .clear_irq => timer_clear_irq timer

/-- The timer after a sequence of calls, made from left to right. -/
def timer_calls : List timer_call_t → timer_device_t → timer_device_t
  | [], timer => timer
  | c :: cs, timer => timer_calls cs (timer_call c timer)

/-- The state in which `assembler_parse_line` examines the line that `fgets` has read from
`file`: the line counted, in the buffer, with the column at its start. -/
def line_state (a : assembler_t) (file : file_t) (line : List Nat) : assembler_t :=
  { a with
    file := some (fgets MAX_LINE_LENGTH file).2
    line_number := a.line_number + 1
    current_line := line
    column_number := 0 }

/-- The line that the next iteration of a pass reads: `none` when the loop test `feof`
ends the pass or `fgets` returns `NULL`. -/
def next_line (a : assembler_t) : Option (List Nat) :=
  match a.file with
  | none => none
  | some file => if file.eof then none else (fgets MAX_LINE_LENGTH file).1

/-! ## Sample states -/

/-- A machine with every byte and counter zero. -/
def blank : cpu_state_t :=
  { regs := fun _ => 0, flags := 0, memory := fun _ => 0, running := false,
    irq_pending := false, nmi_pending := false, cycle_count := 0, instruction_count := 0,
    trace_enabled := false, breakpoint_hit := false, breakpoint_addr := 0, watch_addr := 0,
    watch_hit := false, frequency_hz := 1000000, last_tick_time := 0,
    cycles_per_second := 0 }

/-- The set-up of the test suite: `program` is loaded at `address`, then the machine is
warm-reset to that address. -/
def load_and_reset (cpu : cpu_state_t) (program : List Nat) (address : Nat) : cpu_state_t :=
  cpu_reset_to_address (cpu_load_program cpu program address).2 address

/-- The state after `n` calls of `cpu_step`. -/
def steps : Nat → cpu_state_t → cpu_state_t
  | 0, s => s
  | n + 1, s => steps n (cpu_step s).2

/-- Program `LDI #0xFF; ADD #0x01; HLT`. -/
def add_program : List Nat := [0x00, 0xFF, 0x10, 0x01, 0x73]

/-- Program `LDI #0x05; SUB #0x07`. -/
def sub_program : List Nat := [0x00, 0x05, 0x11, 0x07]

/-- Program `LDI #0; CMP #0; BEQ +2; HLT; HLT`, each `HLT` followed by the byte the
emulator fetches as its operand. -/
def branch_program : List Nat := [0x00, 0x00, 0x14, 0x00, 0x50, 0x02, 0x73, 0x00, 0x73, 0x00]

/-- Program `JSR 0x0205; HLT` with `RTS` at 0x0205 when loaded at 0x0200. -/
def call_program : List Nat := [0x41, 0x05, 0x02, 0x73, 0x00, 0x42, 0x00]

/-- Program `LDI #0x42; PHA; LDI #0x07; PLA`, each stack instruction followed by the byte
the emulator fetches as its operand. -/
def stack_program : List Nat := [0x00, 0x42, 0x60, 0x00, 0x00, 0x07, 0x61, 0x00]

/-- Program `CMP #0; PHP; ADD #1; PLP`, each stack instruction followed by the byte the
emulator fetches as its operand. -/
def flags_program : List Nat := [0x14, 0x00, 0x62, 0x00, 0x10, 0x01, 0x63, 0x00]

/-- Program `LDI #0x55; STA [0x1000]; LDI #0x00; LDA [0x1000]; HLT`. -/
def store_program : List Nat :=
  [0x00, 0x55, 0x02, 0x00, 0x10, 0x00, 0x00, 0x01, 0x00, 0x10, 0x73]

/-- A machine whose NMI vector points to 0x0200, where `LDI #0x42` is loaded, warm-reset
to 0x0300 and with an NMI raised by `cpu_nmi`. -/
def interrupt_sample : cpu_state_t :=
  cpu_nmi (cpu_reset_to_address
    (cpu_load_program (cpu_load_program blank [0x00, 0x02] 0xFFFA).2 [0x00, 0x42] 0x0200).2
    0x0300)

/-- The machine `blank` with `program` loaded at `address` and warm-reset to it. -/
def loaded (program : List Nat) (address : Nat) : cpu_state_t :=
  load_and_reset blank program address

/-- Devices with every register zero and every line low. -/
def idle_devices : devices_t :=
  { g_uart := ⟨0, 0, 0, false, false, false, false⟩
    g_gpio := ⟨0, 0, 0⟩
    g_timer := ⟨0, 0, 0, false, false, false, 0, 0⟩ }

/-- Program `BNE -2`: a branch to itself, taken whenever Z is clear. -/
def spin_program : List Nat := [0x51, 0xFE]

/-- Program `LDI #0x05; ADC #0x01`. -/
def adc_program : List Nat := [0x00, 0x05, 0x12, 0x01]

/-- Program `LDI #0x81; SHL A`. -/
def shl_program : List Nat := [0x00, 0x81, 0x30, 0x00]

/-- Program `LDI #0x00; SUB #0x01; BMI +2`. -/
def bmi_program : List Nat := [0x00, 0x00, 0x11, 0x01, 0x54, 0x02]

/-- The state of the reset test: A = 0x42, PC = 0x1234, flags = 0xFF, running. -/
def dirty_sample : cpu_state_t :=
  let cpu := isa_set_register blank REG_A 0x42
  let cpu := isa_set_register16 cpu REG_PC 0x1234
  { cpu with flags := 0xFF, running := true }

/-- Program `LDI #0x55; STA [0x8003]`: a store to the address of the parallel port. -/
def port_program : List Nat := [0x00, 0x55, 0x02, 0x03, 0x80]

/-- Program `LDI #0xFF; ADD #0x01; INC A`, `INC` with register operand 0. -/
def inc_program : List Nat := [0x00, 0xFF, 0x10, 0x01, 0x15, 0x00]

/-- Program `LDI #0x05; CMP #0x05`. -/
def cmp_program : List Nat := [0x00, 0x05, 0x14, 0x05]

/-- Program `LDI #0x55; STA [0x1000]; LDA [0x1000]`. -/
def watch_program : List Nat := [0x00, 0x55, 0x02, 0x00, 0x10, 0x01, 0x00, 0x10]

/-- A timer as `timer_init` leaves it. -/
def fresh_timer : timer_device_t := timer_init idle_devices.g_timer

/-- The timer after `timer_init`, count := 2 through 0x8007 and run | IRQ-enable (0x06) to
the control register. -/
def counting_timer : timer_device_t :=
  timer_calls [.write TIMER_COUNT_ADDR 2, .write TIMER_CTRL_ADDR 0x06]
    (timer_init idle_devices.g_timer)

/-- The machine about to execute `LDI #0x42` at 0x0200 with both counters at the largest
value of their types. -/
def saturated_sample : cpu_state_t :=
  { loaded [0x00, 0x42] 0x0200 with
    cycle_count := 18446744073709551615
    instruction_count := 4294967295 }

/-- A newly created assembler at address 0x0200 whose line buffer holds `line`. -/
def at_0200 (line : String) : assembler_t :=
  { at_line line with current_address := 0x0200 }

/-- The expression `10-3-2`. -/
def chain_sample : expression_t :=
  expression_t.minus
    (expression_t.minus (expression_t.decimal (c_str "10")) (expression_t.decimal (c_str "3")))
    (expression_t.decimal (c_str "2"))

/-- The expression `$FFFF+2`. -/
def wrap_sample : expression_t :=
  expression_t.plus (expression_t.hexadecimal (c_str "FFFF")) (expression_t.decimal (c_str "2"))

/-- The expression `0-1`. -/
def borrow_sample : expression_t :=
  expression_t.minus (expression_t.decimal (c_str "0")) (expression_t.decimal (c_str "1"))

/-- The expression `%1010+$7F+123`. -/
def bases_sample : expression_t :=
  expression_t.plus
    (expression_t.plus (expression_t.binary (c_str "1010"))
      (expression_t.hexadecimal (c_str "7F")))
    (expression_t.decimal (c_str "123"))

/-- The expression `(10-(3-2))+$FFFF`. -/
def nested_sample : expression_t :=
  expression_t.plus
    (expression_t.parenthesised
      (expression_t.minus (expression_t.decimal (c_str "10"))
        (expression_t.parenthesised
          (expression_t.minus (expression_t.decimal (c_str "3"))
            (expression_t.decimal (c_str "2"))))))
    (expression_t.hexadecimal (c_str "FFFF"))

/-- A newly created assembler in a pass over a file that holds `source`, before the first
line is read. -/
def reading (source : String) : assembler_t :=
  { at_line "" with file := some ⟨c_str source, 0, false⟩ }

/-! # Lemmas -/

/-! ## Bytes, words and the register file -/

theorem store_apply (f : Nat → Nat) (i v j : Nat) :
    store f i v j = if j = i then v else f j := rfl

theorem and_255 (v : Nat) : v &&& 255 = v % 256 :=
  Nat.and_pow_two_sub_one_eq_mod v 8

theorem word_or (lo hi : Nat) (hlo : lo < 256) : lo ||| (hi <<< 8) = lo + 256 * hi := by
  have h := Nat.mul_add_lt_is_or (i := 8) (b := lo) (by omega) hi
  rw [Nat.shiftLeft_eq, Nat.or_comm, Nat.mul_comm, ← h]
  omega

theorem word_join (v : Nat) : (v &&& 255) ||| ((v >>> 8 &&& 255) <<< 8) = v % 65536 := by
  rw [and_255, and_255, word_or _ _ (by omega), Nat.shiftRight_eq_div_pow]
  omega

theorem uint16_t_lt (i : Int) : uint16_t i < 65536 := by
  unfold uint16_t; omega

theorem uint16_t_add (n k : Nat) : uint16_t ((n : Int) + (k : Int)) = (n + k) % 65536 := by
  unfold uint16_t; omega

theorem uint16_t_succ (n : Nat) : uint16_t ((n : Int) + 1) = (n + 1) % 65536 := by
  unfold uint16_t; omega

theorem uint16_t_pred (n : Nat) : uint16_t ((n : Int) - 1) = (n + 65535) % 65536 := by
  unfold uint16_t; omega

theorem get16_lt (cpu : cpu_state_t) (hwf : WF cpu) (r : Nat) :
    isa_get_register16 cpu r < 65536 := by
  unfold isa_get_register16
  split
  · have h1 := hwf.regs_lt ((r - REG_X) * 2)
    have h2 := hwf.regs_lt ((r - REG_X) * 2 + 1)
    simp only [word_or _ _ h1]
    omega
  · omega

theorem pc_lt (cpu : cpu_state_t) (hwf : WF cpu) : cpu_get_pc cpu < 65536 :=
  get16_lt cpu hwf REG_PC

theorem sp_lt (cpu : cpu_state_t) (hwf : WF cpu) : cpu_get_sp cpu < 65536 :=
  get16_lt cpu hwf REG_SP

/-! ## The flag byte -/

set_option maxRecDepth 100000 in
theorem flag_bits_fin : ∀ (f : Fin 256) (z n c o : Bool),
    ((flag_bits f.val z n c o &&& FLAG_ZERO) != 0) = z ∧
    ((flag_bits f.val z n c o &&& FLAG_NEGATIVE) != 0) = n ∧
    ((flag_bits f.val z n c o &&& FLAG_CARRY) != 0) = c ∧
    ((flag_bits f.val z n c o &&& FLAG_OVERFLOW) != 0) = o ∧
    flag_bits f.val z n c o &&& 0xF0 = f.val &&& 0xF0 ∧
    flag_bits f.val z n c o < 256 := by
  decide

theorem flag_bits_spec (f : Nat) (hf : f < 256) (z n c o : Bool) :
    ((flag_bits f z n c o &&& FLAG_ZERO) != 0) = z ∧
    ((flag_bits f z n c o &&& FLAG_NEGATIVE) != 0) = n ∧
    ((flag_bits f z n c o &&& FLAG_CARRY) != 0) = c ∧
    ((flag_bits f z n c o &&& FLAG_OVERFLOW) != 0) = o ∧
    flag_bits f z n c o &&& 0xF0 = f &&& 0xF0 ∧
    flag_bits f z n c o < 256 :=
  flag_bits_fin ⟨f, hf⟩ z n c o

theorem isa_update_flags_eq (cpu : cpu_state_t) (result : Nat) (carry overflow : Bool) :
    isa_update_flags cpu result carry overflow =
      { cpu with
        flags := flag_bits cpu.flags (decide (result = 0)) (decide (result &&& 0x80 ≠ 0))
          carry overflow } := by
  unfold isa_update_flags flag_bits isa_set_flag isa_clear_flag
  by_cases h1 : result = 0 <;> by_cases h2 : result &&& 0x80 = 0 <;>
    cases carry <;> cases overflow <;> simp [h1, h2]

/-! ## One step -/

theorem cpu_step_eq (s : cpu_state_t)
    (hbp : ¬ (s.breakpoint_addr ≠ 0 ∧ cpu_get_pc s = s.breakpoint_addr)) :
    cpu_step s = isa_execute_instruction (cpu_handle_interrupts s) := by
  unfold cpu_step
  simp only [cpu_get_pc] at hbp
  simp only [hbp, if_false]

theorem set16_set16 (t : cpu_state_t) (r v w : Nat) :
    isa_set_register16 (isa_set_register16 t r v) r w = isa_set_register16 t r w := by
  unfold isa_set_register16
  by_cases h : REG_X ≤ r ∧ r ≤ REG_PC
  · simp only [h, and_self, if_true, cpu_state_t.mk.injEq, and_true]
    funext j
    simp only [store_apply]
    split_ifs <;> rfl
  · simp only [h, if_false]

theorem get16_set16 (t : cpu_state_t) (r v : Nat) (hr : REG_X ≤ r ∧ r ≤ REG_PC) :
    isa_get_register16 (isa_set_register16 t r v) r = v % 65536 := by
  unfold isa_get_register16 isa_set_register16
  simp only [hr, and_self, if_true, store_apply]
  have h1 : (r - REG_X) * 2 ≠ (r - REG_X) * 2 + 1 := by omega
  simp only [h1, if_false, if_true, word_join]

theorem fetch_byte_eq (t : cpu_state_t) :
    isa_fetch_byte t = (t.memory (cpu_get_pc t), advance t 1) := by
  simp only [isa_fetch_byte, isa_read_memory, advance, cpu_get_pc, uint16_t_succ]

theorem set16_memory (t : cpu_state_t) (r v : Nat) :
    (isa_set_register16 t r v).memory = t.memory := by
  unfold isa_set_register16
  split <;> rfl

theorem fetch_byte_advance (t : cpu_state_t) (k : Nat) :
    isa_fetch_byte (advance t k) = (operand_byte t k, advance t (k + 1)) := by
  have h : cpu_get_pc (isa_set_register16 t REG_PC ((cpu_get_pc t + k) % 65536)) =
      (cpu_get_pc t + k) % 65536 := by
    simp only [cpu_get_pc]
    rw [get16_set16 _ _ _ (by decide), Nat.mod_mod]
  have e : ((cpu_get_pc t + k) % 65536 + 1) % 65536 = (cpu_get_pc t + (k + 1)) % 65536 := by
    omega
  rw [fetch_byte_eq]
  simp only [advance, h, set16_set16, operand_byte, set16_memory, e]

/-- Execution of an instruction whose addressing mode takes one operand byte. -/
theorem exec_one (t : cpu_state_t) (op : Nat) (inst : instruction_t)
    (hop : t.memory (cpu_get_pc t) = op)
    (hi : isa_get_instruction op = some inst)
    (hm : inst.addr_mode ≠ ADDR_ABSOLUTE ∧ inst.addr_mode ≠ ADDR_X_INDEXED ∧
      inst.addr_mode ≠ ADDR_Y_INDEXED) :
    isa_execute_instruction t =
      ((execute_opcode (advance t 2) inst (operand_byte t 1) 0).1,
        update_cycle_count (execute_opcode (advance t 2) inst (operand_byte t 1) 0).2 inst) := by
  unfold isa_execute_instruction
  simp only [fetch_byte_eq, hop, isa_is_valid_opcode, hi, Option.isSome_some, Bool.not_true,
    Bool.false_eq_true, if_false]
  obtain ⟨h1, h2, h3⟩ := hm
  cases hmode : inst.addr_mode <;> simp_all [fetch_operands, fetch_byte_advance]

/-- Execution of an instruction whose addressing mode takes two operand bytes. -/
theorem exec_two (t : cpu_state_t) (op : Nat) (inst : instruction_t)
    (hop : t.memory (cpu_get_pc t) = op)
    (hi : isa_get_instruction op = some inst)
    (hm : inst.addr_mode = ADDR_ABSOLUTE ∨ inst.addr_mode = ADDR_X_INDEXED ∨
      inst.addr_mode = ADDR_Y_INDEXED) :
    isa_execute_instruction t =
      ((execute_opcode (advance t 3) inst (operand_byte t 1) (operand_byte t 2)).1,
        update_cycle_count
          (execute_opcode (advance t 3) inst (operand_byte t 1) (operand_byte t 2)).2 inst) := by
  unfold isa_execute_instruction
  simp only [fetch_byte_eq, hop, isa_is_valid_opcode, hi, Option.isSome_some, Bool.not_true,
    Bool.false_eq_true, if_false]
  rcases hm with h | h | h <;> simp [h, fetch_operands, fetch_byte_advance]

/-! ## Bit 7 and signed overflow -/

theorem and_bit_ne_zero (x i : Nat) : (x &&& 2 ^ i != 0) = x.testBit i := by
  rw [Nat.and_two_pow]
  cases h : x.testBit i <;> simp

theorem and_128_ne_zero (x : Nat) : (x &&& 128 != 0) = x.testBit 7 :=
  and_bit_ne_zero x 7

theorem testBit_7_mod (x : Nat) : (x % 256).testBit 7 = x.testBit 7 := by
  have h := Nat.testBit_mod_two_pow x 8 7
  simpa using h

theorem testBit_7_byte (x : Nat) (hx : x < 256) : x.testBit 7 = decide (128 ≤ x) := by
  rw [Nat.testBit_to_div_mod]
  congr 1
  apply propext
  omega

/-- The overflow expression of the source depends on `result` only through its low byte. -/
theorem overflow_low_byte (a v res : Nat) :
    ((a ^^^ res) &&& (v ^^^ res) &&& 128 != 0) =
      ((a ^^^ (res % 256)) &&& (v ^^^ (res % 256)) &&& 128 != 0) := by
  simp only [and_128_ne_zero, Nat.testBit_and, Nat.testBit_xor, testBit_7_mod]

/-- The overflow expression of `ADD` is signed overflow of the 8-bit sum. -/
theorem add_overflow_signed (a v : Nat) (ha : a < 256) (hv : v < 256) :
    ((a ^^^ ((a + v) % 256)) &&& (v ^^^ ((a + v) % 256)) &&& 128 != 0) =
      decide (int8_t a + int8_t v < -128 ∨ 127 < int8_t a + int8_t v) := by
  have hr : (a + v) % 256 < 256 := Nat.mod_lt _ (by omega)
  simp only [and_128_ne_zero, Nat.testBit_and, Nat.testBit_xor, testBit_7_byte a ha,
    testBit_7_byte v hv, testBit_7_byte _ hr, int8_t]
  by_cases h1 : 128 ≤ a <;> by_cases h2 : 128 ≤ v <;> by_cases h3 : 128 ≤ (a + v) % 256 <;>
    simp [h1, h2, h3] <;> omega

/-! ## Subtraction -/

theorem uint16_t_sub_low (a v : Nat) : uint16_t ((a : Int) - (v : Int)) % 256 = uint8_t ((a : Int) - (v : Int)) := by
  unfold uint16_t uint8_t; omega

theorem uint8_t_sub_eq_zero (a v : Nat) (ha : a < 256) (hv : v < 256) :
    uint8_t ((a : Int) - (v : Int)) = 0 ↔ a = v := by
  unfold uint8_t; omega

theorem WF_handle_interrupts (s : cpu_state_t) (hwf : WF s) : WF (cpu_handle_interrupts s) := by
  have hr := hwf.regs_lt
  have hm := hwf.memory_lt
  have hf := hwf.flags_lt
  have hb : ∀ x : Nat, x &&& 255 < 256 := fun x => by rw [and_255]; omega
  have hfl : s.flags ||| 16 < 256 := by
    have : s.flags ||| 16 < 2 ^ 8 := Nat.or_lt_two_pow (by simpa using hf) (by norm_num)
    simpa using this
  unfold cpu_handle_interrupts
  split
  · constructor
    · intro i
      simp [isa_set_register16, isa_set_flag, isa_push, isa_push16, isa_write_memory, store_apply]
      split_ifs <;> first | exact hb _ | exact hr _
    · simpa [isa_set_register16, isa_set_flag, isa_push, isa_push16, isa_write_memory] using hfl
    · intro a
      simp [isa_set_register16, isa_set_flag, isa_push, isa_push16, isa_write_memory, store_apply]
      split_ifs <;> first | exact hb _ | exact hm _ | exact hf
    · simpa [isa_set_register16, isa_set_flag, isa_push, isa_push16, isa_write_memory] using hwf.cycle_lt
    · simpa [isa_set_register16, isa_set_flag, isa_push, isa_push16, isa_write_memory] using hwf.instr_lt
    · simpa [isa_set_register16, isa_set_flag, isa_push, isa_push16, isa_write_memory] using hwf.break_lt
    · simpa [isa_set_register16, isa_set_flag, isa_push, isa_push16, isa_write_memory] using hwf.watch_lt
  · split
    · constructor
      · intro i
        simp [isa_set_register16, isa_set_flag, isa_push, isa_push16, isa_write_memory, store_apply]
        split_ifs <;> first | exact hb _ | exact hr _
      · simpa [isa_set_register16, isa_set_flag, isa_push, isa_push16, isa_write_memory] using hfl
      · intro a
        simp [isa_set_register16, isa_set_flag, isa_push, isa_push16, isa_write_memory, store_apply]
        split_ifs <;> first | exact hb _ | exact hm _ | exact hf
      · simpa [isa_set_register16, isa_set_flag, isa_push, isa_push16, isa_write_memory] using hwf.cycle_lt
      · simpa [isa_set_register16, isa_set_flag, isa_push, isa_push16, isa_write_memory] using hwf.instr_lt
      · simpa [isa_set_register16, isa_set_flag, isa_push, isa_push16, isa_write_memory] using hwf.break_lt
      · simpa [isa_set_register16, isa_set_flag, isa_push, isa_push16, isa_write_memory] using hwf.watch_lt
    · exact hwf

theorem load_and_reset_facts (cpu : cpu_state_t) (a v : Nat) (ha : a ≤ 0xFFFE) :
    (cpu_load_program cpu [0x00, v] a).1 = true ∧
    (cpu_load_program cpu [0x00, v] a).2.memory a = 0x00 ∧
    (cpu_load_program cpu [0x00, v] a).2.memory (a + 1) = v ∧
    (load_and_reset cpu [0x00, v] a).memory = (cpu_load_program cpu [0x00, v] a).2.memory ∧
    cpu_get_pc (load_and_reset cpu [0x00, v] a) = a ∧
    cpu_get_sp (load_and_reset cpu [0x00, v] a) = 0x7FFF ∧
    (load_and_reset cpu [0x00, v] a).flags = 0 ∧
    (load_and_reset cpu [0x00, v] a).running = false := by
  have h1 : ¬ (65536 < a + 2) := by omega
  have h2 : a % 65536 = a := Nat.mod_eq_of_lt (by omega)
  refine ⟨?_, ?_, ?_, ?_, ?_, ?_, ?_, ?_⟩ <;>
    simp [load_and_reset, cpu_load_program, cpu_reset_to_address, cpu_get_pc, cpu_get_sp,
      isa_get_register16, isa_set_register16, store_apply, word_join, h1, h2]
  decide


theorem exec_LDI (t : cpu_state_t) (hop : t.memory (cpu_get_pc t) = OP_LDI) :
    (isa_execute_instruction t).1 = true ∧
    cpu_get_a (isa_execute_instruction t).2 = operand_byte t 1 ∧
    cpu_get_pc (isa_execute_instruction t).2 = (cpu_get_pc t + 2) % 65536 ∧
    (isa_execute_instruction t).2.cycle_count = uint64_t ((t.cycle_count : Int) + 2) ∧
    (isa_execute_instruction t).2.instruction_count =
      uint32_t ((t.instruction_count : Int) + 1) ∧
    (isa_execute_instruction t).2.flags = t.flags ∧
    cpu_get_sp (isa_execute_instruction t).2 = cpu_get_sp t ∧
    (isa_execute_instruction t).2.memory = t.memory ∧
    (isa_execute_instruction t).2.running = t.running := by
  have hi : isa_get_instruction OP_LDI = some ⟨OP_LDI, ADDR_IMMEDIATE, 0, 0, 2, "LDI"⟩ := rfl
  rw [exec_one t _ _ hop hi (by decide)]
  refine ⟨?_, ?_, ?_, ?_, ?_, ?_, ?_, ?_, ?_⟩ <;>
    simp [execute_opcode, update_cycle_count, advance, isa_get_register16,
      isa_set_register16, isa_set_register, isa_get_register, store_apply, word_join,
      cpu_get_pc, cpu_get_a, cpu_get_sp]

/-! ## Reading the flags after `isa_update_flags` -/

theorem get_flag_of_flag_bits (cpu : cpu_state_t) (f : Nat) (z n c o : Bool) (hf : f < 256)
    (h : cpu.flags = flag_bits f z n c o) :
    isa_get_flag cpu FLAG_ZERO = z ∧ isa_get_flag cpu FLAG_NEGATIVE = n ∧
    isa_get_flag cpu FLAG_CARRY = c ∧ isa_get_flag cpu FLAG_OVERFLOW = o ∧
    cpu.flags &&& 0xF0 = f &&& 0xF0 ∧ cpu.flags < 256 := by
  unfold isa_get_flag
  rw [h]
  exact flag_bits_spec f hf z n c o

theorem bit7_decide (x : Nat) : decide (x &&& 0x80 ≠ 0) = x.testBit 7 := by
  rw [← and_128_ne_zero]
  cases h : (x &&& 128 != 0) <;> simp_all

theorem and_255_lt (x : Nat) : x &&& 255 < 256 := by
  rw [and_255]; omega

theorem uint8_t_lt (i : Int) : uint8_t i < 256 := by
  unfold uint8_t; omega

theorem byte_or_lt (x y : Nat) (hx : x < 256) (hy : y < 256) : x ||| y < 256 := by
  have : x ||| y < 2 ^ 8 := Nat.or_lt_two_pow (by simpa using hx) (by simpa using hy)
  simpa using this

theorem byte_and_lt (x y : Nat) (hx : x < 256) : x &&& y < 256 :=
  Nat.lt_of_le_of_lt Nat.and_le_left hx

theorem byte_xor_lt (x y : Nat) (hx : x < 256) (hy : y < 256) : x ^^^ y < 256 := by
  have : x ^^^ y < 2 ^ 8 := Nat.xor_lt_two_pow (by simpa using hx) (by simpa using hy)
  simpa using this

theorem WF_set_register (c : cpu_state_t) (r v : Nat) (h : WF c) (hv : v < 256) :
    WF (isa_set_register c r v) := by
  unfold isa_set_register
  split_ifs
  · exact ⟨fun i => by simp only [store_apply]; split_ifs <;> first | exact hv | exact h.regs_lt i,
      h.flags_lt, h.memory_lt, h.cycle_lt, h.instr_lt, h.break_lt, h.watch_lt⟩
  · exact ⟨h.regs_lt, hv, h.memory_lt, h.cycle_lt, h.instr_lt, h.break_lt, h.watch_lt⟩
  · exact h

theorem WF_write_memory (c : cpu_state_t) (a v : Nat) (h : WF c) (hv : v < 256) :
    WF (isa_write_memory c a v) :=
  ⟨h.regs_lt, h.flags_lt,
    fun i => by
      simp only [isa_write_memory, store_apply]
      split_ifs <;> first | exact hv | exact h.memory_lt i,
    h.cycle_lt, h.instr_lt, h.break_lt, h.watch_lt⟩

theorem WF_set_register16 (c : cpu_state_t) (r v : Nat) (h : WF c) :
    WF (isa_set_register16 c r v) := by
  unfold isa_set_register16
  split_ifs
  · exact ⟨fun i => by
        simp only [store_apply]
        split_ifs <;> first | exact and_255_lt _ | exact h.regs_lt i,
      h.flags_lt, h.memory_lt, h.cycle_lt, h.instr_lt, h.break_lt, h.watch_lt⟩
  · exact h

theorem WF_set_flags (c : cpu_state_t) (f : Nat) (h : WF c) (hf : f < 256) :
    WF { c with flags := f } :=
  ⟨h.regs_lt, hf, h.memory_lt, h.cycle_lt, h.instr_lt, h.break_lt, h.watch_lt⟩

theorem WF_set_flag (c : cpu_state_t) (f : Nat) (h : WF c) (hf : f < 256) :
    WF (isa_set_flag c f) :=
  WF_set_flags c _ h (byte_or_lt _ _ h.flags_lt hf)

theorem WF_clear_flag (c : cpu_state_t) (f : Nat) (h : WF c) : WF (isa_clear_flag c f) :=
  WF_set_flags c _ h (byte_and_lt _ _ h.flags_lt)

theorem WF_update_flags (c : cpu_state_t) (r : Nat) (cy ov : Bool) (h : WF c) :
    WF (isa_update_flags c r cy ov) := by
  rw [isa_update_flags_eq]
  exact WF_set_flags c _ h (flag_bits_spec c.flags h.flags_lt _ _ _ _).2.2.2.2.2

theorem WF_push (c : cpu_state_t) (v : Nat) (h : WF c) (hv : v < 256) : WF (isa_push c v) :=
  WF_set_register16 _ _ _ (WF_write_memory c _ v h hv)

theorem WF_push16 (c : cpu_state_t) (v : Nat) (h : WF c) : WF (isa_push16 c v) :=
  WF_push _ _ (WF_push c _ h (and_255_lt _)) (and_255_lt _)

theorem WF_pop (c : cpu_state_t) (h : WF c) : (isa_pop c).1 < 256 ∧ WF (isa_pop c).2 := by
  unfold isa_pop isa_read_memory
  dsimp only
  exact ⟨(WF_set_register16 c _ _ h).memory_lt _, WF_set_register16 c _ _ h⟩

theorem WF_pop16 (c : cpu_state_t) (h : WF c) : WF (isa_pop16 c).2 :=
  (WF_pop _ (WF_pop c h).2).2

theorem WF_update_cycle_count (c : cpu_state_t) (inst : instruction_t) (h : WF c) :
    WF (update_cycle_count c inst) :=
  ⟨h.regs_lt, h.flags_lt, h.memory_lt, by simp only [update_cycle_count, uint64_t]; omega,
    by simp only [update_cycle_count, uint32_t]; omega, h.break_lt, h.watch_lt⟩

theorem get_register_lt (c : cpu_state_t) (r : Nat) (h : WF c) : isa_get_register c r < 256 := by
  unfold isa_get_register
  split_ifs
  · exact h.regs_lt r
  · exact h.flags_lt
  · omega

theorem WF_ite (p : Prop) [Decidable p] (a b : Bool × cpu_state_t) (ha : p → WF a.2)
    (hb : ¬ p → WF b.2) : WF (if p then a else b).2 := by
  split_ifs with hp
  · exact ha hp
  · exact hb hp

theorem WF_execute_opcode (c : cpu_state_t) (inst : instruction_t) (o1 o2 : Nat) (h : WF c)
    (h1 : o1 < 256) : WF (execute_opcode c inst o1 o2).2 := by
  have hval : operand_value c inst o1 o2 < 256 := by
    unfold operand_value
    split_ifs
    · exact h1
    · exact h.memory_lt _
  have hrun : WF { c with running := false } :=
    ⟨h.regs_lt, h.flags_lt, h.memory_lt, h.cycle_lt, h.instr_lt, h.break_lt, h.watch_lt⟩
  unfold execute_opcode
  repeat' (apply WF_ite <;> intro _)
  all_goals dsimp only
  · exact WF_set_register _ _ _ h h1
  · exact WF_set_register _ _ _ h (h.memory_lt _)
  · exact WF_write_memory _ _ _ h (get_register_lt _ _ h)
  · exact WF_set_register _ _ _ h (get_register_lt _ _ h)
  · exact WF_update_flags _ _ _ _ (WF_set_register _ _ _ h (and_255_lt _))
  · exact WF_update_flags _ _ _ _ (WF_set_register _ _ _ h (and_255_lt _))
  · exact WF_update_flags _ _ _ _ h
  · exact WF_update_flags _ _ _ _ (WF_set_register _ _ _ h (uint8_t_lt _))
  · exact WF_update_flags _ _ _ _ (WF_write_memory _ _ _ h (uint8_t_lt _))
  · exact WF_update_flags _ _ _ _ (WF_set_register _ _ _ h (uint8_t_lt _))
  · exact WF_update_flags _ _ _ _ (WF_write_memory _ _ _ h (uint8_t_lt _))
  · exact WF_update_flags _ _ _ _ (WF_set_register _ _ _ h
      (byte_and_lt _ _ (get_register_lt _ _ h)))
  · exact WF_update_flags _ _ _ _ (WF_set_register _ _ _ h
      (byte_or_lt _ _ (get_register_lt _ _ h) hval))
  · exact WF_update_flags _ _ _ _ (WF_set_register _ _ _ h
      (byte_xor_lt _ _ (get_register_lt _ _ h) hval))
  · exact WF_set_register16 _ _ _ h
  · exact WF_set_register16 _ _ _ (WF_push16 _ _ h)
  · exact WF_set_register16 _ _ _ (WF_pop16 _ h)
  · exact WF_set_register16 _ _ _ h
  · exact h
  · exact WF_set_register16 _ _ _ h
  · exact h
  · exact WF_set_register16 _ _ _ h
  · exact h
  · exact WF_set_register16 _ _ _ h
  · exact h
  · exact WF_push _ _ h (get_register_lt _ _ h)
  · exact WF_set_register _ _ _ (WF_pop _ h).2 (WF_pop _ h).1
  · exact WF_push _ _ h h.flags_lt
  · exact WF_set_flags _ _ (WF_pop _ h).2 (WF_pop _ h).1
  · exact WF_push _ _ h (get_register_lt _ _ h)
  · exact WF_set_register _ _ _ (WF_pop _ h).2 (WF_pop _ h).1
  · exact WF_set_flag _ _ h (by decide)
  · exact WF_clear_flag _ _ h
  · exact h
  · exact hrun
  · exact h

theorem WF_fetch_byte (c : cpu_state_t) (h : WF c) :
    (isa_fetch_byte c).1 < 256 ∧ WF (isa_fetch_byte c).2 := by
  unfold isa_fetch_byte isa_read_memory
  dsimp only
  exact ⟨h.memory_lt _, WF_set_register16 _ _ _ h⟩

theorem WF_fetch_operands (c : cpu_state_t) (m : addressing_mode_t) (h : WF c) :
    (fetch_operands c m).1 < 256 ∧ WF (fetch_operands c m).2.2 := by
  cases m <;>
    first
    | exact WF_fetch_byte c h
    | exact ⟨(WF_fetch_byte c h).1, (WF_fetch_byte _ (WF_fetch_byte c h).2).2⟩

theorem WF_execute_instruction (c : cpu_state_t) (h : WF c) :
    WF (isa_execute_instruction c).2 := by
  have hf := (WF_fetch_byte c h).2
  unfold isa_execute_instruction
  simp only
  split_ifs
  · exact ⟨hf.regs_lt, hf.flags_lt, hf.memory_lt, hf.cycle_lt, hf.instr_lt, hf.break_lt,
      hf.watch_lt⟩
  · split
    · exact hf
    · exact WF_update_cycle_count _ _
        (WF_execute_opcode _ _ _ _ (WF_fetch_operands _ _ hf).2 (WF_fetch_operands _ _ hf).1)

theorem WF_cpu_step (s : cpu_state_t) (h : WF s) : WF (cpu_step s).2 := by
  unfold cpu_step
  dsimp only
  split_ifs
  · exact ⟨h.regs_lt, h.flags_lt, h.memory_lt, h.cycle_lt, h.instr_lt, h.break_lt, h.watch_lt⟩
  · exact WF_execute_instruction _ (WF_handle_interrupts s h)

theorem WF_blank : WF blank := by
  constructor <;> intros <;> simp [blank]

theorem WF_load_program (c : cpu_state_t) (program : List Nat) (a : Nat) (h : WF c)
    (hp : ∀ b ∈ program, b < 256) : WF (cpu_load_program c program a).2 := by
  unfold cpu_load_program
  dsimp only
  split_ifs
  · exact h
  · refine ⟨h.regs_lt, h.flags_lt, fun x => ?_, h.cycle_lt, h.instr_lt, h.break_lt, h.watch_lt⟩
    dsimp only
    split_ifs with hx
    · rw [List.getD_eq_getElem _ _ (by omega)]
      exact hp _ (List.getElem_mem _)
    · exact h.memory_lt x

theorem WF_reset_to_address (c : cpu_state_t) (a : Nat) (h : WF c) :
    WF (cpu_reset_to_address c a) := by
  have h0 : WF { c with regs := fun _ => 0 } :=
    ⟨fun _ => Nat.zero_lt_succ _, h.flags_lt, h.memory_lt, h.cycle_lt, h.instr_lt, h.break_lt,
      h.watch_lt⟩
  have h2 := WF_set_register16 _ REG_PC a (WF_set_register16 _ REG_SP 0x7FFF h0)
  refine ⟨h2.regs_lt, ?_, h2.memory_lt, ?_, ?_, ?_, ?_⟩ <;> simp [cpu_reset_to_address]

theorem WF_load_and_reset (c : cpu_state_t) (program : List Nat) (a : Nat) (h : WF c)
    (hp : ∀ b ∈ program, b < 256) : WF (load_and_reset c program a) :=
  WF_reset_to_address _ a (WF_load_program c program a h hp)

theorem WF_loaded (program : List Nat) (a : Nat) (hp : ∀ b ∈ program, b < 256) :
    WF (loaded program a) :=
  WF_load_and_reset blank program a WF_blank hp

theorem handle_interrupts_regs (s : cpu_state_t) (i : Nat) (hi : i < 4) :
    (cpu_handle_interrupts s).regs i = s.regs i := by
  have h4 : i ≠ 4 := by omega
  have h5 : i ≠ 5 := by omega
  have h6 : i ≠ 6 := by omega
  have h7 : i ≠ 7 := by omega
  unfold cpu_handle_interrupts
  split_ifs <;>
    simp [isa_set_register16, isa_set_flag, isa_push, isa_push16, isa_write_memory,
      store_apply, h4, h5, h6, h7]

theorem get16_pc_advance (t : cpu_state_t) (k : Nat) :
    isa_get_register16 (advance t k) REG_PC = (cpu_get_pc t + k) % 65536 := by
  unfold advance
  rw [get16_set16 _ _ _ (by decide), Nat.mod_mod]

theorem get_flag_advance (t : cpu_state_t) (k f : Nat) :
    isa_get_flag (advance t k) f = isa_get_flag t f := by
  simp [advance, isa_get_flag, isa_set_register16]

/-- The state a taken branch leaves. -/
theorem branch_taken_facts (t : cpu_state_t) (inst : instruction_t) (d : Nat) (hwt : WF t) :
    (cpu_get_pc (update_cycle_count (isa_set_register16 (advance t 2) REG_PC
      (isa_get_address (advance t 2) ADDR_RELATIVE d 0)) inst) : Int) =
        ((cpu_get_pc t : Int) + 2 + int8_t d) % 65536 ∧
    (∀ r, r < 4 → isa_get_register (update_cycle_count (isa_set_register16 (advance t 2) REG_PC
      (isa_get_address (advance t 2) ADDR_RELATIVE d 0)) inst) r = isa_get_register t r) ∧
    cpu_get_sp (update_cycle_count (isa_set_register16 (advance t 2) REG_PC
      (isa_get_address (advance t 2) ADDR_RELATIVE d 0)) inst) = cpu_get_sp t ∧
    (update_cycle_count (isa_set_register16 (advance t 2) REG_PC
      (isa_get_address (advance t 2) ADDR_RELATIVE d 0)) inst).flags = t.flags ∧
    (update_cycle_count (isa_set_register16 (advance t 2) REG_PC
      (isa_get_address (advance t 2) ADDR_RELATIVE d 0)) inst).memory = t.memory := by
  have hpc := pc_lt t hwt
  refine ⟨?_, ?_, ?_, ?_, ?_⟩
  · have e : cpu_get_pc (update_cycle_count (isa_set_register16 (advance t 2) REG_PC
        (isa_get_address (advance t 2) ADDR_RELATIVE d 0)) inst) =
        uint16_t (((cpu_get_pc t + 2) % 65536 : Nat) + int8_t d) % 65536 := by
      simp only [isa_get_address, get16_pc_advance]
      exact get16_set16 (advance t 2) REG_PC _ (by decide)
    rw [e]
    unfold uint16_t
    omega
  · intro r hr
    have h6 : r ≠ 6 := by omega
    have h7 : r ≠ 7 := by omega
    simp [update_cycle_count, advance, isa_get_register, isa_set_register16, store_apply, hr,
      h6, h7]
  · simp [update_cycle_count, advance, cpu_get_sp, isa_get_register16, isa_set_register16,
      store_apply]
  · simp [update_cycle_count, advance, isa_set_register16]
  · simp [update_cycle_count, advance, isa_set_register16]

/-- The state a branch that is not taken leaves. -/
theorem branch_not_taken_facts (t : cpu_state_t) (inst : instruction_t) :
    cpu_get_pc (update_cycle_count (advance t 2) inst) = (cpu_get_pc t + 2) % 65536 ∧
    (∀ r, r < 4 → isa_get_register (update_cycle_count (advance t 2) inst) r =
      isa_get_register t r) ∧
    cpu_get_sp (update_cycle_count (advance t 2) inst) = cpu_get_sp t ∧
    (update_cycle_count (advance t 2) inst).flags = t.flags ∧
    (update_cycle_count (advance t 2) inst).memory = t.memory := by
  refine ⟨get16_pc_advance t 2, ?_, ?_, ?_, ?_⟩
  · intro r hr
    have h6 : r ≠ 6 := by omega
    have h7 : r ≠ 7 := by omega
    simp [update_cycle_count, advance, isa_get_register, isa_set_register16, store_apply, hr,
      h6, h7]
  · simp [update_cycle_count, advance, cpu_get_sp, isa_get_register16, isa_set_register16,
      store_apply]
  · simp [update_cycle_count, advance, isa_set_register16]
  · simp [update_cycle_count, advance, isa_set_register16]

theorem or_16_and_16 (f : Nat) : ((f ||| 16) &&& 16 != 0) = true := by
  rw [show (16 : Nat) = 2 ^ 4 from rfl, and_bit_ne_zero, Nat.testBit_or, Nat.testBit_two_pow_self,
    Bool.or_true]

/-- After its interrupt phase a step has no interrupt left that it could deliver. -/
theorem handle_interrupts_quiet (s : cpu_state_t) :
    (cpu_handle_interrupts s).nmi_pending = false ∧
    ((cpu_handle_interrupts s).irq_pending = false ∨
      isa_get_flag (cpu_handle_interrupts s) FLAG_INTERRUPT = true) := by
  cases hn : s.nmi_pending <;> cases hq : s.irq_pending <;>
    cases hI : isa_get_flag s FLAG_INTERRUPT <;>
    simp only [cpu_handle_interrupts, hn, hq, hI, Bool.false_eq_true, if_false, if_true,
      Bool.not_false, Bool.not_true, Bool.and_true, Bool.and_false, Bool.true_and,
      Bool.false_and, true_or, or_true, and_self] <;>
    simp [isa_set_register16, isa_set_flag, isa_push, isa_push16, isa_write_memory,
      isa_get_flag, or_16_and_16]

theorem handle_interrupts_of_quiet (u : cpu_state_t) (h1 : u.nmi_pending = false)
    (h2 : u.irq_pending = false ∨ isa_get_flag u FLAG_INTERRUPT = true) :
    cpu_handle_interrupts u = u := by
  unfold cpu_handle_interrupts
  rcases h2 with h2 | h2 <;>
    simp only [h1, h2, Bool.false_eq_true, if_false, Bool.false_and, Bool.not_true,
      Bool.and_false]

theorem shr_8 (x : Nat) : x >>> 8 = x / 256 := Nat.shiftRight_eq_div_pow x 8

theorem get16_set16_ne (t : cpu_state_t) (r q v : Nat) (hr : REG_X ≤ r ∧ r ≤ REG_PC)
    (hne : r ≠ q) :
    isa_get_register16 (isa_set_register16 t r v) q = isa_get_register16 t q := by
  unfold isa_get_register16 isa_set_register16
  by_cases hq : REG_X ≤ q ∧ q ≤ REG_PC
  · have h1 : (q - REG_X) * 2 ≠ (r - REG_X) * 2 := by simp only [REG_X, REG_PC] at *; omega
    have h2 : (q - REG_X) * 2 ≠ (r - REG_X) * 2 + 1 := by omega
    have h3 : (q - REG_X) * 2 + 1 ≠ (r - REG_X) * 2 := by omega
    have h4 : (q - REG_X) * 2 + 1 ≠ (r - REG_X) * 2 + 1 := by
      simp only [REG_X, REG_PC] at *; omega
    simp only [hr, hq, and_self, if_true, store_apply, h1, h2, h3, h4, if_false]
  · simp only [hq, if_false]

/-- Writing SP or PC leaves every field but `regs` alone, and in `regs` the four
8-bit registers. -/
theorem set16_frame (t : cpu_state_t) (r v : Nat) :
    (isa_set_register16 t r v).flags = t.flags ∧
    (isa_set_register16 t r v).memory = t.memory ∧
    (isa_set_register16 t r v).running = t.running ∧
    (isa_set_register16 t r v).irq_pending = t.irq_pending ∧
    (isa_set_register16 t r v).nmi_pending = t.nmi_pending ∧
    (isa_set_register16 t r v).cycle_count = t.cycle_count ∧
    (isa_set_register16 t r v).instruction_count = t.instruction_count ∧
    (isa_set_register16 t r v).breakpoint_addr = t.breakpoint_addr ∧
    (isa_set_register16 t r v).breakpoint_hit = t.breakpoint_hit := by
  unfold isa_set_register16
  split <;> simp

theorem set16_regs_low (t : cpu_state_t) (r v i : Nat) (hr : r = REG_SP ∨ r = REG_PC)
    (hi : i < 4) : (isa_set_register16 t r v).regs i = t.regs i := by
  have h4 : i ≠ 4 := by omega
  have h5 : i ≠ 5 := by omega
  have h6 : i ≠ 6 := by omega
  have h7 : i ≠ 7 := by omega
  rcases hr with rfl | rfl <;> simp [isa_set_register16, store_apply, h4, h5, h6, h7]

theorem get_register_set16 (t : cpu_state_t) (r v i : Nat) (hr : r = REG_SP ∨ r = REG_PC) :
    isa_get_register (isa_set_register16 t r v) i = isa_get_register t i := by
  unfold isa_get_register
  split_ifs with h1
  · exact set16_regs_low t r v i hr h1
  · exact (set16_frame t r v).1
  · rfl

/-- What `isa_push` does: the byte goes to the cell SP points at, then SP moves down by
one (mod 65536); nothing else changes. -/
theorem push_facts (c : cpu_state_t) (v : Nat) :
    (isa_push c v).memory = store c.memory (cpu_get_sp c) v ∧
    cpu_get_sp (isa_push c v) = (cpu_get_sp c + 65535) % 65536 ∧
    cpu_get_pc (isa_push c v) = cpu_get_pc c ∧
    (∀ r, isa_get_register (isa_push c v) r = isa_get_register c r) ∧
    (isa_push c v).flags = c.flags ∧
    (isa_push c v).nmi_pending = c.nmi_pending ∧
    (isa_push c v).irq_pending = c.irq_pending ∧
    (isa_push c v).breakpoint_addr = c.breakpoint_addr ∧
    (isa_push c v).running = c.running ∧
    (isa_push c v).cycle_count = c.cycle_count ∧
    (isa_push c v).instruction_count = c.instruction_count := by
  unfold isa_push
  simp only [cpu_get_sp, cpu_get_pc, set16_frame]
  refine ⟨rfl, ?_, ?_, ?_, rfl, rfl, rfl, rfl, rfl, rfl, rfl⟩
  · rw [get16_set16 _ _ _ (by decide), uint16_t_pred, Nat.mod_mod]
  · rw [get16_set16_ne _ _ _ _ (by decide) (by decide)]
    rfl
  · intro r
    rw [get_register_set16 _ _ _ _ (Or.inl rfl)]
    rfl

/-- What `isa_pop` does: SP moves up by one (mod 65536), then the byte in the cell it
points at is read; nothing else changes. -/
theorem pop_facts (c : cpu_state_t) :
    (isa_pop c).1 = c.memory ((cpu_get_sp c + 1) % 65536) ∧
    cpu_get_sp (isa_pop c).2 = (cpu_get_sp c + 1) % 65536 ∧
    (isa_pop c).2.memory = c.memory ∧
    cpu_get_pc (isa_pop c).2 = cpu_get_pc c ∧
    (∀ r, isa_get_register (isa_pop c).2 r = isa_get_register c r) ∧
    (isa_pop c).2.flags = c.flags ∧
    (isa_pop c).2.nmi_pending = c.nmi_pending ∧
    (isa_pop c).2.irq_pending = c.irq_pending ∧
    (isa_pop c).2.breakpoint_addr = c.breakpoint_addr ∧
    (isa_pop c).2.running = c.running ∧
    (isa_pop c).2.cycle_count = c.cycle_count ∧
    (isa_pop c).2.instruction_count = c.instruction_count := by
  have hf := set16_frame c REG_SP (uint16_t ((isa_get_register16 c REG_SP : Int) + 1))
  unfold isa_pop
  simp only [cpu_get_sp, cpu_get_pc, isa_read_memory]
  refine ⟨?_, ?_, hf.2.1, ?_, ?_, hf.1, hf.2.2.2.2.1, hf.2.2.2.1, hf.2.2.2.2.2.2.2.1,
    hf.2.2.1, hf.2.2.2.2.2.1, hf.2.2.2.2.2.2.1⟩
  · rw [hf.2.1, uint16_t_succ]
  · rw [get16_set16 _ _ _ (by decide), uint16_t_succ, Nat.mod_mod]
  · rw [get16_set16_ne _ _ _ _ (by decide) (by decide)]
  · intro r
    rw [get_register_set16 _ _ _ _ (Or.inl rfl)]

theorem advance_facts (t : cpu_state_t) (k : Nat) :
    cpu_get_pc (advance t k) = (cpu_get_pc t + k) % 65536 ∧
    cpu_get_sp (advance t k) = cpu_get_sp t ∧
    (advance t k).memory = t.memory ∧
    (∀ r, isa_get_register (advance t k) r = isa_get_register t r) ∧
    (advance t k).flags = t.flags ∧
    (advance t k).nmi_pending = t.nmi_pending ∧
    (advance t k).irq_pending = t.irq_pending ∧
    (advance t k).breakpoint_addr = t.breakpoint_addr ∧
    (advance t k).running = t.running ∧
    (advance t k).cycle_count = t.cycle_count ∧
    (advance t k).instruction_count = t.instruction_count := by
  have hf := set16_frame t REG_PC ((cpu_get_pc t + k) % 65536)
  refine ⟨get16_pc_advance t k, ?_, hf.2.1, ?_, hf.1, hf.2.2.2.2.1, hf.2.2.2.1,
    hf.2.2.2.2.2.2.2.1, hf.2.2.1, hf.2.2.2.2.2.1, hf.2.2.2.2.2.2.1⟩
  · exact get16_set16_ne _ _ _ _ (by decide) (by decide)
  · intro r
    exact get_register_set16 _ _ _ _ (Or.inr rfl)

/-- Writing the PC as the last act of an instruction, then the cycle accounting. -/
theorem finish_facts (c : cpu_state_t) (inst : instruction_t) (target : Nat) :
    cpu_get_pc (update_cycle_count (isa_set_register16 c REG_PC target) inst) =
      target % 65536 ∧
    cpu_get_sp (update_cycle_count (isa_set_register16 c REG_PC target) inst) = cpu_get_sp c ∧
    (update_cycle_count (isa_set_register16 c REG_PC target) inst).memory = c.memory ∧
    (∀ r, isa_get_register (update_cycle_count (isa_set_register16 c REG_PC target) inst) r =
      isa_get_register c r) ∧
    (update_cycle_count (isa_set_register16 c REG_PC target) inst).flags = c.flags ∧
    (update_cycle_count (isa_set_register16 c REG_PC target) inst).nmi_pending =
      c.nmi_pending ∧
    (update_cycle_count (isa_set_register16 c REG_PC target) inst).irq_pending =
      c.irq_pending ∧
    (update_cycle_count (isa_set_register16 c REG_PC target) inst).breakpoint_addr =
      c.breakpoint_addr ∧
    (update_cycle_count (isa_set_register16 c REG_PC target) inst).running = c.running := by
  have hf := set16_frame c REG_PC target
  refine ⟨get16_set16 c REG_PC target (by decide), ?_, hf.2.1, ?_, hf.1, hf.2.2.2.2.1,
    hf.2.2.2.1, hf.2.2.2.2.2.2.2.1, hf.2.2.1⟩
  · exact get16_set16_ne c REG_PC REG_SP target (by decide) (by decide)
  · intro r
    exact get_register_set16 c REG_PC target r (Or.inr rfl)

theorem exec_JSR (t : cpu_state_t) (hwt : WF t) (hop : t.memory (cpu_get_pc t) = OP_JSR) :
    (isa_execute_instruction t).1 = true ∧
    cpu_get_pc (isa_execute_instruction t).2 = operand_byte t 1 + 256 * operand_byte t 2 ∧
    (isa_execute_instruction t).2.memory =
      store (store t.memory (cpu_get_sp t) ((cpu_get_pc t + 3) % 65536 / 256))
        ((cpu_get_sp t + 65535) % 65536) ((cpu_get_pc t + 3) % 65536 % 256) ∧
    cpu_get_sp (isa_execute_instruction t).2 = (cpu_get_sp t + 65534) % 65536 ∧
    (isa_execute_instruction t).2.nmi_pending = t.nmi_pending ∧
    (isa_execute_instruction t).2.irq_pending = t.irq_pending ∧
    (isa_execute_instruction t).2.flags = t.flags ∧
    (isa_execute_instruction t).2.breakpoint_addr = t.breakpoint_addr := by
  have hi : isa_get_instruction OP_JSR = some ⟨OP_JSR, ADDR_ABSOLUTE, 0, 0, 6, "JSR"⟩ := rfl
  have h1 : operand_byte t 1 < 256 := hwt.memory_lt _
  have h2 : operand_byte t 2 < 256 := hwt.memory_lt _
  rw [exec_two t _ _ hop hi (by decide)]
  generalize operand_byte t 1 = lo at *
  generalize operand_byte t 2 = hi at *
  have e : execute_opcode (advance t 3) ⟨OP_JSR, ADDR_ABSOLUTE, 0, 0, 6, "JSR"⟩ lo hi =
      (true, isa_set_register16
        (isa_push (isa_push (advance t 3) ((cpu_get_pc (advance t 3) >>> 8) &&& 0xFF))
          (cpu_get_pc (advance t 3) &&& 0xFF)) REG_PC (lo ||| (hi <<< 8))) := by
    simp [execute_opcode, isa_get_address, isa_push16, cpu_get_pc]
  rw [e]
  obtain ⟨a1, a2, a3, -, a5, a6, a7, a8, -⟩ := advance_facts t 3
  obtain ⟨p1, p2, -, -, p5, p6, p7, p8, -⟩ :=
    push_facts (advance t 3) ((cpu_get_pc (advance t 3) >>> 8) &&& 0xFF)
  obtain ⟨q1, q2, -, -, q5, q6, q7, q8, -⟩ :=
    push_facts (isa_push (advance t 3) ((cpu_get_pc (advance t 3) >>> 8) &&& 0xFF))
      (cpu_get_pc (advance t 3) &&& 0xFF)
  obtain ⟨f1, f2, f3, -, f5, f6, f7, f8, -⟩ := finish_facts
    (isa_push (isa_push (advance t 3) ((cpu_get_pc (advance t 3) >>> 8) &&& 0xFF))
      (cpu_get_pc (advance t 3) &&& 0xFF)) ⟨OP_JSR, ADDR_ABSOLUTE, 0, 0, 6, "JSR"⟩
      (lo ||| (hi <<< 8))
  have hsp := sp_lt t hwt
  refine ⟨rfl, ?_, ?_, ?_, ?_, ?_, ?_, ?_⟩
  · rw [f1, word_or _ _ h1]
    omega
  · rw [f3, q1, p2, p1, a3, a2, a1, and_255, and_255, shr_8]
    have : (cpu_get_pc t + 3) % 65536 / 256 % 256 = (cpu_get_pc t + 3) % 65536 / 256 := by
      omega
    rw [this]
  · rw [f2, q2, p2, a2]
    omega
  · rw [f6, q6, p6, a6]
  · rw [f7, q7, p7, a7]
  · rw [f5, q5, p5, a5]
  · rw [f8, q8, p8, a8]

theorem exec_RTS (u : cpu_state_t) (hwu : WF u) (hop : u.memory (cpu_get_pc u) = OP_RTS) :
    (isa_execute_instruction u).1 = true ∧
    cpu_get_pc (isa_execute_instruction u).2 =
      u.memory ((cpu_get_sp u + 1) % 65536) + 256 * u.memory ((cpu_get_sp u + 2) % 65536) ∧
    cpu_get_sp (isa_execute_instruction u).2 = (cpu_get_sp u + 2) % 65536 := by
  have hi : isa_get_instruction OP_RTS = some ⟨OP_RTS, ADDR_IMMEDIATE, 0, 0, 6, "RTS"⟩ := rfl
  rw [exec_one u _ _ hop hi (by decide)]
  have e : execute_opcode (advance u 2) ⟨OP_RTS, ADDR_IMMEDIATE, 0, 0, 6, "RTS"⟩
      (operand_byte u 1) 0 =
      (true, isa_set_register16 (isa_pop (isa_pop (advance u 2)).2).2 REG_PC
        ((isa_pop (advance u 2)).1 ||| ((isa_pop (isa_pop (advance u 2)).2).1 <<< 8))) := by
    simp [execute_opcode, isa_pop16]
  rw [e]
  obtain ⟨-, a2, a3, -⟩ := advance_facts u 2
  obtain ⟨p1, p2, p3, -⟩ := pop_facts (advance u 2)
  obtain ⟨q1, q2, -⟩ := pop_facts (isa_pop (advance u 2)).2
  obtain ⟨f1, f2, -⟩ := finish_facts (isa_pop (isa_pop (advance u 2)).2).2
    ⟨OP_RTS, ADDR_IMMEDIATE, 0, 0, 6, "RTS"⟩
    ((isa_pop (advance u 2)).1 ||| ((isa_pop (isa_pop (advance u 2)).2).1 <<< 8))
  have hm1 : u.memory ((cpu_get_sp u + 1) % 65536) < 256 := hwu.memory_lt _
  have hm2 : u.memory ((cpu_get_sp u + 2) % 65536) < 256 := hwu.memory_lt _
  have e2 : ((cpu_get_sp u + 1) % 65536 + 1) % 65536 = (cpu_get_sp u + 2) % 65536 := by omega
  refine ⟨rfl, ?_, ?_⟩
  · rw [f1, p1, q1, p2, p3, a2, a3, e2, word_or _ _ hm1]
    omega
  · rw [f2, q2, p2, a2, e2]

theorem exec_PHA (t : cpu_state_t) (hop : t.memory (cpu_get_pc t) = OP_PHA) :
    (isa_execute_instruction t).1 = true ∧
    (isa_execute_instruction t).2.memory = store t.memory (cpu_get_sp t) (cpu_get_a t) ∧
    cpu_get_sp (isa_execute_instruction t).2 = (cpu_get_sp t + 65535) % 65536 := by
  have hi : isa_get_instruction OP_PHA = some ⟨OP_PHA, ADDR_IMMEDIATE, 0, 0, 3, "PHA"⟩ := rfl
  rw [exec_one t _ _ hop hi (by decide)]
  have e : execute_opcode (advance t 2) ⟨OP_PHA, ADDR_IMMEDIATE, 0, 0, 3, "PHA"⟩
      (operand_byte t 1) 0 = (true, isa_push (advance t 2) (isa_get_register (advance t 2) REG_A)) := by
    simp [execute_opcode]
  rw [e]
  obtain ⟨-, a2, a3, a4, -⟩ := advance_facts t 2
  obtain ⟨p1, p2, -⟩ := push_facts (advance t 2) (isa_get_register (advance t 2) REG_A)
  refine ⟨rfl, ?_, ?_⟩
  · show (isa_push (advance t 2) (isa_get_register (advance t 2) REG_A)).memory = _
    rw [p1, a2, a3, a4]
    rfl
  · show cpu_get_sp (isa_push (advance t 2) (isa_get_register (advance t 2) REG_A)) = _
    rw [p2, a2]

theorem exec_PHP (t : cpu_state_t) (hop : t.memory (cpu_get_pc t) = OP_PHP) :
    (isa_execute_instruction t).1 = true ∧
    (isa_execute_instruction t).2.memory = store t.memory (cpu_get_sp t) t.flags ∧
    cpu_get_sp (isa_execute_instruction t).2 = (cpu_get_sp t + 65535) % 65536 := by
  have hi : isa_get_instruction OP_PHP = some ⟨OP_PHP, ADDR_IMMEDIATE, 0, 0, 3, "PHP"⟩ := rfl
  rw [exec_one t _ _ hop hi (by decide)]
  have e : execute_opcode (advance t 2) ⟨OP_PHP, ADDR_IMMEDIATE, 0, 0, 3, "PHP"⟩
      (operand_byte t 1) 0 = (true, isa_push (advance t 2) (advance t 2).flags) := by
    simp [execute_opcode]
  rw [e]
  obtain ⟨-, a2, a3, -, a5, -⟩ := advance_facts t 2
  obtain ⟨p1, p2, -⟩ := push_facts (advance t 2) (advance t 2).flags
  refine ⟨rfl, ?_, ?_⟩
  · show (isa_push (advance t 2) (advance t 2).flags).memory = _
    rw [p1, a2, a3, a5]
  · show cpu_get_sp (isa_push (advance t 2) (advance t 2).flags) = _
    rw [p2, a2]

theorem exec_PLA (w : cpu_state_t) (hop : w.memory (cpu_get_pc w) = OP_PLA) :
    (isa_execute_instruction w).1 = true ∧
    cpu_get_a (isa_execute_instruction w).2 = w.memory ((cpu_get_sp w + 1) % 65536) ∧
    cpu_get_sp (isa_execute_instruction w).2 = (cpu_get_sp w + 1) % 65536 := by
  have hi : isa_get_instruction OP_PLA = some ⟨OP_PLA, ADDR_IMMEDIATE, 0, 0, 4, "PLA"⟩ := rfl
  rw [exec_one w _ _ hop hi (by decide)]
  have e : execute_opcode (advance w 2) ⟨OP_PLA, ADDR_IMMEDIATE, 0, 0, 4, "PLA"⟩
      (operand_byte w 1) 0 =
      (true, isa_set_register (isa_pop (advance w 2)).2 REG_A (isa_pop (advance w 2)).1) := by
    simp [execute_opcode]
  rw [e]
  obtain ⟨-, a2, a3, -⟩ := advance_facts w 2
  obtain ⟨p1, p2, -⟩ := pop_facts (advance w 2)
  refine ⟨rfl, ?_, ?_⟩
  · rw [← a2, ← a3, ← p1]
    simp [cpu_get_a, update_cycle_count, isa_get_register, isa_set_register, store_apply]
  · rw [← a2, ← p2]
    simp [cpu_get_sp, update_cycle_count, isa_get_register16, isa_set_register, store_apply]

theorem exec_PLP (w : cpu_state_t) (hop : w.memory (cpu_get_pc w) = OP_PLP) :
    (isa_execute_instruction w).1 = true ∧
    (isa_execute_instruction w).2.flags = w.memory ((cpu_get_sp w + 1) % 65536) ∧
    cpu_get_sp (isa_execute_instruction w).2 = (cpu_get_sp w + 1) % 65536 := by
  have hi : isa_get_instruction OP_PLP = some ⟨OP_PLP, ADDR_IMMEDIATE, 0, 0, 4, "PLP"⟩ := rfl
  rw [exec_one w _ _ hop hi (by decide)]
  have e : execute_opcode (advance w 2) ⟨OP_PLP, ADDR_IMMEDIATE, 0, 0, 4, "PLP"⟩
      (operand_byte w 1) 0 =
      (true, { (isa_pop (advance w 2)).2 with flags := (isa_pop (advance w 2)).1 }) := by
    simp [execute_opcode]
  rw [e]
  obtain ⟨-, a2, a3, -⟩ := advance_facts w 2
  obtain ⟨p1, p2, -⟩ := pop_facts (advance w 2)
  refine ⟨rfl, ?_, ?_⟩
  · rw [← a2, ← a3, ← p1]
    rfl
  · rw [← a2, ← p2]
    rfl

theorem exec_STA (t : cpu_state_t) (hwt : WF t) (hop : t.memory (cpu_get_pc t) = OP_STA) :
    (isa_execute_instruction t).1 = true ∧
    (isa_execute_instruction t).2.memory =
      store t.memory (operand_byte t 1 + 256 * operand_byte t 2) (cpu_get_a t) := by
  have hi : isa_get_instruction OP_STA = some ⟨OP_STA, ADDR_ABSOLUTE, 0, 0, 3, "STA"⟩ := rfl
  have h1 : operand_byte t 1 < 256 := hwt.memory_lt _
  rw [exec_two t _ _ hop hi (by decide)]
  obtain ⟨-, -, a3, a4, -⟩ := advance_facts t 3
  refine ⟨by simp [execute_opcode], ?_⟩
  have e : (execute_opcode (advance t 3) ⟨OP_STA, ADDR_ABSOLUTE, 0, 0, 3, "STA"⟩
      (operand_byte t 1) (operand_byte t 2)).2 =
      isa_write_memory (advance t 3) (operand_byte t 1 ||| (operand_byte t 2 <<< 8))
        (isa_get_register (advance t 3) REG_A) := by
    simp [execute_opcode, isa_get_address]
  rw [e, a4, word_or _ _ h1]
  show store (advance t 3).memory _ _ = _
  rw [a3]
  rfl

theorem exec_LDA (w : cpu_state_t) (hww : WF w) (hop : w.memory (cpu_get_pc w) = OP_LDA) :
    (isa_execute_instruction w).1 = true ∧
    cpu_get_a (isa_execute_instruction w).2 =
      w.memory (operand_byte w 1 + 256 * operand_byte w 2) ∧
    (isa_execute_instruction w).2.memory = w.memory := by
  have hi : isa_get_instruction OP_LDA = some ⟨OP_LDA, ADDR_ABSOLUTE, 0, 0, 3, "LDA"⟩ := rfl
  have h1 : operand_byte w 1 < 256 := hww.memory_lt _
  rw [exec_two w _ _ hop hi (by decide)]
  obtain ⟨-, -, a3, -⟩ := advance_facts w 3
  have e : (execute_opcode (advance w 3) ⟨OP_LDA, ADDR_ABSOLUTE, 0, 0, 3, "LDA"⟩
      (operand_byte w 1) (operand_byte w 2)).2 =
      isa_set_register (advance w 3) REG_A
        ((advance w 3).memory (operand_byte w 1 ||| (operand_byte w 2 <<< 8))) := by
    simp [execute_opcode, isa_get_address, isa_read_memory]
  refine ⟨by simp [execute_opcode], ?_, ?_⟩
  · rw [e, a3, word_or _ _ h1]
    simp [cpu_get_a, update_cycle_count, isa_get_register, isa_set_register, store_apply]
  · rw [e, ← a3]
    simp [update_cycle_count, isa_set_register]

theorem handle_interrupts_eq (s : cpu_state_t) :
    cpu_handle_interrupts s =
      if s.nmi_pending then deliver { s with nmi_pending := false } 0xFFFA
      else if s.irq_pending && !isa_get_flag s FLAG_INTERRUPT then
        deliver { s with irq_pending := false } 0xFFFE
      else s := rfl

theorem testBit_or_16 (f i : Nat) (hi : i ≠ 4) : (f ||| 16).testBit i = f.testBit i := by
  rw [Nat.testBit_or, show (16 : Nat) = 2 ^ 4 from rfl, Nat.testBit_two_pow_of_ne (Ne.symm hi),
    Bool.or_false]

/-- The frame the delivery sequence leaves. -/
theorem deliver_facts (b : cpu_state_t) (hb : WF b) (vector : Nat) :
    (deliver b vector).memory (cpu_get_sp b) = cpu_get_pc b / 256 ∧
    (deliver b vector).memory ((cpu_get_sp b + 65535) % 65536) = cpu_get_pc b % 256 ∧
    (deliver b vector).memory ((cpu_get_sp b + 65534) % 65536) = b.flags ∧
    cpu_get_sp (deliver b vector) = (cpu_get_sp b + 65533) % 65536 ∧
    (deliver b vector).flags = b.flags ||| FLAG_INTERRUPT ∧
    cpu_get_pc (deliver b vector) =
      (deliver b vector).memory vector + 256 * (deliver b vector).memory (vector + 1) ∧
    (deliver b vector).nmi_pending = b.nmi_pending ∧
    (deliver b vector).irq_pending = b.irq_pending ∧
    (∀ r, r < 4 → isa_get_register (deliver b vector) r = isa_get_register b r) := by
  have hsp := sp_lt b hb
  have hpc := pc_lt b hb
  obtain ⟨p1, p2, p3, p4, p5, p6, p7, -⟩ :=
    push_facts b ((isa_get_register16 b REG_PC >>> 8) &&& 0xFF)
  obtain ⟨q1, q2, q3, q4, q5, q6, q7, -⟩ :=
    push_facts (isa_push b ((isa_get_register16 b REG_PC >>> 8) &&& 0xFF))
      (isa_get_register16 b REG_PC &&& 0xFF)
  obtain ⟨r1, r2, r3, r4, r5, r6, r7, -⟩ := push_facts (isa_push16 b (isa_get_register16 b REG_PC))
    (isa_push16 b (isa_get_register16 b REG_PC)).flags
  have hmem : (deliver b vector).memory =
      store (store (store b.memory (cpu_get_sp b) (cpu_get_pc b / 256))
        ((cpu_get_sp b + 65535) % 65536) (cpu_get_pc b % 256))
        ((cpu_get_sp b + 65534) % 65536) b.flags := by
    have e : (deliver b vector).memory =
        (isa_push (isa_push16 b (isa_get_register16 b REG_PC))
          (isa_push16 b (isa_get_register16 b REG_PC)).flags).memory := by
      simp only [deliver, (set16_frame _ _ _).2.1]
      rfl
    have e2 : ((cpu_get_sp b + 65535) % 65536 + 65535) % 65536 =
        (cpu_get_sp b + 65534) % 65536 := by omega
    have e3 : cpu_get_pc b / 256 % 256 = cpu_get_pc b / 256 := by omega
    rw [e, r1]
    unfold isa_push16
    rw [q1, q2, q5, p1, p2, p5, and_255, and_255, shr_8, e2]
    simp only [cpu_get_pc, e3] at e3 ⊢
  have hflags : (deliver b vector).flags = b.flags ||| FLAG_INTERRUPT := by
    have e : (deliver b vector).flags =
        (isa_push (isa_push16 b (isa_get_register16 b REG_PC))
          (isa_push16 b (isa_get_register16 b REG_PC)).flags).flags ||| FLAG_INTERRUPT := by
      simp only [deliver, (set16_frame _ _ _).1]
      rfl
    rw [e, r5]
    unfold isa_push16
    rw [q5, p5]
  have h1 : cpu_get_sp b ≠ (cpu_get_sp b + 65535) % 65536 := by omega
  have h2 : cpu_get_sp b ≠ (cpu_get_sp b + 65534) % 65536 := by omega
  have h3 : (cpu_get_sp b + 65535) % 65536 ≠ (cpu_get_sp b + 65534) % 65536 := by omega
  have hwd : WF (deliver b vector) := by
    unfold deliver
    exact WF_set_register16 _ _ _ (WF_set_flag _ _ (WF_push _ _ (WF_push16 _ _ hb)
      (WF_push16 _ _ hb).flags_lt) (by decide))
  refine ⟨?_, ?_, ?_, ?_, hflags, ?_, ?_, ?_, ?_⟩
  · rw [hmem]; simp [store_apply, h1, h2]
  · rw [hmem]; simp [store_apply, h3]
  · rw [hmem]; simp [store_apply]
  · have e : cpu_get_sp (deliver b vector) =
        cpu_get_sp (isa_push (isa_push16 b (isa_get_register16 b REG_PC))
          (isa_push16 b (isa_get_register16 b REG_PC)).flags) := by
      simp only [deliver, cpu_get_sp]
      rw [get16_set16_ne _ _ _ _ (by decide) (by decide)]
      rfl
    rw [e, r2]
    unfold isa_push16
    rw [q2, p2]
    omega
  · have e : cpu_get_pc (deliver b vector) =
        ((deliver b vector).memory vector ||| ((deliver b vector).memory (vector + 1) <<< 8))
          % 65536 := by
      simp only [deliver, cpu_get_pc, isa_read_memory, (set16_frame _ _ _).2.1]
      exact get16_set16 _ _ _ (by decide)
    have b1 := hwd.memory_lt vector
    have b2 := hwd.memory_lt (vector + 1)
    rw [e, word_or _ _ b1]
    omega
  · unfold deliver
    dsimp only
    rw [(set16_frame _ _ _).2.2.2.2.1]
    have sf : ∀ (c : cpu_state_t) (f : Nat), (isa_set_flag c f).nmi_pending = c.nmi_pending :=
      fun _ _ => rfl
    rw [sf, r6]
    unfold isa_push16
    rw [q6, p6]
  · unfold deliver
    dsimp only
    rw [(set16_frame _ _ _).2.2.2.1]
    have sf : ∀ (c : cpu_state_t) (f : Nat), (isa_set_flag c f).irq_pending = c.irq_pending :=
      fun _ _ => rfl
    rw [sf, r7]
    unfold isa_push16
    rw [q7, p7]
  · intro r hr
    simp only [deliver]
    rw [get_register_set16 _ _ _ _ (Or.inr rfl)]
    have e : ∀ c : cpu_state_t, isa_get_register (isa_set_flag c FLAG_INTERRUPT) r =
        isa_get_register c r := by
      intro c
      simp [isa_get_register, isa_set_flag, hr]
    rw [e, r4]
    unfold isa_push16
    rw [q4, p4]

theorem WF_clear_nmi (s : cpu_state_t) (h : WF s) : WF { s with nmi_pending := false } :=
  ⟨h.regs_lt, h.flags_lt, h.memory_lt, h.cycle_lt, h.instr_lt, h.break_lt, h.watch_lt⟩

theorem WF_clear_irq (s : cpu_state_t) (h : WF s) : WF { s with irq_pending := false } :=
  ⟨h.regs_lt, h.flags_lt, h.memory_lt, h.cycle_lt, h.instr_lt, h.break_lt, h.watch_lt⟩

theorem handle_interrupts_nmi (s : cpu_state_t) (h : s.nmi_pending = true) :
    cpu_handle_interrupts s = deliver { s with nmi_pending := false } 0xFFFA := by
  rw [handle_interrupts_eq, if_pos h]

theorem handle_interrupts_irq (s : cpu_state_t) (h1 : s.nmi_pending = false)
    (h2 : s.irq_pending = true) (h3 : isa_get_flag s FLAG_INTERRUPT = false) :
    cpu_handle_interrupts s = deliver { s with irq_pending := false } 0xFFFE := by
  simp only [handle_interrupts_eq, h1, h2, h3, Bool.false_eq_true, if_false, Bool.not_false,
    Bool.and_true, if_true]

theorem counters_set_register (c : cpu_state_t) (r v : Nat) :
    counters (isa_set_register c r v) = counters c := by
  unfold isa_set_register
  split_ifs <;> rfl

theorem counters_write_memory (c : cpu_state_t) (a v : Nat) :
    counters (isa_write_memory c a v) = counters c := rfl

theorem counters_set_flag (c : cpu_state_t) (f : Nat) :
    counters (isa_set_flag c f) = counters c := rfl

theorem counters_clear_flag (c : cpu_state_t) (f : Nat) :
    counters (isa_clear_flag c f) = counters c := rfl

theorem counters_update_flags (c : cpu_state_t) (r : Nat) (cy ov : Bool) :
    counters (isa_update_flags c r cy ov) = counters c := by
  rw [isa_update_flags_eq]
  rfl

theorem counters_set_register16 (c : cpu_state_t) (r v : Nat) :
    counters (isa_set_register16 c r v) = counters c := by
  unfold isa_set_register16
  split_ifs <;> rfl

theorem counters_push (c : cpu_state_t) (v : Nat) : counters (isa_push c v) = counters c := by
  unfold isa_push
  simp only [counters_set_register16, counters_write_memory]

theorem counters_push16 (c : cpu_state_t) (v : Nat) :
    counters (isa_push16 c v) = counters c := by
  unfold isa_push16
  simp only [counters_push]

theorem counters_pop (c : cpu_state_t) : counters (isa_pop c).2 = counters c := by
  unfold isa_pop
  simp only [counters_set_register16]

theorem counters_pop16 (c : cpu_state_t) : counters (isa_pop16 c).2 = counters c := by
  unfold isa_pop16
  simp only [counters_pop]

theorem counters_ite (p : Prop) [Decidable p] (a b : Bool × cpu_state_t) (k : Nat × Nat)
    (ha : p → counters a.2 = k) (hb : ¬ p → counters b.2 = k) :
    counters (if p then a else b).2 = k := by
  split_ifs with hp
  · exact ha hp
  · exact hb hp

/-- The execute phase changes neither counter. -/
theorem counters_execute_opcode (c : cpu_state_t) (inst : instruction_t) (o1 o2 : Nat) :
    counters (execute_opcode c inst o1 o2).2 = counters c := by
  unfold execute_opcode
  repeat' (apply counters_ite <;> intro _)
  all_goals dsimp only
  all_goals
    first
    | rfl
    | simp only [counters_set_register, counters_write_memory, counters_set_flag,
        counters_clear_flag, counters_update_flags, counters_set_register16, counters_push,
        counters_push16, counters_pop, counters_pop16]

theorem counters_fetch_byte (c : cpu_state_t) : counters (isa_fetch_byte c).2 = counters c := by
  unfold isa_fetch_byte
  simp only [counters_set_register16]

theorem counters_fetch_operands (c : cpu_state_t) (m : addressing_mode_t) :
    counters (fetch_operands c m).2.2 = counters c := by
  cases m <;> simp only [fetch_operands, counters_fetch_byte]

/-- Cycle accounting of one instruction: a catalogued opcode adds its cost to
`cycle_count` and one to `instruction_count`; any other byte leaves both counters alone and
makes the step return false. -/
theorem counters_execute_instruction (c : cpu_state_t) :
    (∀ inst, isa_get_instruction (c.memory (cpu_get_pc c)) = some inst →
      (isa_execute_instruction c).2.cycle_count =
        uint64_t ((c.cycle_count : Int) + inst.cycles) ∧
      (isa_execute_instruction c).2.instruction_count =
        uint32_t ((c.instruction_count : Int) + 1)) ∧
    (isa_get_instruction (c.memory (cpu_get_pc c)) = none →
      (isa_execute_instruction c).1 = false ∧
      (isa_execute_instruction c).2.cycle_count = c.cycle_count ∧
      (isa_execute_instruction c).2.instruction_count = c.instruction_count) := by
  have hf : (isa_fetch_byte c).1 = c.memory (cpu_get_pc c) := rfl
  have hc := counters_fetch_byte c
  constructor
  · intro inst hi
    have h2 := counters_execute_opcode (fetch_operands (isa_fetch_byte c).2 inst.addr_mode).2.2
      inst (fetch_operands (isa_fetch_byte c).2 inst.addr_mode).1
      (fetch_operands (isa_fetch_byte c).2 inst.addr_mode).2.1
    rw [counters_fetch_operands, hc] at h2
    unfold isa_execute_instruction
    simp only [hf, isa_is_valid_opcode, hi, Option.isSome_some, Bool.not_true,
      Bool.false_eq_true, if_false, update_cycle_count]
    simp only [counters, Prod.mk.injEq] at h2
    rw [h2.1, h2.2]
    exact ⟨rfl, rfl⟩
  · intro hi
    unfold isa_execute_instruction
    simp only [hf, isa_is_valid_opcode, hi, Option.isSome_none, Bool.not_false, if_true]
    simp only [counters, Prod.mk.injEq] at hc
    exact ⟨trivial, hc.1, hc.2⟩

theorem counters_deliver (b : cpu_state_t) (vector : Nat) :
    counters (deliver b vector) = counters b := by
  unfold deliver
  simp only [counters_set_register16, counters_set_flag, counters_push, counters_push16]

theorem counters_handle_interrupts (s : cpu_state_t) :
    counters (cpu_handle_interrupts s) = counters s := by
  rw [handle_interrupts_eq]
  split_ifs
  · rw [counters_deliver]; rfl
  · rw [counters_deliver]; rfl
  · rfl

/-! ## Sample states are well formed -/

theorem WF_steps (n : Nat) (s : cpu_state_t) (h : WF s) : WF (steps n s) := by
  induction n generalizing s with
  | zero => exact h
  | succ n ih => exact ih _ (WF_cpu_step s h)

theorem WF_cpu_nmi (s : cpu_state_t) (h : WF s) : WF (cpu_nmi s) :=
  ⟨h.regs_lt, h.flags_lt, h.memory_lt, h.cycle_lt, h.instr_lt, h.break_lt, h.watch_lt⟩

theorem WF_cpu_irq (s : cpu_state_t) (h : WF s) : WF (cpu_irq s) :=
  ⟨h.regs_lt, h.flags_lt, h.memory_lt, h.cycle_lt, h.instr_lt, h.break_lt, h.watch_lt⟩

theorem WF_interrupt_sample : WF interrupt_sample :=
  WF_cpu_nmi _ (WF_reset_to_address _ _
    (WF_load_program _ _ _ (WF_load_program _ _ _ WF_blank (by decide)) (by decide)))

/-! # Properties of the emulator -/

/-- C1: for every byte `v` and every load address `a <= 0xFFFE`, loading `00 v` at `a`
succeeds, and after the warm reset to `a` (which leaves `running` false) one `cpu_step`
returns true with A = v, PC = (a + 2) mod 65536, cycle_count = 2, instruction_count = 1,
and flags, SP and the whole memory as they were before the step. -/
theorem C1_immediate_load (cpu : cpu_state_t) (a v : Nat) (ha : a ≤ 0xFFFE) (hv : v < 256) :
    (cpu_load_program cpu [0x00, v] a).1 = true ∧
    (cpu_load_program cpu [0x00, v] a).2.memory a = 0x00 ∧
    (cpu_load_program cpu [0x00, v] a).2.memory (a + 1) = v ∧
    (load_and_reset cpu [0x00, v] a).running = false ∧
    (cpu_step (load_and_reset cpu [0x00, v] a)).1 = true ∧
    cpu_get_a (cpu_step (load_and_reset cpu [0x00, v] a)).2 = v ∧
    cpu_get_pc (cpu_step (load_and_reset cpu [0x00, v] a)).2 = (a + 2) % 65536 ∧
    (cpu_step (load_and_reset cpu [0x00, v] a)).2.cycle_count = 2 ∧
    (cpu_step (load_and_reset cpu [0x00, v] a)).2.instruction_count = 1 ∧
    (cpu_step (load_and_reset cpu [0x00, v] a)).2.flags =
      (load_and_reset cpu [0x00, v] a).flags ∧
    cpu_get_sp (cpu_step (load_and_reset cpu [0x00, v] a)).2 =
      cpu_get_sp (load_and_reset cpu [0x00, v] a) ∧
    (cpu_step (load_and_reset cpu [0x00, v] a)).2.memory =
      (load_and_reset cpu [0x00, v] a).memory := by
  obtain ⟨l1, l2, l3, l4, l5, l6, l7, l8⟩ := load_and_reset_facts cpu a v ha
  have hbp : ¬ ((load_and_reset cpu [0x00, v] a).breakpoint_addr ≠ 0 ∧
      cpu_get_pc (load_and_reset cpu [0x00, v] a) =
        (load_and_reset cpu [0x00, v] a).breakpoint_addr) := by
    simp [load_and_reset, cpu_reset_to_address]
  have hq : cpu_handle_interrupts (load_and_reset cpu [0x00, v] a) =
      load_and_reset cpu [0x00, v] a := by
    simp [cpu_handle_interrupts, load_and_reset, cpu_reset_to_address]
  have hop : (load_and_reset cpu [0x00, v] a).memory
      (cpu_get_pc (load_and_reset cpu [0x00, v] a)) = OP_LDI := by
    rw [l4, l5, l2]
  have hc : (load_and_reset cpu [0x00, v] a).cycle_count = 0 ∧
      (load_and_reset cpu [0x00, v] a).instruction_count = 0 := by
    simp [load_and_reset, cpu_reset_to_address]
  obtain ⟨e1, e2, e3, e4, e5, e6, e7, e8, _⟩ := exec_LDI _ hop
  rw [cpu_step_eq _ hbp, hq]
  refine ⟨l1, l2, l3, l8, e1, ?_, ?_, ?_, ?_, e6, e7, e8⟩
  · rw [e2, operand_byte, l4, l5, Nat.mod_eq_of_lt (by omega), l3]
  · rw [e3, l5]
  · rw [e4, hc.1]; rfl
  · rw [e5, hc.2]; rfl

/-- C1 (witness): load address 0x0200 and byte 0x42 on the blank machine: the step returns
true with A = 0x42, PC = 0x0202, cycle_count = 2 and instruction_count = 1. -/
theorem C1_immediate_load_witness :
    (0x0200 ≤ 0xFFFE ∧ 0x42 < 256) ∧
    (cpu_step (load_and_reset blank [0x00, 0x42] 0x0200)).1 = true ∧
    cpu_get_a (cpu_step (load_and_reset blank [0x00, 0x42] 0x0200)).2 = 0x42 ∧
    cpu_get_pc (cpu_step (load_and_reset blank [0x00, 0x42] 0x0200)).2 = (0x0200 + 2) % 65536 ∧
    (cpu_step (load_and_reset blank [0x00, 0x42] 0x0200)).2.cycle_count = 2 ∧
    (cpu_step (load_and_reset blank [0x00, 0x42] 0x0200)).2.instruction_count = 1 :=
  have h := C1_immediate_load blank 0x0200 0x42 (by decide) (by decide)
  ⟨⟨by decide, by decide⟩, h.2.2.2.2.1, h.2.2.2.2.2.1, h.2.2.2.2.2.2.1, h.2.2.2.2.2.2.2.1,
    h.2.2.2.2.2.2.2.2.1⟩

/-- C2: a step that executes `ADD #v` (opcode 0x10) with accumulator `a` leaves
A = (a + v) mod 256 and sets C iff a + v > 255, Z iff the new A is 0, N to bit 7 of the new
A, and V iff ((a ^ r) & (v ^ r) & 0x80) != 0 for `r` the new A, which holds exactly when
the sum of `a` and `v` read as signed 8-bit numbers lies outside -128..127.  (The
accumulator is not touched by the interrupt phase of the step.) -/
theorem C2_add_flags (s t : cpu_state_t) (v : Nat) (hwf : WF s)
    (hf : step_fetches s t OP_ADD) (hv : operand_byte t 1 = v) :
    (cpu_step s).1 = true ∧
    cpu_get_a t = cpu_get_a s ∧
    cpu_get_a (cpu_step s).2 = (cpu_get_a t + v) % 256 ∧
    isa_get_flag (cpu_step s).2 FLAG_CARRY = decide (cpu_get_a t + v > 255) ∧
    isa_get_flag (cpu_step s).2 FLAG_ZERO = decide ((cpu_get_a t + v) % 256 = 0) ∧
    isa_get_flag (cpu_step s).2 FLAG_NEGATIVE = ((cpu_get_a t + v) % 256).testBit 7 ∧
    isa_get_flag (cpu_step s).2 FLAG_OVERFLOW =
      (((cpu_get_a t ^^^ ((cpu_get_a t + v) % 256)) &&& (v ^^^ ((cpu_get_a t + v) % 256))
        &&& 0x80) != 0) ∧
    ((((cpu_get_a t ^^^ ((cpu_get_a t + v) % 256)) &&& (v ^^^ ((cpu_get_a t + v) % 256))
        &&& 0x80) != 0) = true ↔
      (int8_t (cpu_get_a t) + int8_t v < -128 ∨ 127 < int8_t (cpu_get_a t) + int8_t v)) := by
  obtain ⟨hbp, ht, hop⟩ := hf
  have hwt : WF t := ht ▸ WF_handle_interrupts s hwf
  have ha : cpu_get_a t < 256 := by
    simpa [cpu_get_a, isa_get_register] using hwt.regs_lt 0
  have hvl : v < 256 := by
    rw [← hv]; exact hwt.memory_lt _
  have hi : isa_get_instruction OP_ADD = some ⟨OP_ADD, ADDR_IMMEDIATE, 0, 0, 2, "ADD"⟩ := rfl
  have hsum : uint16_t ((t.regs 0 : Int) + (v : Int)) = t.regs 0 + v := by
    have : t.regs 0 < 256 := hwt.regs_lt 0
    rw [uint16_t_add]; exact Nat.mod_eq_of_lt (by omega)
  have has : cpu_get_a t = cpu_get_a s := by
    rw [ht]
    unfold cpu_handle_interrupts
    split_ifs <;>
      simp [cpu_get_a, isa_get_register, isa_set_register16, isa_set_flag, isa_push, isa_push16,
        isa_write_memory, store_apply]
  have hA : cpu_get_a t = t.regs 0 := by simp [cpu_get_a, isa_get_register]
  rw [cpu_step_eq s hbp, ← ht, exec_one t _ _ hop hi (by decide), hv]
  have hfl : (update_cycle_count (execute_opcode (advance t 2)
      ⟨OP_ADD, ADDR_IMMEDIATE, 0, 0, 2, "ADD"⟩ v 0).2 ⟨OP_ADD, ADDR_IMMEDIATE, 0, 0, 2, "ADD"⟩).flags =
      flag_bits t.flags (decide ((cpu_get_a t + v) % 256 = 0))
        (decide (((cpu_get_a t + v) % 256) &&& 0x80 ≠ 0)) (decide (cpu_get_a t + v > 255))
        (((cpu_get_a t ^^^ ((cpu_get_a t + v) % 256)) &&& (v ^^^ ((cpu_get_a t + v) % 256))
        &&& 0x80) != 0) := by
    rw [← overflow_low_byte, hA]
    simp [execute_opcode, operand_value, update_cycle_count, advance, isa_get_register,
      isa_set_register16, isa_set_register, isa_update_flags_eq, hsum, and_255, store_apply]
  obtain ⟨fz, fn, fc, fo, _, _⟩ := get_flag_of_flag_bits _ _ _ _ _ _ hwt.flags_lt hfl
  refine ⟨?_, has, ?_, fc, fz, ?_, fo, ?_⟩
  · simp [execute_opcode]
  · rw [hA]
    simp [execute_opcode, operand_value, update_cycle_count, advance, isa_get_register,
      isa_set_register16, isa_set_register, isa_update_flags_eq, hsum, and_255, cpu_get_a,
      store_apply]
  · rw [fn, bit7_decide]
  · rw [add_overflow_signed _ _ ha hvl, decide_eq_true_iff]

/-- C2 (witness): the state after `LDI #0xFF` of the program `00 FF 10 01 73` at 0x0200
fetches `ADD #1` with A = 0xFF; the step leaves A = 0 with Z = 1, C = 1, N = 0. -/
theorem C2_add_flags_witness :
    (WF (steps 1 (loaded add_program 0x0200)) ∧
      step_fetches (steps 1 (loaded add_program 0x0200))
        (cpu_handle_interrupts (steps 1 (loaded add_program 0x0200))) OP_ADD ∧
      operand_byte (cpu_handle_interrupts (steps 1 (loaded add_program 0x0200))) 1 = 1) ∧
    (cpu_get_a (cpu_step (steps 1 (loaded add_program 0x0200))).2 =
        (cpu_get_a (cpu_handle_interrupts (steps 1 (loaded add_program 0x0200))) + 1) % 256 ∧
      isa_get_flag (cpu_step (steps 1 (loaded add_program 0x0200))).2 FLAG_CARRY =
        decide (cpu_get_a (cpu_handle_interrupts (steps 1 (loaded add_program 0x0200))) + 1
          > 255)) ∧
    (cpu_get_a (cpu_handle_interrupts (steps 1 (loaded add_program 0x0200))) = 0xFF ∧
      cpu_get_a (steps 2 (loaded add_program 0x0200)) = 0 ∧
      isa_get_flag (steps 2 (loaded add_program 0x0200)) FLAG_ZERO = true ∧
      isa_get_flag (steps 2 (loaded add_program 0x0200)) FLAG_CARRY = true ∧
      isa_get_flag (steps 2 (loaded add_program 0x0200)) FLAG_NEGATIVE = false) :=
  have hw : WF (steps 1 (loaded add_program 0x0200)) :=
    WF_steps 1 _ (WF_loaded _ _ (by decide))
  have hf : step_fetches (steps 1 (loaded add_program 0x0200))
      (cpu_handle_interrupts (steps 1 (loaded add_program 0x0200))) OP_ADD :=
    ⟨by decide, rfl, by decide⟩
  have hv : operand_byte (cpu_handle_interrupts (steps 1 (loaded add_program 0x0200))) 1 = 1 :=
    by decide
  have h := C2_add_flags _ _ 1 hw hf hv
  ⟨⟨hw, hf, hv⟩, ⟨h.2.2.1, h.2.2.2.1⟩, by decide⟩

/-- C3: a step that executes `SUB #v` (0x11) or `CMP #v` (0x14) with accumulator `a` sets
C iff a < v, Z iff a = v and N to bit 7 of (a - v) mod 256; `SUB` leaves A = (a - v) mod 256
(which is a - v + 256 when v > a); `CMP` leaves A, B, C, D, X, Y, SP and every memory
cell unchanged (the PC moves past the two instruction bytes). -/
theorem C3_sub_cmp_flags (s t : cpu_state_t) (op v : Nat) (hwf : WF s)
    (hop : op = OP_SUB ∨ op = OP_CMP)
    (hf : step_fetches s t op) (hv : operand_byte t 1 = v) :
    (cpu_step s).1 = true ∧
    isa_get_flag (cpu_step s).2 FLAG_CARRY = decide (cpu_get_a t < v) ∧
    isa_get_flag (cpu_step s).2 FLAG_ZERO = decide (cpu_get_a t = v) ∧
    isa_get_flag (cpu_step s).2 FLAG_NEGATIVE =
      (uint8_t ((cpu_get_a t : Int) - (v : Int))).testBit 7 ∧
    (op = OP_SUB → cpu_get_a (cpu_step s).2 = uint8_t ((cpu_get_a t : Int) - (v : Int))) ∧
    (cpu_get_a t < v → uint8_t ((cpu_get_a t : Int) - (v : Int)) = cpu_get_a t + 256 - v) ∧
    (op = OP_CMP →
      (∀ r, r < 4 → isa_get_register (cpu_step s).2 r = isa_get_register t r) ∧
      isa_get_register16 (cpu_step s).2 REG_X = isa_get_register16 t REG_X ∧
      isa_get_register16 (cpu_step s).2 REG_Y = isa_get_register16 t REG_Y ∧
      isa_get_register16 (cpu_step s).2 REG_SP = isa_get_register16 t REG_SP ∧
      (cpu_step s).2.memory = t.memory) ∧
    cpu_get_pc (cpu_step s).2 = (cpu_get_pc t + 2) % 65536 := by
  obtain ⟨hbp, ht, hopc⟩ := hf
  have hwt : WF t := ht ▸ WF_handle_interrupts s hwf
  have hA : cpu_get_a t = t.regs 0 := by simp [cpu_get_a, isa_get_register]
  have ha : t.regs 0 < 256 := hwt.regs_lt 0
  have hvl : v < 256 := by
    rw [← hv]; exact hwt.memory_lt _
  have hz : decide (uint8_t ((t.regs 0 : Int) - (v : Int)) = 0) = decide (t.regs 0 = v) := by
    simp only [uint8_t_sub_eq_zero _ _ ha hvl]
  have hw : t.regs 0 < v → uint8_t ((t.regs 0 : Int) - (v : Int)) = t.regs 0 + 256 - v := by
    intro h; unfold uint8_t; omega
  rw [cpu_step_eq s hbp, ← ht, hA]
  rcases hop with rfl | rfl
  · have hi : isa_get_instruction OP_SUB = some ⟨OP_SUB, ADDR_IMMEDIATE, 0, 0, 2, "SUB"⟩ := rfl
    rw [exec_one t _ _ hopc hi (by decide), hv]
    have hfl : (update_cycle_count (execute_opcode (advance t 2)
        ⟨OP_SUB, ADDR_IMMEDIATE, 0, 0, 2, "SUB"⟩ v 0).2
        ⟨OP_SUB, ADDR_IMMEDIATE, 0, 0, 2, "SUB"⟩).flags =
        flag_bits t.flags (decide (t.regs 0 = v))
          (decide (uint8_t ((t.regs 0 : Int) - (v : Int)) &&& 0x80 ≠ 0))
          (decide (t.regs 0 < v))
          (((t.regs 0 ^^^ uint16_t ((t.regs 0 : Int) - (v : Int))) &&&
            (v ^^^ uint16_t ((t.regs 0 : Int) - (v : Int))) &&& 0x80) != 0) := by
      rw [← hz]
      simp [execute_opcode, operand_value, update_cycle_count, advance, isa_get_register,
        isa_set_register16, isa_set_register, isa_update_flags_eq, and_255, store_apply,
        uint16_t_sub_low]
    obtain ⟨fz, fn, fc, _, _, _⟩ := get_flag_of_flag_bits _ _ _ _ _ _ hwt.flags_lt hfl
    refine ⟨?_, fc, fz, ?_, ?_, hw, ?_, ?_⟩
    · simp [execute_opcode]
    · rw [fn, bit7_decide]
    · intro _
      simp [execute_opcode, operand_value, update_cycle_count, advance, isa_get_register,
        isa_set_register16, isa_set_register, isa_update_flags_eq, and_255, cpu_get_a,
        store_apply, uint16_t_sub_low]
    · intro h; exact absurd h (by decide)
    · simp [execute_opcode, operand_value, update_cycle_count, advance, isa_get_register16,
        isa_set_register16, isa_set_register, isa_update_flags_eq, cpu_get_pc,
        store_apply, word_join]
  · have hi : isa_get_instruction OP_CMP = some ⟨OP_CMP, ADDR_IMMEDIATE, 0, 0, 2, "CMP"⟩ := rfl
    rw [exec_one t _ _ hopc hi (by decide), hv]
    have hfl : (update_cycle_count (execute_opcode (advance t 2)
        ⟨OP_CMP, ADDR_IMMEDIATE, 0, 0, 2, "CMP"⟩ v 0).2
        ⟨OP_CMP, ADDR_IMMEDIATE, 0, 0, 2, "CMP"⟩).flags =
        flag_bits t.flags (decide (t.regs 0 = v))
          (decide (uint8_t ((t.regs 0 : Int) - (v : Int)) &&& 0x80 ≠ 0))
          (decide (t.regs 0 < v))
          (((t.regs 0 ^^^ uint16_t ((t.regs 0 : Int) - (v : Int))) &&&
            (v ^^^ uint16_t ((t.regs 0 : Int) - (v : Int))) &&& 0x80) != 0) := by
      rw [← hz]
      simp [execute_opcode, operand_value, update_cycle_count, advance, isa_get_register,
        isa_set_register16, isa_set_register, isa_update_flags_eq, and_255, store_apply,
        uint16_t_sub_low]
    obtain ⟨fz, fn, fc, _, _, _⟩ := get_flag_of_flag_bits _ _ _ _ _ _ hwt.flags_lt hfl
    refine ⟨?_, fc, fz, ?_, ?_, hw, ?_, ?_⟩
    · simp [execute_opcode]
    · rw [fn, bit7_decide]
    · intro h; exact absurd h (by decide)
    · intro _
      refine ⟨?_, ?_, ?_, ?_, ?_⟩
      · intro r hr
        have h6 : r ≠ 6 := by omega
        have h7 : r ≠ 7 := by omega
        simp [execute_opcode, operand_value, update_cycle_count, advance, isa_get_register,
          isa_set_register16, isa_update_flags_eq, store_apply, hr, h6, h7]
      all_goals
        simp [execute_opcode, operand_value, update_cycle_count, advance, isa_get_register16,
          isa_set_register16, isa_update_flags_eq, store_apply]
    · simp [execute_opcode, operand_value, update_cycle_count, advance, isa_get_register16,
        isa_set_register16, isa_set_register, isa_update_flags_eq, cpu_get_pc,
        store_apply, word_join]

/-- C3 (witness): the state after `LDI #5` of the program `00 05 11 07` at 0x0200 fetches
`SUB #7` with A = 5; the step sets C (borrow) and N, clears Z and leaves A = 254. -/
theorem C3_sub_cmp_flags_witness :
    (WF (steps 1 (loaded sub_program 0x0200)) ∧
      (OP_SUB = OP_SUB ∨ OP_SUB = OP_CMP) ∧
      step_fetches (steps 1 (loaded sub_program 0x0200))
        (cpu_handle_interrupts (steps 1 (loaded sub_program 0x0200))) OP_SUB ∧
      operand_byte (cpu_handle_interrupts (steps 1 (loaded sub_program 0x0200))) 1 = 7) ∧
    (isa_get_flag (cpu_step (steps 1 (loaded sub_program 0x0200))).2 FLAG_CARRY =
        decide (cpu_get_a (cpu_handle_interrupts (steps 1 (loaded sub_program 0x0200))) < 7) ∧
      isa_get_flag (cpu_step (steps 1 (loaded sub_program 0x0200))).2 FLAG_ZERO =
        decide (cpu_get_a (cpu_handle_interrupts (steps 1 (loaded sub_program 0x0200))) = 7)) ∧
    (cpu_get_a (cpu_handle_interrupts (steps 1 (loaded sub_program 0x0200))) = 5 ∧
      cpu_get_a (steps 2 (loaded sub_program 0x0200)) = 254 ∧
      isa_get_flag (steps 2 (loaded sub_program 0x0200)) FLAG_CARRY = true ∧
      isa_get_flag (steps 2 (loaded sub_program 0x0200)) FLAG_ZERO = false ∧
      isa_get_flag (steps 2 (loaded sub_program 0x0200)) FLAG_NEGATIVE = true) :=
  have hw : WF (steps 1 (loaded sub_program 0x0200)) :=
    WF_steps 1 _ (WF_loaded _ _ (by decide))
  have hf : step_fetches (steps 1 (loaded sub_program 0x0200))
      (cpu_handle_interrupts (steps 1 (loaded sub_program 0x0200))) OP_SUB :=
    ⟨by decide, rfl, by decide⟩
  have hv : operand_byte (cpu_handle_interrupts (steps 1 (loaded sub_program 0x0200))) 1 = 7 :=
    by decide
  have h := C3_sub_cmp_flags _ _ OP_SUB 7 hw (Or.inl rfl) hf hv
  ⟨⟨hw, Or.inl rfl, hf, hv⟩, ⟨h.2.1, h.2.2.1⟩, by decide⟩

/-- C4: a step that executes BEQ (0x50), BNE (0x51), BCS (0x52) or BCC (0x53), fetched at
address `p` with displacement byte `d`, leaves PC = (p + 2 + s) mod 65536, `s` being `d`
read as a signed 8-bit number, when the tested flag condition holds (Z set, Z clear,
C set, C clear respectively) and PC = (p + 2) mod 65536 otherwise; A, B, C, D, SP, the
flags and the memory are unchanged either way. -/
theorem C4_branch_target (s t : cpu_state_t) (op d : Nat) (hwf : WF s)
    (hop : op = OP_BEQ ∨ op = OP_BNE ∨ op = OP_BCS ∨ op = OP_BCC)
    (hf : step_fetches s t op) (hd : operand_byte t 1 = d) :
    (cpu_step s).1 = true ∧
    (((op = OP_BEQ ∧ isa_get_flag t FLAG_ZERO = true) ∨
      (op = OP_BNE ∧ isa_get_flag t FLAG_ZERO = false) ∨
      (op = OP_BCS ∧ isa_get_flag t FLAG_CARRY = true) ∨
      (op = OP_BCC ∧ isa_get_flag t FLAG_CARRY = false)) →
      (cpu_get_pc (cpu_step s).2 : Int) = ((cpu_get_pc t : Int) + 2 + int8_t d) % 65536) ∧
    (¬ ((op = OP_BEQ ∧ isa_get_flag t FLAG_ZERO = true) ∨
      (op = OP_BNE ∧ isa_get_flag t FLAG_ZERO = false) ∨
      (op = OP_BCS ∧ isa_get_flag t FLAG_CARRY = true) ∨
      (op = OP_BCC ∧ isa_get_flag t FLAG_CARRY = false)) →
      cpu_get_pc (cpu_step s).2 = (cpu_get_pc t + 2) % 65536) ∧
    (∀ r, r < 4 → isa_get_register (cpu_step s).2 r = isa_get_register t r) ∧
    cpu_get_sp (cpu_step s).2 = cpu_get_sp t ∧
    (cpu_step s).2.flags = t.flags ∧
    (cpu_step s).2.memory = t.memory := by
  obtain ⟨hbp, ht, hopc⟩ := hf
  have hwt : WF t := ht ▸ WF_handle_interrupts s hwf
  rw [cpu_step_eq s hbp, ← ht]
  rcases hop with rfl | rfl | rfl | rfl
  · have hi : isa_get_instruction OP_BEQ = some ⟨OP_BEQ, ADDR_RELATIVE, 0, 0, 2, "BEQ"⟩ := rfl
    rw [exec_one t _ _ hopc hi (by decide), hd]
    by_cases hc : isa_get_flag t FLAG_ZERO = true
    · have e : execute_opcode (advance t 2) ⟨OP_BEQ, ADDR_RELATIVE, 0, 0, 2, "BEQ"⟩ d 0 =
          (true, isa_set_register16 (advance t 2) REG_PC
            (isa_get_address (advance t 2) ADDR_RELATIVE d 0)) := by
        simp only [execute_opcode, get_flag_advance, hc]
        simp
      rw [e]
      obtain ⟨f1, f2, f3, f4, f5⟩ := branch_taken_facts t ⟨OP_BEQ, ADDR_RELATIVE, 0, 0, 2, "BEQ"⟩ d hwt
      exact ⟨rfl, fun _ => f1, fun h => absurd (Or.inl ⟨rfl, hc⟩) h, f2, f3, f4, f5⟩
    · have e : execute_opcode (advance t 2) ⟨OP_BEQ, ADDR_RELATIVE, 0, 0, 2, "BEQ"⟩ d 0 = (true, advance t 2) := by
        have hc1 := hc
        simp only [execute_opcode, get_flag_advance]
        simp at hc1 ⊢
        simp [hc1]
      rw [e]
      obtain ⟨f1, f2, f3, f4, f5⟩ := branch_not_taken_facts t ⟨OP_BEQ, ADDR_RELATIVE, 0, 0, 2, "BEQ"⟩
      refine ⟨rfl, fun h => ?_, fun _ => f1, f2, f3, f4, f5⟩
      rcases h with ⟨_, h⟩ | ⟨h, _⟩ | ⟨h, _⟩ | ⟨h, _⟩
      · exact absurd h hc
      · exact absurd h (by decide)
      · exact absurd h (by decide)
      · exact absurd h (by decide)
  · have hi : isa_get_instruction OP_BNE = some ⟨OP_BNE, ADDR_RELATIVE, 0, 0, 2, "BNE"⟩ := rfl
    rw [exec_one t _ _ hopc hi (by decide), hd]
    by_cases hc : isa_get_flag t FLAG_ZERO = false
    · have e : execute_opcode (advance t 2) ⟨OP_BNE, ADDR_RELATIVE, 0, 0, 2, "BNE"⟩ d 0 =
          (true, isa_set_register16 (advance t 2) REG_PC
            (isa_get_address (advance t 2) ADDR_RELATIVE d 0)) := by
        simp only [execute_opcode, get_flag_advance, hc]
        simp
      rw [e]
      obtain ⟨f1, f2, f3, f4, f5⟩ := branch_taken_facts t ⟨OP_BNE, ADDR_RELATIVE, 0, 0, 2, "BNE"⟩ d hwt
      exact ⟨rfl, fun _ => f1, fun h => absurd (Or.inr (Or.inl ⟨rfl, hc⟩)) h, f2, f3, f4, f5⟩
    · have e : execute_opcode (advance t 2) ⟨OP_BNE, ADDR_RELATIVE, 0, 0, 2, "BNE"⟩ d 0 = (true, advance t 2) := by
        have hc1 := hc
        simp only [execute_opcode, get_flag_advance]
        simp at hc1 ⊢
        simp [hc1]
      rw [e]
      obtain ⟨f1, f2, f3, f4, f5⟩ := branch_not_taken_facts t ⟨OP_BNE, ADDR_RELATIVE, 0, 0, 2, "BNE"⟩
      refine ⟨rfl, fun h => ?_, fun _ => f1, f2, f3, f4, f5⟩
      rcases h with ⟨h, _⟩ | ⟨_, h⟩ | ⟨h, _⟩ | ⟨h, _⟩
      · exact absurd h (by decide)
      · exact absurd h hc
      · exact absurd h (by decide)
      · exact absurd h (by decide)
  · have hi : isa_get_instruction OP_BCS = some ⟨OP_BCS, ADDR_RELATIVE, 0, 0, 2, "BCS"⟩ := rfl
    rw [exec_one t _ _ hopc hi (by decide), hd]
    by_cases hc : isa_get_flag t FLAG_CARRY = true
    · have e : execute_opcode (advance t 2) ⟨OP_BCS, ADDR_RELATIVE, 0, 0, 2, "BCS"⟩ d 0 =
          (true, isa_set_register16 (advance t 2) REG_PC
            (isa_get_address (advance t 2) ADDR_RELATIVE d 0)) := by
        simp only [execute_opcode, get_flag_advance, hc]
        simp
      rw [e]
      obtain ⟨f1, f2, f3, f4, f5⟩ := branch_taken_facts t ⟨OP_BCS, ADDR_RELATIVE, 0, 0, 2, "BCS"⟩ d hwt
      exact ⟨rfl, fun _ => f1, fun h => absurd (Or.inr (Or.inr (Or.inl ⟨rfl, hc⟩))) h, f2, f3, f4, f5⟩
    · have e : execute_opcode (advance t 2) ⟨OP_BCS, ADDR_RELATIVE, 0, 0, 2, "BCS"⟩ d 0 = (true, advance t 2) := by
        have hc1 := hc
        simp only [execute_opcode, get_flag_advance]
        simp at hc1 ⊢
        simp [hc1]
      rw [e]
      obtain ⟨f1, f2, f3, f4, f5⟩ := branch_not_taken_facts t ⟨OP_BCS, ADDR_RELATIVE, 0, 0, 2, "BCS"⟩
      refine ⟨rfl, fun h => ?_, fun _ => f1, f2, f3, f4, f5⟩
      rcases h with ⟨h, _⟩ | ⟨h, _⟩ | ⟨_, h⟩ | ⟨h, _⟩
      · exact absurd h (by decide)
      · exact absurd h (by decide)
      · exact absurd h hc
      · exact absurd h (by decide)
  · have hi : isa_get_instruction OP_BCC = some ⟨OP_BCC, ADDR_RELATIVE, 0, 0, 2, "BCC"⟩ := rfl
    rw [exec_one t _ _ hopc hi (by decide), hd]
    by_cases hc : isa_get_flag t FLAG_CARRY = false
    · have e : execute_opcode (advance t 2) ⟨OP_BCC, ADDR_RELATIVE, 0, 0, 2, "BCC"⟩ d 0 =
          (true, isa_set_register16 (advance t 2) REG_PC
            (isa_get_address (advance t 2) ADDR_RELATIVE d 0)) := by
        simp only [execute_opcode, get_flag_advance, hc]
        simp
      rw [e]
      obtain ⟨f1, f2, f3, f4, f5⟩ := branch_taken_facts t ⟨OP_BCC, ADDR_RELATIVE, 0, 0, 2, "BCC"⟩ d hwt
      exact ⟨rfl, fun _ => f1, fun h => absurd (Or.inr (Or.inr (Or.inr ⟨rfl, hc⟩))) h, f2, f3, f4, f5⟩
    · have e : execute_opcode (advance t 2) ⟨OP_BCC, ADDR_RELATIVE, 0, 0, 2, "BCC"⟩ d 0 = (true, advance t 2) := by
        have hc1 := hc
        simp only [execute_opcode, get_flag_advance]
        simp at hc1 ⊢
        simp [hc1]
      rw [e]
      obtain ⟨f1, f2, f3, f4, f5⟩ := branch_not_taken_facts t ⟨OP_BCC, ADDR_RELATIVE, 0, 0, 2, "BCC"⟩
      refine ⟨rfl, fun h => ?_, fun _ => f1, f2, f3, f4, f5⟩
      rcases h with ⟨h, _⟩ | ⟨h, _⟩ | ⟨h, _⟩ | ⟨_, h⟩
      · exact absurd h (by decide)
      · exact absurd h (by decide)
      · exact absurd h (by decide)
      · exact absurd h hc

/-- C4 (witness): after `LDI #0; CMP #0` of the branch program at 0x0200 the Z flag is set
and `BEQ +2` is fetched at 0x0204: the step leaves PC = 0x0208, past the first `HLT`. -/
theorem C4_branch_target_witness :
    (WF (steps 2 (loaded branch_program 0x0200)) ∧
      (OP_BEQ = OP_BEQ ∨ OP_BEQ = OP_BNE ∨ OP_BEQ = OP_BCS ∨ OP_BEQ = OP_BCC) ∧
      step_fetches (steps 2 (loaded branch_program 0x0200))
        (cpu_handle_interrupts (steps 2 (loaded branch_program 0x0200))) OP_BEQ ∧
      operand_byte (cpu_handle_interrupts (steps 2 (loaded branch_program 0x0200))) 1 = 2 ∧
      isa_get_flag (cpu_handle_interrupts (steps 2 (loaded branch_program 0x0200))) FLAG_ZERO
        = true) ∧
    (cpu_get_pc (cpu_step (steps 2 (loaded branch_program 0x0200))).2 : Int) =
      ((cpu_get_pc (cpu_handle_interrupts (steps 2 (loaded branch_program 0x0200))) : Int) + 2
        + int8_t 2) % 65536 ∧
    (cpu_get_pc (cpu_handle_interrupts (steps 2 (loaded branch_program 0x0200))) = 0x0204 ∧
      cpu_get_pc (steps 3 (loaded branch_program 0x0200)) = 0x0208 ∧
      (steps 3 (loaded branch_program 0x0200)).memory 0x0208 = OP_HLT) :=
  have hw : WF (steps 2 (loaded branch_program 0x0200)) :=
    WF_steps 2 _ (WF_loaded _ _ (by decide))
  have hf : step_fetches (steps 2 (loaded branch_program 0x0200))
      (cpu_handle_interrupts (steps 2 (loaded branch_program 0x0200))) OP_BEQ :=
    ⟨by decide, rfl, by decide⟩
  have hd : operand_byte (cpu_handle_interrupts (steps 2 (loaded branch_program 0x0200))) 1
      = 2 := by decide
  have hz : isa_get_flag (cpu_handle_interrupts (steps 2 (loaded branch_program 0x0200)))
      FLAG_ZERO = true := by decide
  have h := C4_branch_target _ _ OP_BEQ 2 hw (Or.inl rfl) hf hd
  ⟨⟨hw, Or.inl rfl, hf, hd, hz⟩, h.2.1 (Or.inl ⟨rfl, hz⟩), by decide⟩

/-- C5: `JSR` followed by `RTS` returns to the caller.  When a step executes `JSR` with
target bytes `lo`, `hi`, fetched at address `p` with stack pointer `S`, it sets
PC = lo + 256 * hi, stores the high byte of the return address (p + 3) mod 65536 at `S`
and its low byte at `S - 1`, and leaves SP = S - 2 (mod 65536).  If the byte at the target
is then the `RTS` opcode (and no breakpoint is set there), the next step sets
PC = (p + 3) mod 65536 and SP = S. -/
theorem C5_jsr_rts_returns (s t : cpu_state_t) (lo hi : Nat) (hwf : WF s)
    (hf : step_fetches s t OP_JSR) (hlo : operand_byte t 1 = lo) (hhi : operand_byte t 2 = hi) :
    (cpu_step s).1 = true ∧
    cpu_get_pc (cpu_step s).2 = lo + 256 * hi ∧
    (cpu_step s).2.memory (cpu_get_sp t) = (cpu_get_pc t + 3) % 65536 / 256 ∧
    (cpu_step s).2.memory ((cpu_get_sp t + 65535) % 65536) = (cpu_get_pc t + 3) % 65536 % 256 ∧
    cpu_get_sp (cpu_step s).2 = (cpu_get_sp t + 65534) % 65536 ∧
    ((cpu_step s).2.memory (lo + 256 * hi) = OP_RTS →
      ¬ ((cpu_step s).2.breakpoint_addr ≠ 0 ∧ lo + 256 * hi = (cpu_step s).2.breakpoint_addr) →
      (cpu_step (cpu_step s).2).1 = true ∧
      cpu_get_pc (cpu_step (cpu_step s).2).2 = (cpu_get_pc t + 3) % 65536 ∧
      cpu_get_sp (cpu_step (cpu_step s).2).2 = cpu_get_sp t) := by
  obtain ⟨hbp, ht, hop⟩ := hf
  have hwt : WF t := ht ▸ WF_handle_interrupts s hwf
  have hw1 : WF (cpu_step s).2 := WF_cpu_step s hwf
  have hq := handle_interrupts_quiet s
  rw [← ht] at hq
  have hsp := sp_lt t hwt
  obtain ⟨j1, j2, j3, j4, j5, j6, j7, j8⟩ := exec_JSR t hwt hop
  rw [hlo, hhi] at j2
  have hst : cpu_step s = isa_execute_instruction t := by rw [cpu_step_eq s hbp, ← ht]
  rw [hst] at hw1 ⊢
  have hne : cpu_get_sp t ≠ (cpu_get_sp t + 65535) % 65536 := by omega
  have m1 : (isa_execute_instruction t).2.memory (cpu_get_sp t) =
      (cpu_get_pc t + 3) % 65536 / 256 := by
    rw [j3]; simp [store_apply, hne]
  have m2 : (isa_execute_instruction t).2.memory ((cpu_get_sp t + 65535) % 65536) =
      (cpu_get_pc t + 3) % 65536 % 256 := by
    rw [j3]; simp [store_apply]
  refine ⟨j1, j2, m1, m2, j4, ?_⟩
  intro hrts hbp2
  have hq2 : cpu_handle_interrupts (isa_execute_instruction t).2 =
      (isa_execute_instruction t).2 := by
    apply handle_interrupts_of_quiet
    · rw [j5]; exact hq.1
    · rw [j6]
      unfold isa_get_flag at hq ⊢
      rw [j7]; exact hq.2
  have hbp2' : ¬ ((isa_execute_instruction t).2.breakpoint_addr ≠ 0 ∧
      cpu_get_pc (isa_execute_instruction t).2 = (isa_execute_instruction t).2.breakpoint_addr) := by
    rw [j2]; exact hbp2
  rw [cpu_step_eq _ hbp2', hq2]
  have hop2 : (isa_execute_instruction t).2.memory (cpu_get_pc (isa_execute_instruction t).2) =
      OP_RTS := by rw [j2]; exact hrts
  obtain ⟨r1, r2, r3⟩ := exec_RTS _ hw1 hop2
  have e1 : ((cpu_get_sp t + 65534) % 65536 + 1) % 65536 = (cpu_get_sp t + 65535) % 65536 := by
    omega
  have e2 : ((cpu_get_sp t + 65534) % 65536 + 2) % 65536 = cpu_get_sp t := by omega
  refine ⟨r1, ?_, ?_⟩
  · rw [r2, j4, e1, e2, m1, m2]
    omega
  · rw [r3, j4, e2]

/-- C5 (witness): `JSR 0x0205` at 0x0200 with `RTS` at 0x0205 and SP = 0x7FFF: the first
step sets PC = 0x0205 and pushes 0x02, 0x03; the second sets PC = 0x0203 and SP = 0x7FFF. -/
theorem C5_jsr_rts_returns_witness :
    (WF (loaded call_program 0x0200) ∧
      step_fetches (loaded call_program 0x0200)
        (cpu_handle_interrupts (loaded call_program 0x0200)) OP_JSR ∧
      operand_byte (cpu_handle_interrupts (loaded call_program 0x0200)) 1 = 0x05 ∧
      operand_byte (cpu_handle_interrupts (loaded call_program 0x0200)) 2 = 0x02 ∧
      (cpu_step (loaded call_program 0x0200)).2.memory (0x05 + 256 * 0x02) = OP_RTS ∧
      ¬ ((cpu_step (loaded call_program 0x0200)).2.breakpoint_addr ≠ 0 ∧
        0x05 + 256 * 0x02 = (cpu_step (loaded call_program 0x0200)).2.breakpoint_addr)) ∧
    (cpu_get_pc (cpu_step (loaded call_program 0x0200)).2 = 0x05 + 256 * 0x02 ∧
      cpu_get_pc (cpu_step (cpu_step (loaded call_program 0x0200)).2).2 =
        (cpu_get_pc (cpu_handle_interrupts (loaded call_program 0x0200)) + 3) % 65536 ∧
      cpu_get_sp (cpu_step (cpu_step (loaded call_program 0x0200)).2).2 =
        cpu_get_sp (cpu_handle_interrupts (loaded call_program 0x0200))) ∧
    (cpu_get_pc (steps 1 (loaded call_program 0x0200)) = 0x0205 ∧
      (steps 1 (loaded call_program 0x0200)).memory 0x7FFF = 0x02 ∧
      (steps 1 (loaded call_program 0x0200)).memory 0x7FFE = 0x03 ∧
      cpu_get_sp (steps 1 (loaded call_program 0x0200)) = 0x7FFD ∧
      cpu_get_pc (steps 2 (loaded call_program 0x0200)) = 0x0203 ∧
      cpu_get_sp (steps 2 (loaded call_program 0x0200)) = 0x7FFF) :=
  have hw : WF (loaded call_program 0x0200) := WF_loaded _ _ (by decide)
  have hf : step_fetches (loaded call_program 0x0200)
      (cpu_handle_interrupts (loaded call_program 0x0200)) OP_JSR :=
    ⟨by decide, rfl, by decide⟩
  have h1 : operand_byte (cpu_handle_interrupts (loaded call_program 0x0200)) 1 = 0x05 := by
    decide
  have h2 : operand_byte (cpu_handle_interrupts (loaded call_program 0x0200)) 2 = 0x02 := by
    decide
  have h3 : (cpu_step (loaded call_program 0x0200)).2.memory (0x05 + 256 * 0x02) = OP_RTS := by
    decide
  have h4 : ¬ ((cpu_step (loaded call_program 0x0200)).2.breakpoint_addr ≠ 0 ∧
      0x05 + 256 * 0x02 = (cpu_step (loaded call_program 0x0200)).2.breakpoint_addr) := by
    decide
  have h := C5_jsr_rts_returns _ _ 0x05 0x02 hw hf h1 h2
  ⟨⟨hw, hf, h1, h2, h3, h4⟩, ⟨h.2.1, (h.2.2.2.2.2 h3 h4).2.1, (h.2.2.2.2.2 h3 h4).2.2⟩,
    by decide⟩

/-- C6: push then pop is the identity for every stack pointer value.  `isa_push` writes
the byte at address SP and then sets SP to (SP - 1) mod 65536 (SP = 0 becomes 0xFFFF);
`isa_pop` increments SP (mod 65536) and then reads; so popping after a push returns the
pushed byte and the old SP.  Hence, when a step executes `PHA` (state `t` at its fetch,
stack pointer `S`) and a later step executes `PLA` in a state `w` in which SP and the
stack cell `S` are as the `PHA` left them - whatever A and the other registers hold by
then - that step leaves A and SP equal to their values before the `PHA`; and `PHP` then
`PLP` does the same for the flag byte. -/
theorem C6_push_pop_identity (c s t u w : cpu_state_t) (v : Nat) (hc : WF c)
    (hs : WF s) :
    ((isa_push c v).memory = store c.memory (cpu_get_sp c) v ∧
      cpu_get_sp (isa_push c v) = (cpu_get_sp c + 65535) % 65536 ∧
      (cpu_get_sp c = 0 → cpu_get_sp (isa_push c v) = 0xFFFF)) ∧
    ((isa_pop c).1 = c.memory ((cpu_get_sp c + 1) % 65536) ∧
      cpu_get_sp (isa_pop c).2 = (cpu_get_sp c + 1) % 65536) ∧
    ((isa_pop (isa_push c v)).1 = v ∧
      cpu_get_sp (isa_pop (isa_push c v)).2 = cpu_get_sp c) ∧
    (step_fetches s t OP_PHA → step_fetches u w OP_PLA →
      cpu_get_sp w = cpu_get_sp (cpu_step s).2 →
      w.memory (cpu_get_sp t) = (cpu_step s).2.memory (cpu_get_sp t) →
      (cpu_step s).2.memory (cpu_get_sp t) = cpu_get_a t ∧
      cpu_get_sp (cpu_step s).2 = (cpu_get_sp t + 65535) % 65536 ∧
      cpu_get_a (cpu_step u).2 = cpu_get_a t ∧
      cpu_get_sp (cpu_step u).2 = cpu_get_sp t) ∧
    (step_fetches s t OP_PHP → step_fetches u w OP_PLP →
      cpu_get_sp w = cpu_get_sp (cpu_step s).2 →
      w.memory (cpu_get_sp t) = (cpu_step s).2.memory (cpu_get_sp t) →
      (cpu_step s).2.memory (cpu_get_sp t) = t.flags ∧
      cpu_get_sp (cpu_step s).2 = (cpu_get_sp t + 65535) % 65536 ∧
      (cpu_step u).2.flags = t.flags ∧
      cpu_get_sp (cpu_step u).2 = cpu_get_sp t) := by
  have hcs := sp_lt c hc
  obtain ⟨p1, p2, -⟩ := push_facts c v
  obtain ⟨q1, q2, -⟩ := pop_facts c
  obtain ⟨r1, r2, -⟩ := pop_facts (isa_push c v)
  have back : ∀ x, x < 65536 → ((x + 65535) % 65536 + 1) % 65536 = x := fun x hx => by omega
  refine ⟨⟨p1, p2, fun h0 => by rw [p2, h0]⟩, ⟨q1, q2⟩, ⟨?_, ?_⟩, ?_, ?_⟩
  · rw [r1, p2, p1, back _ hcs]
    simp [store_apply]
  · rw [r2, p2, back _ hcs]
  · rintro ⟨hbp, ht, hop⟩ ⟨hbp2, hw, hop2⟩ hsp hcell
    have hts := sp_lt t (ht ▸ WF_handle_interrupts s hs)
    rw [cpu_step_eq s hbp, ← ht] at hsp hcell ⊢
    rw [cpu_step_eq u hbp2, ← hw]
    obtain ⟨-, e2, e3⟩ := exec_PHA t hop
    obtain ⟨-, f2, f3⟩ := exec_PLA w hop2
    have m : (isa_execute_instruction t).2.memory (cpu_get_sp t) = cpu_get_a t := by
      rw [e2]; simp [store_apply]
    refine ⟨m, e3, ?_, ?_⟩
    · rw [f2, hsp, e3, back _ hts, hcell, m]
    · rw [f3, hsp, e3, back _ hts]
  · rintro ⟨hbp, ht, hop⟩ ⟨hbp2, hw, hop2⟩ hsp hcell
    have hts := sp_lt t (ht ▸ WF_handle_interrupts s hs)
    rw [cpu_step_eq s hbp, ← ht] at hsp hcell ⊢
    rw [cpu_step_eq u hbp2, ← hw]
    obtain ⟨-, e2, e3⟩ := exec_PHP t hop
    obtain ⟨-, f2, f3⟩ := exec_PLP w hop2
    have m : (isa_execute_instruction t).2.memory (cpu_get_sp t) = t.flags := by
      rw [e2]; simp [store_apply]
    refine ⟨m, e3, ?_, ?_⟩
    · rw [f2, hsp, e3, back _ hts, hcell, m]
    · rw [f3, hsp, e3, back _ hts]

/-- C6 (witness): a push with SP = 0 leaves SP = 0xFFFF and the pop returns the byte and
SP = 0; in the program `LDI #0x42; PHA; LDI #0x07; PLA` the `PLA` restores A = 0x42 and
SP = 0x7FFF although A was 0x07 before it; in `CMP #0; PHP; ADD #1; PLP` the `PLP` restores
the flag byte 0x01 that the `ADD` had changed to 0x00. -/
theorem C6_push_pop_identity_witness :
    (WF (isa_set_register16 blank REG_SP 0) ∧
      WF (steps 1 (loaded stack_program 0x0200)) ∧
      WF (steps 1 (loaded flags_program 0x0200)) ∧
      step_fetches (steps 1 (loaded stack_program 0x0200))
        (cpu_handle_interrupts (steps 1 (loaded stack_program 0x0200))) OP_PHA ∧
      step_fetches (steps 3 (loaded stack_program 0x0200))
        (cpu_handle_interrupts (steps 3 (loaded stack_program 0x0200))) OP_PLA ∧
      step_fetches (steps 1 (loaded flags_program 0x0200))
        (cpu_handle_interrupts (steps 1 (loaded flags_program 0x0200))) OP_PHP ∧
      step_fetches (steps 3 (loaded flags_program 0x0200))
        (cpu_handle_interrupts (steps 3 (loaded flags_program 0x0200))) OP_PLP) ∧
    ((isa_pop (isa_push (isa_set_register16 blank REG_SP 0) 0x42)).1 = 0x42 ∧
      cpu_get_sp (isa_pop (isa_push (isa_set_register16 blank REG_SP 0) 0x42)).2 =
        cpu_get_sp (isa_set_register16 blank REG_SP 0)) ∧
    (cpu_get_a (cpu_step (steps 3 (loaded stack_program 0x0200))).2 =
        cpu_get_a (cpu_handle_interrupts (steps 1 (loaded stack_program 0x0200))) ∧
      cpu_get_sp (cpu_step (steps 3 (loaded stack_program 0x0200))).2 =
        cpu_get_sp (cpu_handle_interrupts (steps 1 (loaded stack_program 0x0200)))) ∧
    ((cpu_step (steps 3 (loaded flags_program 0x0200))).2.flags =
        (cpu_handle_interrupts (steps 1 (loaded flags_program 0x0200))).flags ∧
      cpu_get_sp (cpu_step (steps 3 (loaded flags_program 0x0200))).2 =
        cpu_get_sp (cpu_handle_interrupts (steps 1 (loaded flags_program 0x0200)))) ∧
    (cpu_get_sp (isa_set_register16 blank REG_SP 0) = 0 ∧
      cpu_get_sp (isa_push (isa_set_register16 blank REG_SP 0) 0x42) = 0xFFFF ∧
      cpu_get_a (steps 1 (loaded stack_program 0x0200)) = 0x42 ∧
      cpu_get_a (steps 3 (loaded stack_program 0x0200)) = 0x07 ∧
      cpu_get_a (steps 4 (loaded stack_program 0x0200)) = 0x42 ∧
      cpu_get_sp (steps 4 (loaded stack_program 0x0200)) = 0x7FFF ∧
      (steps 1 (loaded flags_program 0x0200)).flags = 0x01 ∧
      (steps 3 (loaded flags_program 0x0200)).flags = 0x00 ∧
      (steps 4 (loaded flags_program 0x0200)).flags = 0x01) :=
  have hc : WF (isa_set_register16 blank REG_SP 0) := WF_set_register16 _ _ _ WF_blank
  have hs : WF (steps 1 (loaded stack_program 0x0200)) :=
    WF_steps 1 _ (WF_loaded _ _ (by decide))
  have hp : WF (steps 1 (loaded flags_program 0x0200)) :=
    WF_steps 1 _ (WF_loaded _ _ (by decide))
  have f1 : step_fetches (steps 1 (loaded stack_program 0x0200))
      (cpu_handle_interrupts (steps 1 (loaded stack_program 0x0200))) OP_PHA :=
    ⟨by decide, rfl, by decide⟩
  have f2 : step_fetches (steps 3 (loaded stack_program 0x0200))
      (cpu_handle_interrupts (steps 3 (loaded stack_program 0x0200))) OP_PLA :=
    ⟨by decide, rfl, by decide⟩
  have g1 : step_fetches (steps 1 (loaded flags_program 0x0200))
      (cpu_handle_interrupts (steps 1 (loaded flags_program 0x0200))) OP_PHP :=
    ⟨by decide, rfl, by decide⟩
  have g2 : step_fetches (steps 3 (loaded flags_program 0x0200))
      (cpu_handle_interrupts (steps 3 (loaded flags_program 0x0200))) OP_PLP :=
    ⟨by decide, rfl, by decide⟩
  have h := C6_push_pop_identity (isa_set_register16 blank REG_SP 0)
    (steps 1 (loaded stack_program 0x0200)) _ (steps 3 (loaded stack_program 0x0200)) _
    0x42 hc hs
  have k := C6_push_pop_identity (isa_set_register16 blank REG_SP 0)
    (steps 1 (loaded flags_program 0x0200)) _ (steps 3 (loaded flags_program 0x0200)) _
    0x42 hc hp
  ⟨⟨hc, hs, hp, f1, f2, g1, g2⟩, h.2.2.1,
    (h.2.2.2.1 f1 f2 (by decide) (by decide)).2.2,
    (k.2.2.2.2 g1 g2 (by decide) (by decide)).2.2, by decide⟩

/-- C7: store then load.  When a step executes `STA [addr]` for a RAM address
addr = lo + 256 * hi in 0x0000..0x7FFF with accumulator `v`, it leaves memory[addr] = v
and changes no other memory cell; and when a later step executes `LDA [addr]` in a state
`w` in which the cell addr still holds what the store left there - whatever A holds by
then - that step leaves A = v and memory[addr] = v. -/
theorem C7_store_load (s t u w : cpu_state_t) (lo hi : Nat) (hs : WF s) (hu : WF u)
    (hf : step_fetches s t OP_STA) (hlo : operand_byte t 1 = lo) (hhi : operand_byte t 2 = hi)
    (hram : lo + 256 * hi ≤ 0x7FFF)
    (hg : step_fetches u w OP_LDA) (hlo2 : operand_byte w 1 = lo)
    (hhi2 : operand_byte w 2 = hi)
    (hcell : w.memory (lo + 256 * hi) = (cpu_step s).2.memory (lo + 256 * hi)) :
    (cpu_step s).1 = true ∧
    (cpu_step s).2.memory (lo + 256 * hi) = cpu_get_a t ∧
    (∀ a, a ≠ lo + 256 * hi → (cpu_step s).2.memory a = t.memory a) ∧
    (cpu_step u).1 = true ∧
    cpu_get_a (cpu_step u).2 = cpu_get_a t ∧
    (cpu_step u).2.memory (lo + 256 * hi) = cpu_get_a t := by
  obtain ⟨hbp, ht, hop⟩ := hf
  obtain ⟨hbp2, hw, hop2⟩ := hg
  have hwt : WF t := ht ▸ WF_handle_interrupts s hs
  have hww : WF w := hw ▸ WF_handle_interrupts u hu
  rw [cpu_step_eq s hbp, ← ht] at hcell ⊢
  rw [cpu_step_eq u hbp2, ← hw]
  obtain ⟨e1, e2⟩ := exec_STA t hwt hop
  obtain ⟨f1, f2, f3⟩ := exec_LDA w hww hop2
  rw [hlo, hhi] at e2
  rw [hlo2, hhi2] at f2
  have m : (isa_execute_instruction t).2.memory (lo + 256 * hi) = cpu_get_a t := by
    rw [e2]; simp [store_apply]
  refine ⟨e1, m, ?_, f1, ?_, ?_⟩
  · intro a ha
    rw [e2]; simp [store_apply, ha]
  · rw [f2, hcell, m]
  · rw [f3, hcell, m]

/-- C7 (witness): in the program `00 55 02 00 10 00 00 01 00 10 73` at 0x0200 the second
step executes `STA [0x1000]` with A = 0x55 and the fourth `LDA [0x1000]` after A was set
to 0; the run ends with memory[0x1000] = 0x55, A = 0x55 and running = false. -/
theorem C7_store_load_witness :
    (WF (steps 1 (loaded store_program 0x0200)) ∧
      WF (steps 3 (loaded store_program 0x0200)) ∧
      step_fetches (steps 1 (loaded store_program 0x0200))
        (cpu_handle_interrupts (steps 1 (loaded store_program 0x0200))) OP_STA ∧
      step_fetches (steps 3 (loaded store_program 0x0200))
        (cpu_handle_interrupts (steps 3 (loaded store_program 0x0200))) OP_LDA ∧
      0x00 + 256 * 0x10 ≤ 0x7FFF) ∧
    ((cpu_step (steps 1 (loaded store_program 0x0200))).2.memory (0x00 + 256 * 0x10) =
        cpu_get_a (cpu_handle_interrupts (steps 1 (loaded store_program 0x0200))) ∧
      cpu_get_a (cpu_step (steps 3 (loaded store_program 0x0200))).2 =
        cpu_get_a (cpu_handle_interrupts (steps 1 (loaded store_program 0x0200)))) ∧
    (cpu_get_a (steps 1 (loaded store_program 0x0200)) = 0x55 ∧
      cpu_get_a (steps 3 (loaded store_program 0x0200)) = 0x00 ∧
      (cpu_run 10 (loaded store_program 0x0200) 1000).map
        (fun r => (r.1, r.2.memory 0x1000, cpu_get_a r.2, r.2.running)) =
        some (false, 0x55, 0x55, false)) :=
  have hs : WF (steps 1 (loaded store_program 0x0200)) :=
    WF_steps 1 _ (WF_loaded _ _ (by decide))
  have hu : WF (steps 3 (loaded store_program 0x0200)) :=
    WF_steps 3 _ (WF_loaded _ _ (by decide))
  have hf : step_fetches (steps 1 (loaded store_program 0x0200))
      (cpu_handle_interrupts (steps 1 (loaded store_program 0x0200))) OP_STA :=
    ⟨by decide, rfl, by decide⟩
  have hg : step_fetches (steps 3 (loaded store_program 0x0200))
      (cpu_handle_interrupts (steps 3 (loaded store_program 0x0200))) OP_LDA :=
    ⟨by decide, rfl, by decide⟩
  have h := C7_store_load _ _ _ _ 0x00 0x10 hs hu hf (by decide) (by decide) (by decide) hg
    (by decide) (by decide) (by decide)
  ⟨⟨hs, hu, hf, hg, by decide⟩, ⟨h.2.1, h.2.2.2.2.1⟩, by decide⟩

/-- C8: the interrupt delivery frame.  When `cpu_handle_interrupts` delivers an
interrupt (NMI pending, or IRQ pending with I clear) from a state with stack pointer `S`,
program counter `P` and flag byte `F`, it leaves memory[S] = high byte of P,
memory[S-1] = low byte of P, memory[S-2] = F and SP = S - 3 (addresses mod 65536), the
I flag set and every other bit of the flag byte as in F, the pending flag of the delivered
interrupt cleared, and PC equal to the little-endian word that the vector cells
(0xFFFA/0xFFFB for NMI, 0xFFFE/0xFFFF for IRQ) hold afterwards. -/
theorem C8_interrupt_frame (s : cpu_state_t) (hwf : WF s)
    (hd : s.nmi_pending = true ∨
      (s.irq_pending = true ∧ isa_get_flag s FLAG_INTERRUPT = false)) :
    (cpu_handle_interrupts s).memory (cpu_get_sp s) = cpu_get_pc s / 256 ∧
    (cpu_handle_interrupts s).memory ((cpu_get_sp s + 65535) % 65536) = cpu_get_pc s % 256 ∧
    (cpu_handle_interrupts s).memory ((cpu_get_sp s + 65534) % 65536) = s.flags ∧
    cpu_get_sp (cpu_handle_interrupts s) = (cpu_get_sp s + 65533) % 65536 ∧
    isa_get_flag (cpu_handle_interrupts s) FLAG_INTERRUPT = true ∧
    (∀ i, i ≠ 4 → (cpu_handle_interrupts s).flags.testBit i = s.flags.testBit i) ∧
    (s.nmi_pending = true →
      (cpu_handle_interrupts s).nmi_pending = false ∧
      cpu_get_pc (cpu_handle_interrupts s) =
        (cpu_handle_interrupts s).memory 0xFFFA +
          256 * (cpu_handle_interrupts s).memory 0xFFFB) ∧
    (s.nmi_pending = false →
      (cpu_handle_interrupts s).irq_pending = false ∧
      cpu_get_pc (cpu_handle_interrupts s) =
        (cpu_handle_interrupts s).memory 0xFFFE +
          256 * (cpu_handle_interrupts s).memory 0xFFFF) := by
  by_cases hn : s.nmi_pending = true
  · obtain ⟨d1, d2, d3, d4, d5, d6, d7, d8, -⟩ :=
      deliver_facts { s with nmi_pending := false } (WF_clear_nmi s hwf) 0xFFFA
    rw [handle_interrupts_nmi s hn]
    refine ⟨d1, d2, d3, d4, ?_, ?_, fun _ => ⟨d7, d6⟩, fun h => ?_⟩
    · unfold isa_get_flag
      rw [d5]
      exact or_16_and_16 s.flags
    · intro i hi
      rw [d5]
      exact testBit_or_16 s.flags i hi
    · rw [hn] at h
      exact absurd h (by decide)
  · have hn' : s.nmi_pending = false := by simpa using hn
    rcases hd with hd | ⟨hq, hI⟩
    · exact absurd hd hn
    · obtain ⟨d1, d2, d3, d4, d5, d6, d7, d8, -⟩ :=
        deliver_facts { s with irq_pending := false } (WF_clear_irq s hwf) 0xFFFE
      rw [handle_interrupts_irq s hn' hq hI]
      refine ⟨d1, d2, d3, d4, ?_, ?_, fun h => absurd h hn, fun _ => ⟨d8, d6⟩⟩
      · unfold isa_get_flag
        rw [d5]
        exact or_16_and_16 s.flags
      · intro i hi
        rw [d5]
        exact testBit_or_16 s.flags i hi

/-- C8 (witness): the sample machine (NMI pending, SP = 0x7FFF, PC = 0x0300, flags = 0,
NMI vector 0x0200): delivery leaves 0x03, 0x00, 0x00 at 0x7FFF, 0x7FFE, 0x7FFD,
SP = 0x7FFC, flags = 0x10, `nmi_pending` clear and PC = 0x0200. -/
theorem C8_interrupt_frame_witness :
    (WF interrupt_sample ∧
      (interrupt_sample.nmi_pending = true ∨
        (interrupt_sample.irq_pending = true ∧
          isa_get_flag interrupt_sample FLAG_INTERRUPT = false))) ∧
    ((cpu_handle_interrupts interrupt_sample).memory (cpu_get_sp interrupt_sample) =
        cpu_get_pc interrupt_sample / 256 ∧
      cpu_get_sp (cpu_handle_interrupts interrupt_sample) =
        (cpu_get_sp interrupt_sample + 65533) % 65536 ∧
      isa_get_flag (cpu_handle_interrupts interrupt_sample) FLAG_INTERRUPT = true) ∧
    (cpu_get_sp interrupt_sample = 0x7FFF ∧
      cpu_get_pc interrupt_sample = 0x0300 ∧
      (cpu_handle_interrupts interrupt_sample).memory 0x7FFF = 0x03 ∧
      (cpu_handle_interrupts interrupt_sample).memory 0x7FFE = 0x00 ∧
      (cpu_handle_interrupts interrupt_sample).memory 0x7FFD = 0x00 ∧
      cpu_get_sp (cpu_handle_interrupts interrupt_sample) = 0x7FFC ∧
      (cpu_handle_interrupts interrupt_sample).flags = 0x10 ∧
      (cpu_handle_interrupts interrupt_sample).nmi_pending = false ∧
      cpu_get_pc (cpu_handle_interrupts interrupt_sample) = 0x0200) :=
  have h := C8_interrupt_frame interrupt_sample WF_interrupt_sample (Or.inl rfl)
  ⟨⟨WF_interrupt_sample, Or.inl rfl⟩, ⟨h.1, h.2.2.2.1, h.2.2.2.2.1⟩, by decide⟩

/-- C9: interrupt priority and masking.  `cpu_irq` and `cpu_nmi` only set their pending
flag.  One call of `cpu_handle_interrupts` delivers at most one interrupt: when
`nmi_pending` is set it delivers the NMI, whatever the I flag (NMI vector, one frame of
three bytes, `irq_pending` untouched); otherwise, when `irq_pending` is set and I is clear,
it delivers the IRQ (IRQ vector, one frame); and when neither holds - in particular with
an IRQ pending and I set - it returns the state unchanged. -/
theorem C9_interrupt_priority (s : cpu_state_t) (hwf : WF s) :
    cpu_irq s = { s with irq_pending := true } ∧
    cpu_nmi s = { s with nmi_pending := true } ∧
    (s.nmi_pending = true →
      (cpu_handle_interrupts s).nmi_pending = false ∧
      (cpu_handle_interrupts s).irq_pending = s.irq_pending ∧
      cpu_get_pc (cpu_handle_interrupts s) =
        (cpu_handle_interrupts s).memory 0xFFFA +
          256 * (cpu_handle_interrupts s).memory 0xFFFB ∧
      cpu_get_sp (cpu_handle_interrupts s) = (cpu_get_sp s + 65533) % 65536) ∧
    (s.nmi_pending = false → s.irq_pending = true → isa_get_flag s FLAG_INTERRUPT = false →
      (cpu_handle_interrupts s).irq_pending = false ∧
      (cpu_handle_interrupts s).nmi_pending = false ∧
      cpu_get_pc (cpu_handle_interrupts s) =
        (cpu_handle_interrupts s).memory 0xFFFE +
          256 * (cpu_handle_interrupts s).memory 0xFFFF ∧
      cpu_get_sp (cpu_handle_interrupts s) = (cpu_get_sp s + 65533) % 65536) ∧
    (s.nmi_pending = false →
      ¬ (s.irq_pending = true ∧ isa_get_flag s FLAG_INTERRUPT = false) →
      cpu_handle_interrupts s = s) := by
  refine ⟨rfl, rfl, ?_, ?_, ?_⟩
  · intro hn
    obtain ⟨-, -, -, d4, -, d6, d7, d8, -⟩ :=
      deliver_facts { s with nmi_pending := false } (WF_clear_nmi s hwf) 0xFFFA
    rw [handle_interrupts_nmi s hn]
    exact ⟨d7, d8, d6, d4⟩
  · intro hn hq hI
    obtain ⟨-, -, -, d4, -, d6, d7, d8, -⟩ :=
      deliver_facts { s with irq_pending := false } (WF_clear_irq s hwf) 0xFFFE
    rw [handle_interrupts_irq s hn hq hI]
    exact ⟨d8, d7.trans hn, d6, d4⟩
  · intro hn hno
    apply handle_interrupts_of_quiet s hn
    cases hq : s.irq_pending
    · exact Or.inl rfl
    · right
      cases hI : isa_get_flag s FLAG_INTERRUPT
      · exact absurd ⟨hq, hI⟩ hno
      · rfl

/-- C9 (witness): on the sample machine with both an NMI and an IRQ pending, one call
delivers the NMI only (PC = 0x0200 from the NMI vector, SP = 0x7FFC, `irq_pending` still
set); the call after it delivers nothing, because I is now set. -/
theorem C9_interrupt_priority_witness :
    WF (cpu_irq interrupt_sample) ∧
    ((cpu_handle_interrupts (cpu_irq interrupt_sample)).nmi_pending = false ∧
      (cpu_handle_interrupts (cpu_irq interrupt_sample)).irq_pending =
        (cpu_irq interrupt_sample).irq_pending) ∧
    ((cpu_irq interrupt_sample).nmi_pending = true ∧
      (cpu_irq interrupt_sample).irq_pending = true ∧
      cpu_get_pc (cpu_handle_interrupts (cpu_irq interrupt_sample)) = 0x0200 ∧
      cpu_get_sp (cpu_handle_interrupts (cpu_irq interrupt_sample)) = 0x7FFC ∧
      (cpu_handle_interrupts (cpu_irq interrupt_sample)).irq_pending = true ∧
      cpu_get_sp (cpu_handle_interrupts (cpu_handle_interrupts (cpu_irq interrupt_sample))) =
        0x7FFC ∧
      (cpu_handle_interrupts (cpu_handle_interrupts (cpu_irq interrupt_sample))).irq_pending =
        true) :=
  have hw : WF (cpu_irq interrupt_sample) := WF_cpu_irq _ WF_interrupt_sample
  have h := C9_interrupt_priority (cpu_irq interrupt_sample) hw
  ⟨hw, ⟨(h.2.2.1 rfl).1, (h.2.2.1 rfl).2.1⟩, by decide⟩

/-- C10 (counterexample): with an NMI pending, no breakpoint set and the NMI vector
holding 0x0200, one `cpu_step` ends with PC = 0x0202, cycle_count = 2 and
instruction_count = 1: the `LDI` at the vector target has been executed in the same
step, so PC is not the vector contents and neither counter is unchanged. -/
theorem C10_counterexample :
    interrupt_sample.nmi_pending = true ∧
    ¬ (interrupt_sample.breakpoint_addr ≠ 0 ∧
      cpu_get_pc interrupt_sample = interrupt_sample.breakpoint_addr) ∧
    interrupt_sample.memory 0xFFFA + 256 * interrupt_sample.memory 0xFFFB = 0x0200 ∧
    (cpu_step interrupt_sample).2.memory 0xFFFA +
      256 * (cpu_step interrupt_sample).2.memory 0xFFFB = 0x0200 ∧
    interrupt_sample.cycle_count = 0 ∧
    interrupt_sample.instruction_count = 0 ∧
    cpu_get_pc (cpu_step interrupt_sample).2 = 0x0202 ∧
    (cpu_step interrupt_sample).2.cycle_count = 2 ∧
    (cpu_step interrupt_sample).2.instruction_count = 1 ∧
    cpu_get_a (cpu_step interrupt_sample).2 = 0x42 ∧
    ¬ (cpu_get_pc (cpu_step interrupt_sample).2 =
        (cpu_step interrupt_sample).2.memory 0xFFFA +
          256 * (cpu_step interrupt_sample).2.memory 0xFFFB ∧
      (cpu_step interrupt_sample).2.cycle_count = interrupt_sample.cycle_count ∧
      (cpu_step interrupt_sample).2.instruction_count =
        interrupt_sample.instruction_count) := by
  decide

/-- C10 (amended): a step that delivers an interrupt also executes the first instruction
of the handler.  For every state with an NMI pending (or an IRQ pending with I clear) and
no breakpoint at PC, `cpu_step` delivers the interrupt - which sets PC to the contents of
the interrupt vector and changes neither counter - and then, in the same step, fetches and
executes the instruction at that address: when the byte there is a catalogued opcode,
cycle_count grows by the cost of that opcode and instruction_count by one. -/
theorem C10_interrupt_step_executes (s : cpu_state_t) (hwf : WF s)
    (hd : s.nmi_pending = true ∨
      (s.irq_pending = true ∧ isa_get_flag s FLAG_INTERRUPT = false))
    (hbp : ¬ (s.breakpoint_addr ≠ 0 ∧ cpu_get_pc s = s.breakpoint_addr)) :
    cpu_step s = isa_execute_instruction (cpu_handle_interrupts s) ∧
    cpu_get_pc (cpu_handle_interrupts s) =
      (cpu_handle_interrupts s).memory (if s.nmi_pending then 0xFFFA else 0xFFFE) +
        256 * (cpu_handle_interrupts s).memory (if s.nmi_pending then 0xFFFB else 0xFFFF) ∧
    (cpu_handle_interrupts s).cycle_count = s.cycle_count ∧
    (cpu_handle_interrupts s).instruction_count = s.instruction_count ∧
    (∀ inst,
      isa_get_instruction
        ((cpu_handle_interrupts s).memory (cpu_get_pc (cpu_handle_interrupts s))) = some inst →
      (cpu_step s).2.cycle_count = uint64_t ((s.cycle_count : Int) + inst.cycles) ∧
      (cpu_step s).2.instruction_count = uint32_t ((s.instruction_count : Int) + 1) ∧
      (cpu_step s).2.instruction_count ≠ s.instruction_count) := by
  have hc := counters_handle_interrupts s
  simp only [counters, Prod.mk.injEq] at hc
  refine ⟨cpu_step_eq s hbp, ?_, hc.1, hc.2, ?_⟩
  · by_cases hn : s.nmi_pending = true
    · simp only [hn, if_true]
      rw [handle_interrupts_nmi s hn]
      exact (deliver_facts _ (WF_clear_nmi s hwf) 0xFFFA).2.2.2.2.2.1
    · have hn' : s.nmi_pending = false := by simpa using hn
      rcases hd with hd | ⟨hq, hI⟩
      · exact absurd hd hn
      · simp only [hn', Bool.false_eq_true, if_false]
        rw [handle_interrupts_irq s hn' hq hI]
        exact (deliver_facts _ (WF_clear_irq s hwf) 0xFFFE).2.2.2.2.2.1
  · intro inst hi
    obtain ⟨g1, g2⟩ := (counters_execute_instruction (cpu_handle_interrupts s)).1 inst hi
    rw [cpu_step_eq s hbp, g1, g2, hc.1, hc.2]
    refine ⟨rfl, rfl, ?_⟩
    have := hwf.instr_lt
    unfold uint32_t
    omega

/-- C10 (witness): on the sample machine (NMI pending, no breakpoint) the step is the
delivery followed by the execution of the `LDI` at the vector target 0x0200. -/
theorem C10_interrupt_step_executes_witness :
    (WF interrupt_sample ∧
      (interrupt_sample.nmi_pending = true ∨
        (interrupt_sample.irq_pending = true ∧
          isa_get_flag interrupt_sample FLAG_INTERRUPT = false)) ∧
      ¬ (interrupt_sample.breakpoint_addr ≠ 0 ∧
        cpu_get_pc interrupt_sample = interrupt_sample.breakpoint_addr)) ∧
    cpu_step interrupt_sample = isa_execute_instruction (cpu_handle_interrupts interrupt_sample) ∧
    (cpu_get_pc (cpu_handle_interrupts interrupt_sample) = 0x0200 ∧
      (cpu_handle_interrupts interrupt_sample).memory 0x0200 = OP_LDI ∧
      (cpu_step interrupt_sample).2.instruction_count = 1) :=
  have h := C10_interrupt_step_executes interrupt_sample WF_interrupt_sample (Or.inl rfl)
    (by decide)
  ⟨⟨WF_interrupt_sample, Or.inl rfl, by decide⟩, h.1, by decide⟩

/-! # Lemmas for the run loop, the debug state and the resets -/

/-! ## The debug fields are written by no instruction -/

theorem debug_set_register (c : cpu_state_t) (r v : Nat) :
    debug_state (isa_set_register c r v) = debug_state c := by
  unfold isa_set_register
  split_ifs <;> rfl

theorem debug_write_memory (c : cpu_state_t) (a v : Nat) :
    debug_state (isa_write_memory c a v) = debug_state c := rfl

theorem debug_set_flag (c : cpu_state_t) (f : Nat) :
    debug_state (isa_set_flag c f) = debug_state c := rfl

theorem debug_clear_flag (c : cpu_state_t) (f : Nat) :
    debug_state (isa_clear_flag c f) = debug_state c := rfl

theorem debug_update_flags (c : cpu_state_t) (r : Nat) (cy ov : Bool) :
    debug_state (isa_update_flags c r cy ov) = debug_state c := by
  rw [isa_update_flags_eq]
  rfl

theorem debug_set_register16 (c : cpu_state_t) (r v : Nat) :
    debug_state (isa_set_register16 c r v) = debug_state c := by
  unfold isa_set_register16
  split_ifs <;> rfl

theorem debug_push (c : cpu_state_t) (v : Nat) : debug_state (isa_push c v) = debug_state c := by
  unfold isa_push
  simp only [debug_set_register16, debug_write_memory]

theorem debug_push16 (c : cpu_state_t) (v : Nat) :
    debug_state (isa_push16 c v) = debug_state c := by
  unfold isa_push16
  simp only [debug_push]

theorem debug_pop (c : cpu_state_t) : debug_state (isa_pop c).2 = debug_state c := by
  unfold isa_pop
  simp only [debug_set_register16]

theorem debug_pop16 (c : cpu_state_t) : debug_state (isa_pop16 c).2 = debug_state c := by
  unfold isa_pop16
  simp only [debug_pop]

theorem debug_ite (p : Prop) [Decidable p] (a b : Bool × cpu_state_t)
    (k : Bool × Nat × Nat × Bool × Bool)
    (ha : p → debug_state a.2 = k) (hb : ¬ p → debug_state b.2 = k) :
    debug_state (if p then a else b).2 = k := by
  split_ifs with hp
  · exact ha hp
  · exact hb hp

theorem debug_execute_opcode (c : cpu_state_t) (inst : instruction_t) (o1 o2 : Nat) :
    debug_state (execute_opcode c inst o1 o2).2 = debug_state c := by
  unfold execute_opcode
  repeat' (apply debug_ite <;> intro _)
  all_goals dsimp only
  all_goals
    first
    | rfl
    | simp only [debug_set_register, debug_write_memory, debug_set_flag,
        debug_clear_flag, debug_update_flags, debug_set_register16, debug_push,
        debug_push16, debug_pop, debug_pop16]

theorem debug_fetch_byte (c : cpu_state_t) :
    debug_state (isa_fetch_byte c).2 = debug_state c := by
  unfold isa_fetch_byte
  simp only [debug_set_register16]

theorem debug_fetch_operands (c : cpu_state_t) (m : addressing_mode_t) :
    debug_state (fetch_operands c m).2.2 = debug_state c := by
  cases m <;> simp only [fetch_operands, debug_fetch_byte]

/-- Fetching and executing an instruction leaves the debug fields as they were. -/
theorem debug_execute_instruction (c : cpu_state_t) :
    debug_state (isa_execute_instruction c).2 = debug_state c := by
  have hc := debug_fetch_byte c
  unfold isa_execute_instruction
  dsimp only
  split_ifs with hv
  · exact hc
  · cases hi : isa_get_instruction (isa_fetch_byte c).1 with
    | none => exact hc
    | some inst =>
      dsimp only
      have h2 := debug_execute_opcode (fetch_operands (isa_fetch_byte c).2 inst.addr_mode).2.2
        inst (fetch_operands (isa_fetch_byte c).2 inst.addr_mode).1
        (fetch_operands (isa_fetch_byte c).2 inst.addr_mode).2.1
      rw [debug_fetch_operands, hc] at h2
      exact h2

theorem debug_deliver (b : cpu_state_t) (vector : Nat) :
    debug_state (deliver b vector) = debug_state b := by
  unfold deliver
  simp only [debug_set_register16, debug_set_flag, debug_push, debug_push16]

theorem debug_handle_interrupts (s : cpu_state_t) :
    debug_state (cpu_handle_interrupts s) = debug_state s := by
  rw [handle_interrupts_eq]
  split_ifs
  · rw [debug_deliver]; rfl
  · rw [debug_deliver]; rfl
  · rfl

/-! ## Reset and memory initialisation -/

theorem cpu_reset_pc (cpu : cpu_state_t) (dev : devices_t) :
    cpu_get_pc (cpu_reset cpu dev).1 = 0xFFFC := by
  have e : cpu_get_pc (cpu_reset cpu dev).1 = cpu_get_pc (isa_set_register16
      (isa_set_register16 { cpu with regs := fun _ => 0 } REG_SP 0x7FFF) REG_PC 0xFFFC) := rfl
  rw [e]
  exact get16_set16 _ REG_PC 0xFFFC (by decide)

theorem cpu_reset_sp (cpu : cpu_state_t) (dev : devices_t) :
    cpu_get_sp (cpu_reset cpu dev).1 = 0x7FFF := by
  have e : cpu_get_sp (cpu_reset cpu dev).1 = cpu_get_sp (isa_set_register16
      (isa_set_register16 { cpu with regs := fun _ => 0 } REG_SP 0x7FFF) REG_PC 0xFFFC) := rfl
  rw [e]
  unfold cpu_get_sp
  rw [get16_set16_ne _ REG_PC REG_SP _ (by decide) (by decide)]
  exact get16_set16 _ REG_SP 0x7FFF (by decide)

theorem memory_init_eq (memory : Nat → Nat) (dev : devices_t) :
    (memory_init memory dev).1 =
      store (store (store (store (store (store (fun _ => 0) 0xFFFC 0x00) 0xFFFD 0x02)
        0xFFFA 0x00) 0xFFFB 0x02) 0xFFFE 0x00) 0xFFFF 0x02 := rfl

theorem cpu_reset_memory (cpu : cpu_state_t) (dev : devices_t) (memory : Nat → Nat) :
    (cpu_reset cpu dev).1.memory = (memory_init memory dev).1 := rfl

theorem cpu_create_eq (cpu : cpu_state_t) (dev : devices_t) :
    ∃ r, cpu_create (some cpu) dev = some r ∧ r.1.regs = (cpu_reset cpu dev).1.regs ∧
      r.1.memory = (cpu_reset cpu dev).1.memory :=
  ⟨_, rfl, rfl, rfl⟩

theorem cpu_reset_vector (cpu : cpu_state_t) (dev : devices_t) :
    ((cpu_reset cpu dev).1.memory 0xFFFC ||| ((cpu_reset cpu dev).1.memory 0xFFFD <<< 8)) =
      0x0200 := by
  rw [cpu_reset_memory cpu dev (fun _ => 0), memory_init_eq]
  decide

/-! ## The run loop -/

theorem table_cycles : ∀ inst ∈ instruction_table, 1 ≤ inst.cycles ∧ inst.cycles ≤ 6 := by
  decide

theorem get_instruction_cycles (op : Nat) (inst : instruction_t)
    (h : isa_get_instruction op = some inst) : 1 ≤ inst.cycles ∧ inst.cycles ≤ 6 :=
  table_cycles inst (List.mem_of_find?_eq_some h)

/-- A step that returns true has added between 1 and 6 cycles (mod 2^64). -/
theorem step_cycles (c : cpu_state_t) (h : (cpu_step c).1 = true) :
    ∃ k, 1 ≤ k ∧ k ≤ 6 ∧
      (cpu_step c).2.cycle_count = uint64_t ((c.cycle_count : Int) + (k : Nat)) := by
  by_cases hbp : c.breakpoint_addr ≠ 0 ∧ cpu_get_pc c = c.breakpoint_addr
  · exfalso
    have e : (cpu_step c).1 = false := by
      unfold cpu_step
      simp only [cpu_get_pc] at hbp
      simp only [hbp, ne_eq, not_false_eq_true, and_self, if_true]
    rw [e] at h
    cases h
  · rw [cpu_step_eq c hbp] at h ⊢
    have hc := counters_handle_interrupts c
    simp only [counters, Prod.mk.injEq] at hc
    obtain ⟨h1, h2⟩ := counters_execute_instruction (cpu_handle_interrupts c)
    cases hi : isa_get_instruction
        ((cpu_handle_interrupts c).memory (cpu_get_pc (cpu_handle_interrupts c))) with
    | none =>
      rw [(h2 hi).1] at h
      cases h
    | some inst =>
      obtain ⟨k1, k6⟩ := get_instruction_cycles _ inst hi
      refine ⟨inst.cycles, k1, k6, ?_⟩
      rw [(h1 inst hi).1, hc.1]

/-- With a budget of at most 2^64 - 6 cycles the run loop exits within `fuel` iterations
as soon as `fuel` exceeds the part of the budget that is left. -/
theorem run_loop_exits (fuel : Nat) : ∀ (c : cpu_state_t) (start_cycles max_cycles : Nat),
    WF c → start_cycles < 18446744073709551616 → max_cycles + 6 ≤ 18446744073709551616 →
    max_cycles - uint64_t ((c.cycle_count : Int) - start_cycles) < fuel →
    ∃ r, cpu_run_loop fuel c start_cycles max_cycles = some r := by
  induction fuel with
  | zero =>
    intro c start_cycles max_cycles _ _ _ hf
    omega
  | succ fuel ih =>
    intro c start_cycles max_cycles hwf hs hm hf
    unfold cpu_run_loop
    by_cases hc : c.running = true ∧
        uint64_t ((c.cycle_count : Int) - start_cycles) < max_cycles
    · simp only [hc, and_self, if_true]
      by_cases hr : (cpu_step c).1 = true
      case neg =>
        simp only [Bool.not_eq_true] at hr
        simp only [hr, Bool.not_false, if_true]
        exact ⟨_, rfl⟩
      case pos =>
        simp only [hr, Bool.not_true, Bool.false_eq_true, if_false]
        obtain ⟨k, k1, k6, hk⟩ := step_cycles c hr
        apply ih _ _ _ (WF_cpu_step c hwf) hs hm
        rw [hk]
        have hlt := hwf.cycle_lt
        have h2 := hc.2
        unfold uint64_t at h2 hf ⊢
        omega
    · simp only [hc, if_false]
      exact ⟨_, rfl⟩

/-- One step of the spinning machine takes the branch back to 0x0200 and adds 2 cycles. -/
theorem spinning_step (c : cpu_state_t) (h : spinning c) :
    (cpu_step c).1 = true ∧ spinning (cpu_step c).2 := by
  obtain ⟨hwf, hpc, hop, hd, hfl, hrun, hn, hq, hb, hcy⟩ := h
  have hbp : ¬ (c.breakpoint_addr ≠ 0 ∧ cpu_get_pc c = c.breakpoint_addr) :=
    fun h => h.1 hb
  have hop' : c.memory (cpu_get_pc c) = OP_BNE := by rw [hpc]; exact hop
  have hd' : operand_byte c 1 = 0xFE := by
    unfold operand_byte
    rw [hpc]
    exact hd
  have hz : isa_get_flag c FLAG_ZERO = false := by
    unfold isa_get_flag
    rw [hfl]
    decide
  have hi : isa_get_instruction OP_BNE = some ⟨OP_BNE, ADDR_RELATIVE, 0, 0, 2, "BNE"⟩ := rfl
  have e : execute_opcode (advance c 2) ⟨OP_BNE, ADDR_RELATIVE, 0, 0, 2, "BNE"⟩ 0xFE 0 =
      (true, isa_set_register16 (advance c 2) REG_PC
        (isa_get_address (advance c 2) ADDR_RELATIVE 0xFE 0)) := by
    simp only [execute_opcode, get_flag_advance, hz]
    simp
  have hw := WF_cpu_step c hwf
  rw [cpu_step_eq c hbp, handle_interrupts_of_quiet c hn (Or.inl hq),
    exec_one c _ _ hop' hi (by decide), hd', e] at hw ⊢
  obtain ⟨f1, _, _, f4, f5⟩ :=
    branch_taken_facts c ⟨OP_BNE, ADDR_RELATIVE, 0, 0, 2, "BNE"⟩ 0xFE hwf
  obtain ⟨_, _, _, _, _, g6, g7, g8, g9⟩ :=
    finish_facts (advance c 2) ⟨OP_BNE, ADDR_RELATIVE, 0, 0, 2, "BNE"⟩
      (isa_get_address (advance c 2) ADDR_RELATIVE 0xFE 0)
  obtain ⟨_, _, _, _, _, a6, a7, a8, a9, a10, _⟩ := advance_facts c 2
  have hs := set16_frame (advance c 2) REG_PC
    (isa_get_address (advance c 2) ADDR_RELATIVE 0xFE 0)
  have hk : int8_t 0xFE = -2 := by decide
  refine ⟨rfl, hw, ?_, ?_, ?_, f4.trans hfl, (g9.trans a9).trans hrun, (g6.trans a6).trans hn,
    (g7.trans a7).trans hq, (g8.trans a8).trans hb, ?_⟩
  · dsimp only
    rw [hpc, hk] at f1
    omega
  · dsimp only
    rw [f5]
    exact hop
  · dsimp only
    rw [f5]
    exact hd
  · have hcc : (update_cycle_count (isa_set_register16 (advance c 2) REG_PC
        (isa_get_address (advance c 2) ADDR_RELATIVE 0xFE 0))
        ⟨OP_BNE, ADDR_RELATIVE, 0, 0, 2, "BNE"⟩).cycle_count =
        uint64_t ((c.cycle_count : Int) + (2 : Nat)) := by
      simp only [update_cycle_count, hs.2.2.2.2.2.1, a10]
    dsimp only
    rw [hcc]
    unfold uint64_t
    omega

/-- The run loop of the spinning machine with a budget of 2^64 - 1 cycles never exits:
the difference of the cycle counters is even, hence below the budget. -/
theorem spinning_loop (fuel : Nat) : ∀ c : cpu_state_t, spinning c →
    cpu_run_loop fuel c 0 18446744073709551615 = none := by
  induction fuel with
  | zero => intro c _; rfl
  | succ fuel ih =>
    intro c h
    obtain ⟨h1, h2⟩ := spinning_step c h
    have hlt := h.1.cycle_lt
    have hev := h.2.2.2.2.2.2.2.2.2
    have hc : c.running = true ∧
        uint64_t ((c.cycle_count : Int) - (0 : Nat)) < 18446744073709551615 := by
      refine ⟨h.2.2.2.2.2.1, ?_⟩
      unfold uint64_t
      omega
    unfold cpu_run_loop
    simp only [hc, and_self, if_true, h1, Bool.not_true, Bool.false_eq_true, if_false]
    exact ih _ h2

theorem spinning_start : spinning { loaded spin_program 0x0200 with running := true } :=
  ⟨⟨(WF_loaded spin_program 0x0200 (by decide)).regs_lt, by decide,
      (WF_loaded spin_program 0x0200 (by decide)).memory_lt, by decide, by decide, by decide,
      by decide⟩,
    by decide, by decide, by decide, rfl, rfl, rfl, rfl, rfl, by decide⟩

theorem spinning_run (fuel : Nat) :
    cpu_run fuel (loaded spin_program 0x0200) 18446744073709551615 = none := by
  have h := spinning_loop fuel _ spinning_start
  show Option.map (fun c => (c.running, c)) (cpu_run_loop fuel
    { loaded spin_program 0x0200 with running := true } 0 18446744073709551615) = none
  rw [h]
  rfl

/-! ## Valid opcodes -/

theorem table_opcodes :
    instruction_table.map instruction_t.opcode =
      [0x00, 0x01, 0x01, 0x01, 0x02, 0x02, 0x02, 0x03, 0x10, 0x10, 0x10, 0x11, 0x11, 0x11,
        0x12, 0x12, 0x12, 0x13, 0x13, 0x13, 0x14, 0x14, 0x14, 0x15, 0x15, 0x16, 0x16,
        0x20, 0x20, 0x20, 0x21, 0x21, 0x21, 0x22, 0x22, 0x22, 0x30, 0x30, 0x31, 0x31,
        0x32, 0x32, 0x33, 0x33, 0x40, 0x41, 0x42, 0x50, 0x51, 0x52, 0x53, 0x54, 0x55,
        0x56, 0x57, 0x60, 0x61, 0x62, 0x63, 0x64, 0x65, 0x70, 0x71, 0x72, 0x73] := rfl

theorem valid_opcode_mem (b : Nat) :
    isa_is_valid_opcode b = true ↔ b ∈ instruction_table.map instruction_t.opcode := by
  unfold isa_is_valid_opcode isa_get_instruction
  rw [List.find?_isSome, List.mem_map]
  simp only [beq_iff_eq]

theorem valid_opcode_iff (b : Nat) :
    isa_is_valid_opcode b = true ↔
      (b ≤ 0x03 ∨ (0x10 ≤ b ∧ b ≤ 0x16) ∨ (0x20 ≤ b ∧ b ≤ 0x22) ∨ (0x30 ≤ b ∧ b ≤ 0x33) ∨
        (0x40 ≤ b ∧ b ≤ 0x42) ∨ (0x50 ≤ b ∧ b ≤ 0x57) ∨ (0x60 ≤ b ∧ b ≤ 0x65) ∨
        (0x70 ≤ b ∧ b ≤ 0x73)) := by
  rw [valid_opcode_mem, table_opcodes]
  by_cases hb : b < 116
  · interval_cases b <;> decide
  · constructor
    · intro h
      have hle : ∀ x ∈ instruction_table.map instruction_t.opcode, x ≤ 0x73 := by decide
      rw [table_opcodes] at hle
      have := hle b h
      omega
    · intro h
      omega

/-- Execution at a byte that is not an opcode: the PC has moved past the byte, the machine
is stopped, nothing else has changed. -/
theorem exec_invalid (t : cpu_state_t)
    (hv : isa_is_valid_opcode (t.memory (cpu_get_pc t)) = false) :
    isa_execute_instruction t = (false, { advance t 1 with running := false }) := by
  unfold isa_execute_instruction
  simp only [fetch_byte_eq, hv, Bool.not_false, if_true]

/-! # Properties of the run loop, the debug hooks and the resets -/

/-- C11: evaluation of `cpu_run` on `LDI #0x05; ADC #0x01` with a budget of 1000 cycles.
The second step reaches the `default` case of the execute switch, which returns false
without clearing `running`; the loop is left by `break`, and the run returns true with
`running` still set after 4 cycles. -/
theorem C11_run_returns_running :
    (cpu_run 3 (loaded adc_program 0x0200) 1000).map
      (fun r => (r.1, r.2.running, r.2.cycle_count)) = some (true, true, 4) ∧
    isa_is_valid_opcode OP_ADC = true ∧
    (cpu_step (steps 1 (loaded adc_program 0x0200))).1 = false := by
  decide

/-- C12 (counterexample): with the budget 2^64 - 1 the run of the machine spinning on
`BNE -2` (2 cycles a step) never returns, however many loop iterations it is given: the
cycle difference, taken mod 2^64, stays even and never reaches the budget. -/
theorem C12_counterexample :
    ¬ ∃ fuel r, cpu_run fuel (loaded spin_program 0x0200) 18446744073709551615 = some r := by
  rintro ⟨fuel, r, h⟩
  rw [spinning_run fuel] at h
  cases h

/-- C12 (amended): `cpu_run` terminates for every machine state and every budget
`max_cycles` of at most 2^64 - 6 cycles.  Every step either returns false, which ends the
loop, or adds between 1 and 6 cycles, so the loop has exited after at most `max_cycles`
steps: every number of iterations above `max_cycles` lets the run return. -/
theorem C12_run_terminates (s : cpu_state_t) (max_cycles fuel : Nat) (hwf : WF s)
    (hm : max_cycles + 6 ≤ 18446744073709551616) (hf : max_cycles < fuel) :
    (∃ r, cpu_run fuel s max_cycles = some r) ∧
    ((cpu_step s).1 = false ∨
      ∃ k, 1 ≤ k ∧ k ≤ 6 ∧
        (cpu_step s).2.cycle_count = (s.cycle_count + k) % 18446744073709551616) := by
  constructor
  · have hw : WF { s with running := true } :=
      ⟨hwf.regs_lt, hwf.flags_lt, hwf.memory_lt, hwf.cycle_lt, hwf.instr_lt, hwf.break_lt,
        hwf.watch_lt⟩
    have hlt := hwf.cycle_lt
    obtain ⟨r, hr⟩ := run_loop_exits fuel { s with running := true } s.cycle_count max_cycles
      hw hwf.cycle_lt hm (by
        dsimp only
        unfold uint64_t
        omega)
    refine ⟨(r.running, r), ?_⟩
    unfold cpu_run
    dsimp only
    rw [hr]
    rfl
  · by_cases h : (cpu_step s).1 = true
    · obtain ⟨k, k1, k6, hk⟩ := step_cycles s h
      refine Or.inr ⟨k, k1, k6, ?_⟩
      rw [hk]
      unfold uint64_t
      omega
    · simp only [Bool.not_eq_true] at h
      exact Or.inl h

/-- C12 (witness): the store-and-load program run with a budget of 100 cycles. -/
theorem C12_run_terminates_witness :
    (WF (loaded store_program 0x0200) ∧ 100 + 6 ≤ 18446744073709551616 ∧ 100 < 101) ∧
    ∃ r, cpu_run 101 (loaded store_program 0x0200) 100 = some r :=
  ⟨⟨WF_loaded store_program 0x0200 (by decide), by decide, by decide⟩,
    (C12_run_terminates (loaded store_program 0x0200) 100 101
      (WF_loaded store_program 0x0200 (by decide)) (by decide) (by decide)).1⟩

/-- C13: a byte is a valid opcode exactly when it lies in one of the catalogue ranges
0x00-0x03, 0x10-0x16, 0x20-0x22, 0x30-0x33, 0x40-0x42, 0x50-0x57, 0x60-0x65, 0x70-0x73 (so
0x00 is valid and 0xFF is not); and a step that is not stopped by the breakpoint check,
delivers no interrupt and fetches a byte `b` outside these ranges returns false, clears
`running` and leaves A-D, SP, flags, memory, cycle_count and instruction_count unchanged
(the PC has moved past the byte). -/
theorem C13_invalid_opcode (s : cpu_state_t) (b : Nat)
    (hbp : ¬ (s.breakpoint_addr ≠ 0 ∧ cpu_get_pc s = s.breakpoint_addr))
    (hn : s.nmi_pending = false)
    (hq : s.irq_pending = false ∨ isa_get_flag s FLAG_INTERRUPT = true)
    (hop : s.memory (cpu_get_pc s) = b)
    (hb : ¬ (b ≤ 0x03 ∨ (0x10 ≤ b ∧ b ≤ 0x16) ∨ (0x20 ≤ b ∧ b ≤ 0x22) ∨
      (0x30 ≤ b ∧ b ≤ 0x33) ∨ (0x40 ≤ b ∧ b ≤ 0x42) ∨ (0x50 ≤ b ∧ b ≤ 0x57) ∨
      (0x60 ≤ b ∧ b ≤ 0x65) ∨ (0x70 ≤ b ∧ b ≤ 0x73))) :
    (∀ x, isa_is_valid_opcode x = true ↔
      (x ≤ 0x03 ∨ (0x10 ≤ x ∧ x ≤ 0x16) ∨ (0x20 ≤ x ∧ x ≤ 0x22) ∨ (0x30 ≤ x ∧ x ≤ 0x33) ∨
        (0x40 ≤ x ∧ x ≤ 0x42) ∨ (0x50 ≤ x ∧ x ≤ 0x57) ∨ (0x60 ≤ x ∧ x ≤ 0x65) ∨
        (0x70 ≤ x ∧ x ≤ 0x73))) ∧
    isa_is_valid_opcode 0x00 = true ∧
    isa_is_valid_opcode 0xFF = false ∧
    (cpu_step s).1 = false ∧
    (cpu_step s).2.running = false ∧
    (∀ r, r < 4 → isa_get_register (cpu_step s).2 r = isa_get_register s r) ∧
    cpu_get_sp (cpu_step s).2 = cpu_get_sp s ∧
    (cpu_step s).2.flags = s.flags ∧
    (cpu_step s).2.memory = s.memory ∧
    (cpu_step s).2.cycle_count = s.cycle_count ∧
    (cpu_step s).2.instruction_count = s.instruction_count ∧
    cpu_get_pc (cpu_step s).2 = (cpu_get_pc s + 1) % 65536 := by
  have hv : isa_is_valid_opcode (s.memory (cpu_get_pc s)) = false := by
    rw [hop]
    cases h : isa_is_valid_opcode b
    · rfl
    · exact absurd ((valid_opcode_iff b).1 h) hb
  have e : cpu_step s = (false, { advance s 1 with running := false }) := by
    rw [cpu_step_eq s hbp, handle_interrupts_of_quiet s hn hq, exec_invalid s hv]
  obtain ⟨a1, a2, a3, a4, a5, _, _, _, _, a10, a11⟩ := advance_facts s 1
  rw [e]
  exact ⟨valid_opcode_iff, by decide, by decide, rfl, rfl, fun r _ => a4 r, a2, a5, a3, a10,
    a11, a1⟩

/-- C13 (witness): the byte 0xFF at 0x0200 stops the machine at the first step. -/
theorem C13_invalid_opcode_witness :
    ((loaded [0xFF] 0x0200).memory (cpu_get_pc (loaded [0xFF] 0x0200)) = 0xFF ∧
      (loaded [0xFF] 0x0200).nmi_pending = false ∧
      (loaded [0xFF] 0x0200).irq_pending = false) ∧
    (cpu_step (loaded [0xFF] 0x0200)).1 = false ∧
    (cpu_step (loaded [0xFF] 0x0200)).2.running = false ∧
    (cpu_step (loaded [0xFF] 0x0200)).2.cycle_count = 0 ∧
    cpu_get_pc (cpu_step (loaded [0xFF] 0x0200)).2 = 0x0201 :=
  have h := C13_invalid_opcode (loaded [0xFF] 0x0200) 0xFF (by decide) rfl (Or.inl rfl)
    (by decide) (by decide)
  ⟨⟨by decide, rfl, rfl⟩, h.2.2.2.1, h.2.2.2.2.1, h.2.2.2.2.2.2.2.2.2.1,
    h.2.2.2.2.2.2.2.2.2.2.2⟩

/-- C14: `cpu_step` stops at a breakpoint exactly when `breakpoint_addr` is non-zero and
the PC equals it.  In that case the step returns false, sets `breakpoint_hit`, clears
`running` and leaves the registers, the flags, the memory, both counters and both
pending-interrupt flags as they were (a pending NMI or IRQ stays pending: the check comes
before the interrupt phase).  In every other case the step is the interrupt phase followed
by the execution of one instruction, and `breakpoint_hit` keeps its value; hence, with the
breakpoint set to address 0x0000, no step changes `breakpoint_hit`. -/
theorem C14_breakpoint_stop (s : cpu_state_t) :
    ((s.breakpoint_addr ≠ 0 ∧ cpu_get_pc s = s.breakpoint_addr) →
      (cpu_step s).1 = false ∧
      (cpu_step s).2.breakpoint_hit = true ∧
      (cpu_step s).2.running = false ∧
      (cpu_step s).2.regs = s.regs ∧
      (cpu_step s).2.flags = s.flags ∧
      (cpu_step s).2.memory = s.memory ∧
      (cpu_step s).2.cycle_count = s.cycle_count ∧
      (cpu_step s).2.instruction_count = s.instruction_count ∧
      (cpu_step s).2.irq_pending = s.irq_pending ∧
      (cpu_step s).2.nmi_pending = s.nmi_pending) ∧
    (¬ (s.breakpoint_addr ≠ 0 ∧ cpu_get_pc s = s.breakpoint_addr) →
      cpu_step s = isa_execute_instruction (cpu_handle_interrupts s) ∧
      (cpu_step s).2.breakpoint_hit = s.breakpoint_hit) ∧
    (cpu_step (cpu_set_breakpoint s 0x0000)).2.breakpoint_hit =
      (cpu_set_breakpoint s 0x0000).breakpoint_hit := by
  have key : ∀ u : cpu_state_t,
      ¬ (u.breakpoint_addr ≠ 0 ∧ cpu_get_pc u = u.breakpoint_addr) →
      cpu_step u = isa_execute_instruction (cpu_handle_interrupts u) ∧
      (cpu_step u).2.breakpoint_hit = u.breakpoint_hit := by
    intro u hu
    have e := cpu_step_eq u hu
    have d : debug_state (isa_execute_instruction (cpu_handle_interrupts u)).2 =
        debug_state u := by
      rw [debug_execute_instruction, debug_handle_interrupts]
    refine ⟨e, ?_⟩
    rw [e]
    exact congrArg Prod.fst d
  refine ⟨?_, key s, ?_⟩
  · intro h
    have e : cpu_step s = (false, { s with breakpoint_hit := true, running := false }) := by
      unfold cpu_step
      simp only [cpu_get_pc] at h
      simp only [h, ne_eq, not_false_eq_true, and_self, if_true]
    rw [e]
    exact ⟨rfl, rfl, rfl, rfl, rfl, rfl, rfl, rfl, rfl, rfl⟩
  · exact (key (cpu_set_breakpoint s 0x0000) (fun h => h.1 rfl)).2

/-- C14 (witness): with the breakpoint at 0x0200 and an NMI pending, the first step of a
machine reset to 0x0200 stops without delivering the interrupt; with the breakpoint set to
0x0000 a machine whose PC is 0x0000 executes its instruction (`LDI #0x42`). -/
theorem C14_breakpoint_stop_witness :
    ((cpu_set_breakpoint (cpu_nmi (loaded [0x00, 0x42] 0x0200)) 0x0200).breakpoint_addr ≠ 0 ∧
      cpu_get_pc (cpu_set_breakpoint (cpu_nmi (loaded [0x00, 0x42] 0x0200)) 0x0200) =
        (cpu_set_breakpoint (cpu_nmi (loaded [0x00, 0x42] 0x0200)) 0x0200).breakpoint_addr) ∧
    (cpu_step (cpu_set_breakpoint (cpu_nmi (loaded [0x00, 0x42] 0x0200)) 0x0200)).1 = false ∧
    (cpu_step (cpu_set_breakpoint (cpu_nmi (loaded [0x00, 0x42] 0x0200))
      0x0200)).2.breakpoint_hit = true ∧
    (cpu_step (cpu_set_breakpoint (cpu_nmi (loaded [0x00, 0x42] 0x0200))
      0x0200)).2.nmi_pending = true ∧
    cpu_get_pc (cpu_set_breakpoint (loaded [0x00, 0x42] 0x0000) 0x0000) = 0x0000 ∧
    (cpu_step (cpu_set_breakpoint (loaded [0x00, 0x42] 0x0000) 0x0000)).1 = true ∧
    cpu_get_a (cpu_step (cpu_set_breakpoint (loaded [0x00, 0x42] 0x0000) 0x0000)).2 = 0x42 ∧
    (cpu_step (cpu_set_breakpoint (loaded [0x00, 0x42] 0x0000) 0x0000)).2.breakpoint_hit =
      false :=
  have h := (C14_breakpoint_stop
    (cpu_set_breakpoint (cpu_nmi (loaded [0x00, 0x42] 0x0200)) 0x0200)).1
    ⟨by decide, by decide⟩
  have k := (C14_breakpoint_stop (loaded [0x00, 0x42] 0x0000)).2.2
  ⟨⟨by decide, by decide⟩, h.1, h.2.1, h.2.2.2.2.2.2.2.2.2, by decide, by decide, by decide, k⟩

/-- C15: evaluation of the steps that fetch `ADC #0x01` (A = 5), `SHL A` (A = 0x81) and
`BMI +2` (N set).  Each of the ten opcodes ADC, SBC, SHL, SHR, ROL, ROR, BMI, BPL, BVS,
BVC is in the instruction table but has no case in the execute switch: the step returns
false and leaves A, the flags and the PC past the operand as they were. -/
theorem C15_opcodes_without_case :
    (∀ op ∈ [OP_ADC, OP_SBC, OP_SHL, OP_SHR, OP_ROL, OP_ROR, OP_BMI, OP_BPL, OP_BVS, OP_BVC],
      isa_is_valid_opcode op = true ∧ (cpu_step (loaded [op, 0x00] 0x0200)).1 = false) ∧
    cpu_get_a (steps 1 (loaded adc_program 0x0200)) = 0x05 ∧
    (cpu_step (steps 1 (loaded adc_program 0x0200))).1 = false ∧
    cpu_get_a (steps 2 (loaded adc_program 0x0200)) = 0x05 ∧
    cpu_get_a (steps 1 (loaded shl_program 0x0200)) = 0x81 ∧
    (cpu_step (steps 1 (loaded shl_program 0x0200))).1 = false ∧
    cpu_get_a (steps 2 (loaded shl_program 0x0200)) = 0x81 ∧
    isa_get_flag (steps 2 (loaded shl_program 0x0200)) FLAG_CARRY = false ∧
    isa_get_flag (steps 2 (loaded bmi_program 0x0200)) FLAG_NEGATIVE = true ∧
    cpu_get_pc (steps 2 (loaded bmi_program 0x0200)) = 0x0204 ∧
    (cpu_step (steps 2 (loaded bmi_program 0x0200))).1 = false ∧
    cpu_get_pc (steps 3 (loaded bmi_program 0x0200)) = 0x0206 := by
  decide

/-- C16 (counterexample): after `cpu_reset` of the state of the reset test the PC is
0xFFFC, while the pointer stored in the reset vector at 0xFFFC/0xFFFD is 0x0200. -/
theorem C16_counterexample :
    cpu_get_pc (cpu_reset dirty_sample idle_devices).1 = 0xFFFC ∧
    ((cpu_reset dirty_sample idle_devices).1.memory 0xFFFC |||
      ((cpu_reset dirty_sample idle_devices).1.memory 0xFFFD <<< 8)) = 0x0200 ∧
    cpu_get_pc (cpu_reset dirty_sample idle_devices).1 ≠
      ((cpu_reset dirty_sample idle_devices).1.memory 0xFFFC |||
        ((cpu_reset dirty_sample idle_devices).1.memory 0xFFFD <<< 8)) := by
  decide

/-- C16 (amended): after a full reset - `cpu_reset`, and hence `cpu_create`, which ends
with the same registers - the PC is 0xFFFC, the address of the reset vector, and not the
pointer stored there, which is 0x0200; and SP = 0x7FFF. -/
theorem C16_reset_pc_is_vector_address (cpu : cpu_state_t) (dev : devices_t) :
    cpu_get_pc (cpu_reset cpu dev).1 = 0xFFFC ∧
    cpu_get_sp (cpu_reset cpu dev).1 = 0x7FFF ∧
    ((cpu_reset cpu dev).1.memory 0xFFFC ||| ((cpu_reset cpu dev).1.memory 0xFFFD <<< 8)) =
      0x0200 ∧
    (∃ r, cpu_create (some cpu) dev = some r ∧
      cpu_get_pc r.1 = 0xFFFC ∧
      cpu_get_sp r.1 = 0x7FFF ∧
      (r.1.memory 0xFFFC ||| (r.1.memory 0xFFFD <<< 8)) = 0x0200) :=
  ⟨cpu_reset_pc cpu dev, cpu_reset_sp cpu dev, cpu_reset_vector cpu dev, _, rfl,
    cpu_reset_pc cpu dev, cpu_reset_sp cpu dev, cpu_reset_vector cpu dev⟩

/-- C17: whatever the prior state, `cpu_reset` leaves A = 0, PC = 0xFFFC (as read by
`isa_get_register16`), flags = 0 and `running` false, and also B = C = D = 0, both
pending-interrupt flags clear, both counters 0, and the breakpoint, watchpoint and trace
state cleared. -/
theorem C17_reset_state (cpu : cpu_state_t) (dev : devices_t) :
    isa_get_register (cpu_reset cpu dev).1 REG_A = 0 ∧
    isa_get_register16 (cpu_reset cpu dev).1 REG_PC = 0xFFFC ∧
    (cpu_reset cpu dev).1.flags = 0 ∧
    (cpu_reset cpu dev).1.running = false ∧
    isa_get_register (cpu_reset cpu dev).1 REG_B = 0 ∧
    isa_get_register (cpu_reset cpu dev).1 REG_C = 0 ∧
    isa_get_register (cpu_reset cpu dev).1 REG_D = 0 ∧
    (cpu_reset cpu dev).1.irq_pending = false ∧
    (cpu_reset cpu dev).1.nmi_pending = false ∧
    (cpu_reset cpu dev).1.cycle_count = 0 ∧
    (cpu_reset cpu dev).1.instruction_count = 0 ∧
    (cpu_reset cpu dev).1.breakpoint_addr = 0 ∧
    (cpu_reset cpu dev).1.breakpoint_hit = false ∧
    (cpu_reset cpu dev).1.watch_addr = 0 ∧
    (cpu_reset cpu dev).1.watch_hit = false ∧
    (cpu_reset cpu dev).1.trace_enabled = false ∧
    isa_get_register dirty_sample REG_A = 0x42 ∧
    isa_get_register16 dirty_sample REG_PC = 0x1234 ∧
    dirty_sample.flags = 0xFF ∧
    dirty_sample.running = true :=
  ⟨rfl, cpu_reset_pc cpu dev, rfl, rfl, rfl, rfl, rfl, rfl, rfl, rfl, rfl, rfl, rfl, rfl, rfl,
    rfl, by decide, by decide, rfl, rfl⟩

/-- C18: warm reset keeps the memory.  For every state and every 16-bit address `a`,
`cpu_reset_to_address` leaves every memory cell unchanged and sets PC = a, SP = 0x7FFF,
A = B = C = D = 0, flags = 0, `running` false and both pending-interrupt flags clear.  The
devices are the globals of `devices.c`, which the function does not mention. -/
theorem C18_warm_reset (cpu : cpu_state_t) (a : Nat) (ha : a < 65536) :
    (∀ m, (cpu_reset_to_address cpu a).memory m = cpu.memory m) ∧
    cpu_get_pc (cpu_reset_to_address cpu a) = a ∧
    cpu_get_sp (cpu_reset_to_address cpu a) = 0x7FFF ∧
    isa_get_register (cpu_reset_to_address cpu a) REG_A = 0 ∧
    isa_get_register (cpu_reset_to_address cpu a) REG_B = 0 ∧
    isa_get_register (cpu_reset_to_address cpu a) REG_C = 0 ∧
    isa_get_register (cpu_reset_to_address cpu a) REG_D = 0 ∧
    (cpu_reset_to_address cpu a).flags = 0 ∧
    (cpu_reset_to_address cpu a).running = false ∧
    (cpu_reset_to_address cpu a).irq_pending = false ∧
    (cpu_reset_to_address cpu a).nmi_pending = false := by
  have h : cpu_get_pc (cpu_reset_to_address cpu a) = a % 65536 := by
    have e : cpu_get_pc (cpu_reset_to_address cpu a) = cpu_get_pc (isa_set_register16
        (isa_set_register16 { cpu with regs := fun _ => 0 } REG_SP 0x7FFF) REG_PC a) := rfl
    rw [e]
    exact get16_set16 _ REG_PC a (by decide)
  have k : cpu_get_sp (cpu_reset_to_address cpu a) = 0x7FFF := by
    have e : cpu_get_sp (cpu_reset_to_address cpu a) = cpu_get_sp (isa_set_register16
        (isa_set_register16 { cpu with regs := fun _ => 0 } REG_SP 0x7FFF) REG_PC a) := rfl
    rw [e]
    unfold cpu_get_sp
    rw [get16_set16_ne _ REG_PC REG_SP _ (by decide) (by decide)]
    exact get16_set16 _ REG_SP 0x7FFF (by decide)
  have r : ∀ i, i < 4 → isa_get_register (cpu_reset_to_address cpu a) i = 0 := by
    intro i hi
    have e : isa_get_register (cpu_reset_to_address cpu a) i =
        (isa_set_register16 (isa_set_register16 { cpu with regs := fun _ => 0 } REG_SP 0x7FFF)
          REG_PC a).regs i := by
      simp only [isa_get_register, hi, if_true, cpu_reset_to_address]
    rw [e, set16_regs_low _ _ _ _ (Or.inr rfl) hi, set16_regs_low _ _ _ _ (Or.inl rfl) hi]
  refine ⟨fun _ => ?_, ?_, k, r 0 (by decide), r 1 (by decide), r 2 (by decide),
    r 3 (by decide), rfl, rfl, rfl, rfl⟩
  · unfold cpu_reset_to_address
    simp only [set16_memory]
  · rw [h, Nat.mod_eq_of_lt ha]

/-- C18 (witness): the warm reset of the machine holding `LDI #0x42` at 0x0200. -/
theorem C18_warm_reset_witness :
    (0x0200 < 65536) ∧
    (cpu_reset_to_address (cpu_load_program dirty_sample [0x00, 0x42] 0x0200).2 0x0200).memory
      0x0201 = 0x42 ∧
    cpu_get_pc (cpu_reset_to_address (cpu_load_program dirty_sample [0x00, 0x42] 0x0200).2
      0x0200) = 0x0200 ∧
    cpu_get_a (cpu_reset_to_address (cpu_load_program dirty_sample [0x00, 0x42] 0x0200).2
      0x0200) = 0 :=
  have h := C18_warm_reset (cpu_load_program dirty_sample [0x00, 0x42] 0x0200).2 0x0200
    (by decide)
  ⟨by decide, (h.1 0x0201).trans (by decide), h.2.1, h.2.2.2.1⟩

/-- C19: after `memory_init` the reset vector holds 0x0200 little-endian - memory[0xFFFC]
= 0x00, memory[0xFFFD] = 0x02 - the NMI vector (0xFFFA/0xFFFB) and the IRQ vector
(0xFFFE/0xFFFF) hold the same value, and every other cell is 0; the memory `cpu_reset` and
`cpu_create` leave is this one. -/
theorem C19_default_vectors (memory : Nat → Nat) (cpu : cpu_state_t) (dev : devices_t) :
    (memory_init memory dev).1 0xFFFC = 0x00 ∧
    (memory_init memory dev).1 0xFFFD = 0x02 ∧
    (memory_init memory dev).1 0xFFFA = 0x00 ∧
    (memory_init memory dev).1 0xFFFB = 0x02 ∧
    (memory_init memory dev).1 0xFFFE = 0x00 ∧
    (memory_init memory dev).1 0xFFFF = 0x02 ∧
    (∀ a, a ≠ 0xFFFA ∧ a ≠ 0xFFFB ∧ a ≠ 0xFFFC ∧ a ≠ 0xFFFD ∧ a ≠ 0xFFFE ∧ a ≠ 0xFFFF →
      (memory_init memory dev).1 a = 0) ∧
    (∀ a, (cpu_reset cpu dev).1.memory a = (memory_init memory dev).1 a) ∧
    (∃ r, cpu_create (some cpu) dev = some r ∧
      ∀ a, r.1.memory a = (memory_init memory dev).1 a) := by
  refine ⟨rfl, rfl, rfl, rfl, rfl, rfl, ?_, fun _ => rfl, _, rfl, fun _ => rfl⟩
  intro a ha
  have e : (memory_init memory dev).1 a =
      store (store (store (store (store (store (fun _ => 0) 0xFFFC 0x00) 0xFFFD 0x02)
        0xFFFA 0x00) 0xFFFB 0x02) 0xFFFE 0x00) 0xFFFF 0x02 a := rfl
  rw [e]
  simp only [store_apply, ha.1, ha.2.1, ha.2.2.1, ha.2.2.2.1, ha.2.2.2.2.1, ha.2.2.2.2.2,
    if_false]

/-- C19 (witness): a RAM cell and an MMIO cell of the initialised memory are 0. -/
theorem C19_default_vectors_witness :
    (memory_init (fun _ => 0xEE) idle_devices).1 0x0200 = 0 ∧
    (memory_init (fun _ => 0xEE) idle_devices).1 0x8003 = 0 :=
  have h := (C19_default_vectors (fun _ => 0xEE) dirty_sample idle_devices).2.2.2.2.2.2.1
  ⟨h 0x0200 (by decide), h 0x8003 (by decide)⟩

/-- C20: `cpu_load_program` returns false exactly when `address + size > 65536`, and then
leaves the state - its memory in particular - unchanged; otherwise it returns true,
memory[address + i] = program[i] for every i < size, and every memory cell outside
address .. address + size - 1 as well as the registers and the flags are unchanged.  The
size is the length of the program; the C sum `address + size` is taken in `size_t`, where
the length of a buffer cannot make it wrap. -/
theorem C20_load_program (cpu : cpu_state_t) (program : List Nat) (address : Nat) :
    ((cpu_load_program cpu program address).1 = false ↔ address + program.length > 65536) ∧
    (address + program.length > 65536 → (cpu_load_program cpu program address).2 = cpu) ∧
    (address + program.length ≤ 65536 →
      (cpu_load_program cpu program address).1 = true ∧
      (∀ i (h : i < program.length),
        (cpu_load_program cpu program address).2.memory (address + i) = program[i]) ∧
      (∀ a, a < address ∨ address + program.length ≤ a →
        (cpu_load_program cpu program address).2.memory a = cpu.memory a) ∧
      (cpu_load_program cpu program address).2.regs = cpu.regs ∧
      (cpu_load_program cpu program address).2.flags = cpu.flags) := by
  by_cases h : address + program.length > 65536
  · have e : cpu_load_program cpu program address = (false, cpu) := by
      simp only [cpu_load_program, MEMORY_SIZE, h, if_true]
    rw [e]
    exact ⟨⟨fun _ => h, fun _ => rfl⟩, fun _ => rfl, fun h2 => absurd h (by omega)⟩
  · have h1 : (cpu_load_program cpu program address).1 = true := by
      simp only [cpu_load_program, MEMORY_SIZE, h, if_false]
    have hm : ∀ a, (cpu_load_program cpu program address).2.memory a =
        if address ≤ a ∧ a < address + program.length then program.getD (a - address) 0
        else cpu.memory a := by
      intro a
      simp only [cpu_load_program, MEMORY_SIZE, h, if_false]
    have hr : (cpu_load_program cpu program address).2.regs = cpu.regs ∧
        (cpu_load_program cpu program address).2.flags = cpu.flags := by
      simp only [cpu_load_program, MEMORY_SIZE, h, if_false, and_self]
    refine ⟨⟨fun h2 => ?_, fun h2 => absurd h2 h⟩, fun h2 => absurd h2 h, fun _ => ?_⟩
    · rw [h1] at h2
      cases h2
    refine ⟨h1, ?_, ?_, hr.1, hr.2⟩
    · intro i hi
      have c : address ≤ address + i ∧ address + i < address + program.length :=
        ⟨by omega, by omega⟩
      rw [hm]
      simp only [c, and_self, if_true, Nat.add_sub_cancel_left]
      rw [List.getD_eq_getElem _ _ hi]
    · intro a ha
      have c : ¬ (address ≤ a ∧ a < address + program.length) := by omega
      rw [hm]
      simp only [c, if_false]

/-- C20 (witness): `00 42` is loaded at 0x0200 and refused at 0xFFFF. -/
theorem C20_load_program_witness :
    (0x0200 + [0x00, 0x42].length ≤ 65536 ∧ 0xFFFF + [0x00, 0x42].length > 65536) ∧
    (cpu_load_program blank [0x00, 0x42] 0x0200).1 = true ∧
    (cpu_load_program blank [0x00, 0x42] 0x0200).2.memory (0x0200 + 1) = 0x42 ∧
    (cpu_load_program blank [0x00, 0x42] 0xFFFF).1 = false ∧
    (cpu_load_program blank [0x00, 0x42] 0xFFFF).2 = blank :=
  have h := (C20_load_program blank [0x00, 0x42] 0x0200).2.2 (by decide)
  have k := C20_load_program blank [0x00, 0x42] 0xFFFF
  ⟨⟨by decide, by decide⟩, h.1, h.2.1 1 (by decide), k.1.2 (by decide), k.2.1 (by decide)⟩

/-! ## Instructions that write the accumulator and the flags -/

/-- The state an accumulator operation leaves: the result `r` in A, the four arithmetic
flags written from `r`, `cy` and `ov`, everything else as before. -/
theorem alu_facts (c : cpu_state_t) (r : Nat) (cy ov : Bool) (inst : instruction_t)
    (hc : WF c) :
    cpu_get_a (update_cycle_count (isa_update_flags (isa_set_register c REG_A r) r cy ov)
      inst) = r ∧
    isa_get_flag (update_cycle_count (isa_update_flags (isa_set_register c REG_A r) r cy ov)
      inst) FLAG_ZERO = decide (r = 0) ∧
    isa_get_flag (update_cycle_count (isa_update_flags (isa_set_register c REG_A r) r cy ov)
      inst) FLAG_NEGATIVE = r.testBit 7 ∧
    isa_get_flag (update_cycle_count (isa_update_flags (isa_set_register c REG_A r) r cy ov)
      inst) FLAG_CARRY = cy ∧
    isa_get_flag (update_cycle_count (isa_update_flags (isa_set_register c REG_A r) r cy ov)
      inst) FLAG_OVERFLOW = ov ∧
    (update_cycle_count (isa_update_flags (isa_set_register c REG_A r) r cy ov)
      inst).flags &&& 0xF0 = c.flags &&& 0xF0 ∧
    (update_cycle_count (isa_update_flags (isa_set_register c REG_A r) r cy ov)
      inst).memory = c.memory := by
  have hfl : (update_cycle_count (isa_update_flags (isa_set_register c REG_A r) r cy ov)
      inst).flags = flag_bits c.flags (decide (r = 0)) (decide (r &&& 0x80 ≠ 0)) cy ov := by
    simp [update_cycle_count, isa_update_flags_eq, isa_set_register]
  obtain ⟨fz, fn, fc, fo, fh, _⟩ := get_flag_of_flag_bits _ _ _ _ _ _ hc.flags_lt hfl
  refine ⟨?_, fz, ?_, fc, fo, fh, ?_⟩
  · simp [update_cycle_count, isa_update_flags_eq, isa_set_register, cpu_get_a,
      isa_get_register, store_apply]
  · rw [fn, bit7_decide]
  · simp [update_cycle_count, isa_update_flags_eq, isa_set_register]

theorem get_a_advance (t : cpu_state_t) (k : Nat) :
    isa_get_register (advance t k) REG_A = cpu_get_a t :=
  (advance_facts t k).2.2.2.1 REG_A

theorem exec_ADD_eq (t : cpu_state_t) (v : Nat) (hop : t.memory (cpu_get_pc t) = OP_ADD)
    (hv : operand_byte t 1 = v) :
    isa_execute_instruction t = (true, update_cycle_count
      (isa_update_flags (isa_set_register (advance t 2) REG_A ((cpu_get_a t + v) % 65536 % 256))
        ((cpu_get_a t + v) % 65536 % 256) (decide ((cpu_get_a t + v) % 65536 > 0xFF))
        (((cpu_get_a t ^^^ ((cpu_get_a t + v) % 65536)) &&&
          (v ^^^ ((cpu_get_a t + v) % 65536)) &&& 0x80) != 0))
      ⟨OP_ADD, ADDR_IMMEDIATE, 0, 0, 2, "ADD"⟩) := by
  have hi : isa_get_instruction OP_ADD = some ⟨OP_ADD, ADDR_IMMEDIATE, 0, 0, 2, "ADD"⟩ := rfl
  rw [exec_one t _ _ hop hi (by decide), hv]
  simp only [execute_opcode, operand_value, get_a_advance, uint16_t_add, and_255]
  simp

theorem exec_SUB_eq (t : cpu_state_t) (v : Nat) (hop : t.memory (cpu_get_pc t) = OP_SUB)
    (hv : operand_byte t 1 = v) :
    isa_execute_instruction t = (true, update_cycle_count
      (isa_update_flags (isa_set_register (advance t 2) REG_A
          (uint16_t ((cpu_get_a t : Int) - v) % 256))
        (uint16_t ((cpu_get_a t : Int) - v) % 256) (decide (cpu_get_a t < v))
        (((cpu_get_a t ^^^ uint16_t ((cpu_get_a t : Int) - v)) &&&
          (v ^^^ uint16_t ((cpu_get_a t : Int) - v)) &&& 0x80) != 0))
      ⟨OP_SUB, ADDR_IMMEDIATE, 0, 0, 2, "SUB"⟩) := by
  have hi : isa_get_instruction OP_SUB = some ⟨OP_SUB, ADDR_IMMEDIATE, 0, 0, 2, "SUB"⟩ := rfl
  rw [exec_one t _ _ hop hi (by decide), hv]
  simp only [execute_opcode, operand_value, get_a_advance, and_255]
  simp

theorem exec_INC_eq (t : cpu_state_t) (hop : t.memory (cpu_get_pc t) = OP_INC)
    (hv : operand_byte t 1 = REG_A) :
    isa_execute_instruction t = (true, update_cycle_count
      (isa_update_flags (isa_set_register (advance t 2) REG_A
          (uint8_t ((cpu_get_a t : Int) + 1)))
        (uint8_t ((cpu_get_a t : Int) + 1)) false false)
      ⟨OP_INC, ADDR_REGISTER, 0, 0, 1, "INC"⟩) := by
  have hi : isa_get_instruction OP_INC = some ⟨OP_INC, ADDR_REGISTER, 0, 0, 1, "INC"⟩ := rfl
  rw [exec_one t _ _ hop hi (by decide), hv]
  simp only [execute_opcode, get_a_advance]
  simp

theorem exec_DEC_eq (t : cpu_state_t) (hop : t.memory (cpu_get_pc t) = OP_DEC)
    (hv : operand_byte t 1 = REG_A) :
    isa_execute_instruction t = (true, update_cycle_count
      (isa_update_flags (isa_set_register (advance t 2) REG_A
          (uint8_t ((cpu_get_a t : Int) - 1)))
        (uint8_t ((cpu_get_a t : Int) - 1)) false false)
      ⟨OP_DEC, ADDR_REGISTER, 0, 0, 1, "DEC"⟩) := by
  have hi : isa_get_instruction OP_DEC = some ⟨OP_DEC, ADDR_REGISTER, 0, 0, 1, "DEC"⟩ := rfl
  rw [exec_one t _ _ hop hi (by decide), hv]
  simp only [execute_opcode, get_a_advance]
  simp

theorem exec_AND_eq (t : cpu_state_t) (v : Nat) (hop : t.memory (cpu_get_pc t) = OP_AND)
    (hv : operand_byte t 1 = v) :
    isa_execute_instruction t = (true, update_cycle_count
      (isa_update_flags (isa_set_register (advance t 2) REG_A (cpu_get_a t &&& v))
        (cpu_get_a t &&& v) false false)
      ⟨OP_AND, ADDR_IMMEDIATE, 0, 0, 2, "AND"⟩) := by
  have hi : isa_get_instruction OP_AND = some ⟨OP_AND, ADDR_IMMEDIATE, 0, 0, 2, "AND"⟩ := rfl
  rw [exec_one t _ _ hop hi (by decide), hv]
  simp only [execute_opcode, operand_value, get_a_advance]
  simp

theorem exec_OR_eq (t : cpu_state_t) (v : Nat) (hop : t.memory (cpu_get_pc t) = OP_OR)
    (hv : operand_byte t 1 = v) :
    isa_execute_instruction t = (true, update_cycle_count
      (isa_update_flags (isa_set_register (advance t 2) REG_A (cpu_get_a t ||| v))
        (cpu_get_a t ||| v) false false)
      ⟨OP_OR, ADDR_IMMEDIATE, 0, 0, 2, "OR"⟩) := by
  have hi : isa_get_instruction OP_OR = some ⟨OP_OR, ADDR_IMMEDIATE, 0, 0, 2, "OR"⟩ := rfl
  rw [exec_one t _ _ hop hi (by decide), hv]
  simp only [execute_opcode, operand_value, get_a_advance]
  simp

theorem exec_XOR_eq (t : cpu_state_t) (v : Nat) (hop : t.memory (cpu_get_pc t) = OP_XOR)
    (hv : operand_byte t 1 = v) :
    isa_execute_instruction t = (true, update_cycle_count
      (isa_update_flags (isa_set_register (advance t 2) REG_A (cpu_get_a t ^^^ v))
        (cpu_get_a t ^^^ v) false false)
      ⟨OP_XOR, ADDR_IMMEDIATE, 0, 0, 2, "XOR"⟩) := by
  have hi : isa_get_instruction OP_XOR = some ⟨OP_XOR, ADDR_IMMEDIATE, 0, 0, 2, "XOR"⟩ := rfl
  rw [exec_one t _ _ hop hi (by decide), hv]
  simp only [execute_opcode, operand_value, get_a_advance]
  simp

/-- What a step that ends in the state of `alu_facts` has done, read from the state it
fetched its instruction in. -/
theorem alu_step_facts (t : cpu_state_t) (hwt : WF t) (r : Nat) (cy ov : Bool)
    (inst : instruction_t)
    (e : isa_execute_instruction t = (true, update_cycle_count
      (isa_update_flags (isa_set_register (advance t 2) REG_A r) r cy ov) inst)) :
    (isa_execute_instruction t).1 = true ∧
    cpu_get_a (isa_execute_instruction t).2 = r ∧
    isa_get_flag (isa_execute_instruction t).2 FLAG_ZERO = decide (r = 0) ∧
    isa_get_flag (isa_execute_instruction t).2 FLAG_NEGATIVE = r.testBit 7 ∧
    isa_get_flag (isa_execute_instruction t).2 FLAG_CARRY = cy ∧
    isa_get_flag (isa_execute_instruction t).2 FLAG_OVERFLOW = ov ∧
    (isa_execute_instruction t).2.flags &&& 0xF0 = t.flags &&& 0xF0 := by
  have hw : WF (advance t 2) := WF_set_register16 t REG_PC _ hwt
  obtain ⟨f1, f2, f3, f4, f5, f6, _⟩ := alu_facts (advance t 2) r cy ov inst hw
  rw [e]
  refine ⟨rfl, f1, f2, f3, f4, f5, ?_⟩
  rw [f6, (advance_facts t 2).2.2.2.2.1]

/-! ## Loads and stores of the CPU in the MMIO range -/

/-- The loads and stores of the CPU index the memory array at an address of the MMIO range
0x8000..0xFEFF as at any other address, while `memory_read` and `memory_write` hand such an
address to the devices.  So a step that executes `STA [0x8003]` leaves the accumulator in
the array cell 0x8003, and a read of the parallel port register 0x8003 through the address
space still returns the port value of the devices, whatever they are. -/
theorem store_to_port_direct (s t : cpu_state_t) (dev : devices_t) (a v : Nat)
    (hwf : WF s) (ha : 0x8000 ≤ a ∧ a ≤ 0xFEFF)
    (hf : step_fetches s t OP_STA) (hlo : operand_byte t 1 = 0x03)
    (hhi : operand_byte t 2 = 0x80) :
    isa_read_memory s a = s.memory a ∧
    (isa_write_memory s a v).memory = store s.memory a v ∧
    { isa_write_memory s a v with memory := s.memory } = s ∧
    memory_read s.memory dev a = devices_read dev a ∧
    memory_write s.memory dev a v = (s.memory, devices_write dev a v) ∧
    (cpu_step s).1 = true ∧
    (cpu_step s).2.memory 0x8003 = cpu_get_a t ∧
    (memory_read (cpu_step s).2.memory dev 0x8003).1 = dev.g_gpio.port := by
  obtain ⟨hbp, ht, hop⟩ := hf
  have hwt : WF t := ht ▸ WF_handle_interrupts s hwf
  have hr : memory_is_ram a = false := by
    simp only [memory_is_ram, RAM_END, decide_eq_false_iff_not]
    omega
  have hm : memory_is_mmio a = true := by
    simp only [memory_is_mmio, MMIO_START, MMIO_END, Bool.and_eq_true, decide_eq_true_iff]
    omega
  obtain ⟨e1, e2⟩ := exec_STA t hwt hop
  rw [hlo, hhi] at e2
  refine ⟨rfl, rfl, rfl, ?_, ?_, ?_, ?_, ?_⟩
  · simp [memory_read, memory_is_valid_address, hr, hm]
  · simp [memory_write, memory_is_valid_address, hr, hm]
  · rw [cpu_step_eq s hbp, ← ht]
    exact e1
  · rw [cpu_step_eq s hbp, ← ht, e2]
    simp [store_apply]
  · simp [memory_read, memory_is_valid_address, memory_is_ram, memory_is_mmio, devices_read,
      gpio_read]

/-! # Properties of the address space, the flags, the watchpoint and the assembler -/

/-- C21. The program `LDI #0x55; STA [0x8003]` run on a machine whose devices are as
`devices_init` leaves them (parallel port 0).  The store executed by the second step puts
0x55 into the memory array and leaves the port alone: afterwards `isa_read_memory` reads
0x55 at 0x8003 while a read of the port register 0x8003 through the address space
(`memory_read`) returns 0 and not 0x55; `memory_write`, which the store does not call,
would have set the port to 0x55 and left the array cell at 0. -/
theorem C21_store_bypasses_port :
    cpu_get_a (steps 1 (loaded port_program 0x0200)) = 0x55 ∧
    (steps 1 (loaded port_program 0x0200)).memory
      (cpu_get_pc (steps 1 (loaded port_program 0x0200))) = OP_STA ∧
    operand_byte (steps 1 (loaded port_program 0x0200)) 1 = 0x03 ∧
    operand_byte (steps 1 (loaded port_program 0x0200)) 2 = 0x80 ∧
    (devices_init idle_devices).g_gpio.port = 0 ∧
    (cpu_step (steps 1 (loaded port_program 0x0200))).1 = true ∧
    (steps 2 (loaded port_program 0x0200)).memory 0x8003 = 0x55 ∧
    isa_read_memory (steps 2 (loaded port_program 0x0200)) 0x8003 = 0x55 ∧
    (memory_read (steps 2 (loaded port_program 0x0200)).memory (devices_init idle_devices)
      0x8003).1 = 0 ∧
    (memory_write (steps 1 (loaded port_program 0x0200)).memory (devices_init idle_devices)
      0x8003 0x55).2.g_gpio.port = 0x55 ∧
    (memory_write (steps 1 (loaded port_program 0x0200)).memory (devices_init idle_devices)
      0x8003 0x55).1 0x8003 = 0 := by
  decide

/-- C22: writing to a non-writable MMIO cell is a no-op.  For every value `v` and every
address `a` that is a read-only serial register (0x8001 RX data, 0x8002 status) or an MMIO
address in 0x8000..0xFEFF that is not a peripheral register (none of 0x8000..0x8009),
`memory_write` returns the memory array and the serial, parallel-port and timer state it
was given, so every later read finds the state it would have found without the write; and
reading a non-peripheral MMIO address or the write-only TX register 0x8000 returns 0 (and
leaves the devices unchanged). -/
theorem C22_mmio_write_ignored (memory : Nat → Nat) (dev : devices_t) (a v : Nat)
    (ha : a = 0x8001 ∨ a = 0x8002 ∨ (0x800A ≤ a ∧ a ≤ 0xFEFF)) :
    memory_write memory dev a v = (memory, dev) ∧
    (0x800A ≤ a ∧ a ≤ 0xFEFF → memory_read memory dev a = (0, dev)) ∧
    memory_read memory dev 0x8000 = (0, dev) := by
  have hr : memory_is_ram a = false := by
    simp only [memory_is_ram, RAM_END, decide_eq_false_iff_not]
    omega
  have hm : memory_is_mmio a = true := by
    simp only [memory_is_mmio, MMIO_START, MMIO_END, Bool.and_eq_true, decide_eq_true_iff]
    omega
  refine ⟨?_, ?_, ?_⟩
  · rcases ha with rfl | rfl | h
    · simp [memory_write, memory_is_valid_address, memory_is_ram, memory_is_mmio, devices_write,
        uart_write]
    · simp [memory_write, memory_is_valid_address, memory_is_ram, memory_is_mmio, devices_write,
        uart_write]
    · have h0 : a ≠ 0x8000 := by omega
      have h1 : a ≠ 0x8001 := by omega
      have h2 : a ≠ 0x8002 := by omega
      have h3 : a ≠ 0x8003 := by omega
      have h4 : a ≠ 0x8004 := by omega
      have h5 : a ≠ 0x8005 := by omega
      have h6 : a ≠ 0x8006 := by omega
      have h7 : a ≠ 0x8007 := by omega
      have h8 : a ≠ 0x8008 := by omega
      have h9 : a ≠ 0x8009 := by omega
      simp [memory_write, memory_is_valid_address, hr, hm, devices_write, h0, h1, h2, h3, h4,
        h5, h6, h7, h8, h9]
  · intro h
    have h0 : a ≠ 0x8000 := by omega
    have h1 : a ≠ 0x8001 := by omega
    have h2 : a ≠ 0x8002 := by omega
    have h3 : a ≠ 0x8003 := by omega
    have h4 : a ≠ 0x8004 := by omega
    have h5 : a ≠ 0x8005 := by omega
    have h6 : a ≠ 0x8006 := by omega
    have h7 : a ≠ 0x8007 := by omega
    have h8 : a ≠ 0x8008 := by omega
    have h9 : a ≠ 0x8009 := by omega
    simp [memory_read, memory_is_valid_address, hr, hm, devices_read, h0, h1, h2, h3, h4,
      h5, h6, h7, h8, h9]
  · simp [memory_read, memory_is_valid_address, memory_is_ram, memory_is_mmio, devices_read,
      uart_read]

/-- C22 (witness): a write of 0xAB to the serial status register and to the unused MMIO
address 0x9000 of the initialised devices. -/
theorem C22_mmio_write_ignored_witness :
    memory_write (fun _ => 0) (devices_init idle_devices) 0x8002 0xAB =
      (fun _ => 0, devices_init idle_devices) ∧
    memory_write (fun _ => 0) (devices_init idle_devices) 0x9000 0xAB =
      (fun _ => 0, devices_init idle_devices) ∧
    memory_read (fun _ => 0) (devices_init idle_devices) 0x9000 =
      (0, devices_init idle_devices) :=
  ⟨(C22_mmio_write_ignored _ _ 0x8002 0xAB (Or.inr (Or.inl rfl))).1,
    (C22_mmio_write_ignored _ _ 0x9000 0xAB (Or.inr (Or.inr (by decide)))).1,
    (C22_mmio_write_ignored _ _ 0x9000 0xAB (Or.inr (Or.inr (by decide)))).2.1 (by decide)⟩

/-- C23: the three address regions partition the address space.  For every address,
`memory_is_ram` holds iff address <= 0x7FFF, `memory_is_mmio` iff 0x8000 <= address <=
0xFEFF and `memory_is_vector` iff address >= 0xFF00, so that exactly one of the three
holds; the boundary addresses 0x0000, 0x7FFF, 0x8000, 0xFEFF, 0xFF00 and 0xFFFF classify as
RAM, RAM, MMIO, MMIO, vector, vector. -/
theorem C23_region_partition (address : Nat) :
    (memory_is_ram address = true ↔ address ≤ 0x7FFF) ∧
    (memory_is_mmio address = true ↔ 0x8000 ≤ address ∧ address ≤ 0xFEFF) ∧
    (memory_is_vector address = true ↔ 0xFF00 ≤ address) ∧
    ((memory_is_ram address = true ∧ memory_is_mmio address = false ∧
        memory_is_vector address = false) ∨
      (memory_is_ram address = false ∧ memory_is_mmio address = true ∧
        memory_is_vector address = false) ∨
      (memory_is_ram address = false ∧ memory_is_mmio address = false ∧
        memory_is_vector address = true)) ∧
    memory_is_ram 0x0000 = true ∧ memory_is_ram 0x7FFF = true ∧
    memory_is_mmio 0x8000 = true ∧ memory_is_mmio 0xFEFF = true ∧
    memory_is_vector 0xFF00 = true ∧ memory_is_vector 0xFFFF = true := by
  have h1 : memory_is_ram address = true ↔ address ≤ 0x7FFF := by
    simp [memory_is_ram]
  have h2 : memory_is_mmio address = true ↔ 0x8000 ≤ address ∧ address ≤ 0xFEFF := by
    simp [memory_is_mmio]
  have h3 : memory_is_vector address = true ↔ 0xFF00 ≤ address := by
    simp [memory_is_vector]
  refine ⟨h1, h2, h3, ?_, by decide, by decide, by decide, by decide, by decide, by decide⟩
  cases hr : memory_is_ram address <;> cases hm : memory_is_mmio address <;>
    cases hv : memory_is_vector address <;> simp_all <;> omega

/-- C24 (counterexample): after `LDI #0xFF; ADD #0x01` the C flag is set; the step that
executes `INC A` returns true and leaves C clear. -/
theorem C24_counterexample :
    (steps 2 (loaded inc_program 0x0200)).memory (cpu_get_pc (steps 2 (loaded inc_program
      0x0200))) = OP_INC ∧
    operand_byte (steps 2 (loaded inc_program 0x0200)) 1 = REG_A ∧
    isa_get_flag (steps 2 (loaded inc_program 0x0200)) FLAG_CARRY = true ∧
    (cpu_step (steps 2 (loaded inc_program 0x0200))).1 = true ∧
    isa_get_flag (cpu_step (steps 2 (loaded inc_program 0x0200))).2 FLAG_CARRY = false := by
  decide

/-- C24 (amended): INC and DEC on the accumulator change A to (a + 1) mod 256 and
(a - 1) mod 256, and AND, OR, XOR with operand byte `v` change it to a AND v, a OR v,
a XOR v; all five set Z iff the new A is 0 and N to bit 7 of the new A, and clear C and V
whatever they were before; the I flag and the reserved flag bits are unchanged. -/
theorem C24_inc_dec_logic_flags (s t : cpu_state_t) (op v : Nat) (hwf : WF s)
    (hf : step_fetches s t op) (hv : operand_byte t 1 = v)
    (hk : (op = OP_INC ∧ v = REG_A) ∨ (op = OP_DEC ∧ v = REG_A) ∨ op = OP_AND ∨ op = OP_OR ∨
      op = OP_XOR) :
    (cpu_step s).1 = true ∧
    (op = OP_INC → cpu_get_a (cpu_step s).2 = (cpu_get_a t + 1) % 256) ∧
    (op = OP_DEC → cpu_get_a (cpu_step s).2 = (cpu_get_a t + 255) % 256) ∧
    (op = OP_AND → cpu_get_a (cpu_step s).2 = cpu_get_a t &&& v) ∧
    (op = OP_OR → cpu_get_a (cpu_step s).2 = cpu_get_a t ||| v) ∧
    (op = OP_XOR → cpu_get_a (cpu_step s).2 = cpu_get_a t ^^^ v) ∧
    isa_get_flag (cpu_step s).2 FLAG_ZERO = decide (cpu_get_a (cpu_step s).2 = 0) ∧
    isa_get_flag (cpu_step s).2 FLAG_NEGATIVE = (cpu_get_a (cpu_step s).2).testBit 7 ∧
    isa_get_flag (cpu_step s).2 FLAG_CARRY = false ∧
    isa_get_flag (cpu_step s).2 FLAG_OVERFLOW = false ∧
    (cpu_step s).2.flags &&& 0xF0 = t.flags &&& 0xF0 := by
  obtain ⟨hbp, ht, hop⟩ := hf
  have hwt : WF t := ht ▸ WF_handle_interrupts s hwf
  have ha : cpu_get_a t < 256 := by
    simpa [cpu_get_a, isa_get_register] using hwt.regs_lt 0
  rw [cpu_step_eq s hbp, ← ht]
  rcases hk with ⟨rfl, rfl⟩ | ⟨rfl, rfl⟩ | rfl | rfl | rfl
  · obtain ⟨g1, g2, g3, g4, g5, g6, g7⟩ := alu_step_facts t hwt _ _ _ _ (exec_INC_eq t hop hv)
    have e : uint8_t ((cpu_get_a t : Int) + 1) = (cpu_get_a t + 1) % 256 := by
      unfold uint8_t; omega
    rw [g2, g3, g4]
    exact ⟨g1, fun _ => e, fun h => absurd h (by decide), fun h => absurd h (by decide),
      fun h => absurd h (by decide), fun h => absurd h (by decide), rfl, rfl, g5, g6, g7⟩
  · obtain ⟨g1, g2, g3, g4, g5, g6, g7⟩ := alu_step_facts t hwt _ _ _ _ (exec_DEC_eq t hop hv)
    have e : uint8_t ((cpu_get_a t : Int) - 1) = (cpu_get_a t + 255) % 256 := by
      unfold uint8_t; omega
    rw [g2, g3, g4]
    exact ⟨g1, fun h => absurd h (by decide), fun _ => e, fun h => absurd h (by decide),
      fun h => absurd h (by decide), fun h => absurd h (by decide), rfl, rfl, g5, g6, g7⟩
  · obtain ⟨g1, g2, g3, g4, g5, g6, g7⟩ :=
      alu_step_facts t hwt _ _ _ _ (exec_AND_eq t v hop hv)
    rw [g2, g3, g4]
    exact ⟨g1, fun h => absurd h (by decide), fun h => absurd h (by decide), fun _ => rfl,
      fun h => absurd h (by decide), fun h => absurd h (by decide), rfl, rfl, g5, g6, g7⟩
  · obtain ⟨g1, g2, g3, g4, g5, g6, g7⟩ :=
      alu_step_facts t hwt _ _ _ _ (exec_OR_eq t v hop hv)
    rw [g2, g3, g4]
    exact ⟨g1, fun h => absurd h (by decide), fun h => absurd h (by decide),
      fun h => absurd h (by decide), fun _ => rfl, fun h => absurd h (by decide), rfl, rfl,
      g5, g6, g7⟩
  · obtain ⟨g1, g2, g3, g4, g5, g6, g7⟩ :=
      alu_step_facts t hwt _ _ _ _ (exec_XOR_eq t v hop hv)
    rw [g2, g3, g4]
    exact ⟨g1, fun h => absurd h (by decide), fun h => absurd h (by decide),
      fun h => absurd h (by decide), fun h => absurd h (by decide), fun _ => rfl, rfl, rfl,
      g5, g6, g7⟩

/-- C24 (witness): `INC A` after `LDI #0xFF; ADD #0x01` (A = 0, Z and C set) leaves A = 1
with Z, N, C and V clear. -/
theorem C24_inc_dec_logic_flags_witness :
    (WF (steps 2 (loaded inc_program 0x0200)) ∧
      step_fetches (steps 2 (loaded inc_program 0x0200))
        (cpu_handle_interrupts (steps 2 (loaded inc_program 0x0200))) OP_INC) ∧
    cpu_get_a (cpu_step (steps 2 (loaded inc_program 0x0200))).2 = 1 ∧
    isa_get_flag (cpu_step (steps 2 (loaded inc_program 0x0200))).2 FLAG_CARRY = false ∧
    isa_get_flag (cpu_step (steps 2 (loaded inc_program 0x0200))).2 FLAG_OVERFLOW = false :=
  have hw : WF (steps 2 (loaded inc_program 0x0200)) :=
    WF_steps 2 _ (WF_loaded inc_program 0x0200 (by decide))
  have hf : step_fetches (steps 2 (loaded inc_program 0x0200))
      (cpu_handle_interrupts (steps 2 (loaded inc_program 0x0200))) OP_INC :=
    ⟨by decide, rfl, by decide⟩
  have h := C24_inc_dec_logic_flags _ _ OP_INC 0 hw hf (by decide) (Or.inl ⟨rfl, rfl⟩)
  ⟨⟨hw, hf⟩, (h.2.1 rfl).trans (by decide), h.2.2.2.2.2.2.2.2.1, h.2.2.2.2.2.2.2.2.2.1⟩

/-- C25 (counterexample): `CMP #0x05` executed with A = 5 sets Z and leaves A = 5. -/
theorem C25_counterexample :
    (steps 1 (loaded cmp_program 0x0200)).memory (cpu_get_pc (steps 1 (loaded cmp_program
      0x0200))) = OP_CMP ∧
    (cpu_step (steps 1 (loaded cmp_program 0x0200))).1 = true ∧
    isa_get_flag (cpu_step (steps 1 (loaded cmp_program 0x0200))).2 FLAG_ZERO = true ∧
    cpu_get_a (cpu_step (steps 1 (loaded cmp_program 0x0200))).2 = 0x05 := by
  decide

/-- C25 (amended): after any step that executes ADD or SUB, with any operand byte, or INC
or DEC on the accumulator, from any state, the Z flag is set iff A = 0 and the N flag
equals bit 7 of A. -/
theorem C25_arithmetic_zero_negative (s t : cpu_state_t) (op v : Nat) (hwf : WF s)
    (hf : step_fetches s t op) (hv : operand_byte t 1 = v)
    (hk : op = OP_ADD ∨ op = OP_SUB ∨ (op = OP_INC ∧ v = REG_A) ∨ (op = OP_DEC ∧ v = REG_A)) :
    (cpu_step s).1 = true ∧
    (isa_get_flag (cpu_step s).2 FLAG_ZERO = true ↔ cpu_get_a (cpu_step s).2 = 0) ∧
    isa_get_flag (cpu_step s).2 FLAG_NEGATIVE = (cpu_get_a (cpu_step s).2).testBit 7 := by
  obtain ⟨hbp, ht, hop⟩ := hf
  have hwt : WF t := ht ▸ WF_handle_interrupts s hwf
  rw [cpu_step_eq s hbp, ← ht]
  have key : ∀ (r : Nat) (cy ov : Bool) (inst : instruction_t),
      isa_execute_instruction t = (true, update_cycle_count
        (isa_update_flags (isa_set_register (advance t 2) REG_A r) r cy ov) inst) →
      (isa_execute_instruction t).1 = true ∧
      (isa_get_flag (isa_execute_instruction t).2 FLAG_ZERO = true ↔
        cpu_get_a (isa_execute_instruction t).2 = 0) ∧
      isa_get_flag (isa_execute_instruction t).2 FLAG_NEGATIVE =
        (cpu_get_a (isa_execute_instruction t).2).testBit 7 := by
    intro r cy ov inst e
    obtain ⟨g1, g2, g3, g4, _⟩ := alu_step_facts t hwt r cy ov inst e
    rw [g2, g3, g4]
    exact ⟨g1, decide_eq_true_iff, rfl⟩
  rcases hk with rfl | rfl | ⟨rfl, rfl⟩ | ⟨rfl, rfl⟩
  · exact key _ _ _ _ (exec_ADD_eq t v hop hv)
  · exact key _ _ _ _ (exec_SUB_eq t v hop hv)
  · exact key _ _ _ _ (exec_INC_eq t hop hv)
  · exact key _ _ _ _ (exec_DEC_eq t hop hv)

/-- C25 (witness): `ADD #0x01` executed with A = 0xFF leaves A = 0 and Z set, N clear. -/
theorem C25_arithmetic_zero_negative_witness :
    (WF (steps 1 (loaded add_program 0x0200)) ∧
      step_fetches (steps 1 (loaded add_program 0x0200))
        (cpu_handle_interrupts (steps 1 (loaded add_program 0x0200))) OP_ADD) ∧
    cpu_get_a (cpu_step (steps 1 (loaded add_program 0x0200))).2 = 0 ∧
    isa_get_flag (cpu_step (steps 1 (loaded add_program 0x0200))).2 FLAG_ZERO = true ∧
    isa_get_flag (cpu_step (steps 1 (loaded add_program 0x0200))).2 FLAG_NEGATIVE = false :=
  have hw : WF (steps 1 (loaded add_program 0x0200)) :=
    WF_steps 1 _ (WF_loaded add_program 0x0200 (by decide))
  have hf : step_fetches (steps 1 (loaded add_program 0x0200))
      (cpu_handle_interrupts (steps 1 (loaded add_program 0x0200))) OP_ADD :=
    ⟨by decide, rfl, by decide⟩
  have h := C25_arithmetic_zero_negative _ _ OP_ADD 1 hw hf (by decide) (Or.inl rfl)
  have ha : cpu_get_a (cpu_step (steps 1 (loaded add_program 0x0200))).2 = 0 := by decide
  ⟨⟨hw, hf⟩, ha, h.2.1.2 ha, h.2.2.trans (by rw [ha]; decide)⟩

/-- C26 (counterexample): with a watchpoint set on 0x1000 the machine executes
`LDI #0x55; STA [0x1000]; LDA [0x1000]`; the store and the load both return true and
`watch_hit` is still false afterwards. -/
theorem C26_counterexample :
    (cpu_set_watchpoint (loaded watch_program 0x0200) 0x1000).watch_addr = 0x1000 ∧
    (cpu_step (steps 1 (cpu_set_watchpoint (loaded watch_program 0x0200) 0x1000))).1 = true ∧
    (steps 2 (cpu_set_watchpoint (loaded watch_program 0x0200) 0x1000)).memory 0x1000 = 0x55 ∧
    (steps 2 (cpu_set_watchpoint (loaded watch_program 0x0200) 0x1000)).watch_hit = false ∧
    (cpu_step (steps 2 (cpu_set_watchpoint (loaded watch_program 0x0200) 0x1000))).1 = true ∧
    cpu_get_a (steps 3 (cpu_set_watchpoint (loaded watch_program 0x0200) 0x1000)) = 0x55 ∧
    (steps 3 (cpu_set_watchpoint (loaded watch_program 0x0200) 0x1000)).watch_hit = false := by
  decide

/-- C26 (amended): watchpoints are stored but not observed.  `cpu_set_watchpoint` records
the address in `watch_addr`; the watchpoint block of `cpu_step` is an empty placeholder,
so for every state - whatever the instruction reads or writes - a step leaves `watch_hit`
and `watch_addr` as they were. -/
theorem C26_watchpoint_not_observed (s : cpu_state_t) (w : Nat) :
    (cpu_set_watchpoint s w).watch_addr = w ∧
    (cpu_set_watchpoint s w).watch_hit = s.watch_hit ∧
    (cpu_step s).2.watch_hit = s.watch_hit ∧
    (cpu_step s).2.watch_addr = s.watch_addr := by
  have key : (cpu_step s).2.watch_hit = s.watch_hit ∧
      (cpu_step s).2.watch_addr = s.watch_addr := by
    by_cases hbp : s.breakpoint_addr ≠ 0 ∧ cpu_get_pc s = s.breakpoint_addr
    · have e : cpu_step s = (false, { s with breakpoint_hit := true, running := false }) := by
        unfold cpu_step
        simp only [cpu_get_pc] at hbp
        simp only [hbp, ne_eq, not_false_eq_true, and_self, if_true]
      rw [e]
      exact ⟨rfl, rfl⟩
    · have d : debug_state (isa_execute_instruction (cpu_handle_interrupts s)).2 =
          debug_state s := by
        rw [debug_execute_instruction, debug_handle_interrupts]
      simp only [debug_state, Prod.mk.injEq] at d
      rw [cpu_step_eq s hbp]
      exact ⟨d.2.2.2.1, d.2.2.1⟩
  exact ⟨rfl, rfl, key.1, key.2⟩

/-- C27: evaluation of the assembler on `LDI #v` for v = 66 written in decimal, hexadecimal
and binary, with and without a blank after the mnemonic.  The opcode of LDI is 0x00, the
value `assembler_get_opcode` also returns for an unknown mnemonic, and the check that
follows exempts only `NOP`: every form is rejected with an error and no byte is emitted
(with the blank, the mnemonic is even read as `DI`, see C28). -/
theorem C27_ldi_rejected :
    assembler_get_opcode (c_str "LDI") = 0x00 ∧
    assemble "LDI#66\n" = some (false, true, c_str "Unknown instruction: LDI", []) ∧
    assemble "LDI#$42\n" = some (false, true, c_str "Unknown instruction: LDI", []) ∧
    assemble "LDI#%01000010\n" = some (false, true, c_str "Unknown instruction: LDI", []) ∧
    assemble "LDI #66\n" = some (false, true, c_str "Unknown instruction: DI", []) ∧
    assemble "LDI #$42\n" = some (false, true, c_str "Unknown instruction: DI", []) ∧
    assemble "LDI #%01000010\n" = some (false, true, c_str "Unknown instruction: DI", []) :=
  ⟨by decide!, by decide!, by decide!, by decide!, by decide!, by decide!, by decide!⟩

/-- C28: evaluation of the assembler on `JMP $0200` and `HLT ; stop`, with and without the
blank after the mnemonic.  When `assembler_parse_label` finds no colon it moves the column
back by the length of the identifier only, not by the blanks it skipped, so the mnemonic
of the line with the blank is read from its second character (`MP`, `LT`) and rejected;
without the blank the bytes 40 00 02 and 73 are emitted (in each of the two passes). -/
theorem C28_blank_after_mnemonic :
    assemble "JMP$0200\n" = some (true, false, [], [0x40, 0x00, 0x02, 0x40, 0x00, 0x02]) ∧
    assemble "JMP $0200\n" = some (false, true, c_str "Unknown instruction: MP", []) ∧
    assemble "JMP\t$0200\n" = some (false, true, c_str "Unknown instruction: MP", []) ∧
    assemble "HLT; stop\n" = some (true, false, [], [0x73, 0x73]) ∧
    assemble "HLT ; stop\n" = some (false, true, c_str "Unknown instruction: LT", []) ∧
    (assembler_create (some (fun _ => 0))).map (fun assembler =>
      (assembler_parse_label { assembler with
        current_line := c_str "JMP $0200\n" }).2.column_number) = some 1 :=
  ⟨by decide!, by decide!, by decide!, by decide!, by decide!, by decide!⟩

/-- C29: evaluation of the assembler on a jump to a label defined on the next line,
`JMP(end)` followed by `end:`.  The first pass meets the identifier before its label
exists and records an error, which nothing clears: the assembly returns false with the
error flag set, although the second pass emits the address 0x0003 of the label.  The same
jump placed after the label assembles without error. -/
theorem C29_forward_reference_error :
    assemble "JMP(end)\nend:\n" =
      some (false, true, c_str "Undefined label or symbol: end",
        [0x40, 0x00, 0x00, 0x40, 0x03, 0x00]) ∧
    assemble "end:\nJMP(end)\n" =
      some (true, false, [], [0x40, 0x00, 0x00, 0x40, 0x00, 0x00]) :=
  ⟨by decide!, by decide!⟩

/-- C30: evaluation of the assembler on the files `.byte 1`, `.word $1234` and
`.byte $1FF`.  Both passes emit into the output buffer and `output_size` is not reset
between them, so every statement's bytes are in the image twice: 01 01, 34 12 34 12 and
FF FF. -/
theorem C30_bytes_emitted_twice :
    assemble ".byte 1" = some (true, false, [], [0x01, 0x01]) ∧
    assemble ".byte 1\n" = some (true, false, [], [0x01, 0x01]) ∧
    assemble ".word $1234\n" = some (true, false, [], [0x34, 0x12, 0x34, 0x12]) ∧
    assemble ".byte $1FF\n" = some (true, false, [], [0xFF, 0xFF]) ∧
    assemble "HLT\n" = some (true, false, [], [0x73, 0x73]) :=
  ⟨by decide!, by decide!, by decide!, by decide!, by decide!⟩

/-! # Lemmas for the devices, the counters, the disassembler and the assembler -/

/-! ## The timer latch -/

theorem uint16_t_nat (n : Nat) : uint16_t (n : Int) = n % 65536 := by
  unfold uint16_t; omega

theorem and_high_byte (x : Nat) : x &&& 0xFF00 = 256 * (x / 256 % 256) := by
  apply Nat.eq_of_testBit_eq
  intro i
  have e : (0xFF00 : Nat) = 255 <<< 8 := by decide
  rw [Nat.testBit_and, e, Nat.testBit_shiftLeft, Nat.mul_comm, ← Nat.shiftLeft_eq _ 8,
    Nat.testBit_shiftLeft]
  by_cases h : 8 ≤ i
  · have e2 : (255 : Nat) = 2 ^ 8 - 1 := by decide
    simp only [h, decide_True, Bool.true_and, ge_iff_le]
    rw [e2, Nat.testBit_two_pow_sub_one,
      show x / 256 % 256 = (x / 2 ^ 8) % 2 ^ 8 by rfl, Nat.testBit_mod_two_pow,
      ← Nat.shiftRight_eq_div_pow, Nat.testBit_shiftRight]
    have : 8 + (i - 8) = i := by omega
    rw [this, Bool.and_comm]
  · simp [h]

theorem or_high_byte (lo h : Nat) (hlo : lo < 256) : lo ||| 256 * h = lo + 256 * h := by
  have e := Nat.mul_add_lt_is_or (i := 8) (b := lo) (by omega) h
  rw [Nat.or_comm, show (256 : Nat) = 2 ^ 8 by rfl, ← e]
  omega

theorem latch_low_write (x lo : Nat) (hlo : lo < 256) :
    uint16_t (((x &&& 0xFF00) ||| lo : Nat) : Int) = lo + 256 * (x / 256 % 256) := by
  rw [uint16_t_nat, and_high_byte, Nat.or_comm, or_high_byte _ _ hlo]
  omega

theorem latch_high_write (x hi : Nat) (hhi : hi < 256) :
    uint16_t (((x &&& 0x00FF) ||| (hi <<< 8) : Nat) : Int) = x % 256 + 256 * hi := by
  rw [uint16_t_nat, and_255, word_or _ _ (by omega)]
  omega

theorem timer_read_latch (timer : timer_device_t) :
    timer_read timer TIMER_LATCH_ADDR = timer.latch % 256 ∧
    timer_read timer TIMER_LATCH_ADDR_H = timer.latch / 256 % 256 := by
  simp only [timer_read, TIMER_LATCH_ADDR, TIMER_LATCH_ADDR_H, if_true, and_255,
    Nat.shiftRight_eq_div_pow]
  constructor
  · trivial
  · simp

theorem devices_write_latch (dev : devices_t) (lo hi : Nat) (hlo : lo < 256) (hhi : hi < 256) :
    (devices_write dev TIMER_LATCH_ADDR lo).g_timer.latch =
      lo + 256 * (dev.g_timer.latch / 256 % 256) ∧
    (devices_write dev TIMER_LATCH_ADDR_H hi).g_timer.latch =
      dev.g_timer.latch % 256 + 256 * hi := by
  constructor
  · simp [devices_write, timer_write, latch_low_write _ _ hlo]
  · simp [devices_write, timer_write, latch_high_write _ _ hhi]

theorem devices_read_latch (dev : devices_t) :
    devices_read dev TIMER_LATCH_ADDR = (dev.g_timer.latch % 256, dev) ∧
    devices_read dev TIMER_LATCH_ADDR_H = (dev.g_timer.latch / 256 % 256, dev) := by
  have h := timer_read_latch dev.g_timer
  constructor
  · simp [devices_read, h.1]
  · simp [devices_read, h.2]

/-! ## Single bits of the flag byte -/

theorem get_flag_bit (cpu : cpu_state_t) (j : Nat) :
    isa_get_flag cpu (2 ^ j) = cpu.flags.testBit j := by
  unfold isa_get_flag
  exact and_bit_ne_zero _ _

theorem testBit_byte_high (x i : Nat) (hx : x < 256) (hi : 8 ≤ i) : x.testBit i = false := by
  apply Nat.testBit_lt_two_pow
  calc x < 2 ^ 8 := hx
    _ ≤ 2 ^ i := Nat.pow_le_pow_right (by decide) hi

theorem testBit_255 (i : Nat) : (255 : Nat).testBit i = decide (i < 8) := by
  rw [show (255 : Nat) = 2 ^ 8 - 1 by rfl, Nat.testBit_two_pow_sub_one]

theorem set_flag_bits (cpu : cpu_state_t) (j i : Nat) :
    (isa_set_flag cpu (2 ^ j)).flags.testBit i = (cpu.flags.testBit i || decide (j = i)) := by
  simp only [isa_set_flag, Nat.testBit_or, Nat.testBit_two_pow]

theorem clear_flag_bits (cpu : cpu_state_t) (hf : cpu.flags < 256) (j i : Nat) :
    (isa_clear_flag cpu (2 ^ j)).flags.testBit i = (cpu.flags.testBit i && !decide (j = i)) := by
  simp only [isa_clear_flag, Nat.testBit_and, Nat.testBit_xor, Nat.testBit_two_pow, testBit_255]
  by_cases h8 : i < 8
  · by_cases hj : j = i <;> simp [h8, hj]
  · rw [testBit_byte_high _ _ hf (by omega)]
    simp

theorem high_nibble_bits (x y : Nat) (hx : x < 256) (hy : y < 256)
    (h : x &&& 0xF0 = y &&& 0xF0) (i : Nat) (hi : 4 ≤ i) : x.testBit i = y.testBit i := by
  by_cases h8 : i < 8
  · have e := congrArg (fun z => z.testBit i) h
    simp only [Nat.testBit_and] at e
    have c : (0xF0 : Nat).testBit i = true := by
      interval_cases i <;> decide
    simpa [c] using e
  · rw [testBit_byte_high _ _ hx (by omega), testBit_byte_high _ _ hy (by omega)]

/-! ## The timer -/

/-- One tick of a running timer at prescaler 1 whose accumulator does not wrap. -/
theorem timer_tick_eq (timer : timer_device_t) (hrun : timer.running = true)
    (hpre : timer.prescaler = 1) (hacc : timer.prescaler_count < 4294967295) :
    timer_tick timer =
      if timer.count = 0 then { timer with prescaler_count := 0 }
      else if timer.count = 1 then
        { timer with
          prescaler_count := 0
          count := if timer.control &&& 0x01 ≠ 0 then timer.latch else 0
          irq_pending := timer.irq_enabled || timer.irq_pending }
      else { timer with prescaler_count := 0, count := timer.count - 1 } := by
  have e : uint32_t ((timer.prescaler_count : Int) + 1) = timer.prescaler_count + 1 := by
    unfold uint32_t; omega
  unfold timer_tick
  simp only [hrun, Bool.not_true, Bool.false_eq_true, if_false, e, hpre, ge_iff_le,
    Nat.le_add_left, if_true]
  by_cases h0 : timer.count = 0
  · simp [h0]
  · by_cases h1 : timer.count = 1
    · cases hi : timer.irq_enabled <;> by_cases hc : timer.control &&& 1 = 0 <;>
        simp only [h1, hi, hc, Nat.lt_one_iff, Nat.sub_self, if_true, if_false, ne_eq,
          not_true_eq_false, not_false_eq_true, Bool.false_eq_true, Bool.false_or,
          Bool.true_or, Nat.one_ne_zero, Nat.zero_lt_one, Nat.lt_irrefl]
    · have h2 : timer.count - 1 ≠ 0 := by omega
      have h3 : 0 < timer.count := by omega
      simp [h0, h1, h2, h3]

/-- While the count has not reached 1, `k` ticks lower it by `k` and change nothing else
but the accumulator. -/
theorem timer_countdown (k : Nat) : ∀ (timer : timer_device_t), timer.running = true →
    timer.prescaler = 1 → timer.prescaler_count < 4294967295 → k < timer.count →
    timer_ticks k timer =
      { timer with
        count := timer.count - k
        prescaler_count := if k = 0 then timer.prescaler_count else 0 } := by
  induction k with
  | zero => intro timer _ _ _ _; rfl
  | succ k ih =>
    intro timer hrun hpre hacc hk
    have h0 : timer.count ≠ 0 := by omega
    have h1 : timer.count ≠ 1 := by omega
    have e := timer_tick_eq timer hrun hpre hacc
    simp only [h0, h1, if_false] at e
    show timer_ticks k (timer_tick timer) = _
    rw [e, ih { timer with prescaler_count := 0, count := timer.count - 1 } hrun hpre
      (by dsimp only; omega) (by dsimp only; omega)]
    have e2 : timer.count - 1 - k = timer.count - (k + 1) := by omega
    simp only [e2, Nat.add_one_ne_zero, if_false, ite_self]

theorem timer_ticks_succ (k : Nat) : ∀ (timer : timer_device_t),
    timer_ticks (k + 1) timer = timer_tick (timer_ticks k timer) := by
  induction k with
  | zero => intro timer; rfl
  | succ k ih => intro timer; exact ih (timer_tick timer)

/-- The tick that takes the count from 1 to 0. -/
theorem timer_expires (timer : timer_device_t) (hrun : timer.running = true)
    (hpre : timer.prescaler = 1) (hacc : timer.prescaler_count < 4294967295)
    (hn : 1 ≤ timer.count) :
    timer_ticks timer.count timer =
      { timer with
        prescaler_count := 0
        count := if timer.control &&& 0x01 ≠ 0 then timer.latch else 0
        irq_pending := timer.irq_enabled || timer.irq_pending } := by
  obtain ⟨k, hk⟩ : ∃ k, timer.count = k + 1 := ⟨timer.count - 1, by omega⟩
  have e1 : timer.count - k = 1 := by omega
  have e2 := timer_tick_eq
    { timer with
      count := timer.count - k
      prescaler_count := if k = 0 then timer.prescaler_count else 0 }
    hrun hpre (by dsimp only; split <;> omega)
  simp only [e1, Nat.succ_ne_zero, if_false, if_true] at e2
  rw [hk, timer_ticks_succ, timer_countdown k timer hrun hpre hacc (by omega), e1, e2]

/-- A timer whose count is zero never raises the IRQ. -/
theorem timer_idle (k : Nat) : ∀ (timer : timer_device_t), timer.count = 0 →
    (timer_ticks k timer).irq_pending = timer.irq_pending ∧ (timer_ticks k timer).count = 0 := by
  induction k with
  | zero => intro timer h; exact ⟨rfl, h⟩
  | succ k ih =>
    intro timer h
    have e : (timer_tick timer).irq_pending = timer.irq_pending ∧ (timer_tick timer).count = 0 := by
      unfold timer_tick
      simp only [h, lt_self_iff_false, if_false]
      split
      · exact ⟨rfl, h⟩
      · split <;> exact ⟨rfl, rfl⟩
    have h2 := ih (timer_tick timer) e.2
    exact ⟨h2.1.trans e.1, h2.2⟩

/-- The timer after `timer_init`, a write of `lo` and `hi` to the count registers and of
run | IRQ-enable (0x06) to the control register. -/
theorem timer_programmed (timer : timer_device_t) (lo hi : Nat) (hlo : lo < 256)
    (hhi : hi < 256) :
    timer_write (timer_write (timer_write (timer_init timer) TIMER_COUNT_ADDR lo)
      TIMER_COUNT_ADDR_H hi) TIMER_CTRL_ADDR 0x06 =
      ⟨0, lo + 256 * hi, 0x06, true, false, true, 1, 0⟩ := by
  have e1 : timer_write (timer_write (timer_init timer) TIMER_COUNT_ADDR lo)
      TIMER_COUNT_ADDR_H hi = ⟨0, lo + 256 * hi, 0, false, false, false, 1, 0⟩ := by
    simp only [timer_write, timer_init, TIMER_COUNT_ADDR, TIMER_COUNT_ADDR_H, TIMER_LATCH_ADDR,
      TIMER_LATCH_ADDR_H, TIMER_CTRL_ADDR, Nat.reduceEqDiff, if_false, if_true,
      latch_low_write _ _ hlo, latch_high_write _ _ hhi]
    congr 1
    omega
  rw [e1]
  simp [timer_write, timer_start]

/-- No function of `devices.c` leaves a timer at prescaler 1 with a non-zero prescaler
accumulator. -/
theorem timer_call_accumulator (c : timer_call_t) (timer : timer_device_t)
    (hpre : timer.prescaler = 1) (hacc : timer.prescaler_count = 0) :
    (timer_call c timer).prescaler = 1 ∧ (timer_call c timer).prescaler_count = 0 := by
  cases c with
  | init => exact ⟨rfl, rfl⟩
  | tick =>
    show (timer_tick timer).prescaler = 1 ∧ (timer_tick timer).prescaler_count = 0
    cases hrun : timer.running with
    | false =>
      have e : timer_tick timer = timer := by
        unfold timer_tick
        simp only [hrun, Bool.not_false, if_true]
      rw [e]
      exact ⟨hpre, hacc⟩
    | true =>
      rw [timer_tick_eq timer hrun hpre (by omega)]
      split
      · exact ⟨hpre, rfl⟩
      · split
        · exact ⟨hpre, rfl⟩
        · exact ⟨hpre, rfl⟩
  | write address value =>
    show (timer_write timer address value).prescaler = 1 ∧
      (timer_write timer address value).prescaler_count = 0
    unfold timer_write
    split
    · exact ⟨hpre, hacc⟩
    · split
      · exact ⟨hpre, hacc⟩
      · split
        · dsimp only
          split
          · exact ⟨hpre, rfl⟩
          · exact ⟨hpre, hacc⟩
        · split
          · exact ⟨hpre, hacc⟩
          · split
            · exact ⟨hpre, hacc⟩
            · split
              · split
                · exact ⟨hpre, hacc⟩
                · exact ⟨hpre, hacc⟩
              · exact ⟨hpre, hacc⟩
  | start => exact ⟨hpre, rfl⟩
  | stop => exact ⟨hpre, hacc⟩
  | reset => exact ⟨hpre, rfl⟩
  | clear_irq => exact ⟨hpre, hacc⟩

/-- After `timer_init` and any sequence of calls the prescaler is 1 and the prescaler
accumulator is 0. -/
theorem timer_calls_accumulator (cs : List timer_call_t) : ∀ (timer : timer_device_t),
    timer.prescaler = 1 → timer.prescaler_count = 0 →
    (timer_calls cs timer).prescaler = 1 ∧ (timer_calls cs timer).prescaler_count = 0 := by
  induction cs with
  | nil => intro timer hpre hacc; exact ⟨hpre, hacc⟩
  | cons c cs ih =>
    intro timer hpre hacc
    obtain ⟨h1, h2⟩ := timer_call_accumulator c timer hpre hacc
    exact ih (timer_call c timer) h1 h2

/-! ## The cycle counter along a sequence of calls -/

/-- The counters after a step that is not stopped by the breakpoint check. -/
theorem step_counters (s t : cpu_state_t) (op : Nat) (h : step_fetches s t op) :
    (∀ inst, isa_get_instruction op = some inst →
      (cpu_step s).2.cycle_count = (s.cycle_count + inst.cycles) % 18446744073709551616 ∧
      (cpu_step s).2.instruction_count = (s.instruction_count + 1) % 4294967296) ∧
    (isa_get_instruction op = none →
      (cpu_step s).1 = false ∧ counters (cpu_step s).2 = counters s) := by
  obtain ⟨hbp, ht, hop⟩ := h
  subst ht
  have hc := counters_handle_interrupts s
  simp only [counters, Prod.mk.injEq] at hc
  obtain ⟨h1, h2⟩ := counters_execute_instruction (cpu_handle_interrupts s)
  rw [hop] at h1 h2
  rw [cpu_step_eq s hbp]
  constructor
  · intro inst hi
    obtain ⟨a, b⟩ := h1 inst hi
    rw [a, b, hc.1, hc.2]
    unfold uint64_t uint32_t
    constructor <;> omega
  · intro hi
    obtain ⟨a, b, c⟩ := h2 hi
    refine ⟨a, ?_⟩
    simp only [counters, b, c, hc.1, hc.2]

theorem step_breakpoint (s : cpu_state_t)
    (hbp : s.breakpoint_addr ≠ 0 ∧ cpu_get_pc s = s.breakpoint_addr) :
    cpu_step s = (false, { s with breakpoint_hit := true, running := false }) := by
  unfold cpu_step
  simp only [cpu_get_pc] at hbp
  simp only [hbp, ne_eq, not_false_eq_true, and_self, if_true]

/-- A step adds at most 6 cycles (mod 2^64). -/
theorem step_cycles_le (s : cpu_state_t) :
    ∃ k, k ≤ 6 ∧ (cpu_step s).2.cycle_count = (s.cycle_count + k) % 18446744073709551616 ∨
      (cpu_step s).2.cycle_count = s.cycle_count := by
  by_cases hbp : s.breakpoint_addr ≠ 0 ∧ cpu_get_pc s = s.breakpoint_addr
  · exact ⟨0, Or.inr (by rw [step_breakpoint s hbp])⟩
  · obtain ⟨h1, h2⟩ := step_counters s (cpu_handle_interrupts s) _ ⟨hbp, rfl, rfl⟩
    cases hi : isa_get_instruction
        ((cpu_handle_interrupts s).memory (cpu_get_pc (cpu_handle_interrupts s))) with
    | none =>
      have h := (h2 hi).2
      simp only [counters, Prod.mk.injEq] at h
      exact ⟨0, Or.inr h.1⟩
    | some inst =>
      exact ⟨inst.cycles, Or.inl ⟨(get_instruction_cycles _ inst hi).2, (h1 inst hi).1⟩⟩

/-- Away from the end of the range of the counter a step does not lower it. -/
theorem step_cycles_mono (s : cpu_state_t) (h : s.cycle_count + 6 < 18446744073709551616) :
    s.cycle_count ≤ (cpu_step s).2.cycle_count ∧
    (cpu_step s).2.cycle_count ≤ s.cycle_count + 6 := by
  obtain ⟨k, hk⟩ := step_cycles_le s
  rcases hk with ⟨k6, e⟩ | e
  · rw [e]
    omega
  · rw [e]
    omega

theorem WF_running (s : cpu_state_t) (b : Bool) (h : WF s) : WF { s with running := b } :=
  ⟨h.regs_lt, h.flags_lt, h.memory_lt, h.cycle_lt, h.instr_lt, h.break_lt, h.watch_lt⟩

/-- The run loop keeps the state well formed and, when the budget ends below 2^64 - 6,
keeps the cycle counter between its value at entry and the end of the budget plus 5. -/
theorem run_loop_cycles (fuel : Nat) : ∀ (c r : cpu_state_t) (start_cycles max_cycles : Nat),
    WF c → start_cycles + max_cycles + 6 ≤ 18446744073709551616 →
    start_cycles ≤ c.cycle_count → c.cycle_count ≤ start_cycles + max_cycles + 5 →
    cpu_run_loop fuel c start_cycles max_cycles = some r →
    WF r ∧ c.cycle_count ≤ r.cycle_count ∧ r.cycle_count ≤ start_cycles + max_cycles + 5 := by
  induction fuel with
  | zero =>
    intro c r start_cycles max_cycles _ _ _ _ h
    simp only [cpu_run_loop] at h
    cases h
  | succ fuel ih =>
    intro c r start_cycles max_cycles hwf hm hs hc h
    unfold cpu_run_loop at h
    by_cases hcond : c.running = true ∧
        uint64_t ((c.cycle_count : Int) - start_cycles) < max_cycles
    · simp only [hcond, and_self, if_true] at h
      have hlt : c.cycle_count < start_cycles + max_cycles := by
        have h2 := hcond.2
        unfold uint64_t at h2
        omega
      obtain ⟨m1, m2⟩ := step_cycles_mono c (by omega)
      by_cases hr : (cpu_step c).1 = true
      · simp only [hr, Bool.not_true, Bool.false_eq_true, if_false] at h
        obtain ⟨a, b, d⟩ := ih _ _ _ _ (WF_cpu_step c hwf) hm (by omega) (by omega) h
        exact ⟨a, by omega, d⟩
      · simp only [Bool.not_eq_true] at hr
        simp only [hr, Bool.not_false, if_true, Option.some.injEq] at h
        rw [← h]
        exact ⟨WF_cpu_step c hwf, m1, by omega⟩
    · simp only [hcond, if_false, Option.some.injEq] at h
      rw [← h]
      exact ⟨hwf, le_refl _, hc⟩

/-- A call that returns keeps the state well formed and adds at most `call_cycles`. -/
theorem call_cycles_mono (fuel : Nat) (c : call_t) (s r : cpu_state_t) (hwf : WF s)
    (hb : s.cycle_count + call_cycles c < 18446744073709551616)
    (h : call fuel c s = some r) :
    WF r ∧ s.cycle_count ≤ r.cycle_count ∧ r.cycle_count ≤ s.cycle_count + call_cycles c := by
  cases c with
  | step =>
    simp only [call, Option.some.injEq] at h
    simp only [call_cycles] at hb ⊢
    rw [← h]
    obtain ⟨m1, m2⟩ := step_cycles_mono s hb
    exact ⟨WF_cpu_step s hwf, m1, m2⟩
  | run max_cycles =>
    simp only [call_cycles] at hb ⊢
    simp only [call, cpu_run] at h
    cases hx : cpu_run_loop fuel { s with running := true } s.cycle_count max_cycles with
    | none =>
      rw [hx] at h
      cases h
    | some x =>
      rw [hx] at h
      simp only [Option.map_some', Option.some.injEq] at h
      rw [← h]
      obtain ⟨a, b, d⟩ := run_loop_cycles fuel { s with running := true } x s.cycle_count
        max_cycles (WF_running s true hwf) (by omega) (le_refl _) (by dsimp only; omega) hx
      exact ⟨a, b, by omega⟩

/-- With more fuel than its budget a call returns. -/
theorem call_returns (fuel : Nat) (c : call_t) (s : cpu_state_t) (hwf : WF s)
    (hb : s.cycle_count + call_cycles c < 18446744073709551616)
    (hf : call_cycles c ≤ fuel) : ∃ r, call fuel c s = some r := by
  cases c with
  | step => exact ⟨_, rfl⟩
  | run max_cycles =>
    simp only [call_cycles] at hb hf
    have hlt := hwf.cycle_lt
    obtain ⟨r, hr⟩ := run_loop_exits fuel { s with running := true } s.cycle_count max_cycles
      (WF_running s true hwf) hwf.cycle_lt (by omega) (by
        dsimp only
        unfold uint64_t
        omega)
    refine ⟨r, ?_⟩
    simp only [call, cpu_run, hr]
    rfl

/-- A sequence of calls that starts far enough below 2^64 returns, given enough fuel, and
does not lower the cycle counter. -/
theorem calls_cycles_mono (fuel : Nat) : ∀ (cs : List call_t) (s : cpu_state_t), WF s →
    s.cycle_count + (cs.map call_cycles).sum < 18446744073709551616 →
    (cs.map call_cycles).sum ≤ fuel →
    (∃ r, calls fuel cs s = some r) ∧
    ∀ r, calls fuel cs s = some r → s.cycle_count ≤ r.cycle_count := by
  intro cs
  induction cs with
  | nil =>
    intro s _ _ _
    refine ⟨⟨s, rfl⟩, ?_⟩
    intro r h
    simp only [calls, Option.some.injEq] at h
    rw [h]
  | cons c cs ih =>
    intro s hwf hb hf
    simp only [List.map_cons, List.sum_cons] at hb hf
    obtain ⟨x, hx⟩ := call_returns fuel c s hwf (by omega) (by omega)
    obtain ⟨a, b, d⟩ := call_cycles_mono fuel c s x hwf (by omega) hx
    obtain ⟨i1, i2⟩ := ih x a (by omega) (by omega)
    simp only [calls, hx]
    refine ⟨i1, ?_⟩
    intro r hr
    have := i2 r hr
    omega

/-! ## The PC after an instruction that is no jump -/

theorem pc_set_register (c : cpu_state_t) (r v : Nat) :
    cpu_get_pc (isa_set_register c r v) = cpu_get_pc c := by
  unfold isa_set_register
  split_ifs with h
  · have h6 : (6 : Nat) ≠ r := by omega
    have h7 : (7 : Nat) ≠ r := by omega
    simp [cpu_get_pc, isa_get_register16, store_apply, h6, h7]
  · rfl
  · rfl

theorem pc_update_flags (c : cpu_state_t) (r : Nat) (cy ov : Bool) :
    cpu_get_pc (isa_update_flags c r cy ov) = cpu_get_pc c := by
  rw [isa_update_flags_eq]
  rfl

theorem pc_write_memory (c : cpu_state_t) (a v : Nat) :
    cpu_get_pc (isa_write_memory c a v) = cpu_get_pc c := rfl

theorem pc_set_flag (c : cpu_state_t) (f : Nat) :
    cpu_get_pc (isa_set_flag c f) = cpu_get_pc c := rfl

theorem pc_clear_flag (c : cpu_state_t) (f : Nat) :
    cpu_get_pc (isa_clear_flag c f) = cpu_get_pc c := rfl

theorem pc_push (c : cpu_state_t) (v : Nat) : cpu_get_pc (isa_push c v) = cpu_get_pc c := by
  unfold isa_push cpu_get_pc
  rw [get16_set16_ne _ REG_SP REG_PC _ (by decide) (by decide)]
  rfl

theorem pc_pop (c : cpu_state_t) : cpu_get_pc (isa_pop c).2 = cpu_get_pc c := by
  unfold isa_pop cpu_get_pc
  exact get16_set16_ne _ REG_SP REG_PC _ (by decide) (by decide)

theorem pc_ite (p : Prop) [Decidable p] (a b : Bool × cpu_state_t) (k : Nat)
    (ha : p → cpu_get_pc a.2 = k) (hb : ¬ p → cpu_get_pc b.2 = k) :
    cpu_get_pc (if p then a else b).2 = k := by
  split_ifs with hp
  · exact ha hp
  · exact hb hp

/-- The execute phase of an instruction that is no jump, call, return or branch leaves the
PC where the operand fetch left it. -/
theorem pc_execute_opcode (c : cpu_state_t) (inst : instruction_t) (o1 o2 : Nat)
    (h : inst.opcode ∉ control_flow_opcodes) :
    cpu_get_pc (execute_opcode c inst o1 o2).2 = cpu_get_pc c := by
  simp only [control_flow_opcodes, List.mem_cons, List.mem_singleton, not_or,
    List.not_mem_nil, not_false_eq_true, and_true] at h
  obtain ⟨n1, n2, n3, n4, n5, n6, n7, -⟩ := h
  unfold execute_opcode
  repeat' (apply pc_ite <;> intro _)
  all_goals dsimp only
  all_goals
    first
    | rfl
    | contradiction
    | simp only [pc_set_register, pc_update_flags, pc_push, pc_pop, pc_write_memory,
        pc_set_flag, pc_clear_flag]

theorem get_instruction_opcode (op : Nat) (inst : instruction_t)
    (h : isa_get_instruction op = some inst) : inst.opcode = op := by
  have := List.find?_some h
  simpa using this

/-- The PC after a step that executes an instruction that is no jump, call, return or
branch: it has moved past the opcode and the operand bytes fetched. -/
theorem step_pc (s t : cpu_state_t) (op : Nat) (inst : instruction_t)
    (h : step_fetches s t op) (hi : isa_get_instruction op = some inst)
    (hcf : op ∉ control_flow_opcodes) :
    cpu_get_pc (cpu_step s).2 = (cpu_get_pc t + fetched_bytes inst.addr_mode) % 65536 := by
  obtain ⟨hbp, ht, hop⟩ := h
  subst ht
  have hn : inst.opcode ∉ control_flow_opcodes := by
    rw [get_instruction_opcode op inst hi]
    exact hcf
  rw [cpu_step_eq s hbp]
  by_cases hm : inst.addr_mode = ADDR_ABSOLUTE ∨ inst.addr_mode = ADDR_X_INDEXED ∨
      inst.addr_mode = ADDR_Y_INDEXED
  · rw [exec_two _ op inst hop hi hm]
    have e : fetched_bytes inst.addr_mode = 3 := by
      rcases hm with h | h | h <;> rw [h] <;> rfl
    rw [e]
    show cpu_get_pc (execute_opcode _ inst _ _).2 = _
    rw [pc_execute_opcode _ _ _ _ hn]
    exact (advance_facts _ 3).1
  · simp only [not_or] at hm
    rw [exec_one _ op inst hop hi hm]
    have e : fetched_bytes inst.addr_mode = 2 := by
      obtain ⟨h1, h2, h3⟩ := hm
      cases hmode : inst.addr_mode <;> simp_all [fetched_bytes]
    rw [e]
    show cpu_get_pc (execute_opcode _ inst _ _).2 = _
    rw [pc_execute_opcode _ _ _ _ hn]
    exact (advance_facts _ 2).1

/-- The operand bytes the emulator fetches for the first table row of the opcodes that
are no jumps. -/
theorem table_fetched_bytes :
    (∀ op ∈ [OP_NOP, OP_HLT, OP_SEI, OP_CLI, OP_PHA, OP_PLA, OP_PHP, OP_PLP],
      (isa_get_instruction op).map (fun inst => fetched_bytes inst.addr_mode) = some 2) ∧
    (∀ op ∈ [OP_ADC, OP_SBC, OP_INC, OP_DEC, OP_AND, OP_OR, OP_XOR, OP_SHL, OP_SHR, OP_ROL,
        OP_ROR],
      (isa_get_instruction op).map (fun inst => fetched_bytes inst.addr_mode) = some 2) ∧
    (∀ op ∈ [OP_LDI, OP_MOV, OP_ADD, OP_SUB, OP_CMP, OP_PUSH, OP_POP],
      (isa_get_instruction op).map (fun inst => fetched_bytes inst.addr_mode) = some 2) ∧
    (∀ op ∈ [OP_LDA, OP_STA],
      (isa_get_instruction op).map (fun inst => fetched_bytes inst.addr_mode) = some 3) := by
  decide

/-- The byte counts `disassemble_instruction` reports when the operand bytes lie in its
range. -/
theorem disassembled_bytes (d : disasm_state_t) (a : Nat) (hend : a + 2 ≤ d.end_address) :
    (d.memory a ∈ [OP_NOP, OP_HLT, OP_SEI, OP_CLI, OP_PHA, OP_PLA, OP_PHP, OP_PLP] →
      disassemble_instruction d a = 1) ∧
    (d.memory a ∈ [OP_ADC, OP_SBC, OP_INC, OP_DEC, OP_AND, OP_OR, OP_XOR, OP_SHL, OP_SHR,
        OP_ROL, OP_ROR] → disassemble_instruction d a = 1) ∧
    (d.memory a ∈ [OP_LDI, OP_MOV, OP_ADD, OP_SUB, OP_CMP, OP_PUSH, OP_POP] →
      disassemble_instruction d a = 2) ∧
    (d.memory a ∈ [OP_LDA, OP_STA] → disassemble_instruction d a = 3) := by
  have h1 : a + 1 ≤ d.end_address := by omega
  refine ⟨?_, ?_, ?_, ?_⟩
  · intro hm
    simp only [List.mem_cons, List.mem_singleton, List.not_mem_nil, or_false] at hm
    unfold disassemble_instruction
    rcases hm with h | h | h | h | h | h | h | h <;>
      simp [h, isa_get_instruction, instruction_table]
  · intro hm
    simp only [List.mem_cons, List.mem_singleton, List.not_mem_nil, or_false] at hm
    unfold disassemble_instruction
    rcases hm with h | h | h | h | h | h | h | h | h | h | h <;>
      simp [h, isa_get_instruction, instruction_table]
  · intro hm
    simp only [List.mem_cons, List.mem_singleton, List.not_mem_nil, or_false] at hm
    unfold disassemble_instruction
    rcases hm with h | h | h | h | h | h | h <;>
      simp [h, isa_get_instruction, instruction_table, h1]
  · intro hm
    simp only [List.mem_cons, List.mem_singleton, List.not_mem_nil, or_false] at hm
    unfold disassemble_instruction
    rcases hm with h | h <;>
      simp [h, isa_get_instruction, instruction_table, hend]

/-! ## What scanning an expression leaves unchanged -/

theorem scanned_refl (a : assembler_t) : scanned a a :=
  ⟨rfl, rfl, rfl, rfl, rfl, rfl, rfl, rfl, rfl, rfl, id⟩

theorem scanned_trans (a b c : assembler_t) (h1 : scanned a b) (h2 : scanned b c) :
    scanned a c := by
  obtain ⟨a1, a2, a3, a4, a5, a6, a7, a8, a9, a10, a11⟩ := h1
  obtain ⟨b1, b2, b3, b4, b5, b6, b7, b8, b9, b10, b11⟩ := h2
  exact ⟨b1.trans a1, b2.trans a2, b3.trans a3, b4.trans a4, b5.trans a5, b6.trans a6,
    b7.trans a7, b8.trans a8, b9.trans a9, b10.trans a10, fun h => b11 (a11 h)⟩

theorem scanned_next_column (a : assembler_t) : scanned a (next_column a) :=
  ⟨rfl, rfl, rfl, rfl, rfl, rfl, rfl, rfl, rfl, rfl, id⟩

theorem scanned_error (a : assembler_t) (m : List Nat) : scanned a (assembler_error a m) :=
  ⟨rfl, rfl, rfl, rfl, rfl, rfl, rfl, rfl, rfl, rfl, fun _ => rfl⟩

theorem scanned_skip_loop (n : Nat) : ∀ a, scanned a (skip_whitespace_loop n a) := by
  induction n with
  | zero => intro a; exact scanned_refl a
  | succ n ih =>
    intro a
    unfold skip_whitespace_loop
    split
    · exact scanned_trans _ _ _ (scanned_next_column a) (ih _)
    · exact scanned_refl a

theorem scanned_skip_whitespace (a : assembler_t) : scanned a (assembler_skip_whitespace a) :=
  scanned_skip_loop _ a

theorem scanned_read_loop (p : Nat → Bool) (limit n : Nat) :
    ∀ a buf, scanned a (read_loop p limit n a buf).2.2 := by
  induction n with
  | zero => intro a buf; exact scanned_refl a
  | succ n ih =>
    intro a buf
    unfold read_loop
    split
    · split
      · exact scanned_refl a
      · exact scanned_trans _ _ _ (scanned_next_column a) (ih _ _)
    · exact scanned_refl a

theorem scanned_read_chars (p : Nat → Bool) (limit : Nat) (a : assembler_t) :
    scanned a (read_chars p limit a).2.2 :=
  scanned_read_loop p limit _ a []

theorem scanned_number_literal (a : assembler_t) :
    scanned a (assembler_parse_number_literal a).2 := by
  unfold assembler_parse_number_literal
  split
  · have h := scanned_trans _ _ _ (scanned_next_column a)
      (scanned_read_chars isxdigit 31 (next_column a))
    dsimp only
    split
    · exact scanned_trans _ _ _ h (scanned_error _ _)
    · exact h
  · split
    · have h := scanned_trans _ _ _ (scanned_next_column a)
        (scanned_read_chars (fun c => decide (c = 0x30 ∨ c = 0x31)) 31 (next_column a))
      dsimp only
      split
      · exact scanned_trans _ _ _ h (scanned_error _ _)
      · exact h
    · have h := scanned_read_chars isdigit 31 a
      dsimp only
      split
      · exact scanned_trans _ _ _ h (scanned_error _ _)
      · exact h

theorem scanned_identifier (a : assembler_t) :
    scanned a (assembler_parse_identifier a).2 := by
  unfold assembler_parse_identifier
  have h := scanned_read_chars assembler_is_identifier_char (MAX_LABEL_LENGTH - 1) a
  dsimp only
  split
  · exact scanned_trans _ _ _ h (scanned_error _ _)
  · split
    · exact h
    · split
      · exact h
      · exact scanned_trans _ _ _ h (scanned_error _ _)

theorem scanned_term_loop (factor : assembler_t → Nat × assembler_t)
    (hf : ∀ x, scanned x (factor x).2) (n : Nat) :
    ∀ left a, scanned a (term_loop factor n left a).2 := by
  induction n with
  | zero => intro left a; exact scanned_refl a
  | succ n ih =>
    intro left a
    unfold term_loop
    split
    · exact scanned_trans _ _ _ (scanned_next_column a)
        (scanned_trans _ _ _ (hf _) (scanned_trans _ _ _ (scanned_skip_whitespace _) (ih _ _)))
    · exact scanned_refl a

theorem scanned_term_with (factor : assembler_t → Nat × assembler_t)
    (hf : ∀ x, scanned x (factor x).2) (a : assembler_t) :
    scanned a (parse_term_with factor a).2 := by
  unfold parse_term_with
  exact scanned_trans _ _ _ (hf a)
    (scanned_trans _ _ _ (scanned_skip_whitespace _) (scanned_term_loop factor hf _ _ _))

theorem scanned_factor (depth : Nat) : ∀ a, scanned a (assembler_parse_factor depth a).2 := by
  induction depth with
  | zero =>
    intro a
    unfold assembler_parse_factor
    have h := scanned_skip_whitespace a
    dsimp only
    split
    · exact h
    · split
      · exact scanned_trans _ _ _ h
          (scanned_trans _ _ _ (scanned_next_column _) (scanned_number_literal _))
      · split
        · exact scanned_trans _ _ _ h (scanned_number_literal _)
        · split
          · exact scanned_trans _ _ _ h (scanned_identifier _)
          · exact scanned_trans _ _ _ h (scanned_error _ _)
  | succ depth ih =>
    intro a
    unfold assembler_parse_factor
    have h := scanned_skip_whitespace a
    dsimp only
    split
    · have h2 := scanned_trans _ _ _ h (scanned_trans _ _ _ (scanned_next_column _)
        (scanned_term_with (assembler_parse_factor depth) ih
          (next_column (assembler_skip_whitespace a))))
      split
      · exact scanned_trans _ _ _ h2 (scanned_next_column _)
      · exact h2
    · split
      · exact scanned_trans _ _ _ h
          (scanned_trans _ _ _ (scanned_next_column _) (scanned_number_literal _))
      · split
        · exact scanned_trans _ _ _ h (scanned_number_literal _)
        · split
          · exact scanned_trans _ _ _ h (scanned_identifier _)
          · exact scanned_trans _ _ _ h (scanned_error _ _)

theorem scanned_expression (a : assembler_t) :
    scanned a (assembler_parse_expression a).2 :=
  scanned_term_with _ (scanned_factor _) a

/-! ## Reading a run of characters -/

theorem getD_append_at (pre x : List Nat) (k : Nat) :
    (pre ++ x).getD (pre.length + k) 0 = x.getD k 0 := by
  induction pre with
  | nil => simp
  | cons c pre ih =>
    simp only [List.cons_append, List.length_cons]
    rw [show pre.length + 1 + k = (pre.length + k) + 1 by omega, List.getD_cons_succ]
    exact ih

theorem current_char_at (a : assembler_t) (pre x : List Nat)
    (hline : a.current_line = pre ++ x) (hcol : a.column_number = pre.length) :
    current_char a = x.headD 0 := by
  unfold current_char
  rw [hline, hcol]
  have h := getD_append_at pre x 0
  rw [Nat.add_zero] at h
  rw [h]
  cases x <;> rfl

/-- The read loop on a line that holds, from the column on, the characters `ds`, which all
satisfy `p`, followed by a character that does not: it returns `ds` and stops behind them. -/
theorem read_loop_run (p : Nat → Bool) (limit : Nat) :
    ∀ (ds : List Nat) (n : Nat) (a : assembler_t) (pre rest buf : List Nat),
    a.current_line = pre ++ (ds ++ rest) → a.column_number = pre.length →
    (∀ c ∈ ds, p c = true) → p (rest.headD 0) = false →
    buf.length + ds.length ≤ limit → ds.length < n →
    read_loop p limit n a buf =
      (false, buf ++ ds, { a with column_number := pre.length + ds.length }) := by
  intro ds
  induction ds with
  | nil =>
    intro n a pre rest buf hline hcol _ hrest _ hn
    obtain ⟨m, rfl⟩ : ∃ m, n = m + 1 := ⟨n - 1, by simp at hn; omega⟩
    have hc := current_char_at a pre rest (by simpa using hline) hcol
    unfold read_loop
    simp only [hc, hrest, Bool.false_eq_true, if_false, List.append_nil, List.length_nil,
      Nat.add_zero, ← hcol]
  | cons c ds ih =>
    intro n a pre rest buf hline hcol hp hrest hlim hn
    obtain ⟨m, rfl⟩ : ∃ m, n = m + 1 := ⟨n - 1, by simp at hn; omega⟩
    have hc := current_char_at a pre (c :: ds ++ rest) (by simpa using hline) hcol
    simp only [List.cons_append, List.headD_cons] at hc
    have hpc : p c = true := hp c (List.mem_cons_self _ _)
    simp only [List.length_cons] at hlim hn
    have hb : ¬ buf.length ≥ limit := by omega
    unfold read_loop
    simp only [hc, hpc, if_true, hb, if_false]
    rw [ih m (next_column a) (pre ++ [c]) rest (buf ++ [c])
      (by simp [next_column, hline]) (by simp [next_column, hcol])
      (fun x hx => hp x (List.mem_cons_of_mem _ hx)) hrest (by simp; omega) (by omega)]
    simp only [List.append_assoc, List.singleton_append, List.length_append, List.length_cons,
      List.length_nil, next_column, Prod.mk.injEq, true_and, List.length_singleton]
    congr 1
    omega

theorem read_chars_run (p : Nat → Bool) (limit : Nat) (ds : List Nat) (a : assembler_t)
    (pre rest : List Nat) (hline : a.current_line = pre ++ (ds ++ rest))
    (hcol : a.column_number = pre.length) (hp : ∀ c ∈ ds, p c = true)
    (hrest : p (rest.headD 0) = false) (hlim : ds.length ≤ limit) :
    read_chars p limit a = (false, ds, { a with column_number := pre.length + ds.length }) := by
  unfold read_chars
  rw [read_loop_run p limit ds _ a pre rest [] hline hcol hp hrest (by simpa using hlim)
    (by rw [hline]; simp; omega)]
  rfl

theorem skip_whitespace_none (a : assembler_t)
    (h : current_char a ≠ 0x20 ∧ current_char a ≠ 0x09) : assembler_skip_whitespace a = a := by
  unfold assembler_skip_whitespace
  cases a.current_line.length with
  | zero => rfl
  | succ n =>
    unfold skip_whitespace_loop
    simp only [h.1, h.2, or_self, if_false]

/-! ## Branches -/

theorem c_str_BEQ : c_str "BEQ" = [0x42, 0x45, 0x51] := by decide
theorem c_str_BNE : c_str "BNE" = [0x42, 0x4E, 0x45] := by decide

/-- The branch case of `assembler_parse_instruction` for the mnemonics `BEQ` and `BNE`. -/
theorem parse_branch (a : assembler_t) (pre m rest : List Nat)
    (hm : m = c_str "BEQ" ∨ m = c_str "BNE")
    (hline : a.current_line = pre ++ (m ++ rest)) (hcol : a.column_number = pre.length)
    (hrest : assembler_is_identifier_char (rest.headD 0) = false) :
    assembler_parse_instruction a =
      if int16_t (((assembler_parse_expression (operand_state a pre m)).1 : Int) -
            (((assembler_parse_expression (operand_state a pre m)).2.current_address : Int) + 1))
              < -128 ∨
          int16_t (((assembler_parse_expression (operand_state a pre m)).1 : Int) -
            (((assembler_parse_expression (operand_state a pre m)).2.current_address : Int) + 1))
              > 127 then
        (false, assembler_error (assembler_parse_expression (operand_state a pre m)).2
          (c_str "Branch offset out of range: " ++
            format_d (int16_t (((assembler_parse_expression (operand_state a pre m)).1 : Int) -
              (((assembler_parse_expression (operand_state a pre m)).2.current_address : Int)
                + 1)))))
      else
        (true, assembler_emit_byte (assembler_parse_expression (operand_state a pre m)).2
          (uint8_t (int16_t (((assembler_parse_expression (operand_state a pre m)).1 : Int) -
            (((assembler_parse_expression (operand_state a pre m)).2.current_address : Int)
              + 1))))) := by
  have hp : ∀ c ∈ m, assembler_is_identifier_char c = true := by
    rcases hm with rfl | rfl <;> decide
  have hl : m.length ≤ 31 := by
    rcases hm with rfl | rfl <;> decide
  have hr := read_chars_run assembler_is_identifier_char 31 m a pre rest hline hcol hp hrest hl
  unfold assembler_parse_instruction
  rw [hr]
  unfold operand_state
  rcases hm with rfl | rfl
  · simp only [c_str_BEQ]
    simp +decide [assembler_get_opcode, c_str]
  · simp only [c_str_BNE]
    simp +decide [assembler_get_opcode, c_str]

theorem emit_byte_facts (x : assembler_t) (v : Nat) (h : x.output_size < 65535) :
    (assembler_emit_byte x v).output = store x.output x.output_size (v % 256) ∧
    (assembler_emit_byte x v).output_size = x.output_size + 1 ∧
    (assembler_emit_byte x v).current_address = (x.current_address + 1) % 65536 ∧
    (assembler_emit_byte x v).error_occurred = x.error_occurred ∧
    (assembler_emit_byte x v).error_message = x.error_message := by
  have h1 : x.output_size < 65536 := by omega
  have h2 : (x.output_size + 1) % 65536 = x.output_size + 1 := by omega
  unfold assembler_emit_byte
  simp only [h1, if_true, h2, and_self]

/-- The operand state: the opcode is in the output, the address has moved by one. -/
theorem operand_state_facts (a : assembler_t) (pre m : List Nat) (h : a.output_size < 65535) :
    (operand_state a pre m).output =
      store a.output a.output_size (assembler_get_opcode m % 256) ∧
    (operand_state a pre m).output_size = a.output_size + 1 ∧
    (operand_state a pre m).current_address = (a.current_address + 1) % 65536 := by
  obtain ⟨-, -, -, -, s5, s6, s7, -⟩ :=
    scanned_skip_whitespace { a with column_number := pre.length + m.length }
  have h2 : (assembler_skip_whitespace
      { a with column_number := pre.length + m.length }).output_size < 65535 := by
    rw [s6]; exact h
  obtain ⟨e1, e2, e3, -⟩ := emit_byte_facts _ (assembler_get_opcode m) h2
  unfold operand_state
  rw [e1, e2, e3, s5, s6, s7]
  exact ⟨rfl, rfl, rfl⟩

/-! ## The error flag is never cleared -/

theorem sticky_of_scanned (a b : assembler_t) (h : scanned a b) :
    a.error_occurred = true → b.error_occurred = true :=
  h.2.2.2.2.2.2.2.2.2.2

theorem sticky_emit_byte (a : assembler_t) (v : Nat) (h : a.error_occurred = true) :
    (assembler_emit_byte a v).error_occurred = true := by
  unfold assembler_emit_byte
  split
  · exact h
  · exact h

theorem sticky_emit_word (a : assembler_t) (v : Nat) (h : a.error_occurred = true) :
    (assembler_emit_word a v).error_occurred = true :=
  sticky_emit_byte _ _ (sticky_emit_byte _ _ h)

theorem sticky_expression (a : assembler_t) (h : a.error_occurred = true) :
    (assembler_parse_expression a).2.error_occurred = true :=
  sticky_of_scanned _ _ (scanned_expression a) h

theorem sticky_skip_whitespace (a : assembler_t) (h : a.error_occurred = true) :
    (assembler_skip_whitespace a).error_occurred = true :=
  sticky_of_scanned _ _ (scanned_skip_whitespace a) h

theorem sticky_read_chars (p : Nat → Bool) (limit : Nat) (a : assembler_t)
    (h : a.error_occurred = true) : (read_chars p limit a).2.2.error_occurred = true :=
  sticky_of_scanned _ _ (scanned_read_chars p limit a) h

theorem sticky_add_label (a : assembler_t) (name : List Nat) (address : Nat)
    (h : a.error_occurred = true) :
    (assembler_add_label a name address).2.error_occurred = true := by
  unfold assembler_add_label
  split
  · rfl
  · exact h

theorem sticky_parse_label (a : assembler_t) (h : a.error_occurred = true) :
    (assembler_parse_label a).2.error_occurred = true := by
  have h1 := sticky_read_chars assembler_is_identifier_char (MAX_LABEL_LENGTH - 1) a h
  unfold assembler_parse_label
  dsimp only
  split
  · rfl
  · split
    · exact h1
    · have h2 := sticky_skip_whitespace _ h1
      split
      · exact sticky_add_label _ _ _ h2
      · exact h2

theorem sticky_string_loop (n : Nat) : ∀ (a r : assembler_t), string_loop n a = some r →
    a.error_occurred = true → r.error_occurred = true := by
  induction n with
  | zero => intro a r h; cases h
  | succ n ih =>
    intro a r h he
    unfold string_loop at h
    split at h
    · split at h
      · exact ih _ _ h (sticky_emit_byte _ _ he)
      · cases h
    · cases h
      exact he

theorem sticky_include_loop (n : Nat) : ∀ (i : Nat) (a r : assembler_t),
    include_loop n i a = some r → a.error_occurred = true → r.error_occurred = true := by
  induction n with
  | zero => intro i a r h; cases h
  | succ n ih =>
    intro i a r h he
    unfold include_loop at h
    split at h
    · split at h
      · exact ih _ _ _ h he
      · cases h
    · cases h
      exact he

theorem sticky_parse_directive (a : assembler_t) (r : Bool × assembler_t)
    (h : assembler_parse_directive a = some r) (he : a.error_occurred = true) :
    r.2.error_occurred = true := by
  have h1 := sticky_read_chars assembler_is_identifier_char 31 (next_column a) he
  have h2 := sticky_skip_whitespace _ h1
  unfold assembler_parse_directive at h
  dsimp only at h
  split at h
  · cases h; rfl
  · split at h
    · cases h
      exact sticky_expression _ h2
    · split at h
      · cases h
        exact sticky_emit_byte _ _ (sticky_expression _ h2)
      · split at h
        · cases h
          exact sticky_emit_word _ _ (sticky_expression _ h2)
        · have h3 := sticky_skip_whitespace _ h2
          split at h
          · split at h
            · split at h
              · cases h
              · rename_i x hx
                have h4 := sticky_string_loop _ _ _ hx h3
                split at h <;> (cases h; exact h4)
            · cases h
              exact h3
          · split at h
            · split at h
              · split at h
                · cases h
                · rename_i x hx
                  have h4 := sticky_include_loop _ _ _ _ hx h3
                  cases h
                  dsimp only [assembler_warning]
                  split <;> exact h4
              · cases h
                exact h3
            · cases h
              rfl

theorem sticky_ite (p : Prop) [Decidable p] (a b : Bool × assembler_t)
    (ha : p → a.2.error_occurred = true) (hb : ¬ p → b.2.error_occurred = true) :
    (if p then a else b).2.error_occurred = true := by
  split_ifs with hp
  · exact ha hp
  · exact hb hp

theorem sticky_parse_instruction (a : assembler_t) (he : a.error_occurred = true) :
    (assembler_parse_instruction a).2.error_occurred = true := by
  have h1 := sticky_read_chars assembler_is_identifier_char 31 a he
  unfold assembler_parse_instruction
  generalize read_chars assembler_is_identifier_char 31 a = r at h1
  simp only []
  have h2 := sticky_emit_byte _ (assembler_get_opcode r.2.1) (sticky_skip_whitespace _ h1)
  generalize assembler_emit_byte (assembler_skip_whitespace r.2.2)
    (assembler_get_opcode r.2.1) = b at h2 ⊢
  have h3 := sticky_expression b h2
  have h4 := sticky_expression (next_column b) h2
  have h5 := sticky_read_chars assembler_is_identifier_char 7 b h2
  generalize assembler_parse_expression b = e at h3 ⊢
  generalize assembler_parse_expression (next_column b) = f at h4 ⊢
  generalize read_chars assembler_is_identifier_char 7 b = g at h5 ⊢
  repeat' (apply sticky_ite <;> intro _)
  · rfl
  · rfl
  · rfl
  · exact sticky_emit_byte _ _ h3
  · exact sticky_emit_byte _ _ h4
  · exact sticky_emit_byte _ _ (sticky_emit_byte _ _ h4)
  · rfl
  · rfl
  · rfl
  · rfl
  · exact sticky_emit_byte _ _ h5
  · exact sticky_emit_byte _ _ (sticky_emit_byte _ _ h3)
  · rfl
  · exact sticky_emit_byte _ _ h3
  · exact h2

theorem sticky_parse_line (a : assembler_t) (r : Bool × assembler_t)
    (h : assembler_parse_line a = some r) (he : a.error_occurred = true) :
    r.2.error_occurred = true := by
  unfold assembler_parse_line at h
  split at h
  · cases h
  · rename_i file hfile
    dsimp only at h
    split at h
    · cases h
      exact he
    · rename_i line hline
      have h1 := sticky_skip_whitespace
        { a with
          file := some (fgets MAX_LINE_LENGTH file).2
          line_number := a.line_number + 1
          current_line := line
          column_number := 0 } he
      split at h
      · cases h
        exact h1
      · split at h
        · cases h
          exact h1
        · have h2 := sticky_parse_label _ h1
          split at h
          · cases h
            exact h2
          · split at h
            · exact sticky_parse_directive _ _ h h2
            · cases h
              exact sticky_parse_instruction _ h2

theorem sticky_pass_loop (n : Nat) : ∀ (a r : assembler_t), pass_loop n a = some r →
    a.error_occurred = true → r.error_occurred = true := by
  induction n with
  | zero =>
    intro a r h he
    cases h
    exact he
  | succ n ih =>
    intro a r h he
    unfold pass_loop at h
    split at h
    · cases h
      exact he
    · split at h
      · cases h
      · rename_i x hx
        have h1 := sticky_parse_line a x hx he
        split at h
        · cases h
          exact h1
        · exact ih _ _ h h1

/-- The pass goes on to the next line exactly when `assembler_parse_line` returns true. -/
theorem pass_loop_step (n : Nat) (a : assembler_t) (r : Bool × assembler_t)
    (hf : feof a = false) (h : assembler_parse_line a = some r) :
    pass_loop (n + 1) a = if r.1 then pass_loop n r.2 else some r.2 := by
  simp only [pass_loop, hf, Bool.false_eq_true, if_false, h]
  cases r.1 <;> rfl

/-- The return value and the error flag of `assembler_assemble_file`. -/
theorem assemble_file_result (a : assembler_t) (filename : List Nat)
    (contents : Option (List Nat)) (r : Bool × assembler_t)
    (h : assembler_assemble_file a filename contents = some r) :
    (r.1 = false ↔ r.2.error_occurred = true) ∧
    (a.error_occurred = true → r.2.error_occurred = true) := by
  unfold assembler_assemble_file at h
  dsimp only at h
  split at h
  · cases h
    exact ⟨⟨fun _ => rfl, fun _ => rfl⟩, fun _ => rfl⟩
  · rename_i bytes
    split at h
    · cases h
    · rename_i x hx
      split at h
      · cases h
      · rename_i y hy
        simp only [assembler_resolve_labels, Bool.not_true, Bool.false_eq_true, if_false,
          Option.some.injEq] at h
        rw [← h]
        dsimp only
        refine ⟨by cases y.error_occurred <;> simp, ?_⟩
        intro he
        have h1 := sticky_pass_loop _ _ _ hx he
        exact sticky_pass_loop _ _ _ hy h1

/-! ## Numerals -/

theorem strtol_digits_value (base : Nat) (hb : 1 ≤ base) :
    ∀ (ds : List Nat) (acc : Nat), (∀ c ∈ ds, digit_value base c = some (digit_of c)) →
    acc * base ^ ds.length + numeral_value base ds ≤ LONG_MAX →
    strtol_digits base ds acc = acc * base ^ ds.length + numeral_value base ds := by
  intro ds
  induction ds with
  | nil =>
    intro acc _ _
    simp [strtol_digits, numeral_value]
  | cons c ds ih =>
    intro acc hd hle
    have hc := hd c (List.mem_cons_self _ _)
    have hP : 1 ≤ base ^ ds.length := Nat.one_le_pow _ _ hb
    simp only [numeral_value, List.length_cons, pow_succ] at hle ⊢
    have e : acc * (base ^ ds.length * base) + (digit_of c * base ^ ds.length +
        numeral_value base ds) =
        (acc * base + digit_of c) * base ^ ds.length + numeral_value base ds := by ring
    rw [e] at hle ⊢
    have h1 : acc * base + digit_of c ≤ (acc * base + digit_of c) * base ^ ds.length :=
      Nat.le_mul_of_pos_right _ hP
    have h2 : ¬ acc * base + digit_of c > LONG_MAX := by
      simp only [LONG_MAX] at hle ⊢
      omega
    unfold strtol_digits
    simp only [hc, h2, if_false]
    exact ih _ (fun x hx => hd x (List.mem_cons_of_mem _ hx)) hle

theorem strtol_value (base : Nat) (hb : 1 ≤ base) (ds : List Nat)
    (hd : ∀ c ∈ ds, digit_value base c = some (digit_of c))
    (hle : numeral_value base ds ≤ LONG_MAX) :
    uint16_t (strtol ds base : Nat) = numeral_value base ds % 65536 := by
  unfold strtol
  rw [strtol_digits_value base hb ds 0 hd (by simpa using hle), uint16_t_nat]
  simp

theorem isdigit_iff (c : Nat) : isdigit c = true ↔ 0x30 ≤ c ∧ c ≤ 0x39 := by
  simp [isdigit]

theorem isxdigit_iff (c : Nat) :
    isxdigit c = true ↔ (0x30 ≤ c ∧ c ≤ 0x39) ∨ (0x41 ≤ c ∧ c ≤ 0x46) ∨ (0x61 ≤ c ∧ c ≤ 0x66) := by
  simp [isxdigit, isdigit, or_assoc]

theorem identifier_char_iff (c : Nat) :
    assembler_is_identifier_char c = true ↔
      (0x30 ≤ c ∧ c ≤ 0x39) ∨ (0x41 ≤ c ∧ c ≤ 0x5A) ∨ (0x61 ≤ c ∧ c ≤ 0x7A) ∨ c = 0x5F := by
  simp [assembler_is_identifier_char, isalnum, isdigit, or_assoc]

theorem not_identifier_char (c : Nat) (h : assembler_is_identifier_char c = false) :
    isdigit c = false ∧ isxdigit c = false ∧ decide (c = 0x30 ∨ c = 0x31) = false := by
  have h1 : ¬ assembler_is_identifier_char c = true := by simp [h]
  rw [identifier_char_iff] at h1
  refine ⟨?_, ?_, ?_⟩
  · cases hd : isdigit c
    · rfl
    · rw [isdigit_iff] at hd; omega
  · cases hd : isxdigit c
    · rfl
    · rw [isxdigit_iff] at hd; omega
  · simp only [decide_eq_false_iff_not]
    omega

theorem decimal_digit_value (c : Nat) (h : isdigit c = true) :
    digit_value 10 c = some (digit_of c) := by
  have h1 := (isdigit_iff c).1 h
  have e : c - 48 < 10 := by omega
  simp [digit_value, digit_of, h, h1.2, e]

theorem hexadecimal_digit_value (c : Nat) (h : isxdigit c = true) :
    digit_value 16 c = some (digit_of c) := by
  rcases (isxdigit_iff c).1 h with h1 | h1 | h1
  · have hd : isdigit c = true := (isdigit_iff c).2 h1
    have e : c - 48 < 16 := by omega
    simp [digit_value, digit_of, hd, h1.2, e]
  · have hd : isdigit c = false := by
      cases hx : isdigit c
      · rfl
      · rw [isdigit_iff] at hx; omega
    have e1 : ¬ c ≤ 57 := by omega
    have e2 : c - 55 < 16 := by omega
    have e3 : c - 65 + 10 = c - 55 := by omega
    simp [digit_value, digit_of, hd, h1.1, h1.2, e1, e2, e3]
  · have hd : isdigit c = false := by
      cases hx : isdigit c
      · rfl
      · rw [isdigit_iff] at hx; omega
    have e1 : ¬ c ≤ 57 := by omega
    have e0 : ¬ c ≤ 70 := by omega
    have e2 : c - 87 < 16 := by omega
    have e3 : c - 97 + 10 = c - 87 := by omega
    simp [digit_value, digit_of, hd, h1.1, h1.2, e1, e0, e2, e3]

theorem binary_digit_value (c : Nat) (h : decide (c = 0x30 ∨ c = 0x31) = true) :
    digit_value 2 c = some (digit_of c) := by
  simp only [decide_eq_true_eq] at h
  rcases h with rfl | rfl <;> decide

theorem binary_value_lt : ∀ (ds : List Nat),
    (∀ c ∈ ds, decide (c = 0x30 ∨ c = 0x31) = true) → numeral_value 2 ds < 2 ^ ds.length := by
  intro ds
  induction ds with
  | nil => intro _; simp [numeral_value]
  | cons c ds ih =>
    intro h
    have hc := h c (List.mem_cons_self _ _)
    have h2 := ih (fun x hx => h x (List.mem_cons_of_mem _ hx))
    simp only [decide_eq_true_eq] at hc
    have hd : digit_of c ≤ 1 := by rcases hc with rfl | rfl <;> decide
    simp only [numeral_value, List.length_cons, pow_succ]
    have : digit_of c * 2 ^ ds.length ≤ 1 * 2 ^ ds.length := Nat.mul_le_mul_right _ hd
    omega

/-! ## Factors -/

/-- A factor that starts with neither a blank nor a parenthesis. -/
theorem parse_factor_plain (depth : Nat) (a : assembler_t)
    (h : current_char a ≠ 0x20 ∧ current_char a ≠ 0x09 ∧ current_char a ≠ 0x28 ∧
      current_char a ≠ 0x23) :
    assembler_parse_factor depth a =
      if isdigit (current_char a) ∨ current_char a = 0x24 ∨ current_char a = 0x25 then
        assembler_parse_number_literal a
      else if assembler_is_identifier_char (current_char a) then assembler_parse_identifier a
      else (0, assembler_error a (c_str "Expected number or identifier")) := by
  obtain ⟨h1, h2, h3, h4⟩ := h
  cases depth <;>
    simp only [assembler_parse_factor, skip_whitespace_none a ⟨h1, h2⟩, h3, h4, if_false]

theorem parse_decimal (depth : Nat) (a : assembler_t) (pre ds rest : List Nat)
    (hline : a.current_line = pre ++ (ds ++ rest)) (hcol : a.column_number = pre.length)
    (hrest : assembler_is_identifier_char (rest.headD 0) = false)
    (hwf : well_formed a (expression_t.decimal ds) = true) :
    assembler_parse_factor depth a =
      (numeral_value 10 ds % 65536, { a with column_number := pre.length + ds.length }) := by
  simp only [well_formed, Bool.and_eq_true, Bool.not_eq_true', List.isEmpty_eq_false,
    List.all_eq_true, decide_eq_true_eq] at hwf
  obtain ⟨⟨⟨hne, hall⟩, hlen⟩, hval⟩ := hwf
  obtain ⟨c, ds1, rfl⟩ := List.exists_cons_of_ne_nil hne
  have hc : current_char a = c := by
    rw [current_char_at a pre _ hline hcol]
    rfl
  have hd : isdigit c = true := hall c (List.mem_cons_self _ _)
  have hr := (isdigit_iff c).1 hd
  rw [parse_factor_plain depth a (by rw [hc]; omega)]
  simp only [hc, hd, true_or, if_true]
  unfold assembler_parse_number_literal
  have h24 : c ≠ 0x24 := by omega
  have h25 : c ≠ 0x25 := by omega
  simp only [hc, h24, h25, if_false]
  rw [read_chars_run isdigit 31 (c :: ds1) a pre rest hline hcol hall
    (not_identifier_char _ hrest).1 hlen]
  simp only [Bool.false_eq_true, if_false]
  rw [strtol_value 10 (by decide) _ (fun x hx => decimal_digit_value x (hall x hx)) hval]

theorem parse_hexadecimal (depth : Nat) (a : assembler_t) (pre ds rest : List Nat)
    (hline : a.current_line = pre ++ (0x24 :: ds ++ rest))
    (hcol : a.column_number = pre.length)
    (hrest : assembler_is_identifier_char (rest.headD 0) = false)
    (hwf : well_formed a (expression_t.hexadecimal ds) = true) :
    assembler_parse_factor depth a =
      (numeral_value 16 ds % 65536, { a with column_number := pre.length + (ds.length + 1) }) := by
  simp only [well_formed, Bool.and_eq_true, Bool.not_eq_true', List.isEmpty_eq_false,
    List.all_eq_true, decide_eq_true_eq] at hwf
  obtain ⟨⟨⟨-, hall⟩, hlen⟩, hval⟩ := hwf
  have hc : current_char a = 0x24 := by
    rw [current_char_at a pre _ hline hcol]
    rfl
  rw [parse_factor_plain depth a (by rw [hc]; decide)]
  simp only [hc, true_or, or_true, if_true]
  unfold assembler_parse_number_literal
  simp only [hc, if_true]
  rw [read_chars_run isxdigit 31 ds (next_column a) (pre ++ [0x24]) rest
    (by simp [next_column, hline]) (by simp [next_column, hcol]) hall
    (not_identifier_char _ hrest).2.1 hlen]
  simp only [Bool.false_eq_true, if_false]
  rw [strtol_value 16 (by decide) _ (fun x hx => hexadecimal_digit_value x (hall x hx)) hval]
  simp only [next_column, List.length_append, List.length_singleton, Prod.mk.injEq, true_and]
  congr 1
  omega

theorem parse_binary (depth : Nat) (a : assembler_t) (pre ds rest : List Nat)
    (hline : a.current_line = pre ++ (0x25 :: ds ++ rest))
    (hcol : a.column_number = pre.length)
    (hrest : assembler_is_identifier_char (rest.headD 0) = false)
    (hwf : well_formed a (expression_t.binary ds) = true) :
    assembler_parse_factor depth a =
      (numeral_value 2 ds % 65536, { a with column_number := pre.length + (ds.length + 1) }) := by
  simp only [well_formed, Bool.and_eq_true, Bool.not_eq_true', List.isEmpty_eq_false,
    List.all_eq_true] at hwf
  obtain ⟨⟨-, hall⟩, hlen⟩ := hwf
  have hlen : ds.length ≤ 31 := by simpa using hlen
  have hc : current_char a = 0x25 := by
    rw [current_char_at a pre _ hline hcol]
    rfl
  have hval : numeral_value 2 ds ≤ LONG_MAX := by
    have h1 := binary_value_lt ds hall
    have h2 : 2 ^ ds.length ≤ 2 ^ 31 := Nat.pow_le_pow_right (by decide) hlen
    simp only [LONG_MAX]
    have h3 : (2 : Nat) ^ 31 = 2147483648 := by decide
    omega
  rw [parse_factor_plain depth a (by rw [hc]; decide)]
  simp only [hc, true_or, or_true, if_true]
  unfold assembler_parse_number_literal
  have h24 : (0x25 : Nat) ≠ 0x24 := by decide
  simp only [hc, h24, if_false, if_true]
  rw [read_chars_run (fun c => decide (c = 0x30 ∨ c = 0x31)) 31 ds (next_column a)
    (pre ++ [0x25]) rest (by simp [next_column, hline]) (by simp [next_column, hcol]) hall
    (not_identifier_char _ hrest).2.2 hlen]
  simp only [Bool.false_eq_true, if_false]
  rw [strtol_value 2 (by decide) _ (fun x hx => binary_digit_value x (hall x hx)) hval]
  simp only [next_column, List.length_append, List.length_singleton, Prod.mk.injEq, true_and]
  congr 1
  omega

theorem parse_identifier (depth : Nat) (a : assembler_t) (pre name rest : List Nat)
    (hline : a.current_line = pre ++ (name ++ rest)) (hcol : a.column_number = pre.length)
    (hrest : assembler_is_identifier_char (rest.headD 0) = false)
    (hwf : well_formed a (expression_t.identifier name) = true) :
    assembler_parse_factor depth a =
      (identifier_value a name, { a with column_number := pre.length + name.length }) := by
  simp only [well_formed, Bool.and_eq_true, Bool.not_eq_true', List.isEmpty_eq_false,
    List.all_eq_true, decide_eq_true_eq, Bool.or_eq_true] at hwf
  obtain ⟨⟨⟨⟨hne, hall⟩, hnd⟩, hlen⟩, hdef⟩ := hwf
  obtain ⟨c, ds1, rfl⟩ := List.exists_cons_of_ne_nil hne
  have hc : current_char a = c := by
    rw [current_char_at a pre _ hline hcol]
    rfl
  have hi : assembler_is_identifier_char c = true := hall c (List.mem_cons_self _ _)
  have hr := (identifier_char_iff c).1 hi
  simp only [List.headD_cons] at hnd
  have hne2 : ¬ (isdigit c = true ∨ c = 0x24 ∨ c = 0x25) := by
    rw [hnd]
    simp only [Bool.false_eq_true, false_or]
    omega
  rw [parse_factor_plain depth a (by rw [hc]; omega)]
  simp only [hc, hne2, if_false, hi, if_true]
  unfold assembler_parse_identifier
  rw [read_chars_run assembler_is_identifier_char (MAX_LABEL_LENGTH - 1) (c :: ds1) a pre rest
    hline hcol hall hrest hlen]
  simp only [Bool.false_eq_true, if_false, identifier_value]
  have e1 : assembler_find_label
      { a with column_number := pre.length + (c :: ds1).length } (c :: ds1) =
      assembler_find_label a (c :: ds1) := rfl
  have e2 : assembler_find_symbol
      { a with column_number := pre.length + (c :: ds1).length } (c :: ds1) =
      assembler_find_symbol a (c :: ds1) := rfl
  rw [e1, e2]
  cases hl : assembler_find_label a (c :: ds1) with
  | some l => rfl
  | none =>
    cases hs : assembler_find_symbol a (c :: ds1) with
    | some s => rfl
    | none =>
      rw [hl, hs] at hdef
      simp at hdef

/-! ## Chains of factors -/

theorem term_loop_plus (factor : assembler_t → Nat × assembler_t) (n left : Nat)
    (x : assembler_t) (h : current_char x = 0x2B) :
    term_loop factor (n + 1) left x =
      term_loop factor n ((left + (factor (next_column x)).1) % 65536)
        (assembler_skip_whitespace (factor (next_column x)).2) := by
  simp only [term_loop, h, true_or, if_true, uint16_t_add]

theorem term_loop_minus (factor : assembler_t → Nat × assembler_t) (n left : Nat)
    (x : assembler_t) (h : current_char x = 0x2D) :
    term_loop factor (n + 1) left x =
      term_loop factor n
        ((((left : Int) - ((factor (next_column x)).1 : Int)) % 65536).toNat)
        (assembler_skip_whitespace (factor (next_column x)).2) := by
  have e : (0x2D : Nat) ≠ 0x2B := by decide
  simp only [term_loop, h, or_true, if_true, e, if_false, uint16_t]

theorem term_loop_stop (factor : assembler_t → Nat × assembler_t) (n left : Nat)
    (x : assembler_t) (h : current_char x ≠ 0x2B ∧ current_char x ≠ 0x2D) :
    term_loop factor n left x = (left, x) := by
  cases n with
  | zero => rfl
  | succ n => simp only [term_loop, h.1, h.2, or_self, if_false]

theorem value_column (k : Nat) (a : assembler_t) : ∀ e : expression_t,
    expression_value { a with column_number := k } e = expression_value a e := by
  intro e
  induction e with
  | decimal ds => rfl
  | hexadecimal ds => rfl
  | binary ds => rfl
  | identifier name => rfl
  | parenthesised e ih => simpa only [expression_value] using ih
  | plus l r ihl ihr => simp only [expression_value, ihl, ihr]
  | minus l r ihl ihr => simp only [expression_value, ihl, ihr]

theorem well_formed_column (k : Nat) (a : assembler_t) : ∀ e : expression_t,
    well_formed { a with column_number := k } e = well_formed a e := by
  intro e
  induction e with
  | decimal ds => rfl
  | hexadecimal ds => rfl
  | binary ds => rfl
  | identifier name => rfl
  | parenthesised e ih => simpa only [well_formed] using ih
  | plus l r ihl ihr => simp only [well_formed, ihl, ihr]
  | minus l r ihl ihr => simp only [well_formed, ihl, ihr]

theorem operators_le_text : ∀ e : expression_t, operators e ≤ (expression_text e).length := by
  intro e
  induction e with
  | plus l r ihl _ =>
    simp only [operators, expression_text, List.length_append, List.length_cons]
    omega
  | minus l r ihl _ =>
    simp only [operators, expression_text, List.length_append, List.length_cons]
    omega
  | _ => simp [operators]

theorem nesting_le_text : ∀ e : expression_t, nesting e ≤ (expression_text e).length := by
  intro e
  induction e with
  | parenthesised e ih =>
    simp only [nesting, expression_text, List.length_append, List.length_cons]
    omega
  | plus l r ihl ihr =>
    simp only [nesting, expression_text, List.length_append, List.length_cons]
    omega
  | minus l r ihl ihr =>
    simp only [nesting, expression_text, List.length_append, List.length_cons]
    omega
  | _ => simp [nesting]

theorem operator_not_identifier :
    assembler_is_identifier_char 0x29 = false ∧ assembler_is_identifier_char 0x2B = false ∧
    assembler_is_identifier_char 0x2D = false := by
  decide

/-- The parser on the text of a well-formed expression.  A factor is parsed by
`assembler_parse_factor`, which stops behind it; for a chain, the loop of
`assembler_parse_term` that follows the first factor reaches the end of the chain with the
value of the chain, after as many iterations as the chain has operators. -/
theorem parse_chain : ∀ (e : expression_t) (depth : Nat) (a : assembler_t)
    (pre rest : List Nat), well_formed a e = true →
    a.current_line = pre ++ (expression_text e ++ rest) → a.column_number = pre.length →
    assembler_is_identifier_char (rest.headD 0) = false → nesting e ≤ depth →
    (is_factor e = true →
      assembler_parse_factor depth a =
        (expression_value a e,
          { a with column_number := pre.length + (expression_text e).length })) ∧
    (∀ N, operators e ≤ N →
      term_loop (assembler_parse_factor depth) N (assembler_parse_factor depth a).1
          (assembler_skip_whitespace (assembler_parse_factor depth a).2) =
        term_loop (assembler_parse_factor depth) (N - operators e) (expression_value a e)
          (assembler_skip_whitespace
            { a with column_number := pre.length + (expression_text e).length })) := by
  intro e
  induction e with
  | decimal ds =>
    intro depth a pre rest hwf hline hcol hrest _
    have h := parse_decimal depth a pre ds rest hline hcol hrest hwf
    refine ⟨fun _ => h, ?_⟩
    intro N _
    rw [h]
    rfl
  | hexadecimal ds =>
    intro depth a pre rest hwf hline hcol hrest _
    have h := parse_hexadecimal depth a pre ds rest hline hcol hrest hwf
    refine ⟨fun _ => h, ?_⟩
    intro N _
    rw [h]
    rfl
  | binary ds =>
    intro depth a pre rest hwf hline hcol hrest _
    have h := parse_binary depth a pre ds rest hline hcol hrest hwf
    refine ⟨fun _ => h, ?_⟩
    intro N _
    rw [h]
    rfl
  | identifier name =>
    intro depth a pre rest hwf hline hcol hrest _
    have h := parse_identifier depth a pre name rest hline hcol hrest hwf
    refine ⟨fun _ => h, ?_⟩
    intro N _
    rw [h]
    rfl
  | parenthesised e ih =>
    intro depth a pre rest hwf hline hcol hrest hnest
    simp only [nesting] at hnest
    obtain ⟨d, rfl⟩ : ∃ d, depth = d + 1 := ⟨depth - 1, by omega⟩
    have hc : current_char a = 0x28 := by
      rw [current_char_at a pre _ hline hcol]
      rfl
    have hwf2 : well_formed (next_column a) e = true := by
      have := well_formed_column (a.column_number + 1) a e
      simp only [well_formed] at hwf
      rw [← hwf, ← this]
      rfl
    have hline2 : (next_column a).current_line =
        (pre ++ [0x28]) ++ (expression_text e ++ (0x29 :: rest)) := by
      simp [next_column, hline, expression_text]
    have hcol2 : (next_column a).column_number = (pre ++ [0x28]).length := by
      simp [next_column, hcol]
    have hN : operators e ≤ (next_column a).current_line.length := by
      have := operators_le_text e
      rw [hline2]
      simp only [List.length_append]
      omega
    have h2 := (ih d (next_column a) (pre ++ [0x28]) (0x29 :: rest) hwf2 hline2 hcol2
      operator_not_identifier.1 (by omega)).2 _ hN
    have hc2 : current_char
        { next_column a with
          column_number := (pre ++ [0x28]).length + (expression_text e).length } = 0x29 := by
      rw [current_char_at _ ((pre ++ [0x28]) ++ expression_text e) (0x29 :: rest)
        (by simp [next_column, hline, expression_text]) (by simp; omega)]
      rfl
    have hv : expression_value (next_column a) e = expression_value a e :=
      value_column (a.column_number + 1) a e
    have hf : assembler_parse_factor (d + 1) a =
        (expression_value a (expression_t.parenthesised e),
          { a with
            column_number :=
              pre.length + (expression_text (expression_t.parenthesised e)).length }) := by
      simp only [assembler_parse_factor, skip_whitespace_none a (by rw [hc]; decide), hc,
        if_true, parse_term_with]
      rw [h2, skip_whitespace_none _ (by rw [hc2]; decide),
        term_loop_stop _ _ _ _ (by rw [hc2]; decide)]
      dsimp only
      rw [if_pos hc2, hv]
      simp only [expression_value, expression_text, next_column, List.length_append,
        List.length_cons, List.length_nil, Prod.mk.injEq, true_and]
      congr 1
      omega
    refine ⟨fun _ => hf, ?_⟩
    intro N _
    rw [hf]
    rfl
  | plus l r ihl ihr =>
    intro depth a pre rest hwf hline hcol hrest hnest
    simp only [well_formed, Bool.and_eq_true] at hwf
    obtain ⟨⟨hwl, hwr⟩, hfr⟩ := hwf
    simp only [nesting] at hnest
    refine ⟨fun h => by simp [is_factor] at h, ?_⟩
    intro N hN
    simp only [operators] at hN
    have hl := (ihl depth a pre (0x2B :: (expression_text r ++ rest)) hwl
      (by simp [hline, expression_text]) hcol operator_not_identifier.2.1
      (by omega)).2 N (by omega)
    have hc : current_char { a with column_number := pre.length + (expression_text l).length }
        = 0x2B := by
      rw [current_char_at _ (pre ++ expression_text l) (0x2B :: (expression_text r ++ rest))
        (by simp [hline, expression_text]) (by simp)]
      rfl
    obtain ⟨m, hm⟩ : ∃ m, N - operators l = m + 1 := ⟨N - operators l - 1, by omega⟩
    have hwr2 : well_formed (next_column
        { a with column_number := pre.length + (expression_text l).length }) r = true := by
      rw [← hwr]
      exact well_formed_column _ a r
    have hr := (ihr depth (next_column
        { a with column_number := pre.length + (expression_text l).length })
      (pre ++ expression_text l ++ [0x2B]) rest hwr2
      (by simp [next_column, hline, expression_text]) (by simp [next_column]; omega)
      hrest (by omega)).1 hfr
    have hv : expression_value (next_column
        { a with column_number := pre.length + (expression_text l).length }) r =
        expression_value a r := value_column _ a r
    rw [hl, skip_whitespace_none _ (by rw [hc]; decide), hm, term_loop_plus _ _ _ _ hc, hr, hv]
    have hm2 : N - operators (expression_t.plus l r) = m := by
      simp only [operators]
      omega
    rw [hm2]
    simp only [expression_value, expression_text, next_column, List.length_append,
      List.length_cons, List.length_nil]
    congr 3
    omega
  | minus l r ihl ihr =>
    intro depth a pre rest hwf hline hcol hrest hnest
    simp only [well_formed, Bool.and_eq_true] at hwf
    obtain ⟨⟨hwl, hwr⟩, hfr⟩ := hwf
    simp only [nesting] at hnest
    refine ⟨fun h => by simp [is_factor] at h, ?_⟩
    intro N hN
    simp only [operators] at hN
    have hl := (ihl depth a pre (0x2D :: (expression_text r ++ rest)) hwl
      (by simp [hline, expression_text]) hcol operator_not_identifier.2.2
      (by omega)).2 N (by omega)
    have hc : current_char { a with column_number := pre.length + (expression_text l).length }
        = 0x2D := by
      rw [current_char_at _ (pre ++ expression_text l) (0x2D :: (expression_text r ++ rest))
        (by simp [hline, expression_text]) (by simp)]
      rfl
    obtain ⟨m, hm⟩ : ∃ m, N - operators l = m + 1 := ⟨N - operators l - 1, by omega⟩
    have hwr2 : well_formed (next_column
        { a with column_number := pre.length + (expression_text l).length }) r = true := by
      rw [← hwr]
      exact well_formed_column _ a r
    have hr := (ihr depth (next_column
        { a with column_number := pre.length + (expression_text l).length })
      (pre ++ expression_text l ++ [0x2D]) rest hwr2
      (by simp [next_column, hline, expression_text]) (by simp [next_column]; omega)
      hrest (by omega)).1 hfr
    have hv : expression_value (next_column
        { a with column_number := pre.length + (expression_text l).length }) r =
        expression_value a r := value_column _ a r
    rw [hl, skip_whitespace_none _ (by rw [hc]; decide), hm, term_loop_minus _ _ _ _ hc, hr, hv]
    have hm2 : N - operators (expression_t.minus l r) = m := by
      simp only [operators]
      omega
    rw [hm2]
    simp only [expression_value, expression_text, next_column, List.length_append,
      List.length_cons, List.length_nil]
    congr 3
    omega

/-! ## Lines that end a pass and lines that do not -/

/-- The body of `assembler_parse_line` once `fgets` has read a line. -/
theorem parse_line_read (a : assembler_t) (file : file_t) (line : List Nat)
    (hfile : a.file = some file) (hline : (fgets MAX_LINE_LENGTH file).1 = some line) :
    assembler_parse_line a =
      if current_char (assembler_skip_whitespace (line_state a file line)) = 0x0A ∨
          current_char (assembler_skip_whitespace (line_state a file line)) = 0x00 then
        some (true, assembler_skip_whitespace (line_state a file line))
      else if current_char (assembler_skip_whitespace (line_state a file line)) = 0x3B then
        some (true, assembler_skip_whitespace (line_state a file line))
      else if (assembler_parse_label (assembler_skip_whitespace (line_state a file line))).1
          then
        some (true,
          (assembler_parse_label (assembler_skip_whitespace (line_state a file line))).2)
      else if current_char
          (assembler_parse_label (assembler_skip_whitespace (line_state a file line))).2 = 0x2E
          then
        assembler_parse_directive
          (assembler_parse_label (assembler_skip_whitespace (line_state a file line))).2
      else
        some (assembler_parse_instruction
          (assembler_parse_label (assembler_skip_whitespace (line_state a file line))).2) := by
  unfold assembler_parse_line
  simp only [hfile, hline]
  rfl

theorem fails_ite (p : Prop) [Decidable p] (a b : Bool × assembler_t)
    (ha : p → a.1 = false → a.2.error_occurred = true)
    (hb : ¬ p → b.1 = false → b.2.error_occurred = true) :
    (if p then a else b).1 = false → (if p then a else b).2.error_occurred = true := by
  split_ifs with hp
  · exact ha hp
  · exact hb hp

/-- Whenever `assembler_parse_instruction` returns false it has recorded an error. -/
theorem fails_parse_instruction (a : assembler_t) :
    (assembler_parse_instruction a).1 = false →
    (assembler_parse_instruction a).2.error_occurred = true := by
  unfold assembler_parse_instruction
  generalize read_chars assembler_is_identifier_char 31 a = r
  simp only []
  generalize assembler_emit_byte (assembler_skip_whitespace r.2.2)
    (assembler_get_opcode r.2.1) = b
  generalize assembler_parse_expression b = e
  generalize assembler_parse_expression (next_column b) = f
  generalize read_chars assembler_is_identifier_char 7 b = g
  repeat' (apply fails_ite <;> intro _)
  all_goals first | (intro _; rfl) | (intro h; cases h)

/-- Whenever `assembler_parse_directive` returns false it has recorded an error. -/
theorem fails_parse_directive (a b : assembler_t)
    (h : assembler_parse_directive a = some (false, b)) : b.error_occurred = true := by
  unfold assembler_parse_directive at h
  dsimp only at h
  repeat' split at h
  all_goals (cases h <;> rfl)

/-- A line that makes `assembler_parse_line` return false has recorded an error. -/
theorem fails_parse_line (a b : assembler_t) (file : file_t) (line : List Nat)
    (hfile : a.file = some file) (hline : (fgets MAX_LINE_LENGTH file).1 = some line)
    (h : assembler_parse_line a = some (false, b)) : b.error_occurred = true := by
  rw [parse_line_read a file line hfile hline] at h
  split at h
  · cases h
  · split at h
    · cases h
    · split at h
      · cases h
      · split at h
        · exact fails_parse_directive _ _ h
        · have h1 := fails_parse_instruction
            (assembler_parse_label (assembler_skip_whitespace (line_state a file line))).2
          simp only [Option.some.injEq] at h
          rw [h] at h1
          exact h1 rfl

/-- Skipping a run of blanks and tabs. -/
theorem skip_loop_run : ∀ (ws : List Nat) (n : Nat) (a : assembler_t) (pre rest : List Nat),
    a.current_line = pre ++ (ws ++ rest) → a.column_number = pre.length →
    (∀ c ∈ ws, c = 0x20 ∨ c = 0x09) → rest.headD 0 ≠ 0x20 ∧ rest.headD 0 ≠ 0x09 →
    ws.length ≤ n →
    skip_whitespace_loop n a = { a with column_number := pre.length + ws.length } := by
  intro ws
  induction ws with
  | nil =>
    intro n a pre rest hline hcol _ hrest _
    have hc := current_char_at a pre rest (by simpa using hline) hcol
    cases n with
    | zero => simp only [skip_whitespace_loop, List.length_nil, Nat.add_zero, ← hcol]
    | succ n =>
      unfold skip_whitespace_loop
      simp only [hc, hrest.1, hrest.2, or_self, if_false, List.length_nil, Nat.add_zero,
        ← hcol]
  | cons c ws ih =>
    intro n a pre rest hline hcol hws hrest hn
    obtain ⟨m, rfl⟩ : ∃ m, n = m + 1 := ⟨n - 1, by simp at hn; omega⟩
    have hc := current_char_at a pre (c :: ws ++ rest) (by simpa using hline) hcol
    simp only [List.cons_append, List.headD_cons] at hc
    have hb : c = 0x20 ∨ c = 0x09 := hws c (List.mem_cons_self _ _)
    unfold skip_whitespace_loop
    rw [hc, if_pos hb]
    rw [ih m (next_column a) (pre ++ [c]) rest (by simp [next_column, hline])
      (by simp [next_column, hcol]) (fun x hx => hws x (List.mem_cons_of_mem _ hx)) hrest
      (by simp at hn; omega)]
    simp only [next_column, List.length_append, List.length_cons, List.length_nil,
      List.length_singleton]
    congr 1
    omega

theorem skip_whitespace_run (ws : List Nat) (a : assembler_t) (pre rest : List Nat)
    (hline : a.current_line = pre ++ (ws ++ rest)) (hcol : a.column_number = pre.length)
    (hws : ∀ c ∈ ws, c = 0x20 ∨ c = 0x09)
    (hrest : rest.headD 0 ≠ 0x20 ∧ rest.headD 0 ≠ 0x09) :
    assembler_skip_whitespace a = { a with column_number := pre.length + ws.length } := by
  unfold assembler_skip_whitespace
  exact skip_loop_run ws _ a pre rest hline hcol hws hrest (by rw [hline]; simp; omega)

/-- A line that starts with a dot is handled by `assembler_parse_directive`. -/
theorem directive_line (a : assembler_t) (file : file_t) (text : List Nat)
    (hfile : a.file = some file)
    (hline : (fgets MAX_LINE_LENGTH file).1 = some (0x2E :: text)) :
    assembler_parse_line a = assembler_parse_directive (line_state a file (0x2E :: text)) := by
  have hc : current_char (line_state a file (0x2E :: text)) = 0x2E := rfl
  have hs : assembler_skip_whitespace (line_state a file (0x2E :: text)) =
      line_state a file (0x2E :: text) :=
    skip_whitespace_none _ (by rw [hc]; decide)
  have hr := read_chars_run assembler_is_identifier_char (MAX_LABEL_LENGTH - 1) []
    (line_state a file (0x2E :: text)) [] (0x2E :: text) rfl rfl (by simp)
    (by rw [List.headD_cons]; decide) (by simp)
  have hl : assembler_parse_label (line_state a file (0x2E :: text)) =
      (false, line_state a file (0x2E :: text)) := by
    unfold assembler_parse_label
    rw [hr]
    rfl
  rw [parse_line_read a file _ hfile hline, hs, hl]
  simp only [hc]
  simp +decide only [if_false, if_true, or_self, Bool.false_eq_true]

/-- The name of a directive is read up to the first character that is none of an
identifier. -/
theorem directive_name (a : assembler_t) (d rest : List Nat)
    (hline : a.current_line = 0x2E :: (d ++ rest)) (hcol : a.column_number = 0)
    (hd : ∀ c ∈ d, assembler_is_identifier_char c = true) (hlen : d.length ≤ 31)
    (hrest : assembler_is_identifier_char (rest.headD 0) = false) :
    read_chars assembler_is_identifier_char 31 (next_column a) =
      (false, d, { a with column_number := 1 + d.length }) := by
  rw [read_chars_run assembler_is_identifier_char 31 d (next_column a) [0x2E] rest
    (by simp [next_column, hline]) (by simp [next_column, hcol]) hd hrest hlen]
  rfl

theorem known_directive_name (d : List Nat)
    (hd : d = c_str "org" ∨ d = c_str "byte" ∨ d = c_str "word") :
    (∀ c ∈ d, assembler_is_identifier_char c = true) ∧ d.length ≤ 31 := by
  rcases hd with rfl | rfl | rfl <;> decide

/-- The directives `.org`, `.byte` and `.word` return true whatever their operand is, and
keep an error that the evaluation of the operand has recorded. -/
theorem known_directive (a : assembler_t) (d rest : List Nat)
    (hline : a.current_line = 0x2E :: (d ++ rest)) (hcol : a.column_number = 0)
    (hd : d = c_str "org" ∨ d = c_str "byte" ∨ d = c_str "word")
    (hrest : assembler_is_identifier_char (rest.headD 0) = false) :
    ∃ b, assembler_parse_directive a = some (true, b) ∧
      ((assembler_parse_expression (assembler_skip_whitespace
        { a with column_number := 1 + d.length })).2.error_occurred = true →
        b.error_occurred = true) := by
  obtain ⟨h1, h2⟩ := known_directive_name d hd
  have hr := directive_name a d rest hline hcol h1 h2 hrest
  unfold assembler_parse_directive
  simp only [hr, Bool.false_eq_true, if_false]
  rcases hd with rfl | rfl | rfl
  · rw [if_pos rfl]
    exact ⟨_, rfl, fun h => h⟩
  · rw [if_neg (by decide), if_pos rfl]
    exact ⟨_, rfl, fun h => sticky_emit_byte _ _ h⟩
  · rw [if_neg (by decide), if_neg (by decide), if_pos rfl]
    exact ⟨_, rfl, fun h => sticky_emit_word _ _ h⟩

/-- Any other directive name that is not `string` or `include` is an error, and the
directive returns false. -/
theorem unknown_directive (a : assembler_t) (d rest : List Nat)
    (hline : a.current_line = 0x2E :: (d ++ rest)) (hcol : a.column_number = 0)
    (hd : ∀ c ∈ d, assembler_is_identifier_char c = true) (hlen : d.length ≤ 31)
    (hrest : assembler_is_identifier_char (rest.headD 0) = false)
    (hun : d ≠ c_str "org" ∧ d ≠ c_str "byte" ∧ d ≠ c_str "word" ∧ d ≠ c_str "string" ∧
      d ≠ c_str "include") :
    ∃ b, assembler_parse_directive a = some (false, b) ∧ b.error_occurred = true ∧
      b.error_message = c_str "Unknown directive: ." ++ d := by
  have hr := directive_name a d rest hline hcol hd hlen hrest
  have hl : (c_str "Unknown directive: ." ++ d).length ≤ 255 := by
    rw [List.length_append, show (c_str "Unknown directive: .").length = 20 by decide]
    omega
  unfold assembler_parse_directive
  simp only [hr, Bool.false_eq_true, if_false, hun.1, hun.2.1, hun.2.2.1, hun.2.2.2.1,
    hun.2.2.2.2]
  exact ⟨_, rfl, rfl, List.take_of_length_le hl⟩

/-- An identifier that is neither a label nor a symbol is an error of the factor. -/
theorem parse_undefined (depth : Nat) (a : assembler_t) (pre name rest : List Nat)
    (hline : a.current_line = pre ++ (name ++ rest)) (hcol : a.column_number = pre.length)
    (hne : name ≠ []) (hall : ∀ c ∈ name, assembler_is_identifier_char c = true)
    (hnd : isdigit (name.headD 0) = false) (hlen : name.length ≤ 63)
    (hrest : assembler_is_identifier_char (rest.headD 0) = false)
    (hl : assembler_find_label a name = none) (hs : assembler_find_symbol a name = none) :
    assembler_parse_factor depth a =
      (0, assembler_error { a with column_number := pre.length + name.length }
        (c_str "Undefined label or symbol: " ++ name)) := by
  obtain ⟨c, ds1, rfl⟩ := List.exists_cons_of_ne_nil hne
  have hc : current_char a = c := by
    rw [current_char_at a pre _ hline hcol]
    rfl
  have hi : assembler_is_identifier_char c = true := hall c (List.mem_cons_self _ _)
  have hr := (identifier_char_iff c).1 hi
  simp only [List.headD_cons] at hnd
  have hne2 : ¬ (isdigit c = true ∨ c = 0x24 ∨ c = 0x25) := by
    rw [hnd]
    simp only [Bool.false_eq_true, false_or]
    omega
  rw [parse_factor_plain depth a (by rw [hc]; omega)]
  simp only [hc, hne2, if_false, hi, if_true]
  unfold assembler_parse_identifier
  rw [read_chars_run assembler_is_identifier_char (MAX_LABEL_LENGTH - 1) (c :: ds1) a pre rest
    hline hcol hall hrest hlen]
  simp only [Bool.false_eq_true, if_false]
  have e1 : assembler_find_label
      { a with column_number := pre.length + (c :: ds1).length } (c :: ds1) =
      assembler_find_label a (c :: ds1) := rfl
  have e2 : assembler_find_symbol
      { a with column_number := pre.length + (c :: ds1).length } (c :: ds1) =
      assembler_find_symbol a (c :: ds1) := rfl
  rw [e1, e2, hl, hs]

/-- An expression that begins with an undefined identifier sets the error flag. -/
theorem undefined_expression (a : assembler_t) (pre name rest : List Nat)
    (hline : a.current_line = pre ++ (name ++ rest)) (hcol : a.column_number = pre.length)
    (hne : name ≠ []) (hall : ∀ c ∈ name, assembler_is_identifier_char c = true)
    (hnd : isdigit (name.headD 0) = false) (hlen : name.length ≤ 63)
    (hrest : assembler_is_identifier_char (rest.headD 0) = false)
    (hl : assembler_find_label a name = none) (hs : assembler_find_symbol a name = none) :
    (assembler_parse_expression a).2.error_occurred = true := by
  have hf := parse_undefined a.current_line.length a pre name rest hline hcol hne hall hnd hlen
    hrest hl hs
  have he : (assembler_parse_factor a.current_line.length a).2.error_occurred = true := by
    rw [hf]
    rfl
  unfold assembler_parse_expression assembler_parse_term parse_term_with
  exact sticky_of_scanned _ _
    (scanned_trans _ _ _ (scanned_skip_whitespace _)
      (scanned_term_loop _ (scanned_factor _) _ _ _)) he

/-- A line that holds a word followed by neither a blank nor a colon is handled by
`assembler_parse_instruction`, from the start of the word. -/
theorem instruction_line (a : assembler_t) (file : file_t) (m rest : List Nat)
    (hfile : a.file = some file)
    (hline : (fgets MAX_LINE_LENGTH file).1 = some (m ++ rest))
    (hne : m ≠ []) (hall : ∀ c ∈ m, assembler_is_identifier_char c = true)
    (hlen : m.length ≤ 63)
    (hrest : assembler_is_identifier_char (rest.headD 0) = false ∧ rest.headD 0 ≠ 0x20 ∧
      rest.headD 0 ≠ 0x09 ∧ rest.headD 0 ≠ 0x3A) :
    assembler_parse_line a =
      some (assembler_parse_instruction (line_state a file (m ++ rest))) := by
  obtain ⟨c, ds1, rfl⟩ := List.exists_cons_of_ne_nil hne
  have hi : assembler_is_identifier_char c = true := hall c (List.mem_cons_self _ _)
  have hr := (identifier_char_iff c).1 hi
  have hc : current_char (line_state a file (c :: ds1 ++ rest)) = c := rfl
  have hs : assembler_skip_whitespace (line_state a file (c :: ds1 ++ rest)) =
      line_state a file (c :: ds1 ++ rest) :=
    skip_whitespace_none _ (by rw [hc]; omega)
  have hrd := read_chars_run assembler_is_identifier_char (MAX_LABEL_LENGTH - 1) (c :: ds1)
    (line_state a file (c :: ds1 ++ rest)) [] rest rfl rfl hall hrest.1 hlen
  have hl : assembler_parse_label (line_state a file (c :: ds1 ++ rest)) =
      (false, line_state a file (c :: ds1 ++ rest)) := by
    unfold assembler_parse_label
    rw [hrd]
    generalize ht : ({ line_state a file (c :: ds1 ++ rest) with
      column_number := ([] : List Nat).length + (c :: ds1).length } : assembler_t) = t
    have hc2 : current_char t = rest.headD 0 := by
      rw [← ht]
      exact current_char_at _ (c :: ds1) rest rfl (by simp)
    have hs2 : assembler_skip_whitespace t = t :=
      skip_whitespace_none t (by rw [hc2]; exact ⟨hrest.2.1, hrest.2.2.1⟩)
    have hback : ({ t with column_number := t.column_number - (c :: ds1).length } :
        assembler_t) = line_state a file (c :: ds1 ++ rest) := by
      rw [← ht]
      simp [line_state]
    have hi0 : ¬ (c :: ds1).length = 0 := by simp
    dsimp only
    rw [if_neg Bool.false_ne_true, if_neg hi0, hs2, hc2, if_neg hrest.2.2.2, hback]
  rw [parse_line_read a file _ hfile hline, hs, hl, hc]
  have h1 : ¬ (c = 0x0A ∨ c = 0x00) := by omega
  have h2 : ¬ c = 0x3B := by omega
  have h3 : ¬ c = 0x2E := by omega
  simp only [h1, h2, h3, if_false, Bool.false_eq_true]

/-- A word that `assembler_get_opcode` does not know is an error, and the instruction
returns false. -/
theorem unknown_instruction (a : assembler_t) (m rest : List Nat)
    (hline : a.current_line = m ++ rest) (hcol : a.column_number = 0)
    (hne : m ≠ []) (hall : ∀ c ∈ m, assembler_is_identifier_char c = true)
    (hlen : m.length ≤ 31)
    (hrest : assembler_is_identifier_char (rest.headD 0) = false)
    (hun : assembler_get_opcode m = 0) :
    (assembler_parse_instruction a).1 = false ∧
    (assembler_parse_instruction a).2.error_occurred = true ∧
    (assembler_parse_instruction a).2.error_message = c_str "Unknown instruction: " ++ m := by
  have hr := read_chars_run assembler_is_identifier_char 31 m a [] rest hline
    (by simp [hcol]) hall hrest hlen
  have hl : (c_str "Unknown instruction: " ++ m).length ≤ 255 := by
    rw [List.length_append, show (c_str "Unknown instruction: ").length = 21 by decide]
    omega
  have hm : m.length ≠ 0 := by
    intro h
    exact hne (List.length_eq_zero.mp h)
  have hnop : m ≠ c_str "NOP" := by
    intro h
    rw [h] at hun
    revert hun
    decide
  unfold assembler_parse_instruction
  simp only [hr, Bool.false_eq_true, if_false, hm, hun, hnop, ne_eq, not_false_eq_true,
    and_self, if_true, assembler_error, true_and]
  exact List.take_of_length_le hl

theorem next_line_some (a : assembler_t) (line : List Nat) (h : next_line a = some line) :
    feof a = false ∧
    ∃ file, a.file = some file ∧ (fgets MAX_LINE_LENGTH file).1 = some line := by
  unfold next_line at h
  unfold feof
  cases hf : a.file with
  | none =>
    rw [hf] at h
    cases h
  | some file =>
    rw [hf] at h
    dsimp only at h ⊢
    cases he : file.eof with
    | true =>
      rw [he] at h
      cases h
    | false =>
      rw [he] at h
      exact ⟨rfl, file, rfl, h⟩

/-- A `.org`, `.byte` or `.word` line whose operand begins with an undefined identifier
records the error and returns true. -/
theorem undefined_operand (a : assembler_t) (d ws name rest : List Nat)
    (hline : a.current_line = 0x2E :: (d ++ (ws ++ (name ++ rest))))
    (hcol : a.column_number = 0)
    (hd : d = c_str "org" ∨ d = c_str "byte" ∨ d = c_str "word")
    (hws : ws ≠ [] ∧ ∀ c ∈ ws, c = 0x20 ∨ c = 0x09)
    (hname : name ≠ [] ∧ (∀ c ∈ name, assembler_is_identifier_char c = true) ∧
      isdigit (name.headD 0) = false ∧ name.length ≤ 63)
    (hrest : assembler_is_identifier_char (rest.headD 0) = false)
    (hl : assembler_find_label a name = none) (hs : assembler_find_symbol a name = none) :
    ∃ b, assembler_parse_directive a = some (true, b) ∧ b.error_occurred = true := by
  obtain ⟨w, ws1, rfl⟩ := List.exists_cons_of_ne_nil hws.1
  obtain ⟨c, ds1, rfl⟩ := List.exists_cons_of_ne_nil hname.1
  have hw : w = 0x20 ∨ w = 0x09 := hws.2 w (List.mem_cons_self _ _)
  have hi := (identifier_char_iff c).1 (hname.2.1 c (List.mem_cons_self _ _))
  have hr1 : assembler_is_identifier_char
      ((w :: ws1 ++ (c :: ds1 ++ rest)).headD 0) = false := by
    rw [List.cons_append, List.headD_cons]
    rcases hw with rfl | rfl <;> decide
  obtain ⟨b, hb, he⟩ := known_directive a d (w :: ws1 ++ (c :: ds1 ++ rest)) hline hcol hd hr1
  refine ⟨b, hb, he ?_⟩
  have hsk := skip_whitespace_run (w :: ws1) { a with column_number := 1 + d.length }
    (0x2E :: d) (c :: ds1 ++ rest) (by simp [hline]) (by simp; omega) hws.2
    (by rw [List.cons_append, List.headD_cons]; omega)
  rw [hsk]
  exact undefined_expression _ (0x2E :: d ++ (w :: ws1)) (c :: ds1) rest (by simp [hline])
    (by simp; omega) hname.1 hname.2.1 hname.2.2.1 hname.2.2.2 hrest hl hs

/-! # Properties of the assembler, the devices, the counters and the instruction lengths -/

/-- C31 (counterexample). The line `BEQ $FFFF` at address 0: the target is 0xFFFF, so
`t - (p + 2)` is 65533 over the integers, outside -128..127; the branch is accepted without
an error and the displacement byte 0xFD (-3) is emitted.  The same for the source file
`BEQ$FFFF`, whose image holds the two bytes of each pass. -/
theorem C31_counterexample :
    (at_line "BEQ $FFFF\n").current_address = 0 ∧
    branch_target (at_line "BEQ $FFFF\n") [] (c_str "BEQ") = 0xFFFF ∧
    (assembler_parse_instruction (at_line "BEQ $FFFF\n")).1 = true ∧
    (assembler_parse_instruction (at_line "BEQ $FFFF\n")).2.error_occurred = false ∧
    (assembler_parse_instruction (at_line "BEQ $FFFF\n")).2.output_size = 2 ∧
    (assembler_parse_instruction (at_line "BEQ $FFFF\n")).2.output 0 = 0x50 ∧
    (assembler_parse_instruction (at_line "BEQ $FFFF\n")).2.output 1 = 0xFD ∧
    assemble "BEQ$FFFF\n" = some (true, false, [], [0x50, 0xFD, 0x50, 0xFD]) :=
  ⟨rfl, by decide!, by decide!, by decide!, by decide!, by decide!, by decide!, by decide!⟩

/-- C31. Branch encoding, for a line that holds the mnemonic `BEQ` or `BNE` at the column,
with the opcode going to address `p = current_address` and to the output index
`output_size`.  Let `t` be the value of the target expression and `d` the difference
`t - (p + 2)` as the signed 16-bit number the code stores it in (`d` is the difference
itself when that lies in -32768..32767).  When `-128 ≤ d ≤ 127` the function returns true,
has emitted the opcode followed by the single byte `d mod 256`, and has recorded no error
of its own; otherwise it returns false, has emitted the opcode only, and has recorded the
error `Branch offset out of range`. -/
theorem C31_branch_encoding (a : assembler_t) (pre m rest : List Nat)
    (hm : m = c_str "BEQ" ∨ m = c_str "BNE")
    (hline : a.current_line = pre ++ (m ++ rest)) (hcol : a.column_number = pre.length)
    (hrest : assembler_is_identifier_char (rest.headD 0) = false)
    (hsize : a.output_size + 2 < 65536) :
    (assembler_get_opcode m = if m = c_str "BEQ" then OP_BEQ else OP_BNE) ∧
    (-32768 ≤ (branch_target a pre m : Int) - ((a.current_address : Int) + 2) ∧
      (branch_target a pre m : Int) - ((a.current_address : Int) + 2) ≤ 32767 →
      branch_displacement a pre m =
        (branch_target a pre m : Int) - ((a.current_address : Int) + 2)) ∧
    (-128 ≤ branch_displacement a pre m ∧ branch_displacement a pre m ≤ 127 →
      (assembler_parse_instruction a).1 = true ∧
      (assembler_parse_instruction a).2.output_size = a.output_size + 2 ∧
      (assembler_parse_instruction a).2.output a.output_size = assembler_get_opcode m ∧
      (assembler_parse_instruction a).2.output (a.output_size + 1) =
        (branch_displacement a pre m % 256).toNat ∧
      (∀ i, i ≠ a.output_size → i ≠ a.output_size + 1 →
        (assembler_parse_instruction a).2.output i = a.output i) ∧
      (assembler_parse_instruction a).2.current_address = (a.current_address + 2) % 65536 ∧
      (assembler_parse_instruction a).2.error_occurred =
        (assembler_parse_expression (operand_state a pre m)).2.error_occurred) ∧
    (branch_displacement a pre m < -128 ∨ 127 < branch_displacement a pre m →
      (assembler_parse_instruction a).1 = false ∧
      (assembler_parse_instruction a).2.error_occurred = true ∧
      (assembler_parse_instruction a).2.error_message =
        (c_str "Branch offset out of range: " ++ format_d (branch_displacement a pre m)).take
          255 ∧
      (assembler_parse_instruction a).2.output_size = a.output_size + 1 ∧
      (assembler_parse_instruction a).2.output a.output_size = assembler_get_opcode m ∧
      (∀ i, i ≠ a.output_size → (assembler_parse_instruction a).2.output i = a.output i)) := by
  obtain ⟨o1, o2, o3⟩ := operand_state_facts a pre m (by omega)
  obtain ⟨-, -, -, -, s5, s6, s7, -⟩ := scanned_expression (operand_state a pre m)
  rw [o1] at s5
  rw [o2] at s6
  rw [o3] at s7
  have hop : assembler_get_opcode m % 256 = assembler_get_opcode m := by
    rcases hm with rfl | rfl <;> decide
  have hd : int16_t (((assembler_parse_expression (operand_state a pre m)).1 : Int) -
      (((assembler_parse_expression (operand_state a pre m)).2.current_address : Int) + 1)) =
      branch_displacement a pre m := by
    unfold branch_displacement branch_target
    rw [s7]
    unfold int16_t
    omega
  have hpi := parse_branch a pre m rest hm hline hcol hrest
  rw [hd] at hpi
  refine ⟨?_, ?_, ?_, ?_⟩
  · rcases hm with rfl | rfl <;> decide
  · intro h
    unfold branch_displacement int16_t
    omega
  · intro h
    have hc : ¬ (branch_displacement a pre m < -128 ∨ branch_displacement a pre m > 127) := by
      omega
    rw [hpi]
    simp only [hc, if_false]
    obtain ⟨e1, e2, e3, e4, -⟩ := emit_byte_facts (assembler_parse_expression
      (operand_state a pre m)).2 (uint8_t (branch_displacement a pre m)) (by rw [s6]; omega)
    have hu : uint8_t (branch_displacement a pre m) % 256 =
        (branch_displacement a pre m % 256).toNat := by
      unfold uint8_t
      omega
    rw [e1, e2, e3, e4, s5, s6, s7, hu]
    refine ⟨trivial, rfl, ?_, ?_, ?_, ?_, rfl⟩
    · simp only [store_apply, hop]
      have : a.output_size ≠ a.output_size + 1 := by omega
      simp only [this, if_false, if_true]
    · simp only [store_apply, if_true]
    · intro i h1 h2
      simp only [store_apply, h1, h2, if_false]
    · omega
  · intro h
    have hc : branch_displacement a pre m < -128 ∨ branch_displacement a pre m > 127 := by
      omega
    rw [hpi]
    simp only [hc, if_true]
    refine ⟨trivial, rfl, rfl, ?_, ?_, ?_⟩
    · exact s6
    · show (assembler_parse_expression (operand_state a pre m)).2.output a.output_size = _
      rw [s5]
      simp only [store_apply, if_true, hop]
    · intro i hi
      show (assembler_parse_expression (operand_state a pre m)).2.output i = _
      rw [s5]
      simp only [store_apply, hi, if_false]

/-- C31 (witness). Branches at 0x0200 to 0x0281, 0x0182, 0x0282 and 0x0181: the
displacements 127 and -128 are accepted, 128 and -129 rejected. -/
theorem C31_branch_encoding_witness :
    (branch_displacement (at_0200 "BEQ $0281\n") [] (c_str "BEQ") = 127 ∧
      (assembler_parse_instruction (at_0200 "BEQ $0281\n")).1 = true ∧
      (assembler_parse_instruction (at_0200 "BEQ $0281\n")).2.output_size = 2) ∧
    (branch_displacement (at_0200 "BNE $0182\n") [] (c_str "BNE") = -128 ∧
      (assembler_parse_instruction (at_0200 "BNE $0182\n")).1 = true) ∧
    (branch_displacement (at_0200 "BEQ $0282\n") [] (c_str "BEQ") = 128 ∧
      (assembler_parse_instruction (at_0200 "BEQ $0282\n")).1 = false ∧
      (assembler_parse_instruction (at_0200 "BEQ $0282\n")).2.output_size = 1) ∧
    (branch_displacement (at_0200 "BNE $0181\n") [] (c_str "BNE") = -129 ∧
      (assembler_parse_instruction (at_0200 "BNE $0181\n")).1 = false) := by
  have d1 : branch_displacement (at_0200 "BEQ $0281\n") [] (c_str "BEQ") = 127 := by decide!
  have d2 : branch_displacement (at_0200 "BNE $0182\n") [] (c_str "BNE") = -128 := by decide!
  have d3 : branch_displacement (at_0200 "BEQ $0282\n") [] (c_str "BEQ") = 128 := by decide!
  have d4 : branch_displacement (at_0200 "BNE $0181\n") [] (c_str "BNE") = -129 := by decide!
  have h1 := (C31_branch_encoding (at_0200 "BEQ $0281\n") [] (c_str "BEQ") (c_str " $0281\n")
    (Or.inl rfl) (by decide) rfl (by decide) (by decide)).2.2.1
    (by rw [d1]; decide)
  have h2 := (C31_branch_encoding (at_0200 "BNE $0182\n") [] (c_str "BNE") (c_str " $0182\n")
    (Or.inr rfl) (by decide) rfl (by decide) (by decide)).2.2.1
    (by rw [d2]; decide)
  have h3 := (C31_branch_encoding (at_0200 "BEQ $0282\n") [] (c_str "BEQ") (c_str " $0282\n")
    (Or.inl rfl) (by decide) rfl (by decide) (by decide)).2.2.2
    (by rw [d3]; decide)
  have h4 := (C31_branch_encoding (at_0200 "BNE $0181\n") [] (c_str "BNE") (c_str " $0181\n")
    (Or.inr rfl) (by decide) rfl (by decide) (by decide)).2.2.2
    (by rw [d4]; decide)
  exact ⟨⟨d1, h1.1, h1.2.1⟩, ⟨d2, h2.1⟩, ⟨d3, h3.1, h3.2.2.2.1⟩, ⟨d4, h4.1⟩⟩

/-- C32 (counterexample). A literal whose value exceeds `LONG_MAX` = 2^63 - 1 does not
denote its value modulo 65536: `strtol` returns `LONG_MAX`, so the decimal literal
9223372036854775808 (2^63) and the hexadecimal literal `$10000000000000000` (2^64)
evaluate to 0xFFFF, where the values modulo 65536 are 0; and a binary literal of 32 digits
is rejected as too long and evaluates to 0, where the value modulo 65536 is 0xFFFF. -/
theorem C32_counterexample :
    (assembler_parse_expression (at_line "9223372036854775808\n")).1 = 0xFFFF ∧
    numeral_value 10 (c_str "9223372036854775808") % 65536 = 0 ∧
    (assembler_parse_expression (at_line "$10000000000000000\n")).1 = 0xFFFF ∧
    numeral_value 16 (c_str "10000000000000000") % 65536 = 0 ∧
    (assembler_parse_expression (at_line "%11111111111111111111111111111111\n")).1 = 0 ∧
    (assembler_parse_expression (at_line "%11111111111111111111111111111111\n")).2.error_message
      = c_str "Number too long" ∧
    numeral_value 2 (c_str "11111111111111111111111111111111") % 65536 = 0xFFFF ∧
    assemble ".word 9223372036854775808\n" = some (true, false, [], [0xFF, 0xFF, 0xFF, 0xFF]) :=
  ⟨by decide!, by decide!, by decide!, by decide!, by decide!, by decide!, by decide!,
    by decide!⟩

/-- C32. Expression evaluation.  Let the line hold, from the column on, the text of a
well-formed expression: a chain of factors joined by `+` and `-`, where a factor is a
decimal, `$` hexadecimal or `%` binary literal of 1 to 31 digits whose value is at most
2^63 - 1, a defined identifier, or a parenthesised expression; and let the character
behind it be none that continues an expression (an identifier character, `+`, `-`, a blank
or a tab).  Then `assembler_parse_expression` returns the value of the expression, in which
every literal denotes its usual value, the operators are applied left to right and every
result is reduced modulo 65536; it stops behind the text and records no error. -/
theorem C32_expression_value (a : assembler_t) (e : expression_t) (pre rest : List Nat)
    (hwf : well_formed a e = true)
    (hline : a.current_line = pre ++ (expression_text e ++ rest))
    (hcol : a.column_number = pre.length)
    (hrest : assembler_is_identifier_char (rest.headD 0) = false ∧ rest.headD 0 ≠ 0x2B ∧
      rest.headD 0 ≠ 0x2D ∧ rest.headD 0 ≠ 0x20 ∧ rest.headD 0 ≠ 0x09) :
    assembler_parse_expression a =
      (expression_value a e,
        { a with column_number := pre.length + (expression_text e).length }) := by
  obtain ⟨h1, h2, h3, h4, h5⟩ := hrest
  have hlen : (expression_text e).length ≤ a.current_line.length := by
    rw [hline]
    simp only [List.length_append]
    omega
  have hn := nesting_le_text e
  have ho := operators_le_text e
  have h := (parse_chain e a.current_line.length a pre rest hwf hline hcol h1
    (by omega)).2 a.current_line.length (by omega)
  have hc : current_char { a with column_number := pre.length + (expression_text e).length } =
      rest.headD 0 :=
    current_char_at _ (pre ++ expression_text e) rest (by simp [hline]) (by simp)
  unfold assembler_parse_expression assembler_parse_term parse_term_with
  rw [h, skip_whitespace_none _ (by rw [hc]; exact ⟨h4, h5⟩),
    term_loop_stop _ _ _ _ (by rw [hc]; exact ⟨h2, h3⟩)]

/-- C32 (witness). The expressions `10-3-2`, `$FFFF+2`, `0-1`, `%1010+$7F+123` and
`(10-(3-2))+$FFFF` evaluate to 5, 1, 0xFFFF, 260 and 8. -/
theorem C32_expression_value_witness :
    (assembler_parse_expression (at_line "10-3-2\n")).1 = 5 ∧
    (assembler_parse_expression (at_line "$FFFF+2\n")).1 = 1 ∧
    (assembler_parse_expression (at_line "0-1\n")).1 = 0xFFFF ∧
    (assembler_parse_expression (at_line "%1010+$7F+123\n")).1 = 260 ∧
    (assembler_parse_expression (at_line "(10-(3-2))+$FFFF\n")).1 = 8 := by
  have h1 := C32_expression_value (at_line "10-3-2\n") chain_sample [] (c_str "\n")
    (by decide) (by decide) rfl (by decide)
  have h2 := C32_expression_value (at_line "$FFFF+2\n") wrap_sample [] (c_str "\n")
    (by decide) (by decide) rfl (by decide)
  have h3 := C32_expression_value (at_line "0-1\n") borrow_sample [] (c_str "\n")
    (by decide) (by decide) rfl (by decide)
  have h4 := C32_expression_value (at_line "%1010+$7F+123\n") bases_sample [] (c_str "\n")
    (by decide) (by decide) rfl (by decide)
  have h5 := C32_expression_value (at_line "(10-(3-2))+$FFFF\n") nested_sample [] (c_str "\n")
    (by decide) (by decide) rfl (by decide)
  rw [h1, h2, h3, h4, h5]
  decide

/-- C33 (counterexample). In the source `FOO` / `.bar` the unknown instruction on line 1
ends both passes: the assembly returns false after reading one line, the message is the
one of line 1, and the unknown directive on line 2, which is an error when it stands
alone, is not recorded; likewise the `.byte 7` that follows `FOO` is never assembled. -/
theorem C33_counterexample :
    assemble_report "FOO\n.bar\n" = some (false, 1, c_str "Unknown instruction: FOO") ∧
    assemble_report ".bar\n" = some (false, 1, c_str "Unknown directive: .bar") ∧
    assemble "FOO\n.byte 7\n" = some (false, true, c_str "Unknown instruction: FOO", []) ∧
    assemble ".byte 7\n" = some (true, false, [], [7, 7]) :=
  ⟨by decide!, by decide!, by decide!, by decide!⟩

/-- C33. The error flag, the return value and the lines that end a pass.  Whenever
`assembler_assemble_file` returns, it returns false iff the error flag is set, and a flag
that was set before stays set.  In every state of a pass: a line leaves a flag that was
set before set, the pass goes on to the following line iff `assembler_parse_line` returns
true, and a line for which it returns false has recorded an error.  A line that begins
with a `.org`, `.byte` or `.word` directive returns true whatever its operand is, so the
pass goes on; when the operand begins with an identifier that is neither a label nor a
symbol, the line has set the error flag and the pass goes on all the same.  A line that
begins with any other directive name but `string` and `include`, or with a word that
`assembler_get_opcode` does not know, sets the flag, leaves its message and ends the pass.
So in `.byte foo` / `.byte bar` both lines emit their byte in both passes and the message
is the one of line 2, and an unknown instruction makes the assembly return false. -/
theorem C33_error_flag (assembler : assembler_t) (filename : List Nat)
    (contents : Option (List Nat)) (r : Bool × assembler_t)
    (h : assembler_assemble_file assembler filename contents = some r) :
    (r.1 = false ↔ r.2.error_occurred = true) ∧
    (assembler.error_occurred = true → r.2.error_occurred = true) ∧
    (∀ (n : Nat) (a : assembler_t) (p : Bool × assembler_t), feof a = false →
      assembler_parse_line a = some p →
      (a.error_occurred = true → p.2.error_occurred = true) ∧
      pass_loop (n + 1) a = if p.1 then pass_loop n p.2 else some p.2) ∧
    (∀ (a b : assembler_t) (line : List Nat), next_line a = some line →
      assembler_parse_line a = some (false, b) → b.error_occurred = true) ∧
    (∀ (n : Nat) (a : assembler_t) (d rest : List Nat),
      next_line a = some (0x2E :: (d ++ rest)) →
      d = c_str "org" ∨ d = c_str "byte" ∨ d = c_str "word" →
      assembler_is_identifier_char (rest.headD 0) = false →
      ∃ b, assembler_parse_line a = some (true, b) ∧ pass_loop (n + 1) a = pass_loop n b) ∧
    (∀ (n : Nat) (a : assembler_t) (d ws name rest : List Nat),
      next_line a = some (0x2E :: (d ++ (ws ++ (name ++ rest)))) →
      d = c_str "org" ∨ d = c_str "byte" ∨ d = c_str "word" →
      (ws ≠ [] ∧ ∀ c ∈ ws, c = 0x20 ∨ c = 0x09) →
      (name ≠ [] ∧ (∀ c ∈ name, assembler_is_identifier_char c = true) ∧
        isdigit (name.headD 0) = false ∧ name.length ≤ 63) →
      assembler_is_identifier_char (rest.headD 0) = false →
      assembler_find_label a name = none → assembler_find_symbol a name = none →
      ∃ b, assembler_parse_line a = some (true, b) ∧ b.error_occurred = true ∧
        pass_loop (n + 1) a = pass_loop n b) ∧
    (∀ (n : Nat) (a : assembler_t) (d rest : List Nat),
      next_line a = some (0x2E :: (d ++ rest)) →
      (∀ c ∈ d, assembler_is_identifier_char c = true) → d.length ≤ 31 →
      assembler_is_identifier_char (rest.headD 0) = false →
      (d ≠ c_str "org" ∧ d ≠ c_str "byte" ∧ d ≠ c_str "word" ∧ d ≠ c_str "string" ∧
        d ≠ c_str "include") →
      ∃ b, assembler_parse_line a = some (false, b) ∧ b.error_occurred = true ∧
        b.error_message = c_str "Unknown directive: ." ++ d ∧
        pass_loop (n + 1) a = some b) ∧
    (∀ (n : Nat) (a : assembler_t) (m rest : List Nat),
      next_line a = some (m ++ rest) →
      (m ≠ [] ∧ (∀ c ∈ m, assembler_is_identifier_char c = true) ∧ m.length ≤ 31) →
      (assembler_is_identifier_char (rest.headD 0) = false ∧ rest.headD 0 ≠ 0x20 ∧
        rest.headD 0 ≠ 0x09 ∧ rest.headD 0 ≠ 0x3A) →
      assembler_get_opcode m = 0 →
      ∃ b, assembler_parse_line a = some (false, b) ∧ b.error_occurred = true ∧
        b.error_message = c_str "Unknown instruction: " ++ m ∧
        pass_loop (n + 1) a = some b) ∧
    assemble ".byte foo\n.byte bar\n" =
      some (false, true, c_str "Undefined label or symbol: bar", [0, 0, 0, 0]) ∧
    assemble_report ".byte foo\n.byte bar\n" =
      some (false, 2, c_str "Undefined label or symbol: bar") ∧
    assemble "FOO\n" = some (false, true, c_str "Unknown instruction: FOO", []) := by
  obtain ⟨h1, h2⟩ := assemble_file_result assembler filename contents r h
  refine ⟨h1, h2, ?_, ?_, ?_, ?_, ?_, ?_, by decide!, by decide!, by decide!⟩
  · intro n a p hf hp
    exact ⟨sticky_parse_line a p hp, pass_loop_step n a p hf hp⟩
  · intro a b line hn hp
    obtain ⟨-, file, hfile, hline⟩ := next_line_some a line hn
    exact fails_parse_line a b file line hfile hline hp
  · intro n a d rest hn hd hrest
    obtain ⟨hf, file, hfile, hline⟩ := next_line_some a _ hn
    obtain ⟨b, hb, -⟩ := known_directive (line_state a file (0x2E :: (d ++ rest))) d rest rfl
      rfl hd hrest
    rw [← directive_line a file _ hfile hline] at hb
    exact ⟨b, hb, pass_loop_step n a (true, b) hf hb⟩
  · intro n a d ws name rest hn hd hws hname hrest hl hs
    obtain ⟨hf, file, hfile, hline⟩ := next_line_some a _ hn
    obtain ⟨b, hb, he⟩ := undefined_operand
      (line_state a file (0x2E :: (d ++ (ws ++ (name ++ rest))))) d ws name rest rfl rfl hd hws
      hname hrest hl hs
    rw [← directive_line a file _ hfile hline] at hb
    exact ⟨b, hb, he, pass_loop_step n a (true, b) hf hb⟩
  · intro n a d rest hn hd hlen hrest hun
    obtain ⟨hf, file, hfile, hline⟩ := next_line_some a _ hn
    obtain ⟨b, hb, he, hm⟩ := unknown_directive (line_state a file (0x2E :: (d ++ rest))) d
      rest rfl rfl hd hlen hrest hun
    rw [← directive_line a file _ hfile hline] at hb
    exact ⟨b, hb, he, hm, pass_loop_step n a (false, b) hf hb⟩
  · intro n a m rest hn hm hrest hun
    obtain ⟨hf, file, hfile, hline⟩ := next_line_some a _ hn
    have hb := instruction_line a file m rest hfile hline hm.1 hm.2.1 (by omega) hrest
    obtain ⟨e1, e2, e3⟩ := unknown_instruction (line_state a file (m ++ rest)) m rest rfl rfl
      hm.1 hm.2.1 hm.2.2 hrest.1 hun
    have hb2 : assembler_parse_line a =
        some (false, (assembler_parse_instruction (line_state a file (m ++ rest))).2) := by
      rw [hb, ← e1]
    exact ⟨_, hb2, e2, e3, pass_loop_step n a (false, _) hf hb2⟩

/-- C33 (witness). The source `.byte foo` / `.byte bar` is assembled to the end, the
assembly returns false and the error flag is set; and in a pass that is about to read
`.org $0200`, `.byte foo`, `.bar` or `FOO`, the first two lines return true, `.byte foo`
with the flag set, and the last two return false with their message. -/
theorem C33_error_flag_witness :
    (∃ r, assembler_assemble_file (at_line "") (c_str "a.asm")
        (some (c_str ".byte foo\n.byte bar\n")) = some r ∧
      r.1 = false ∧ r.2.error_occurred = true) ∧
    (∃ b, assembler_parse_line (reading ".org $0200\n") = some (true, b) ∧
      pass_loop 2 (reading ".org $0200\n") = pass_loop 1 b) ∧
    (∃ b, assembler_parse_line (reading ".byte foo\n") = some (true, b) ∧
      b.error_occurred = true ∧ pass_loop 2 (reading ".byte foo\n") = pass_loop 1 b) ∧
    (∃ b, assembler_parse_line (reading ".bar\n") = some (false, b) ∧
      b.error_occurred = true ∧ b.error_message = c_str "Unknown directive: ." ++ c_str "bar" ∧
      pass_loop 2 (reading ".bar\n") = some b) ∧
    (∃ b, assembler_parse_line (reading "FOO\n") = some (false, b) ∧
      b.error_occurred = true ∧ b.error_message = c_str "Unknown instruction: " ++ c_str "FOO" ∧
      pass_loop 2 (reading "FOO\n") = some b) := by
  have hs : (assembler_assemble_file (at_line "") (c_str "a.asm")
      (some (c_str ".byte foo\n.byte bar\n"))).isSome = true := by decide!
  obtain ⟨r, hr⟩ := Option.isSome_iff_exists.mp hs
  have he : (assembler_assemble_file (at_line "") (c_str "a.asm")
      (some (c_str ".byte foo\n.byte bar\n"))).map (fun r => r.2.error_occurred) =
      some true := by decide!
  rw [hr] at he
  have e : r.2.error_occurred = true := by simpa using he
  have h := C33_error_flag (at_line "") (c_str "a.asm")
    (some (c_str ".byte foo\n.byte bar\n")) r hr
  refine ⟨⟨r, hr, h.1.mpr e, e⟩, ?_, ?_, ?_, ?_⟩
  · exact h.2.2.2.2.1 1 (reading ".org $0200\n") (c_str "org") (c_str " $0200\n")
      (by decide) (by decide) (by decide)
  · exact h.2.2.2.2.2.1 1 (reading ".byte foo\n") (c_str "byte") [0x20] (c_str "foo")
      (c_str "\n") (by decide) (by decide) (by decide) (by decide) (by decide) rfl rfl
  · exact h.2.2.2.2.2.2.1 1 (reading ".bar\n") (c_str "bar") (c_str "\n")
      (by decide) (by decide) (by decide) (by decide) (by decide)
  · exact h.2.2.2.2.2.2.2.1 1 (reading "FOO\n") (c_str "FOO") (c_str "\n")
      (by decide) (by decide) (by decide) (by decide)

/-- C34 (counterexample). After `timer_init`, latch := 2 through 0x8004/0x8005 and 0x06
to the control register, the timer runs with IRQ enabled and latch 2 but its count is
still 0, and no number of ticks makes register 0x8009 read 1. -/
theorem C34_counterexample :
    (timer_write (timer_write (timer_write fresh_timer TIMER_LATCH_ADDR 2)
      TIMER_LATCH_ADDR_H 0) TIMER_CTRL_ADDR 0x06).running = true ∧
    (timer_write (timer_write (timer_write fresh_timer TIMER_LATCH_ADDR 2)
      TIMER_LATCH_ADDR_H 0) TIMER_CTRL_ADDR 0x06).latch = 2 ∧
    (timer_write (timer_write (timer_write fresh_timer TIMER_LATCH_ADDR 2)
      TIMER_LATCH_ADDR_H 0) TIMER_CTRL_ADDR 0x06).count = 0 ∧
    ¬ ∃ k, timer_read (timer_ticks k (timer_write (timer_write (timer_write fresh_timer
      TIMER_LATCH_ADDR 2) TIMER_LATCH_ADDR_H 0) TIMER_CTRL_ADDR 0x06)) TIMER_IRQ_ADDR = 1 := by
  refine ⟨by decide, by decide, by decide, ?_⟩
  rintro ⟨k, hk⟩
  have h := (timer_idle k (timer_write (timer_write (timer_write fresh_timer
    TIMER_LATCH_ADDR 2) TIMER_LATCH_ADDR_H 0) TIMER_CTRL_ADDR 0x06) (by decide)).1
  have h2 : (timer_write (timer_write (timer_write fresh_timer
    TIMER_LATCH_ADDR 2) TIMER_LATCH_ADDR_H 0) TIMER_CTRL_ADDR 0x06).irq_pending = false := by
    decide
  rw [h2] at h
  simp [timer_read, h] at hk

/-- C34. Starting from an initialised timer, writing `n = lo + 256 * hi ≥ 1` to the count
through the registers 0x8007 and 0x8008 and then run | IRQ-enable (0x06) to the control
register 0x8006 makes the timer count down: after `k < n` calls of `timer_tick` the count
is `n - k` and register 0x8009 reads 0, and after `n` calls the count is 0 and register
0x8009 reads 1. -/
theorem C34_timer_start_from_count (timer : timer_device_t) (lo hi : Nat) (hlo : lo < 256)
    (hhi : hi < 256) (hn : 1 ≤ lo + 256 * hi) :
    (∀ k, k < lo + 256 * hi →
      (timer_ticks k (timer_write (timer_write (timer_write (timer_init timer)
        TIMER_COUNT_ADDR lo) TIMER_COUNT_ADDR_H hi) TIMER_CTRL_ADDR 0x06)).count =
          lo + 256 * hi - k ∧
      timer_read (timer_ticks k (timer_write (timer_write (timer_write (timer_init timer)
        TIMER_COUNT_ADDR lo) TIMER_COUNT_ADDR_H hi) TIMER_CTRL_ADDR 0x06)) TIMER_IRQ_ADDR = 0) ∧
    (timer_ticks (lo + 256 * hi) (timer_write (timer_write (timer_write (timer_init timer)
      TIMER_COUNT_ADDR lo) TIMER_COUNT_ADDR_H hi) TIMER_CTRL_ADDR 0x06)).count = 0 ∧
    timer_read (timer_ticks (lo + 256 * hi) (timer_write (timer_write (timer_write
      (timer_init timer) TIMER_COUNT_ADDR lo) TIMER_COUNT_ADDR_H hi) TIMER_CTRL_ADDR 0x06))
      TIMER_IRQ_ADDR = 1 := by
  rw [timer_programmed timer lo hi hlo hhi]
  have hacc : (0 : Nat) < 4294967295 := by decide
  have h := timer_expires ⟨0, lo + 256 * hi, 0x06, true, false, true, 1, 0⟩ rfl rfl hacc hn
  have hc : (6 : Nat) &&& 1 = 0 := by decide
  dsimp only at h
  simp only [hc, ne_eq, not_true_eq_false, if_false, Bool.true_or] at h
  refine ⟨?_, ?_, ?_⟩
  · intro k hk
    rw [timer_countdown k ⟨0, lo + 256 * hi, 0x06, true, false, true, 1, 0⟩ rfl rfl hacc hk]
    exact ⟨rfl, rfl⟩
  · rw [h]
  · rw [h]
    rfl

/-- C34 (witness). Count 2 written through 0x8007 and 0x8008, then 0x06 to the control
register: after two ticks the count is 0 and register 0x8009 reads 1. -/
theorem C34_timer_start_from_count_witness :
    (timer_ticks (2 + 256 * 0) (timer_write (timer_write (timer_write (timer_init idle_devices.g_timer)
      TIMER_COUNT_ADDR 2) TIMER_COUNT_ADDR_H 0) TIMER_CTRL_ADDR 0x06)).count = 0 ∧
    timer_read (timer_ticks (2 + 256 * 0) (timer_write (timer_write (timer_write
      (timer_init idle_devices.g_timer) TIMER_COUNT_ADDR 2) TIMER_COUNT_ADDR_H 0) TIMER_CTRL_ADDR 0x06))
      TIMER_IRQ_ADDR = 1 :=
  (C34_timer_start_from_count idle_devices.g_timer 2 0 (by decide) (by decide) (by decide)).2

/-- C35. The port register and the two halves of the timer latch read back what was
written: for all devices, every value `v` and all bytes `lo`, `hi`, a read of 0x8003 after a write of `v`
returns `v`; after writing `lo` to 0x8004 and `hi` to 0x8005, in either order, the reads of
0x8004 and 0x8005 return `lo` and `hi`; a write to one half leaves the value read from the
other half as it was; and the reads leave the devices unchanged. -/
theorem C35_register_read_back (dev : devices_t) (v lo hi : Nat)
    (hlo : lo < 256) (hhi : hi < 256) :
    devices_read (devices_write dev GPIO_PORT_ADDR v) GPIO_PORT_ADDR =
      (v, devices_write dev GPIO_PORT_ADDR v) ∧
    devices_read (devices_write (devices_write dev TIMER_LATCH_ADDR lo) TIMER_LATCH_ADDR_H hi)
        TIMER_LATCH_ADDR =
      (lo, devices_write (devices_write dev TIMER_LATCH_ADDR lo) TIMER_LATCH_ADDR_H hi) ∧
    devices_read (devices_write (devices_write dev TIMER_LATCH_ADDR lo) TIMER_LATCH_ADDR_H hi)
        TIMER_LATCH_ADDR_H =
      (hi, devices_write (devices_write dev TIMER_LATCH_ADDR lo) TIMER_LATCH_ADDR_H hi) ∧
    devices_read (devices_write (devices_write dev TIMER_LATCH_ADDR_H hi) TIMER_LATCH_ADDR lo)
        TIMER_LATCH_ADDR =
      (lo, devices_write (devices_write dev TIMER_LATCH_ADDR_H hi) TIMER_LATCH_ADDR lo) ∧
    devices_read (devices_write (devices_write dev TIMER_LATCH_ADDR_H hi) TIMER_LATCH_ADDR lo)
        TIMER_LATCH_ADDR_H =
      (hi, devices_write (devices_write dev TIMER_LATCH_ADDR_H hi) TIMER_LATCH_ADDR lo) ∧
    (devices_read (devices_write dev TIMER_LATCH_ADDR lo) TIMER_LATCH_ADDR_H).1 =
      (devices_read dev TIMER_LATCH_ADDR_H).1 ∧
    (devices_read (devices_write dev TIMER_LATCH_ADDR_H hi) TIMER_LATCH_ADDR).1 =
      (devices_read dev TIMER_LATCH_ADDR).1 := by
  have r := devices_read_latch
  have w := fun d => devices_write_latch d lo hi hlo hhi
  refine ⟨?_, ?_, ?_, ?_, ?_, ?_, ?_⟩
  · simp [devices_read, devices_write, gpio_read, gpio_write]
  · rw [(r _).1, (w _).2, (w _).1]
    congr 1
    omega
  · rw [(r _).2, (w _).2, (w _).1]
    congr 1
    omega
  · rw [(r _).1, (w _).1, (w _).2]
    congr 1
    omega
  · rw [(r _).2, (w _).1, (w _).2]
    congr 1
    omega
  · rw [(r _).2, (r _).2, (w _).1]
    dsimp only
    omega
  · rw [(r _).1, (r _).1, (w _).2]
    dsimp only
    omega

/-- C35 (witness). The values of the device test: port 0x55, latch low 0x00, high 0x10. -/
theorem C35_register_read_back_witness :
    (devices_read (devices_write idle_devices GPIO_PORT_ADDR 0x55) GPIO_PORT_ADDR).1 = 0x55 ∧
    (devices_read (devices_write (devices_write idle_devices TIMER_LATCH_ADDR 0x00)
      TIMER_LATCH_ADDR_H 0x10) TIMER_LATCH_ADDR).1 = 0x00 ∧
    (devices_read (devices_write (devices_write idle_devices TIMER_LATCH_ADDR 0x00)
      TIMER_LATCH_ADDR_H 0x10) TIMER_LATCH_ADDR_H).1 = 0x10 := by
  have h := C35_register_read_back idle_devices 0x55 0x00 0x10 (by decide) (by decide)
  exact ⟨by rw [h.1], by rw [h.2.1], by rw [h.2.2.1]⟩

/-- C36. For a state whose flag byte is a byte: after `isa_update_flags(result, carry,
overflow)` the Z flag is set iff `result = 0`, the N flag iff bit 7 of `result` is set, the
C flag iff `carry` and the V flag iff `overflow`, and bits 4 and above of the flag byte are
as before; `isa_set_flag` and `isa_clear_flag` on the flag with bit `j` leave
every other bit of the flag byte and every other field of the state as they were, and
`isa_get_flag` of that flag is true after the first and false after the second. -/
theorem C36_flag_update (cpu : cpu_state_t) (hf : cpu.flags < 256) (result : Nat)
    (carry overflow : Bool) (j : Nat) :
    ((isa_get_flag (isa_update_flags cpu result carry overflow) FLAG_ZERO = true ↔ result = 0) ∧
     (isa_get_flag (isa_update_flags cpu result carry overflow) FLAG_NEGATIVE = true ↔
        result.testBit 7 = true) ∧
     isa_get_flag (isa_update_flags cpu result carry overflow) FLAG_CARRY = carry ∧
     isa_get_flag (isa_update_flags cpu result carry overflow) FLAG_OVERFLOW = overflow ∧
     (∀ i, 4 ≤ i → (isa_update_flags cpu result carry overflow).flags.testBit i =
        cpu.flags.testBit i) ∧
     { isa_update_flags cpu result carry overflow with flags := cpu.flags } = cpu) ∧
    (isa_get_flag (isa_set_flag cpu (1 <<< j)) (1 <<< j) = true ∧
     (∀ i, i ≠ j → (isa_set_flag cpu (1 <<< j)).flags.testBit i = cpu.flags.testBit i) ∧
     { isa_set_flag cpu (1 <<< j) with flags := cpu.flags } = cpu) ∧
    (isa_get_flag (isa_clear_flag cpu (1 <<< j)) (1 <<< j) = false ∧
     (∀ i, i ≠ j → (isa_clear_flag cpu (1 <<< j)).flags.testBit i = cpu.flags.testBit i) ∧
     { isa_clear_flag cpu (1 <<< j) with flags := cpu.flags } = cpu) := by
  have hs := flag_bits_spec cpu.flags hf (decide (result = 0)) (decide (result &&& 0x80 ≠ 0))
    carry overflow
  obtain ⟨hz, hn, hc, hv, hhigh, hlt⟩ := hs
  have e1 : (1 : Nat) <<< j = 2 ^ j := by rw [Nat.shiftLeft_eq, Nat.one_mul]
  refine ⟨⟨?_, ?_, ?_, ?_, ?_, ?_⟩, ⟨?_, ?_, ?_⟩, ⟨?_, ?_, ?_⟩⟩
  · rw [isa_update_flags_eq]
    simp only [isa_get_flag, hz, decide_eq_true_eq]
  · rw [isa_update_flags_eq]
    simp only [isa_get_flag, hn, decide_eq_true_eq, ← and_128_ne_zero, bne_iff_ne]
  · rw [isa_update_flags_eq]
    simp only [isa_get_flag, hc]
  · rw [isa_update_flags_eq]
    simp only [isa_get_flag, hv]
  · intro i hi
    rw [isa_update_flags_eq]
    exact high_nibble_bits _ _ hlt hf hhigh i hi
  · rw [isa_update_flags_eq]
  · rw [e1, get_flag_bit, set_flag_bits]
    simp
  · intro i hi
    rw [e1, set_flag_bits]
    simp [Ne.symm hi]
  · rfl
  · rw [e1, get_flag_bit, clear_flag_bits _ hf]
    simp
  · intro i hi
    rw [e1, clear_flag_bits _ hf]
    simp [Ne.symm hi]
  · rfl

/-- C36 (witness). The flag byte 0xF5 updated with result 0x80, no carry, overflow; N set
by `isa_set_flag`, Z cleared by `isa_clear_flag`. -/
theorem C36_flag_update_witness :
    isa_get_flag (isa_update_flags { blank with flags := 0xF5 } 0x80 false true) FLAG_ZERO
      = false ∧
    isa_get_flag (isa_update_flags { blank with flags := 0xF5 } 0x80 false true) FLAG_CARRY
      = false ∧
    isa_get_flag (isa_set_flag { blank with flags := 0xF5 } (1 <<< 1)) (1 <<< 1) = true ∧
    isa_get_flag (isa_clear_flag { blank with flags := 0xF5 } (1 <<< 0)) (1 <<< 0) = false := by
  have h := C36_flag_update { blank with flags := 0xF5 } (by decide) 0x80 false true 1
  have h0 := C36_flag_update { blank with flags := 0xF5 } (by decide) 0x80 false true 0
  refine ⟨?_, h.1.2.2.1, h.2.1.1, h0.2.2.1⟩
  have hz := h.1.1
  cases hb : isa_get_flag (isa_update_flags { blank with flags := 0xF5 } 0x80 false true)
    FLAG_ZERO
  · rfl
  · exact absurd (hz.mp hb) (by decide)

/-- C37 (counterexample). A step that executes `LDI` (cost 2) from a state whose
`cycle_count` is 2^64 - 1 and whose `instruction_count` is 2^32 - 1 returns true and leaves
`cycle_count = 1` and `instruction_count = 0`: both counters wrap around, and the cycle
counter has decreased. -/
theorem C37_counterexample :
    WF saturated_sample ∧
    saturated_sample.memory (cpu_get_pc saturated_sample) = OP_LDI ∧
    isa_get_cycles OP_LDI = 2 ∧
    saturated_sample.cycle_count = 18446744073709551615 ∧
    saturated_sample.instruction_count = 4294967295 ∧
    (cpu_step saturated_sample).1 = true ∧
    (cpu_step saturated_sample).2.cycle_count = 1 ∧
    (cpu_step saturated_sample).2.instruction_count = 0 ∧
    calls 1 [call_t.step] saturated_sample = some (cpu_step saturated_sample).2 := by
  have hw := WF_loaded [0x00, 0x42] 0x0200 (by decide)
  refine ⟨⟨hw.regs_lt, hw.flags_lt, hw.memory_lt, by decide, by decide, hw.break_lt,
    hw.watch_lt⟩, by decide, by decide, rfl, rfl, by decide, by decide, by decide, rfl⟩

/-- C37. Cycle accounting, with the counters taken in their C types (`uint64_t` and
`uint32_t`).  The catalogued costs of `LDI`, `LDA`, `STA`, `JSR` and `HLT` are 2, 3, 3, 6
and 1.  A step that fetches a catalogued opcode adds the cost of the first table row of
the opcode, which lies between 1 and 6, to `cycle_count` modulo 2^64 and 1 to
`instruction_count` modulo 2^32, hence exactly that much when the sums stay below 2^64 and
2^32.  A step that fetches a byte that is no opcode, or that stops at the breakpoint,
returns false and leaves both counters unchanged.  Hence a sequence of `cpu_step` and
`cpu_run` calls that starts with `cycle_count` more than the sum of 6 per step and budget
plus 6 per run below 2^64 returns (given loop iterations up to that sum) and does not
lower `cycle_count`. -/
theorem C37_cycle_accounting (s t : cpu_state_t) (op : Nat) (inst : instruction_t)
    (cs : List call_t) (fuel : Nat) (hwf : WF s) :
    (isa_get_cycles OP_LDI = 2 ∧ isa_get_cycles OP_LDA = 3 ∧ isa_get_cycles OP_STA = 3 ∧
      isa_get_cycles OP_JSR = 6 ∧ isa_get_cycles OP_HLT = 1) ∧
    (step_fetches s t op → isa_get_instruction op = some inst →
      isa_get_cycles op = inst.cycles ∧ 1 ≤ inst.cycles ∧ inst.cycles ≤ 6 ∧
      (cpu_step s).2.cycle_count = (s.cycle_count + inst.cycles) % 18446744073709551616 ∧
      (cpu_step s).2.instruction_count = (s.instruction_count + 1) % 4294967296 ∧
      (s.cycle_count + inst.cycles < 18446744073709551616 →
        (cpu_step s).2.cycle_count = s.cycle_count + inst.cycles) ∧
      (s.instruction_count + 1 < 4294967296 →
        (cpu_step s).2.instruction_count = s.instruction_count + 1)) ∧
    (step_fetches s t op → isa_get_instruction op = none →
      (cpu_step s).1 = false ∧ counters (cpu_step s).2 = counters s) ∧
    (s.breakpoint_addr ≠ 0 ∧ cpu_get_pc s = s.breakpoint_addr →
      (cpu_step s).1 = false ∧ counters (cpu_step s).2 = counters s) ∧
    (s.cycle_count + (cs.map call_cycles).sum < 18446744073709551616 →
      (cs.map call_cycles).sum ≤ fuel →
      (∃ r, calls fuel cs s = some r) ∧
      ∀ r, calls fuel cs s = some r → s.cycle_count ≤ r.cycle_count) := by
  refine ⟨by decide, ?_, ?_, ?_, ?_⟩
  · intro hs hi
    obtain ⟨h1, h2⟩ := (step_counters s t op hs).1 inst hi
    obtain ⟨c1, c6⟩ := get_instruction_cycles op inst hi
    refine ⟨by simp only [isa_get_cycles, hi], c1, c6, h1, h2, ?_, ?_⟩
    · intro hlt
      rw [h1, Nat.mod_eq_of_lt hlt]
    · intro hlt
      rw [h2, Nat.mod_eq_of_lt hlt]
  · intro hs hi
    exact (step_counters s t op hs).2 hi
  · intro hbp
    rw [step_breakpoint s hbp]
    exact ⟨rfl, rfl⟩
  · intro hb hf
    exact calls_cycles_mono fuel cs s hwf hb hf

/-- C37 (witness). The first step of the store-and-load program executes `LDI` and leaves
2 cycles and 1 instruction; a step, a run of 100 cycles and a step return. -/
theorem C37_cycle_accounting_witness :
    (cpu_step (loaded store_program 0x0200)).2.cycle_count = 2 ∧
    (cpu_step (loaded store_program 0x0200)).2.instruction_count = 1 ∧
    ∃ r, calls 200 [call_t.step, call_t.run 100, call_t.step] (loaded store_program 0x0200) =
      some r := by
  have h := C37_cycle_accounting (loaded store_program 0x0200)
    (cpu_handle_interrupts (loaded store_program 0x0200)) OP_LDI
    ⟨OP_LDI, ADDR_IMMEDIATE, 0, 0, 2, "LDI"⟩ [call_t.step, call_t.run 100, call_t.step] 200
    (WF_loaded store_program 0x0200 (by decide))
  have h1 := h.2.1 ⟨by decide, rfl, by decide⟩ rfl
  exact ⟨h1.2.2.2.2.2.1 (by decide), h1.2.2.2.2.2.2 (by decide),
    (h.2.2.2.2 (by decide) (by decide)).1⟩

/-- C38. Timer countdown, for every timer the functions of `devices.c` produce:
`timer_init` on any storage followed by any sequence of calls of `timer_init`,
`timer_tick`, `timer_write`, `timer_start`, `timer_stop`, `timer_reset` and
`timer_clear_irq`.  When such a timer is running with prescaler 1, IRQ-enable set, no IRQ
pending and count `n ≥ 1`: after `k < n` calls of `timer_tick` the count is `n - k` and no
IRQ is pending; after `n` calls the IRQ is pending and the count is 0 when continuous
reload (bit 0 of the control byte) is clear and the latch when it is set; and a timer that
is not running, whatever it holds, is left unchanged by `timer_tick`. -/
theorem C38_timer_countdown (timer initial : timer_device_t) (cs : List timer_call_t)
    (hreach : timer = timer_calls cs (timer_init initial))
    (hrun : timer.running = true) (hpre : timer.prescaler = 1)
    (hirq : timer.irq_enabled = true) (hpend : timer.irq_pending = false)
    (hn : 1 ≤ timer.count) :
    (∀ k, k < timer.count →
      (timer_ticks k timer).count = timer.count - k ∧
      (timer_ticks k timer).irq_pending = false) ∧
    (timer_ticks timer.count timer).irq_pending = true ∧
    (timer.control &&& 0x01 = 0 → (timer_ticks timer.count timer).count = 0) ∧
    (timer.control &&& 0x01 ≠ 0 → (timer_ticks timer.count timer).count = timer.latch) ∧
    (∀ stopped : timer_device_t, stopped.running = false → timer_tick stopped = stopped) := by
  have hacc : timer.prescaler_count < 4294967295 := by
    rw [hreach, (timer_calls_accumulator cs (timer_init initial) rfl rfl).2]
    decide
  refine ⟨?_, ?_, ?_, ?_, ?_⟩
  · intro k hk
    rw [timer_countdown k timer hrun hpre hacc hk]
    exact ⟨rfl, hpend⟩
  · rw [timer_expires timer hrun hpre hacc hn]
    simp only [hirq, Bool.true_or]
  · intro hc
    rw [timer_expires timer hrun hpre hacc hn]
    simp only [hc, ne_eq, not_true_eq_false, if_false]
  · intro hc
    rw [timer_expires timer hrun hpre hacc hn]
    simp only [hc, ne_eq, not_false_eq_true, if_true]
  · intro stopped hs
    unfold timer_tick
    simp only [hs, Bool.not_false, if_true]

/-- C38 (witness). The timer after `timer_init`, count := 2 and 0x06 to the control
register runs with IRQ enabled: count 1 and no IRQ after one tick, count 0 and IRQ pending
after two. -/
theorem C38_timer_countdown_witness :
    counting_timer.running = true ∧ counting_timer.prescaler = 1 ∧
    counting_timer.irq_enabled = true ∧ counting_timer.irq_pending = false ∧
    counting_timer.count = 2 ∧
    (timer_ticks 1 counting_timer).count = 1 ∧
    (timer_ticks 1 counting_timer).irq_pending = false ∧
    (timer_ticks 2 counting_timer).irq_pending = true ∧
    (timer_ticks 2 counting_timer).count = 0 :=
  have h := C38_timer_countdown counting_timer idle_devices.g_timer
    [.write TIMER_COUNT_ADDR 2, .write TIMER_CTRL_ADDR 0x06] rfl (by decide) (by decide)
    (by decide) (by decide) (by decide)
  ⟨by decide, by decide, by decide, by decide, by decide, (h.1 1 (by decide)).1,
    (h.1 1 (by decide)).2, h.2.1, h.2.2.1 (by decide)⟩

/-- C39. The register file `regs[8]` holds A, B, C, D in bytes 0-3 and the 16-bit
register number `q` in bytes `2 * (q - REG_X)` and `2 * (q - REG_X) + 1`: X lies on A and
B, Y on C and D.  So `isa_set_register16(REG_X, w)` writes the low byte of `w` to A and the
high byte to B, `isa_set_register16(REG_Y, w)` writes C and D, and `isa_set_register` on A
and B changes what `isa_get_register16(REG_X)` returns; with A = 0x42 and B = 0x84, setting
X to 0x1234 leaves A = 0x34 and B = 0x12.  SP and PC (bytes 4-7) do not overlap the 8-bit
registers, and a 16-bit register reads back what was written to it. -/
theorem C39_index_registers_overlap (cpu : cpu_state_t) (w v : Nat) :
    (isa_get_register (isa_set_register16 cpu REG_X w) REG_A = w &&& 0xFF ∧
      isa_get_register (isa_set_register16 cpu REG_X w) REG_B = (w >>> 8) &&& 0xFF ∧
      isa_get_register (isa_set_register16 cpu REG_Y w) REG_C = w &&& 0xFF ∧
      isa_get_register (isa_set_register16 cpu REG_Y w) REG_D = (w >>> 8) &&& 0xFF) ∧
    (isa_get_register16 (isa_set_register cpu REG_A v) REG_X =
        v ||| (isa_get_register cpu REG_B <<< 8) ∧
      isa_get_register16 (isa_set_register cpu REG_B v) REG_X =
        isa_get_register cpu REG_A ||| (v <<< 8) ∧
      isa_get_register16 (isa_set_register cpu REG_C v) REG_Y =
        v ||| (isa_get_register cpu REG_D <<< 8) ∧
      isa_get_register16 (isa_set_register cpu REG_D v) REG_Y =
        isa_get_register cpu REG_C ||| (v <<< 8)) ∧
    (isa_get_register (isa_set_register16 (isa_set_register (isa_set_register blank REG_A 0x42)
        REG_B 0x84) REG_X 0x1234) REG_A = 0x34 ∧
      isa_get_register (isa_set_register16 (isa_set_register (isa_set_register blank REG_A 0x42)
        REG_B 0x84) REG_X 0x1234) REG_B = 0x12 ∧
      isa_get_register16 (isa_set_register (isa_set_register16 blank REG_X 0x1234) REG_A 0x42)
        REG_X = 0x1242) ∧
    (∀ q, REG_X ≤ q ∧ q ≤ REG_PC →
      isa_get_register16 (isa_set_register16 cpu q w) q = w % 65536 ∧
      ∀ p, p ≠ q → isa_get_register16 (isa_set_register16 cpu q w) p =
        isa_get_register16 cpu p) ∧
    (∀ q r, q = REG_SP ∨ q = REG_PC →
      isa_get_register (isa_set_register16 cpu q w) r = isa_get_register cpu r) ∧
    (∀ r, r < 4 →
      isa_get_register (isa_set_register cpu r v) r = v ∧
      (∀ p, p ≠ r → isa_get_register (isa_set_register cpu r v) p = isa_get_register cpu p) ∧
      isa_get_register16 (isa_set_register cpu r v) REG_SP = isa_get_register16 cpu REG_SP ∧
      isa_get_register16 (isa_set_register cpu r v) REG_PC = isa_get_register16 cpu REG_PC) := by
  refine ⟨?_, ?_, ?_, ?_, ?_, ?_⟩
  · simp [isa_get_register, isa_set_register16, store_apply]
  · simp [isa_get_register, isa_get_register16, isa_set_register, store_apply]
  · decide
  · intro q hq
    refine ⟨get16_set16 cpu q w hq, ?_⟩
    intro p hp
    exact get16_set16_ne cpu q p w hq (Ne.symm hp)
  · intro q r hq
    exact get_register_set16 cpu q w r hq
  · intro r hr
    have h4 : r ≠ 4 := by omega
    have h5 : r ≠ 5 := by omega
    have h6 : r ≠ 6 := by omega
    have h7 : r ≠ 7 := by omega
    refine ⟨?_, ?_, ?_, ?_⟩
    · simp [isa_get_register, isa_set_register, hr, store_apply]
    · intro p hp
      unfold isa_get_register isa_set_register
      simp only [hr, if_true, store_apply, hp, if_false]
    · simp [isa_get_register16, isa_set_register, hr, store_apply, Ne.symm h4, Ne.symm h5]
    · simp [isa_get_register16, isa_set_register, hr, store_apply, Ne.symm h6, Ne.symm h7]

/-- C40. Lengths of the instructions that are no jumps, calls, returns or branches, for a
step that fetches the opcode `op` at the PC of `t` and a disassembler over the same memory
whose range holds the two bytes after the opcode.  The step leaves the PC behind the opcode
and the operand bytes the addressing mode of the first table row makes it fetch.  For
`NOP`, `HLT`, `SEI`, `CLI`, `PHA`, `PLA`, `PHP` and `PLP` that row has the immediate mode:
the step consumes two bytes, while `disassemble_instruction` reports one and
`assembler_parse_instruction` emits one for `NOP` and for `HLT` (the other six mnemonics
are unknown to the assembler).  For `ADC`, `SBC`, `INC`, `DEC`, `AND`, `OR`, `XOR`, `SHL`,
`SHR`, `ROL` and `ROR` the step consumes two bytes and the disassembler, which has no case
for them, reports one.  For `LDI`, `MOV`, `ADD`, `SUB`, `CMP`, `PUSH` and `POP` both count
two bytes, for `LDA` and `STA` both count three. -/
theorem C40_instruction_lengths (s t : cpu_state_t) (op : Nat) (inst : instruction_t)
    (d : disasm_state_t) (h : step_fetches s t op) (hi : isa_get_instruction op = some inst)
    (hcf : op ∉ control_flow_opcodes) (hd : d.memory = t.memory)
    (hend : cpu_get_pc t + 2 ≤ d.end_address) :
    cpu_get_pc (cpu_step s).2 = (cpu_get_pc t + fetched_bytes inst.addr_mode) % 65536 ∧
    (op ∈ [OP_NOP, OP_HLT, OP_SEI, OP_CLI, OP_PHA, OP_PLA, OP_PHP, OP_PLP] →
      fetched_bytes inst.addr_mode = 2 ∧ disassemble_instruction d (cpu_get_pc t) = 1) ∧
    (op ∈ [OP_ADC, OP_SBC, OP_INC, OP_DEC, OP_AND, OP_OR, OP_XOR, OP_SHL, OP_SHR, OP_ROL,
        OP_ROR] →
      fetched_bytes inst.addr_mode = 2 ∧ disassemble_instruction d (cpu_get_pc t) = 1) ∧
    (op ∈ [OP_LDI, OP_MOV, OP_ADD, OP_SUB, OP_CMP, OP_PUSH, OP_POP] →
      fetched_bytes inst.addr_mode = 2 ∧ disassemble_instruction d (cpu_get_pc t) = 2) ∧
    (op ∈ [OP_LDA, OP_STA] →
      fetched_bytes inst.addr_mode = 3 ∧ disassemble_instruction d (cpu_get_pc t) = 3) ∧
    (assembler_create (some (fun _ => 0))).map (fun assembler =>
      (assembler_parse_instruction { assembler with current_line := c_str "NOP\n" }).2.output_size)
      = some 1 ∧
    (assembler_create (some (fun _ => 0))).map (fun assembler =>
      (assembler_parse_instruction { assembler with current_line := c_str "HLT\n" }).2.output_size)
      = some 1 ∧
    (assemble "SEI\n").map (fun r => r.1) = some false := by
  have hm : d.memory (cpu_get_pc t) = op := by rw [hd]; exact h.2.2
  obtain ⟨d1, d2, d3, d4⟩ := disassembled_bytes d (cpu_get_pc t) hend
  obtain ⟨f1, f2, f3, f4⟩ := table_fetched_bytes
  rw [hm] at d1 d2 d3 d4
  refine ⟨step_pc s t op inst h hi hcf, ?_, ?_, ?_, ?_, by decide!, by decide!, by decide!⟩
  · intro ho
    have := f1 op ho
    rw [hi] at this
    exact ⟨by simpa using this, d1 ho⟩
  · intro ho
    have := f2 op ho
    rw [hi] at this
    exact ⟨by simpa using this, d2 ho⟩
  · intro ho
    have := f3 op ho
    rw [hi] at this
    exact ⟨by simpa using this, d3 ho⟩
  · intro ho
    have := f4 op ho
    rw [hi] at this
    exact ⟨by simpa using this, d4 ho⟩

/-- C40 (witness). `NOP` at 0x0200 followed by `HLT`: the step leaves PC = 0x0202, the
disassembler reports one byte. -/
theorem C40_instruction_lengths_witness :
    cpu_get_pc (cpu_step (loaded [0x72, 0x73] 0x0200)).2 = 0x0202 ∧
    disassemble_instruction
      (disasm_of (cpu_handle_interrupts (loaded [0x72, 0x73] 0x0200)).memory)
      (cpu_get_pc (cpu_handle_interrupts (loaded [0x72, 0x73] 0x0200))) = 1 := by
  have h := C40_instruction_lengths (loaded [0x72, 0x73] 0x0200)
    (cpu_handle_interrupts (loaded [0x72, 0x73] 0x0200)) OP_NOP
    ⟨OP_NOP, ADDR_IMMEDIATE, 0, 0, 1, "NOP"⟩
    (disasm_of (cpu_handle_interrupts (loaded [0x72, 0x73] 0x0200)).memory)
    ⟨by decide, rfl, by decide⟩ rfl (by decide) rfl (by decide)
  exact ⟨h.1.trans (by decide), (h.2.1 (by decide)).2⟩

end SoftCPU
